import Mathlib

/-!
# A shallow embedding of `04_pathtrace.cpp`

The path tracer of `src/assignment04/src/apps/04_pathtrace.cpp` is embedded over an
arbitrary linearly ordered field `K` with a floor function.  The functions the file
calls but does not define (`intersect`, `intersect_shadow`, `sample_brdf`, the
generators, the transforms, `sqrt`, `pow`, `atan2`, `acos`) are parameters, collected in
`MathFns` and `Collab`.  The recursion of `pathtrace_ray` is driven by a fuel
counter: `none` stands for a call that has not returned within the fuel given.

Arithmetic.  Inside the radiance estimator scalars are exact.  Where a `float` result is
turned into an index or a cell, or accumulated over the samples of a pixel (the texel
of `lookup_scaled_texture`, the camera-plane parameters `u` and `v`, the sum and the
mean of a pixel), every operation is followed by the rounding `MathFns.fl`; exact
arithmetic is `fl = id`, single precision is `round32`.  A `float` division is total in
`pathtrace_ray` (the quotient by zero is `0`), which describes the program only on runs
in which no denominator is zero; `pathtrace_ray_checked` is the same function with a
color that is undefined as soon as a quotient by zero (an infinity or a NaN of the
program) enters it.  The two return for the same fuel and with the same generator
state, and a color that is defined is the color of `pathtrace_ray`.
-/

set_option linter.unusedSectionVars false

namespace Pathtrace

/-! ## Vectors -/

/-- Two-component vector (`vec2f`). -/
structure vec2f (K : Type) where
  x : K
  y : K
deriving DecidableEq

/-- Three-component vector and RGB color (`vec3f`). -/
@[ext] structure vec3f (K : Type) where
  x : K
  y : K
  z : K
deriving DecidableEq

section VectorOps
variable {K : Type} [LinearOrderedField K]

/-- The constant `zero3f`. -/
def zero3f : vec3f K := ⟨0, 0, 0⟩

/-- The constant `one3f`. -/
def one3f : vec3f K := ⟨1, 1, 1⟩

/-- The constant `z3f`. -/
def z3f : vec3f K := ⟨0, 0, 1⟩

instance : Add (vec3f K) := ⟨fun a b => ⟨a.x + b.x, a.y + b.y, a.z + b.z⟩⟩
instance : Sub (vec3f K) := ⟨fun a b => ⟨a.x - b.x, a.y - b.y, a.z - b.z⟩⟩
instance : Neg (vec3f K) := ⟨fun a => ⟨-a.x, -a.y, -a.z⟩⟩
/-- Component-wise product of two colors (`vec3f * vec3f`). -/
instance : Mul (vec3f K) := ⟨fun a b => ⟨a.x * b.x, a.y * b.y, a.z * b.z⟩⟩
/-- Scalar times vector (`float * vec3f`). -/
instance : HMul K (vec3f K) (vec3f K) := ⟨fun s a => ⟨s * a.x, s * a.y, s * a.z⟩⟩
/-- Vector times scalar (`vec3f * float`). -/
instance : HMul (vec3f K) K (vec3f K) := ⟨fun a s => ⟨a.x * s, a.y * s, a.z * s⟩⟩
/-- Vector divided by scalar (`vec3f / float`). -/
instance : HDiv (vec3f K) K (vec3f K) := ⟨fun a s => ⟨a.x / s, a.y / s, a.z / s⟩⟩

/-- Dot product `dot(a,b)`. -/
def dot (a b : vec3f K) : K := a.x * b.x + a.y * b.y + a.z * b.z

/-- Squared length `lengthSqr(a)`. -/
def lengthSqr (a : vec3f K) : K := dot a a

/-- Squared distance `distSqr(a,b)`. -/
def distSqr (a b : vec3f K) : K := lengthSqr (a - b)

/-- The scalar `clamp(x,lo,hi)`. -/
def clamp (x lo hi : K) : K := min (max x lo) hi

/-- Every channel of the color is non-negative. -/
def vec3f.Nonneg (c : vec3f K) : Prop := 0 ≤ c.x ∧ 0 ≤ c.y ∧ 0 ≤ c.z

/-- Channel-wise order on colors. -/
def vec3f.Le (a b : vec3f K) : Prop := a.x ≤ b.x ∧ a.y ≤ b.y ∧ a.z ≤ b.z

end VectorOps

/-! ## The numeric library -/

/-- The functions of the C math library the renderer calls, the constant `PI` / `pif`,
and the rounding `fl` of the result of a `float` operation or conversion to a
representable value. -/
structure MathFns (K : Type) where
  sqrt : K → K
  pow : K → K → K
  atan2 : K → K → K
  acos : K → K
  pi : K
  fl : K → K

section Numeric
variable {K : Type} [LinearOrderedField K] [FloorRing K]

/-- Length `length(a) = sqrt(lengthSqr(a))`. -/
def length (M : MathFns K) (a : vec3f K) : K := M.sqrt (lengthSqr a)

/-- The vector `normalize(a) = a / length(a)`, with the total quotient of the field (the
quotient by zero is `0`); `normalize_checked` is undefined for a vector of length zero. -/
def normalize (M : MathFns K) (a : vec3f K) : vec3f K := a / length M a

/-- Conversion of a scalar to `int` (truncation toward zero), as done when a `float`
is passed to `image3f::at(int,int)`. -/
def truncInt (x : K) : Int := if 0 ≤ x then Int.floor x else Int.ceil x

/-- Rounding of each channel of a color. -/
def fl3 (M : MathFns K) (a : vec3f K) : vec3f K := ⟨M.fl a.x, M.fl a.y, M.fl a.z⟩

/-- The value of a 32-bit `int` whose exact value would be `n` (two's complement
wrap-around). -/
def wrap32 (n : Int) : Int := (n + 2147483648) % 4294967296 - 2147483648

end Numeric

/-! ## Data model -/

/-- An image of colors (`image3f`): its size and its texel accessor `at(i,j)`. -/
structure image3f (K : Type) where
  width : Int
  height : Int
  at_ : Int → Int → vec3f K

/-- Coordinate frame (`frame3f`). -/
structure frame3f (K : Type) where
  o : vec3f K
  x : vec3f K
  y : vec3f K
  z : vec3f K

/-- A ray (`ray3f`): origin, direction and parameter range. -/
structure ray3f (K : Type) where
  e : vec3f K
  d : vec3f K
  tmin : K
  tmax : K

/-- Surface material (`Material`). -/
structure Material (K : Type) where
  ke : vec3f K
  kd : vec3f K
  ks : vec3f K
  n : K
  kr : vec3f K
  microfacet : Bool
  ke_txt : Option (image3f K)
  kd_txt : Option (image3f K)
  ks_txt : Option (image3f K)

/-- A renderable primitive (`Surface`): quad or sphere. -/
structure Surface (K : Type) where
  frame : frame3f K
  radius : K
  isquad : Bool
  mat : Material K

/-- Point light (`Light`). -/
structure Light (K : Type) where
  frame : frame3f K
  intensity : vec3f K

/-- Pinhole camera (`Camera`). -/
structure Camera (K : Type) where
  frame : frame3f K
  width : K
  height : K

/-- The scene (`Scene`) with its rendering parameters. -/
structure Scene (K : Type) where
  camera : Camera K
  lights : List (Light K)
  surfaces : List (Surface K)
  ambient : vec3f K
  background : vec3f K
  background_txt : Option (image3f K)
  image_width : Nat
  image_height : Nat
  image_samples : Nat
  path_max_depth : Int
  path_shadows : Bool

/-- Result of a ray-scene intersection (`intersection3f`). -/
structure intersection3f (K : Type) where
  hit : Bool
  pos : vec3f K
  norm : vec3f K
  texcoord : vec2f K
  mat : Material K

/-- The collaborators of the renderer that live outside `04_pathtrace.cpp`: the
intersection routines, BRDF sampling, the frame transforms, `reflect`, the ray
constructors' constants, and the two draws of the random generator with state `R`. -/
structure Collab (K R : Type) where
  intersect : Scene K → ray3f K → intersection3f K
  intersect_shadow : Scene K → ray3f K → Bool
  sample_brdf : vec3f K → vec3f K → K → vec3f K → vec3f K → vec2f K → K → vec3f K × K
  sample_direction_spherical_uniform : vec2f K → vec3f K
  transform_point_from_local : frame3f K → vec3f K → vec3f K
  transform_normal_from_local : frame3f K → vec3f K → vec3f K
  transform_ray : frame3f K → ray3f K → ray3f K
  reflect : vec3f K → vec3f K → vec3f K
  make_segment : vec3f K → vec3f K → ray3f K
  ray_epsilon : K
  ray_rayinf : K
  next_float : R → K × R
  next_vec2f : R → vec2f K × R

section Render
variable {K : Type} [LinearOrderedField K] [FloorRing K] {R : Type}

/-- The two-argument constructor `ray3f(e,d)`. -/
def mkRay (C : Collab K R) (e d : vec3f K) : ray3f K :=
  ⟨e, d, C.ray_epsilon, C.ray_rayinf⟩

/-- Source `lookup_scaled_texture` (lines 18-26).  The subtraction, the conversion of
`width()-1` and `height()-1` to `float` and the two products are rounded; the products
are converted to `int` by the call of `at(int,int)`. -/
def lookup_scaled_texture (M : MathFns K) (value : vec3f K) (texture : Option (image3f K))
    (uv : vec2f K) : vec3f K :=
  match texture with
  | none => value
  | some t =>
    let u := clamp (M.fl (uv.x - (Int.floor uv.x : K))) 0 1
    let v := clamp (M.fl (uv.y - (Int.floor uv.y : K))) 0 1
    value * t.at_ (truncInt (M.fl (u * M.fl ((t.width - 1 : Int) : K))))
      (truncInt (M.fl (v * M.fl ((t.height - 1 : Int) : K))))

/-- Source `eval_brdf` (lines 29-44). -/
def eval_brdf (M : MathFns K) (kd ks : vec3f K) (n : K) (v l norm : vec3f K)
    (microfacet : Bool) : vec3f K :=
  if ¬ microfacet then
    let h := normalize M (v + l)
    kd / M.pi + ks * (n + 8) / (8 * M.pi) * M.pow (max 0 (dot norm h)) n
  else
    let h := normalize M (v + l)
    let d := (n + 2) / (2 * M.pi) * M.pow (max 0 (dot norm h)) n
    let f := ks + (one3f - ks) * M.pow (1 - dot h l) 5
    let g := min 1 ((2 * dot h norm * dot v norm) / dot v h)
    let g := min g ((2 * dot h norm * dot l norm) / dot l h)
    ((d * g) * f) / (4 * dot l norm * dot v norm)

/-- Source `eval_env` (lines 47-55). -/
def eval_env (M : MathFns K) (ke : vec3f K) (ke_txt : Option (image3f K)) (dir : vec3f K) :
    vec3f K :=
  let u := M.atan2 dir.x dir.z / (2 * M.pi)
  let v := 1 - M.acos dir.y / M.pi
  lookup_scaled_texture M ke ke_txt ⟨u, v⟩

/-- Lines 88-95 of `pathtrace_ray`: the shading term `shade = cl * brdfcos` of one
point light, with the total quotient of the field: for a light at the shaded point it
is not the term of the program, which `point_light_shade_checked` describes. -/
def point_light_shade (M : MathFns K) (pos norm v kd ks : vec3f K) (n : K) (mf : Bool)
    (light : Light K) : vec3f K :=
  let cl := light.intensity / lengthSqr (light.frame.o - pos)
  let l := normalize M (light.frame.o - pos)
  let brdfcos := max (dot norm l) 0 * eval_brdf M kd ks n v l norm mf
  cl * brdfcos

/-- One iteration of the point-light loop of `pathtrace_ray` (lines 87-106): the
accumulator after the light has been processed. -/
def shade_point_light (M : MathFns K) (C : Collab K R) (scene : Scene K)
    (pos norm v kd ks : vec3f K) (n : K) (mf : Bool) (c : vec3f K) (light : Light K) :
    vec3f K :=
  let shade := point_light_shade M pos norm v kd ks n mf light
  if shade = zero3f then c
  else if scene.path_shadows then
    if ¬ C.intersect_shadow scene (C.make_segment pos light.frame.o) then c + shade else c
  else c + shade

/-- Lines 112-145 of `pathtrace_ray`: the point sampled on an emissive surface, as
`((texcoords, light_pos, arealight_norm, arealight_area), generator state)`. -/
def area_light_sample (M : MathFns K) (C : Collab K R) (rng : R) (s : Surface K) :
    (vec2f K × vec3f K × vec3f K × K) × R :=
  if s.isquad then
    let rnd := C.next_vec2f rng
    let random := rnd.1
    let light_pos : vec3f K :=
      ⟨(random.x - 0.5) * 2 * s.radius, (random.y - 0.5) * 2 * s.radius, 0⟩
    let light_pos := C.transform_point_from_local s.frame light_pos
    let arealight_norm := C.transform_normal_from_local s.frame z3f
    let arealight_area := 4 * M.pow s.radius 2
    ((random, light_pos, arealight_norm, arealight_area), rnd.2)
  else
    let rnd := C.next_vec2f rng
    let ruv := rnd.1
    let light_pos := C.sample_direction_spherical_uniform ruv
    let arealight_norm := normalize M light_pos
    let arealight_area := 4 * M.pi * M.pow s.radius 2
    ((ruv, light_pos, arealight_norm, arealight_area), rnd.2)

/-- Lines 147-160 of `pathtrace_ray`: the shading term `shade = cl * brdfcos` of the
point sampled on an emissive surface, with the total quotient of the field (see
`area_light_shade_checked` for a sampled point at the shaded point). -/
def area_light_shade (M : MathFns K) (pos norm v kd ks : vec3f K) (n : K) (mf : Bool)
    (s : Surface K) (smp : vec2f K × vec3f K × vec3f K × K) : vec3f K :=
  let texcoords := smp.1
  let light_pos := smp.2.1
  let arealight_norm := smp.2.2.1
  let arealight_area := smp.2.2.2
  let surface_ke := lookup_scaled_texture M s.mat.ke s.mat.ke_txt texcoords
  let surface_l := normalize M (light_pos - pos)
  let cl := surface_ke * arealight_area * max (dot arealight_norm (-surface_l)) 0
              / distSqr pos light_pos
  let brdfcos := max (dot norm surface_l) 0 * eval_brdf M kd ks n v surface_l norm mf
  cl * brdfcos

/-- One iteration of the surface loop of `pathtrace_ray` (lines 109-173): the
accumulator and the generator state after the surface has been processed. -/
def shade_area_light (M : MathFns K) (C : Collab K R) (scene : Scene K)
    (pos norm v kd ks : vec3f K) (n : K) (mf : Bool) (st : vec3f K × R) (s : Surface K) :
    vec3f K × R :=
  if s.mat.ke ≠ zero3f then
    let smp := area_light_sample M C st.2 s
    let light_pos := smp.1.2.1
    let rng := smp.2
    let shade := area_light_shade M pos norm v kd ks n mf s smp.1
    if shade = zero3f then (st.1, rng)
    else if scene.path_shadows then
      if ¬ C.intersect_shadow scene (C.make_segment pos light_pos) then (st.1 + shade, rng)
      else (st.1, rng)
    else (st.1 + shade, rng)
  else st

/-- Lines 177-190 of `pathtrace_ray`: the environment sample, as
`((dir, brdfcos, response), generator state)`, with the total quotient of the field (see
`environment_sample_checked` for a sampled pdf of 0). -/
def environment_sample (M : MathFns K) (C : Collab K R) (scene : Scene K)
    (norm v kd ks : vec3f K) (n : K) (mf : Bool) (rng : R) :
    (vec3f K × vec3f K × vec3f K) × R :=
  let r1 := C.next_vec2f rng
  let ruv := r1.1
  let r2 := C.next_float r1.2
  let rl := r2.1
  let environment := C.sample_brdf kd ks n v norm ruv rl
  let dir := environment.1
  let pdf := environment.2
  let brdfcos := max (dot norm dir) 0 * eval_brdf M kd ks n v dir norm mf
  let response := brdfcos * eval_env M scene.background scene.background_txt dir / pdf
  ((dir, brdfcos, response), r2.2)

/-- The environment-illumination block of `pathtrace_ray` (lines 176-207). -/
def shade_environment (M : MathFns K) (C : Collab K R) (scene : Scene K)
    (pos norm v kd ks : vec3f K) (n : K) (mf : Bool) (st : vec3f K × R) : vec3f K × R :=
  if scene.background ≠ zero3f then
    let smp := environment_sample M C scene norm v kd ks n mf st.2
    let dir := smp.1.1
    let brdfcos := smp.1.2.1
    let response := smp.1.2.2
    if brdfcos ≠ zero3f then
      if scene.path_shadows then
        if ¬ (C.intersect scene (mkRay C pos dir)).hit then (st.1 + response, smp.2)
        else (st.1, smp.2)
      else (st.1 + response, smp.2)
    else (st.1, smp.2)
  else st

/-- Lines 67-207 of `pathtrace_ray`: for a hit, the accumulated color and the generator
state after the ambient term, the emission term, the point-light loop, the surface
loop and the environment block. -/
def hit_direct (M : MathFns K) (C : Collab K R) (scene : Scene K) (ray : ray3f K) (rng : R)
    (depth : Int) (intersection : intersection3f K) : vec3f K × R :=
  let pos := intersection.pos
  let norm := intersection.norm
  let v := -ray.d
  let ke := lookup_scaled_texture M intersection.mat.ke intersection.mat.ke_txt intersection.texcoord
  let kd := lookup_scaled_texture M intersection.mat.kd intersection.mat.kd_txt intersection.texcoord
  let ks := lookup_scaled_texture M intersection.mat.ks intersection.mat.ks_txt intersection.texcoord
  let n := intersection.mat.n
  let mf := intersection.mat.microfacet
  let c := scene.ambient * kd
  let c := if depth = 0 ∧ dot v norm > 0 then c + ke else c
  let c := scene.lights.foldl (shade_point_light M C scene pos norm v kd ks n mf) c
  let st := scene.surfaces.foldl (shade_area_light M C scene pos norm v kd ks n mf) (c, rng)
  shade_environment M C scene pos norm v kd ks n mf st

/-- Lines 209-228 of `pathtrace_ray`: the indirect bounce, its recursive call made
through `self`, with the total quotient of the field (see `indirect_bounce_checked` for a
sampled pdf of 0). -/
def indirect_bounce (M : MathFns K) (C : Collab K R)
    (self : Scene K → ray3f K → R → Int → Option (vec3f K × R))
    (scene : Scene K) (ray : ray3f K) (depth : Int) (intersection : intersection3f K)
    (st : vec3f K × R) : Option (vec3f K × R) :=
  let pos := intersection.pos
  let norm := intersection.norm
  let v := -ray.d
  let kd := lookup_scaled_texture M intersection.mat.kd intersection.mat.kd_txt intersection.texcoord
  let ks := lookup_scaled_texture M intersection.mat.ks intersection.mat.ks_txt intersection.texcoord
  let mf := intersection.mat.microfacet
  if (kd ≠ zero3f ∨ ks ≠ zero3f) ∧ depth < scene.path_max_depth then
    let n := intersection.mat.n
    let r1 := C.next_vec2f st.2
    let ruv := r1.1
    let r2 := C.next_float r1.2
    let rl := r2.1
    let indirect := C.sample_brdf kd ks n v norm ruv rl
    let dir := indirect.1
    let pdf := indirect.2
    let rayindirect := mkRay C pos dir
    let brdfcos := max (dot norm dir) 0 * eval_brdf M kd ks n v dir norm mf
    match self scene rayindirect r2.2 (depth + 1) with
    | none => none
    | some res => some (st.1 + res.1 * (brdfcos / pdf), res.2)
  else some st

/-- Lines 230-236 of `pathtrace_ray`: the mirror reflection, its recursive call made
through `self`. -/
def reflect_bounce (C : Collab K R)
    (self : Scene K → ray3f K → R → Int → Option (vec3f K × R))
    (scene : Scene K) (ray : ray3f K) (depth : Int) (intersection : intersection3f K)
    (st : vec3f K × R) : Option (vec3f K × R) :=
  if ¬ (intersection.mat.kr = zero3f) then
    let rr := mkRay C intersection.pos (C.reflect ray.d intersection.norm)
    match self scene rr st.2 (depth + 1) with
    | none => none
    | some res => some (st.1 + intersection.mat.kr * res.1, res.2)
  else some st

/-- The body of `pathtrace_ray` (lines 58-240), with its two recursive calls made
through `self`; a recursive call that does not return makes the whole call not return. -/
def pathtrace_body (M : MathFns K) (C : Collab K R)
    (self : Scene K → ray3f K → R → Int → Option (vec3f K × R))
    (scene : Scene K) (ray : ray3f K) (rng : R) (depth : Int) : Option (vec3f K × R) :=
  let intersection := C.intersect scene ray
  if ¬ intersection.hit then
    some (eval_env M scene.background scene.background_txt ray.d, rng)
  else
    match indirect_bounce M C self scene ray depth intersection
        (hit_direct M C scene ray rng depth intersection) with
    | none => none
    | some st => reflect_bounce C self scene ray depth intersection st

/-- Source `pathtrace_ray` (lines 58-240).  The first argument is the fuel, the number
of nested activations allowed; `none` means the call did not return within it.  The
quotients are those of the field: the color is the color of the program on the runs in
which no denominator is zero, and `pathtrace_ray_checked` says which runs these are. -/
def pathtrace_ray (M : MathFns K) (C : Collab K R) :
    Nat → Scene K → ray3f K → R → Int → Option (vec3f K × R)
  | 0 => fun _ _ _ _ => none
  | fuel + 1 => pathtrace_body M C (pathtrace_ray M C fuel)

/-! ## The image loops -/

/-- The per-pixel random generators (`RngImage`): size and accessor `at(i,j)`. -/
structure RngImage (R : Type) where
  width : Int
  height : Int
  at_ : Int → Int → R

/-- Assignment `image->at(i,j) = c`. -/
def image3f.set (img : image3f K) (i j : Int) (c : vec3f K) : image3f K :=
  { img with at_ := fun a b => if a = i ∧ b = j then c else img.at_ a b }

/-- The generator at `(i,j)` left in state `g` (the generators are updated in place). -/
def RngImage.set (rngs : RngImage R) (i j : Int) (g : R) : RngImage R :=
  { rngs with at_ := fun a b => if a = i ∧ b = j then g else rngs.at_ a b }

/-- The camera-plane parameter `u` of lines 328-329 for pixel column `i`, sub-sample
`ii` and jitter `r1`: the conversions of the integers to `float`, the sum, the quotient
by `image_samples`, the second sum and the quotient by `image_width`, each rounded. -/
def camera_u (M : MathFns K) (scene : Scene K) (i ii : Nat) (r1 : K) : K :=
  M.fl (M.fl (M.fl (i : K) + M.fl (M.fl (M.fl (ii : K) + r1)
    / M.fl (scene.image_samples : K))) / M.fl (scene.image_width : K))

/-- The camera-plane parameter `v` of lines 330-331 for pixel row `j`, sub-sample `jj`
and jitter `r2`. -/
def camera_v (M : MathFns K) (scene : Scene K) (j jj : Nat) (r2 : K) : K :=
  M.fl (M.fl (M.fl (j : K) + M.fl (M.fl (M.fl (jj : K) + r2)
    / M.fl (scene.image_samples : K))) / M.fl (scene.image_height : K))

/-- Lines 328-335 of the row loop: the camera ray of sub-sample `(ii,jj)` of pixel
`(i,j)` for the jitter values `r1` (for `u`) and `r2` (for `v`); the parameters `u` and
`v` are rounded, the direction built from them is exact. -/
def camera_ray (M : MathFns K) (C : Collab K R) (scene : Scene K) (i j ii jj : Nat)
    (r1 r2 : K) : ray3f K :=
  let u := camera_u M scene i ii r1
  let v := camera_v M scene j jj r2
  C.transform_ray scene.camera.frame
    (mkRay C zero3f (normalize M ⟨(u - 0.5) * scene.camera.width,
      (v - 0.5) * scene.camera.height, -1⟩))

/-- Lines 326-338 of the row loop: one sub-sample.  Two jitter values are drawn, `u`
first, the camera ray is traced at depth 0 and its color is added to the pixel, each
channel of the sum rounded. -/
def pixel_sample (M : MathFns K) (C : Collab K R) (fuel : Nat) (scene : Scene K)
    (i j jj : Nat) (st : Option (vec3f K × R)) (ii : Nat) : Option (vec3f K × R) :=
  match st with
  | none => none
  | some st =>
    let r1 := C.next_float st.2
    let r2 := C.next_float r1.2
    let ray := camera_ray M C scene i j ii jj r1.1 r2.1
    match pathtrace_ray M C fuel scene ray r2.2 0 with
    | none => none
    | some res => some (fl3 M (st.1 + res.1), res.2)

/-- Lines 321-341 of the row loop: the color of pixel `(i,j)` and the final state of its
generator, from the generator's initial state: the `jj` loop around the `ii` loop over
`range(image_samples)`, then the division by `image_samples*image_samples`, a product
of two `int` converted to `float`, the quotients rounded. -/
def pathtrace_pixel (M : MathFns K) (C : Collab K R) (fuel : Nat) (scene : Scene K)
    (i j : Nat) (rng : R) : Option (vec3f K × R) :=
  match (List.range scene.image_samples).foldl
      (fun st jj => (List.range scene.image_samples).foldl
        (pixel_sample M C fuel scene i j jj) st)
      (some (zero3f, rng)) with
  | none => none
  | some st =>
    some (fl3 M (st.1
      / M.fl ((wrap32 ((scene.image_samples : Int) * (scene.image_samples : Int)) : Int) : K)),
      st.2)

/-- The body of the `i` loop (lines 320-341): pixel `(i,j)` is rendered with its own
generator `rngs->at(i,j)`; the image and the generator image are updated at `(i,j)`. -/
def render_pixel (M : MathFns K) (C : Collab K R) (fuel : Nat) (scene : Scene K)
    (st : Option (image3f K × RngImage R)) (p : Nat × Nat) : Option (image3f K × RngImage R) :=
  match st with
  | none => none
  | some st =>
    match pathtrace_pixel M C fuel scene p.1 p.2 (st.2.at_ p.1 p.2) with
    | none => none
    | some res => some (st.1.set p.1 p.2 res.1, st.2.set p.1 p.2 res.2)

/-- The body of the `j` loop (lines 318-342): row `j`, pixels `i = 0 .. image_width-1`. -/
def render_row (M : MathFns K) (C : Collab K R) (fuel : Nat) (scene : Scene K)
    (j : Nat) (st : image3f K × RngImage R) : Option (image3f K × RngImage R) :=
  (List.range scene.image_width).foldl
    (fun st i => render_pixel M C fuel scene st (i, j)) (some st)

/-- The loop `for(j = offset_row; j < image_height; j += skip_row)` of line 317 around a
body.  The first argument bounds the number of iterations: `none` stands for a loop that
has not finished within it (as with `skip_row = 0`) or a body that did not return. -/
def row_loop {σ : Type} (body : Nat → σ → Option σ) (height skip_row : Nat) :
    Nat → Nat → σ → Option σ
  | 0, j, st => if j < height then none else some st
  | n + 1, j, st =>
    if j < height then
      match body j st with
      | none => none
      | some st2 => row_loop body height skip_row n (j + skip_row) st2
    else some st

/-- Source `pathtrace(scene, image, rngs, offset_row, skip_row, verbose)` (lines
314-346), for a non-negative `offset_row`; `verbose` only prints.  `image_height`
iterations are allowed, which is enough for every positive `skip_row`. -/
def pathtrace_rows (M : MathFns K) (C : Collab K R) (fuel : Nat) (scene : Scene K)
    (image : image3f K) (rngs : RngImage R) (offset_row skip_row : Nat) :
    Option (image3f K × RngImage R) :=
  row_loop (render_row M C fuel scene) scene.image_height skip_row scene.image_height
    offset_row (image, rngs)

/-- The rows visited by the loop of line 317, in order of visit. -/
def rows_visited (height offset_row skip_row : Nat) : Option (List Nat) :=
  row_loop (fun j rows => some (rows ++ [j])) height skip_row height offset_row []

/-- The rows `j, j + skip_row, ...` below `height`, at most `n` of them: the rows the
loop of line 317 goes through. -/
def rows_from (height skip_row : Nat) : Nat → Nat → List Nat
  | 0, _ => []
  | n + 1, j => if j < height then j :: rows_from height skip_row n (j + skip_row) else []

/-- The pixels `(i,j)` of the given rows, in the order the `i` loop visits them. -/
def row_pixels (width : Nat) (rows : List Nat) : List (Nat × Nat) :=
  rows.flatMap (fun j => (List.range width).map (fun i => (i, j)))

/-- Source `pathtrace(scene, multithread)` (lines 349-374).  `image0` and `rngs0` are the
freshly allocated image and generators, `nthreads` the value of
`thread::hardware_concurrency()`, and `order` the order in which the row loops of the
workers `tid = 0 .. nthreads-1` take effect. -/
def pathtrace (M : MathFns K) (C : Collab K R) (fuel : Nat) (scene : Scene K)
    (image0 : image3f K) (rngs0 : RngImage R) (nthreads : Nat) (order : List Nat)
    (multithread : Bool) : Option (image3f K) :=
  if multithread then
    (order.foldl (fun st tid =>
        match st with
        | none => none
        | some st => pathtrace_rows M C fuel scene st.1 st.2 tid nthreads)
      (some (image0, rngs0))).map Prod.fst
  else
    (pathtrace_rows M C fuel scene image0 rngs0 0 1).map Prod.fst

end Render

/-! ## Well-formedness of scenes and contracts of the collaborators -/

section Contracts
variable {K : Type} [LinearOrderedField K] {R : Type}

/-- The properties of the exact math functions that the proofs rely on. -/
structure MathLaws (M : MathFns K) : Prop where
  pi_pos : 0 < M.pi
  sqrt_nonneg : ∀ x, 0 ≤ M.sqrt x
  sqrt_mul_self : ∀ x, 0 ≤ x → M.sqrt x * M.sqrt x = x
  pow_nonneg : ∀ x y, 0 ≤ x → 0 ≤ M.pow x y
  pow_le_one : ∀ x y, 0 ≤ x → x ≤ 1 → 0 ≤ y → M.pow x y ≤ 1
  pow_two_nonneg : ∀ x, 0 ≤ M.pow x 2

/-- The properties of the rounding `fl` that the proofs rely on: it is monotone on the
non-negative numbers and exact on the integers `0 .. 2^24`. -/
structure RoundLaws (M : MathFns K) : Prop where
  fl_mono : ∀ x y, 0 ≤ x → x ≤ y → M.fl x ≤ M.fl y
  fl_nat : ∀ n : Nat, n ≤ 16777216 → M.fl (n : K) = (n : K)

/-- All texels of an optional texture are non-negative. -/
def TexNonneg (t : Option (image3f K)) : Prop :=
  ∀ img, t = some img → ∀ i j, (img.at_ i j).Nonneg

/-- A material with non-negative coefficients, texels and exponent. -/
structure MaterialNonneg (m : Material K) : Prop where
  ke : m.ke.Nonneg
  kd : m.kd.Nonneg
  ks : m.ks.Nonneg
  kr : m.kr.Nonneg
  n : 0 ≤ m.n
  ke_txt : TexNonneg m.ke_txt
  kd_txt : TexNonneg m.kd_txt
  ks_txt : TexNonneg m.ks_txt

/-- A scene whose ambient term, background, background texels, light intensities and
materials are non-negative. -/
structure SceneNonneg (scene : Scene K) : Prop where
  ambient : scene.ambient.Nonneg
  background : scene.background.Nonneg
  background_txt : TexNonneg scene.background_txt
  lights : ∀ l ∈ scene.lights, l.intensity.Nonneg
  surfaces : ∀ s ∈ scene.surfaces, MaterialNonneg s.mat

/-- The contracts of the collaborators on a scene: a hit reports a unit normal and the
material of one of the scene's surfaces; `sample_brdf` returns a unit direction and a
positive density; `reflect` maps unit vectors to unit vectors. -/
structure CollabLaws (C : Collab K R) (scene : Scene K) : Prop where
  hit_norm_unit : ∀ r, (C.intersect scene r).hit = true →
    dot (C.intersect scene r).norm (C.intersect scene r).norm = 1
  hit_mat_mem : ∀ r, (C.intersect scene r).hit = true →
    ∃ s ∈ scene.surfaces, (C.intersect scene r).mat = s.mat
  sample_unit : ∀ kd ks n v norm ruv rl, dot v v = 1 → dot norm norm = 1 →
    dot (C.sample_brdf kd ks n v norm ruv rl).1 (C.sample_brdf kd ks n v norm ruv rl).1 = 1
  sample_pdf_pos : ∀ kd ks n v norm ruv rl, 0 < (C.sample_brdf kd ks n v norm ruv rl).2
  reflect_unit : ∀ d n, dot d d = 1 → dot n n = 1 → dot (C.reflect d n) (C.reflect d n) = 1

/-- Two scenes with the same lights, surfaces, ambient term and background: they may
differ in the rendering parameters only. -/
structure SameContent (s1 s2 : Scene K) : Prop where
  lights : s1.lights = s2.lights
  surfaces : s1.surfaces = s2.surfaces
  ambient : s1.ambient = s2.ambient
  background : s1.background = s2.background
  background_txt : s1.background_txt = s2.background_txt

/-- Relation between the outcomes of two runs: neither returns, or both return, with
the same generator state, and the first color is channel-wise at most the second. -/
def DarkerSameRng (a b : Option (vec3f K × R)) : Prop :=
  match a, b with
  | none, none => True
  | some x, some y => x.2 = y.2 ∧ x.1.Le y.1
  | _, _ => False

end Contracts

/-! ## Concrete collaborators and scenes

A small concrete world, used to evaluate the renderer on explicit inputs.  The
generator state is a counter; the BRDF sampler returns the normal for a first
coordinate below one half and the mirror direction of the view vector otherwise,
both with density one. -/

section Demo
variable {K : Type} [LinearOrderedField K]

/-- Mirror image of the direction `d` at a surface with unit normal `n`. -/
def mirrorDir (d n : vec3f K) : vec3f K := d - (2 * dot d n) * n

/-- The frame with origin `o` and the canonical axes. -/
def axisFrame (o : vec3f K) : frame3f K := ⟨o, ⟨1, 0, 0⟩, ⟨0, 1, 0⟩, ⟨0, 0, 1⟩⟩

/-- A material without textures and with the Phong-style model. -/
def plainMaterial (ke kd ks kr : vec3f K) (n : K) : Material K :=
  ⟨ke, kd, ks, n, kr, false, none, none, none⟩

/-- The intersection record of a miss. -/
def missRecord : intersection3f K :=
  ⟨false, zero3f, z3f, ⟨0, 0⟩, plainMaterial zero3f zero3f zero3f zero3f 0⟩

/-- Concrete collaborators around a given intersection routine and shadow test. -/
def demoCollab (isect : Scene K → ray3f K → intersection3f K)
    (shadow : Scene K → ray3f K → Bool) : Collab K Nat where
  intersect := isect
  intersect_shadow := shadow
  sample_brdf := fun _ _ _ v norm ruv _ =>
    if ruv.x < 1 / 2 then (norm, 1) else ((2 * dot v norm) * norm - v, 1)
  sample_direction_spherical_uniform := fun _ => z3f
  transform_point_from_local := fun f p => f.o + (p.x * f.x + p.y * f.y + p.z * f.z)
  transform_normal_from_local := fun f p => p.x * f.x + p.y * f.y + p.z * f.z
  transform_ray := fun f r =>
    ⟨f.o + (r.e.x * f.x + r.e.y * f.y + r.e.z * f.z),
     r.d.x * f.x + r.d.y * f.y + r.d.z * f.z, r.tmin, r.tmax⟩
  reflect := mirrorDir
  make_segment := fun a b => ⟨a, b - a, 1 / 100000, 1 - 2 / 100000⟩
  ray_epsilon := 1 / 100000
  ray_rayinf := 1000000
  next_float := fun r => ((((7 * r + 3) % 16 : Nat) : K) / 16, r + 1)
  next_vec2f := fun r => (⟨(((3 * r) % 16 : Nat) : K) / 16, (((5 * r + 1) % 16 : Nat) : K) / 16⟩, r + 1)

/-- The concrete collaborators with a `sample_brdf` that reports the density `0` for
the direction of the normal. -/
def zeroPdfCollab (isect : Scene K → ray3f K → intersection3f K)
    (shadow : Scene K → ray3f K → Bool) : Collab K Nat :=
  { demoCollab isect shadow with sample_brdf := fun _ _ _ _ norm _ _ => (norm, 0) }

/-- A camera at the origin looking down the negative z axis. -/
def demoCamera : Camera K := ⟨axisFrame zero3f, 1, 1⟩

/-- An empty scene under a constant white background. -/
def skyScene : Scene K where
  camera := demoCamera
  lights := []
  surfaces := []
  ambient := zero3f
  background := one3f
  background_txt := none
  image_width := 1
  image_height := 1
  image_samples := 1
  path_max_depth := 2
  path_shadows := false

/-- The sky scene rendered as an image of 3 columns and 5 rows, with 2 x 2 samples per
pixel. -/
def stripScene : Scene K :=
  { (skyScene : Scene K) with image_width := 3, image_height := 5, image_samples := 2 }

/-- Intersection with the horizontal plane `z = -1`, seen from above, carrying the
material `m` and the upward normal. -/
def planeIsect (m : Material K) : Scene K → ray3f K → intersection3f K := fun _ r =>
  if r.d.z < 0 ∧ -1 < r.e.z then
    ⟨true, r.e + ((-1 - r.e.z) / r.d.z) * r.d, ⟨0, 0, 1⟩, ⟨0, 0⟩, m⟩
  else missRecord

/-- A grey diffuse material: no emission, no specular lobe, no mirror. -/
def greyMaterial : Material K :=
  plainMaterial zero3f ⟨1 / 2, 1 / 2, 1 / 2⟩ zero3f zero3f 10

/-- A large grey floor quad in the plane `z = -1`, in the dark: no light, no ambient
term, black background. -/
def darkScene : Scene K where
  camera := demoCamera
  lights := []
  surfaces := [⟨axisFrame ⟨0, 0, -1⟩, 1000, true, greyMaterial⟩]
  ambient := zero3f
  background := zero3f
  background_txt := none
  image_width := 1
  image_height := 1
  image_samples := 1
  path_max_depth := 2
  path_shadows := true

/-- The grey floor lit by one point light at `(0,0,1)` of intensity `(10,10,10)`, with
an ambient term, a black background and no indirect bounce. -/
def litScene : Scene K where
  camera := demoCamera
  lights := [⟨axisFrame ⟨0, 0, 1⟩, ⟨10, 10, 10⟩⟩]
  surfaces := [⟨axisFrame ⟨0, 0, -1⟩, 1000, true, greyMaterial⟩]
  ambient := ⟨1 / 10, 1 / 10, 1 / 10⟩
  background := zero3f
  background_txt := none
  image_width := 1
  image_height := 1
  image_samples := 1
  path_max_depth := 0
  path_shadows := true

/-- The lit grey floor with its point light moved onto the floor, at `(0,0,-1)`: the
point the downward ray hits. -/
def touchScene : Scene K :=
  { (litScene : Scene K) with lights := [⟨axisFrame ⟨0, 0, -1⟩, ⟨10, 10, 10⟩⟩] }

/-- A perfect mirror: only `kr` is nonzero. -/
def mirrorMaterial : Material K :=
  plainMaterial zero3f zero3f zero3f one3f 10

/-- A mirror floor under a constant background `(1/5, 2/5, 3/5)`, with a point light
and an ambient term. -/
def mirrorScene : Scene K where
  camera := demoCamera
  lights := [⟨axisFrame ⟨0, 0, 1⟩, ⟨10, 10, 10⟩⟩]
  surfaces := [⟨axisFrame ⟨0, 0, -1⟩, 1000, true, mirrorMaterial⟩]
  ambient := ⟨1 / 10, 1 / 10, 1 / 10⟩
  background := ⟨1 / 5, 2 / 5, 3 / 5⟩
  background_txt := none
  image_width := 1
  image_height := 1
  image_samples := 1
  path_max_depth := 2
  path_shadows := true

/-- The mirror floor under a black background, lit by the point light at `(0,0,1)`. -/
def darkMirrorScene : Scene K := { (mirrorScene : Scene K) with background := zero3f }

/-- A glossy material under the microfacet model. -/
def glossyMaterial : Material K :=
  ⟨zero3f, ⟨1 / 2, 1 / 2, 1 / 2⟩, ⟨1 / 4, 1 / 4, 1 / 4⟩, 10, zero3f, true, none, none, none⟩

/-- A glossy microfacet floor with a point light, an ambient term and a constant
background. -/
def glossyScene : Scene K where
  camera := demoCamera
  lights := [⟨axisFrame ⟨0, 0, 1⟩, ⟨10, 10, 10⟩⟩]
  surfaces := [⟨axisFrame ⟨0, 0, -1⟩, 1000, true, glossyMaterial⟩]
  ambient := ⟨1 / 10, 1 / 10, 1 / 10⟩
  background := ⟨1 / 5, 2 / 5, 3 / 5⟩
  background_txt := none
  image_width := 1
  image_height := 1
  image_samples := 1
  path_max_depth := 2
  path_shadows := true

/-- The glossy microfacet floor lit at grazing incidence: the point light lies in the
plane of the floor, at `(5,0,-1)`; black background, no indirect bounce. -/
def grazeScene : Scene K :=
  { (glossyScene : Scene K) with
    lights := [⟨axisFrame ⟨5, 0, -1⟩, ⟨10, 10, 10⟩⟩],
    background := zero3f,
    path_max_depth := 0 }

/-- The glossy microfacet floor lit from above by the point light at `(0,0,1)`: black
background, no indirect bounce. -/
def glossyLitScene : Scene K :=
  { (glossyScene : Scene K) with background := zero3f, path_max_depth := 0 }

/-- Floor material of the room: faintly diffuse and a perfect mirror. -/
def roomFloorMaterial : Material K :=
  plainMaterial zero3f ⟨1 / 10, 1 / 10, 1 / 10⟩ zero3f one3f 10

/-- Ceiling material of the room: white diffuse, no mirror. -/
def roomCeilingMaterial : Material K :=
  plainMaterial zero3f one3f zero3f zero3f 10

/-- Intersection with a room: a floor in the plane `z = -1` seen from above, and a
ceiling patch in the plane `z = 3`, covering `x >= 1`, seen from below. -/
def roomIsect : Scene K → ray3f K → intersection3f K := fun _ r =>
  if r.d.z < 0 ∧ -1 < r.e.z ∧ r.e.z ≤ 3 then
    ⟨true, r.e + ((-1 - r.e.z) / r.d.z) * r.d, ⟨0, 0, 1⟩, ⟨0, 0⟩, roomFloorMaterial⟩
  else if 0 < r.d.z ∧ r.e.z < 3 ∧ 1 ≤ r.e.x + ((3 - r.e.z) / r.d.z) * r.d.x then
    ⟨true, r.e + ((3 - r.e.z) / r.d.z) * r.d, ⟨0, 0, -1⟩, ⟨0, 0⟩, roomCeilingMaterial⟩
  else missRecord

/-- The room under a constant white background: no light, no emitter, no ambient term,
shadows off. -/
def roomScene (max_depth : Int) : Scene K where
  camera := demoCamera
  lights := []
  surfaces := [⟨axisFrame ⟨0, 0, -1⟩, 1000, true, roomFloorMaterial⟩,
    ⟨axisFrame ⟨1001, 0, 3⟩, 1000, true, roomCeilingMaterial⟩]
  ambient := zero3f
  background := one3f
  background_txt := none
  image_width := 1
  image_height := 1
  image_samples := 1
  path_max_depth := max_depth
  path_shadows := false

/-- A unit ray from `(-3,0,3)` that meets the floor of the room at `(0,0,-1)`. -/
def roomRay : ray3f K := ⟨⟨-3, 0, 3⟩, ⟨3 / 5, 0, -4 / 5⟩, 1 / 100000, 1000000⟩

/-- A ray from the origin straight down the negative z axis. -/
def downRay : ray3f K := ⟨zero3f, ⟨0, 0, -1⟩, 1 / 100000, 1000000⟩

end Demo

/-- A freshly allocated one-pixel image, all zero. -/
def blackImage : image3f ℚ := ⟨1, 1, fun _ _ => zero3f⟩

/-- Counter generators, seeded by the pixel coordinates. -/
def seedRngs : RngImage Nat := ⟨1, 1, fun i j => (i + 2 * j).toNat⟩

/-- Rational stand-ins for the math library: `sqrt` and `pow` are exact on squares of
rationals and on natural exponents, `pi` is the single-precision constant `pif`;
`atan2` and `acos` are only consulted when a background texture is bound. -/
def demoMath : MathFns ℚ where
  sqrt := fun x => (Nat.sqrt (x.num.toNat * x.den) : ℚ) / x.den
  pow := fun x y => x ^ (Int.floor y).toNat
  atan2 := fun _ _ => 0
  acos := fun _ => 0
  pi := 13176795 / 4194304
  fl := id

/-- Rounding of a rational to the nearest integer, a tie going to the even one. -/
def roundEven (x : ℚ) : Int :=
  let f := Int.floor x
  let r := x - f
  if r < 1 / 2 then f else if 1 / 2 < r then f + 1 else if f % 2 = 0 then f else f + 1

/-- The integer `floor(log2(n))` of `n >= 1`, by halving; the first argument bounds the
number of halvings. -/
def log2fuel : Nat → Nat → Nat
  | 0, _ => 0
  | f + 1, n => if 2 ≤ n then log2fuel f (n / 2) + 1 else 0

/-- The integer `ceil(log2(n))` of `n >= 1`, by halving; the first argument bounds the
number of halvings. -/
def clog2fuel : Nat → Nat → Nat
  | 0, _ => 0
  | f + 1, n => if 2 ≤ n then clog2fuel f ((n + 1) / 2) + 1 else 0

/-- The integer `floor(log2(x))` of a positive rational. -/
def ilog2 (x : ℚ) : Int :=
  if 1 ≤ x then (log2fuel (Int.floor x).toNat (Int.floor x).toNat : Int)
  else -(clog2fuel (Int.ceil x⁻¹).toNat (Int.ceil x⁻¹).toNat : Int)

/-- Rounding to the nearest single-precision (`binary32`) number, a tie going to the even
significand: 24 significant bits, and multiples of `2^-149` below `2^-126` (the
subnormal numbers).  The exponent is not bounded above: the overflow to infinity, beyond
`2^128`, is not represented. -/
def round32 (x : ℚ) : ℚ :=
  if x = 0 then 0 else
    (roundEven (x / 2 ^ max (-149) (ilog2 |x| - 23)) : ℚ) * 2 ^ max (-149) (ilog2 |x| - 23)

/-- The rational stand-ins for the math library, with the rounding to single precision. -/
def floatMath : MathFns ℚ := { demoMath with fl := round32 }

/-! ## The texel addressed by a lookup, the camera-plane parameters, the samples of a pixel -/

section Sampling
variable {K : Type} [LinearOrderedField K] [FloorRing K] {R : Type}

/-- The coordinate `clamp(x - floor(x), 0, 1) * (dim - 1)` that `lookup_scaled_texture`
passes to `texture->at` (lines 21-23) for a texture of size `dim` along that axis. -/
def texel_coord (M : MathFns K) (dim : Int) (x : K) : K :=
  M.fl (clamp (M.fl (x - (Int.floor x : K))) 0 1 * M.fl ((dim - 1 : Int) : K))

/-- The integer texel `texture->at` reads in `lookup_scaled_texture` (line 23). -/
def texel_index (M : MathFns K) (t : image3f K) (uv : vec2f K) : Int × Int :=
  (truncInt (texel_coord M t.width uv.x), truncInt (texel_coord M t.height uv.y))

/-- Following the spec's words ("for each of `samples x samples` stratified
sub-samples"): the sub-samples `(ii, jj)` of a pixel in the order of the loops, `jj` outer
and `ii` inner. -/
def sample_order (samples : Nat) : List (Nat × Nat) :=
  (List.range samples).flatMap (fun jj => (List.range samples).map (fun ii => (ii, jj)))

/-- Following the spec's words ("jitter a sub-pixel offset using the pixel's random
stream, compute the corresponding camera ray, call the Radiance Estimator at depth 0"):
the radiance estimates of the given sub-samples of pixel `(i,j)`, in order, with the
pixel's generator threaded through them (the `u` jitter drawn before the `v` jitter), and
the final generator state. -/
def radiance_estimates (M : MathFns K) (C : Collab K R) (fuel : Nat) (scene : Scene K)
    (i j : Nat) : List (Nat × Nat) → R → Option (List (vec3f K) × R)
  | [], rng => some ([], rng)
  | p :: rest, rng =>
    let r1 := C.next_float rng
    let r2 := C.next_float r1.2
    match pathtrace_ray M C fuel scene (camera_ray M C scene i j p.1 p.2 r1.1 r2.1) r2.2 0 with
    | none => none
    | some res =>
      match radiance_estimates M C fuel scene i j rest res.2 with
      | none => none
      | some r => some (res.1 :: r.1, r.2)

/-- The sum of a list of colors, accumulated from zero in list order, each channel of
each partial sum rounded. -/
def sum3f (M : MathFns K) (cs : List (vec3f K)) : vec3f K :=
  cs.foldl (fun a c => fl3 M (a + c)) zero3f

end Sampling

/-- The sky scene with the background `0.1f` (the single-precision number nearest to
one tenth) in every channel, rendered with 3 x 3 samples per pixel. -/
def tenthScene : Scene ℚ :=
  { (skyScene : Scene ℚ) with
    background := ⟨13421773 / 134217728, 13421773 / 134217728, 13421773 / 134217728⟩,
    image_samples := 3 }

/-- The sky scene rendered with 46341 x 46341 samples per pixel, the first sample count
whose square exceeds the range of a 32-bit `int`. -/
def overflowScene : Scene ℚ := { (skyScene : Scene ℚ) with image_samples := 46341 }

/-- The sky scene rendered with 1024 columns and one sample per pixel. -/
def wideScene : Scene ℚ := { (skyScene : Scene ℚ) with image_width := 1024 }

/-- A two-by-two texture with four different grey levels. -/
def checkerTexture : image3f ℚ :=
  ⟨2, 2, fun i j => ⟨(i + 2 * j + 1 : Int), (i + 2 * j + 1 : Int), (i + 2 * j + 1 : Int)⟩⟩

/-- Two unit vectors on either side of the z axis, their half vector being the z axis. -/
def tiltRight : vec3f ℚ := ⟨3 / 5, 0, 4 / 5⟩

/-- The mirror image of `tiltRight` at the z axis. -/
def tiltLeft : vec3f ℚ := ⟨-3 / 5, 0, 4 / 5⟩

/-- A purely emissive material under the Phong-style model. -/
def lampMaterial : Material ℚ :=
  plainMaterial ⟨1, 2, 3⟩ zero3f zero3f zero3f 10

/-! ## A closed mirror box, and the instrumented recursion -/

section Instrumented
variable {K : Type} [LinearOrderedField K] [FloorRing K] {R : Type}

/-- Intersection with a closed box of mirrors: every ray meets a mirror wall one unit
along its direction, the normal facing the ray. -/
def boxIsect : Scene K → ray3f K → intersection3f K := fun _ r =>
  ⟨true, r.e + r.d, -r.d, ⟨0, 0⟩, mirrorMaterial⟩

/-- A scene enclosed by mirror walls, with the given depth limit. -/
def boxScene (max_depth : Int) : Scene K where
  camera := demoCamera
  lights := []
  surfaces := [⟨axisFrame zero3f, 1, false, mirrorMaterial⟩]
  ambient := zero3f
  background := one3f
  background_txt := none
  image_width := 1
  image_height := 1
  image_samples := 1
  path_max_depth := max_depth
  path_shadows := false

/-- A closed box of grey diffuse walls: every ray hits after one unit of travel. -/
def greyBoxIsect : Scene K → ray3f K → intersection3f K := fun _ r =>
  ⟨true, r.e + r.d, -r.d, ⟨0, 0⟩, greyMaterial⟩

/-- The collaborators with a generator state that carries a log along: the draws leave
the log as it is. -/
def withLog (C : Collab K R) : Collab K (R × List Int) where
  intersect := C.intersect
  intersect_shadow := C.intersect_shadow
  sample_brdf := C.sample_brdf
  sample_direction_spherical_uniform := C.sample_direction_spherical_uniform
  transform_point_from_local := C.transform_point_from_local
  transform_normal_from_local := C.transform_normal_from_local
  transform_ray := C.transform_ray
  reflect := C.reflect
  make_segment := C.make_segment
  ray_epsilon := C.ray_epsilon
  ray_rayinf := C.ray_rayinf
  next_float := fun s => ((C.next_float s.1).1, ((C.next_float s.1).2, s.2))
  next_vec2f := fun s => ((C.next_vec2f s.1).1, ((C.next_vec2f s.1).2, s.2))

/-- The recursion of `pathtrace_ray` instrumented: the same body, every activation
first appending its depth to the log carried with the generator state. -/
def pathtrace_ray_traced (M : MathFns K) (C : Collab K R) :
    Nat → Scene K → ray3f K → (R × List Int) → Int → Option (vec3f K × (R × List Int))
  | 0 => fun _ _ _ _ => none
  | fuel + 1 => fun scene ray s depth =>
    pathtrace_body M (withLog C) (pathtrace_ray_traced M C fuel) scene ray
      (s.1, s.2 ++ [depth]) depth

end Instrumented

/-! ## The estimator with partial division

`pathtrace_ray` once more, with every division written in the file, and the division
inside `normalize`, undefined at a zero denominator.  A color is an `Option`: `none` is
a color that a quotient by zero has entered (an infinity or a NaN of the program).
Control flow, the draws of the generator and the recursive calls are those of
`pathtrace_ray`: an undefined term fails the test `shade == zero3f`, passes the test
`brdfcos != zero3f`, and is accumulated like any other. -/

section Checked
variable {K : Type} [LinearOrderedField K] [FloorRing K] {R : Type}

/-- Scalar division `a / s`, undefined at `s = 0`. -/
def checked_div (a s : K) : Option K := if s = 0 then none else some (a / s)

/-- Division of a color by a scalar, undefined at `s = 0`. -/
def checked_divs (a : vec3f K) (s : K) : Option (vec3f K) :=
  if s = 0 then none else some (a / s)

/-- The vector `normalize(a) = a / length(a)`, undefined for a vector of length zero. -/
def normalize_checked (M : MathFns K) (a : vec3f K) : Option (vec3f K) :=
  checked_divs a (length M a)

/-- The sum `a + b` of two colors, undefined when one of them is. -/
def add_checked (a b : Option (vec3f K)) : Option (vec3f K) :=
  a.bind fun x => b.map fun y => x + y

/-- Source `eval_brdf` (lines 29-44) with partial division. -/
def eval_brdf_checked (M : MathFns K) (kd ks : vec3f K) (n : K) (v l norm : vec3f K)
    (microfacet : Bool) : Option (vec3f K) :=
  if ¬ microfacet then
    (normalize_checked M (v + l)).bind fun h =>
    (checked_divs kd M.pi).bind fun a =>
    (checked_divs (ks * (n + 8)) (8 * M.pi)).bind fun b =>
    some (a + b * M.pow (max 0 (dot norm h)) n)
  else
    (normalize_checked M (v + l)).bind fun h =>
    (checked_div (n + 2) (2 * M.pi)).bind fun q =>
    let d := q * M.pow (max 0 (dot norm h)) n
    let f := ks + (one3f - ks) * M.pow (1 - dot h l) 5
    (checked_div (2 * dot h norm * dot v norm) (dot v h)).bind fun g1 =>
    let g := min 1 g1
    (checked_div (2 * dot h norm * dot l norm) (dot l h)).bind fun g2 =>
    let g := min g g2
    checked_divs ((d * g) * f) (4 * dot l norm * dot v norm)

/-- Source `eval_env` (lines 47-55) with partial division. -/
def eval_env_checked (M : MathFns K) (ke : vec3f K) (ke_txt : Option (image3f K))
    (dir : vec3f K) : Option (vec3f K) :=
  (checked_div (M.atan2 dir.x dir.z) (2 * M.pi)).bind fun u =>
  (checked_div (M.acos dir.y) M.pi).bind fun q =>
  let v := 1 - q
  some (lookup_scaled_texture M ke ke_txt ⟨u, v⟩)

/-- Lines 88-95 of `pathtrace_ray` with partial division: the shading term of one point
light. -/
def point_light_shade_checked (M : MathFns K) (pos norm v kd ks : vec3f K) (n : K)
    (mf : Bool) (light : Light K) : Option (vec3f K) :=
  (checked_divs light.intensity (lengthSqr (light.frame.o - pos))).bind fun cl =>
  (normalize_checked M (light.frame.o - pos)).bind fun l =>
  (eval_brdf_checked M kd ks n v l norm mf).bind fun b =>
  let brdfcos := max (dot norm l) 0 * b
  some (cl * brdfcos)

/-- One iteration of the point-light loop (lines 87-106) with partial division.  The
term is computed first; an undefined term is not `zero3f`, so it is accumulated unless
the shadow test finds the light occluded. -/
def shade_point_light_checked (M : MathFns K) (C : Collab K R) (scene : Scene K)
    (pos norm v kd ks : vec3f K) (n : K) (mf : Bool) (c : Option (vec3f K))
    (light : Light K) : Option (vec3f K) :=
  let shade := point_light_shade_checked M pos norm v kd ks n mf light
  if shade = some zero3f then c
  else if scene.path_shadows then
    if ¬ C.intersect_shadow scene (C.make_segment pos light.frame.o) then add_checked c shade
    else c
  else add_checked c shade

/-- Lines 112-145 of `pathtrace_ray` with partial division: the point sampled on an
emissive surface, as `((texcoords, light_pos, arealight_norm, arealight_area),
generator state)`; the normal of a sphere is a `normalize`. -/
def area_light_sample_checked (M : MathFns K) (C : Collab K R) (rng : R) (s : Surface K) :
    (vec2f K × vec3f K × Option (vec3f K) × K) × R :=
  if s.isquad then
    let rnd := C.next_vec2f rng
    let random := rnd.1
    let light_pos : vec3f K :=
      ⟨(random.x - 0.5) * 2 * s.radius, (random.y - 0.5) * 2 * s.radius, 0⟩
    let light_pos := C.transform_point_from_local s.frame light_pos
    let arealight_norm := C.transform_normal_from_local s.frame z3f
    let arealight_area := 4 * M.pow s.radius 2
    ((random, light_pos, some arealight_norm, arealight_area), rnd.2)
  else
    let rnd := C.next_vec2f rng
    let ruv := rnd.1
    let light_pos := C.sample_direction_spherical_uniform ruv
    let arealight_norm := normalize_checked M light_pos
    let arealight_area := 4 * M.pi * M.pow s.radius 2
    ((ruv, light_pos, arealight_norm, arealight_area), rnd.2)

/-- Lines 147-160 of `pathtrace_ray` with partial division: the shading term of the
point sampled on an emissive surface. -/
def area_light_shade_checked (M : MathFns K) (pos norm v kd ks : vec3f K) (n : K)
    (mf : Bool) (s : Surface K) (smp : vec2f K × vec3f K × Option (vec3f K) × K) :
    Option (vec3f K) :=
  let texcoords := smp.1
  let light_pos := smp.2.1
  let arealight_area := smp.2.2.2
  let surface_ke := lookup_scaled_texture M s.mat.ke s.mat.ke_txt texcoords
  smp.2.2.1.bind fun arealight_norm =>
  (normalize_checked M (light_pos - pos)).bind fun surface_l =>
  (checked_divs (surface_ke * arealight_area * max (dot arealight_norm (-surface_l)) 0)
    (distSqr pos light_pos)).bind fun cl =>
  (eval_brdf_checked M kd ks n v surface_l norm mf).bind fun b =>
  let brdfcos := max (dot norm surface_l) 0 * b
  some (cl * brdfcos)

/-- One iteration of the surface loop (lines 109-173) with partial division. -/
def shade_area_light_checked (M : MathFns K) (C : Collab K R) (scene : Scene K)
    (pos norm v kd ks : vec3f K) (n : K) (mf : Bool) (st : Option (vec3f K) × R)
    (s : Surface K) : Option (vec3f K) × R :=
  if s.mat.ke ≠ zero3f then
    let smp := area_light_sample_checked M C st.2 s
    let light_pos := smp.1.2.1
    let rng := smp.2
    let shade := area_light_shade_checked M pos norm v kd ks n mf s smp.1
    if shade = some zero3f then (st.1, rng)
    else if scene.path_shadows then
      if ¬ C.intersect_shadow scene (C.make_segment pos light_pos) then
        (add_checked st.1 shade, rng)
      else (st.1, rng)
    else (add_checked st.1 shade, rng)
  else st

/-- Lines 177-190 of `pathtrace_ray` with partial division: the environment sample, as
`((dir, brdfcos, response), generator state)`. -/
def environment_sample_checked (M : MathFns K) (C : Collab K R) (scene : Scene K)
    (norm v kd ks : vec3f K) (n : K) (mf : Bool) (rng : R) :
    (vec3f K × Option (vec3f K) × Option (vec3f K)) × R :=
  let r1 := C.next_vec2f rng
  let ruv := r1.1
  let r2 := C.next_float r1.2
  let rl := r2.1
  let environment := C.sample_brdf kd ks n v norm ruv rl
  let dir := environment.1
  let pdf := environment.2
  let brdfcos := (eval_brdf_checked M kd ks n v dir norm mf).map
    fun (b : vec3f K) => max (dot norm dir) 0 * b
  let response := brdfcos.bind fun bc =>
    (eval_env_checked M scene.background scene.background_txt dir).bind fun e =>
    checked_divs (bc * e) pdf
  ((dir, brdfcos, response), r2.2)

/-- The environment-illumination block (lines 176-207) with partial division.  The
response is computed first; it is accumulated when `brdfcos` is not `zero3f`. -/
def shade_environment_checked (M : MathFns K) (C : Collab K R) (scene : Scene K)
    (pos norm v kd ks : vec3f K) (n : K) (mf : Bool) (st : Option (vec3f K) × R) :
    Option (vec3f K) × R :=
  if scene.background ≠ zero3f then
    let smp := environment_sample_checked M C scene norm v kd ks n mf st.2
    let dir := smp.1.1
    let brdfcos := smp.1.2.1
    let response := smp.1.2.2
    if brdfcos ≠ some zero3f then
      if scene.path_shadows then
        if ¬ (C.intersect scene (mkRay C pos dir)).hit then
          (add_checked st.1 response, smp.2)
        else (st.1, smp.2)
      else (add_checked st.1 response, smp.2)
    else (st.1, smp.2)
  else st

/-- Lines 67-207 of `pathtrace_ray` with partial division: the direct stage of a hit. -/
def hit_direct_checked (M : MathFns K) (C : Collab K R) (scene : Scene K) (ray : ray3f K)
    (rng : R) (depth : Int) (intersection : intersection3f K) : Option (vec3f K) × R :=
  let pos := intersection.pos
  let norm := intersection.norm
  let v := -ray.d
  let ke := lookup_scaled_texture M intersection.mat.ke intersection.mat.ke_txt intersection.texcoord
  let kd := lookup_scaled_texture M intersection.mat.kd intersection.mat.kd_txt intersection.texcoord
  let ks := lookup_scaled_texture M intersection.mat.ks intersection.mat.ks_txt intersection.texcoord
  let n := intersection.mat.n
  let mf := intersection.mat.microfacet
  let c := scene.ambient * kd
  let c := if depth = 0 ∧ dot v norm > 0 then c + ke else c
  let c := scene.lights.foldl (shade_point_light_checked M C scene pos norm v kd ks n mf)
    (some c)
  let st := scene.surfaces.foldl (shade_area_light_checked M C scene pos norm v kd ks n mf)
    (c, rng)
  shade_environment_checked M C scene pos norm v kd ks n mf st

/-- Lines 209-228 of `pathtrace_ray` with partial division: the indirect bounce.  The
weight `brdfcos / pdf` multiplies the color of the recursive call. -/
def indirect_bounce_checked (M : MathFns K) (C : Collab K R)
    (self : Scene K → ray3f K → R → Int → Option (Option (vec3f K) × R))
    (scene : Scene K) (ray : ray3f K) (depth : Int) (intersection : intersection3f K)
    (st : Option (vec3f K) × R) : Option (Option (vec3f K) × R) :=
  let pos := intersection.pos
  let norm := intersection.norm
  let v := -ray.d
  let kd := lookup_scaled_texture M intersection.mat.kd intersection.mat.kd_txt intersection.texcoord
  let ks := lookup_scaled_texture M intersection.mat.ks intersection.mat.ks_txt intersection.texcoord
  let mf := intersection.mat.microfacet
  if (kd ≠ zero3f ∨ ks ≠ zero3f) ∧ depth < scene.path_max_depth then
    let n := intersection.mat.n
    let r1 := C.next_vec2f st.2
    let ruv := r1.1
    let r2 := C.next_float r1.2
    let rl := r2.1
    let indirect := C.sample_brdf kd ks n v norm ruv rl
    let dir := indirect.1
    let pdf := indirect.2
    let rayindirect := mkRay C pos dir
    let brdfcos := (eval_brdf_checked M kd ks n v dir norm mf).map
      fun (b : vec3f K) => max (dot norm dir) 0 * b
    let weight := brdfcos.bind fun bc => checked_divs bc pdf
    match self scene rayindirect r2.2 (depth + 1) with
    | none => none
    | some res =>
      some (add_checked st.1 (res.1.bind fun l => weight.map fun w => l * w), res.2)
  else some st

/-- Lines 230-236 of `pathtrace_ray` with a color that may be undefined: the mirror
reflection. -/
def reflect_bounce_checked (C : Collab K R)
    (self : Scene K → ray3f K → R → Int → Option (Option (vec3f K) × R))
    (scene : Scene K) (ray : ray3f K) (depth : Int) (intersection : intersection3f K)
    (st : Option (vec3f K) × R) : Option (Option (vec3f K) × R) :=
  if ¬ (intersection.mat.kr = zero3f) then
    let rr := mkRay C intersection.pos (C.reflect ray.d intersection.norm)
    match self scene rr st.2 (depth + 1) with
    | none => none
    | some res =>
      some (add_checked st.1 (res.1.map fun l => intersection.mat.kr * l), res.2)
  else some st

/-- The body of `pathtrace_ray` (lines 58-240) with partial division. -/
def pathtrace_body_checked (M : MathFns K) (C : Collab K R)
    (self : Scene K → ray3f K → R → Int → Option (Option (vec3f K) × R))
    (scene : Scene K) (ray : ray3f K) (rng : R) (depth : Int) :
    Option (Option (vec3f K) × R) :=
  let intersection := C.intersect scene ray
  if ¬ intersection.hit then
    some (eval_env_checked M scene.background scene.background_txt ray.d, rng)
  else
    match indirect_bounce_checked M C self scene ray depth intersection
        (hit_direct_checked M C scene ray rng depth intersection) with
    | none => none
    | some st => reflect_bounce_checked C self scene ray depth intersection st

/-- Source `pathtrace_ray` (lines 58-240) with partial division.  The first argument is
the fuel; the outer `none` is a call that did not return within it; a returned color
`none` is undefined, a returned color `some c` is the finite color `c`. -/
def pathtrace_ray_checked (M : MathFns K) (C : Collab K R) :
    Nat → Scene K → ray3f K → R → Int → Option (Option (vec3f K) × R)
  | 0 => fun _ _ _ _ => none
  | fuel + 1 => pathtrace_body_checked M C (pathtrace_ray_checked M C fuel)

/-- Whether a run has returned a color that is undefined. -/
def color_undefined (x : Option (Option (vec3f K) × R)) : Bool :=
  match x with
  | some (none, _) => true
  | _ => false

/-- A color that may be undefined agrees with a color: when it is defined, it is that
color. -/
def ColorAgrees (a : Option (vec3f K)) (b : vec3f K) : Prop := ∀ c, a = some c → c = b

/-- Agreement of a run with partial division and a run of `pathtrace_ray`: neither
returns, or both return, with the same generator state, and the color of the first,
when it is defined, is the color of the second. -/
def RunAgrees (a : Option (Option (vec3f K) × R)) (b : Option (vec3f K × R)) : Prop :=
  match a, b with
  | none, none => True
  | some x, some y => x.2 = y.2 ∧ ColorAgrees x.1 y.1
  | _, _ => False

end Checked

/-! ## Basic facts about vectors and textures -/

section Basic
variable {K : Type} [LinearOrderedField K]

@[simp] theorem zero3f_x : (zero3f : vec3f K).x = 0 := rfl
@[simp] theorem zero3f_y : (zero3f : vec3f K).y = 0 := rfl
@[simp] theorem zero3f_z : (zero3f : vec3f K).z = 0 := rfl
@[simp] theorem one3f_x : (one3f : vec3f K).x = 1 := rfl
@[simp] theorem one3f_y : (one3f : vec3f K).y = 1 := rfl
@[simp] theorem one3f_z : (one3f : vec3f K).z = 1 := rfl
@[simp] theorem add_x (a b : vec3f K) : (a + b).x = a.x + b.x := rfl
@[simp] theorem add_y (a b : vec3f K) : (a + b).y = a.y + b.y := rfl
@[simp] theorem add_z (a b : vec3f K) : (a + b).z = a.z + b.z := rfl
@[simp] theorem sub_x (a b : vec3f K) : (a - b).x = a.x - b.x := rfl
@[simp] theorem sub_y (a b : vec3f K) : (a - b).y = a.y - b.y := rfl
@[simp] theorem sub_z (a b : vec3f K) : (a - b).z = a.z - b.z := rfl
@[simp] theorem neg_x (a : vec3f K) : (-a).x = -a.x := rfl
@[simp] theorem neg_y (a : vec3f K) : (-a).y = -a.y := rfl
@[simp] theorem neg_z (a : vec3f K) : (-a).z = -a.z := rfl
@[simp] theorem mul_x (a b : vec3f K) : (a * b).x = a.x * b.x := rfl
@[simp] theorem mul_y (a b : vec3f K) : (a * b).y = a.y * b.y := rfl
@[simp] theorem mul_z (a b : vec3f K) : (a * b).z = a.z * b.z := rfl
@[simp] theorem smul_x (s : K) (a : vec3f K) : (s * a).x = s * a.x := rfl
@[simp] theorem smul_y (s : K) (a : vec3f K) : (s * a).y = s * a.y := rfl
@[simp] theorem smul_z (s : K) (a : vec3f K) : (s * a).z = s * a.z := rfl
@[simp] theorem muls_x (a : vec3f K) (s : K) : (a * s).x = a.x * s := rfl
@[simp] theorem muls_y (a : vec3f K) (s : K) : (a * s).y = a.y * s := rfl
@[simp] theorem muls_z (a : vec3f K) (s : K) : (a * s).z = a.z * s := rfl
@[simp] theorem divs_x (a : vec3f K) (s : K) : (a / s).x = a.x / s := rfl
@[simp] theorem divs_y (a : vec3f K) (s : K) : (a / s).y = a.y / s := rfl
@[simp] theorem divs_z (a : vec3f K) (s : K) : (a / s).z = a.z / s := rfl

theorem smul_zero3f (s : K) : s * (zero3f : vec3f K) = zero3f := by
  ext <;> simp

theorem add_zero3f (a : vec3f K) : a + zero3f = a := by
  ext <;> simp

theorem zero3f_add (a : vec3f K) : zero3f + a = a := by
  ext <;> simp

theorem zero3f_mul (a : vec3f K) : zero3f * a = zero3f := by
  ext <;> simp

theorem mul_zero3f (a : vec3f K) : a * zero3f = zero3f := by
  ext <;> simp

/-- Skipping a zero term is the same as adding it. -/
theorem skip_zero_eq_add (c shade : vec3f K) :
    (if shade = zero3f then c else c + shade) = c + shade := by
  split
  · next h => rw [h, add_zero3f]
  · rfl

/-- With `kd = ks = 0` the Phong-style branch of `eval_brdf` is zero. -/
theorem eval_brdf_phong_zero (M : MathFns K) (n : K) (v l norm : vec3f K) :
    eval_brdf M zero3f zero3f n v l norm false = zero3f := by
  ext <;> simp [eval_brdf]

variable [FloorRing K]

theorem lookup_zero3f {M : MathFns K} (t : Option (image3f K)) (uv : vec2f K) :
    lookup_scaled_texture M zero3f t uv = zero3f := by
  cases t with
  | none => rfl
  | some t => simp [lookup_scaled_texture, zero3f_mul]

theorem eval_env_zero3f (M : MathFns K) (t : Option (image3f K)) (d : vec3f K) :
    eval_env M zero3f t d = zero3f := by
  simp [eval_env, lookup_zero3f]

end Basic

/-! ## Facts about the stages of `pathtrace_ray` -/

section Stages
variable {K : Type} [LinearOrderedField K] [FloorRing K] {R : Type}

/-- A surface without emission is skipped by the surface loop: nothing is added and
no random number is drawn. -/
theorem foldl_area_no_emission (M : MathFns K) (C : Collab K R) (scene : Scene K)
    (pos norm v kd ks : vec3f K) (n : K) (mf : Bool) (l : List (Surface K))
    (h : ∀ s ∈ l, s.mat.ke = zero3f) (st : vec3f K × R) :
    l.foldl (shade_area_light M C scene pos norm v kd ks n mf) st = st := by
  induction l generalizing st with
  | nil => rfl
  | cons s l ih =>
    have hs : s.mat.ke = zero3f := h s (List.mem_cons_self _ _)
    have hl : ∀ t ∈ l, t.mat.ke = zero3f := fun t ht => h t (List.mem_cons_of_mem _ ht)
    simp only [List.foldl_cons]
    rw [show shade_area_light M C scene pos norm v kd ks n mf st s = st by
      simp [shade_area_light, hs]]
    exact ih hl st

/-- With a zero background the environment block does nothing. -/
theorem shade_environment_zero_bg (M : MathFns K) (C : Collab K R) (scene : Scene K)
    (pos norm v kd ks : vec3f K) (n : K) (mf : Bool) (st : vec3f K × R)
    (h : scene.background = zero3f) :
    shade_environment M C scene pos norm v kd ks n mf st = st := by
  simp [shade_environment, h]

/-- A ray that misses all geometry returns the environment, at any positive fuel. -/
theorem pathtrace_ray_miss (M : MathFns K) (C : Collab K R) (fuel : Nat) (scene : Scene K)
    (ray : ray3f K) (rng : R) (depth : Int) (h : (C.intersect scene ray).hit = false) :
    pathtrace_ray M C (fuel + 1) scene ray rng depth
      = some (eval_env M scene.background scene.background_txt ray.d, rng) := by
  simp [pathtrace_ray, pathtrace_body, h]

/-- The indirect bounce keeps its result when `self` is replaced by a function that
keeps the results of `self`. -/
theorem indirect_bounce_mono (M : MathFns K) (C : Collab K R)
    (self self2 : Scene K → ray3f K → R → Int → Option (vec3f K × R))
    (h : ∀ sc r g d res, self sc r g d = some res → self2 sc r g d = some res)
    (scene : Scene K) (ray : ray3f K) (depth : Int) (isect : intersection3f K)
    (st res : vec3f K × R)
    (hres : indirect_bounce M C self scene ray depth isect st = some res) :
    indirect_bounce M C self2 scene ray depth isect st = some res := by
  unfold indirect_bounce at hres ⊢
  simp only at hres ⊢
  split
  · next hc =>
    rw [if_pos hc] at hres
    split at hres
    · simp at hres
    · next r1 h1 => rw [h _ _ _ _ _ h1]; exact hres
  · next hc => rw [if_neg hc] at hres; exact hres

/-- The mirror reflection keeps its result when `self` is replaced by a function that
keeps the results of `self`. -/
theorem reflect_bounce_mono (C : Collab K R)
    (self self2 : Scene K → ray3f K → R → Int → Option (vec3f K × R))
    (h : ∀ sc r g d res, self sc r g d = some res → self2 sc r g d = some res)
    (scene : Scene K) (ray : ray3f K) (depth : Int) (isect : intersection3f K)
    (st res : vec3f K × R)
    (hres : reflect_bounce C self scene ray depth isect st = some res) :
    reflect_bounce C self2 scene ray depth isect st = some res := by
  unfold reflect_bounce at hres ⊢
  simp only at hres ⊢
  split
  · next hc =>
    rw [if_pos hc] at hres
    split at hres
    · simp at hres
    · next r1 h1 => rw [h _ _ _ _ _ h1]; exact hres
  · next hc => rw [if_neg hc] at hres; exact hres

/-- The body of `pathtrace_ray` is monotone in the function used for the recursive
calls. -/
theorem pathtrace_body_mono (M : MathFns K) (C : Collab K R)
    (self self2 : Scene K → ray3f K → R → Int → Option (vec3f K × R))
    (h : ∀ sc r g d res, self sc r g d = some res → self2 sc r g d = some res)
    (scene : Scene K) (ray : ray3f K) (rng : R) (depth : Int) (res : vec3f K × R)
    (hres : pathtrace_body M C self scene ray rng depth = some res) :
    pathtrace_body M C self2 scene ray rng depth = some res := by
  unfold pathtrace_body at hres ⊢
  simp only at hres ⊢
  split
  · next hh => rw [if_pos hh] at hres; exact hres
  · next hh =>
    rw [if_neg hh] at hres
    split at hres
    · simp at hres
    · next st1 h1 =>
      rw [indirect_bounce_mono M C self self2 h _ _ _ _ _ _ h1]
      exact reflect_bounce_mono C self self2 h _ _ _ _ _ _ hres

/-- More fuel never changes a result already obtained. -/
theorem pathtrace_ray_fuel_succ (M : MathFns K) (C : Collab K R) (fuel : Nat) :
    ∀ (scene : Scene K) (ray : ray3f K) (rng : R) (depth : Int) (res : vec3f K × R),
      pathtrace_ray M C fuel scene ray rng depth = some res →
      pathtrace_ray M C (fuel + 1) scene ray rng depth = some res := by
  induction fuel with
  | zero => intro scene ray rng depth res h; simp [pathtrace_ray] at h
  | succ k ih =>
    intro scene ray rng depth res h
    exact pathtrace_body_mono M C _ _ ih scene ray rng depth res h

/-- More fuel never changes a result already obtained. -/
theorem pathtrace_ray_fuel_mono (M : MathFns K) (C : Collab K R) (fuel k : Nat)
    (scene : Scene K) (ray : ray3f K) (rng : R) (depth : Int) (res : vec3f K × R)
    (h : pathtrace_ray M C fuel scene ray rng depth = some res) :
    pathtrace_ray M C (fuel + k) scene ray rng depth = some res := by
  induction k with
  | zero => exact h
  | succ k ih => exact pathtrace_ray_fuel_succ M C (fuel + k) scene ray rng depth res ih

/-- Without reflective materials the recursion is depth-gated: any fuel above
`path_max_depth - depth` lets the call return. -/
theorem pathtrace_ray_returns (M : MathFns K) (C : Collab K R) (scene : Scene K)
    (hkr : ∀ r, (C.intersect scene r).hit = true → (C.intersect scene r).mat.kr = zero3f)
    (fuel : Nat) :
    ∀ (ray : ray3f K) (rng : R) (depth : Int),
      (scene.path_max_depth - depth).toNat < fuel →
      ∃ res, pathtrace_ray M C fuel scene ray rng depth = some res := by
  induction fuel with
  | zero => intro ray rng depth h; omega
  | succ k ih =>
    intro ray rng depth h
    show ∃ res, pathtrace_body M C (pathtrace_ray M C k) scene ray rng depth = some res
    unfold pathtrace_body
    simp only
    split
    · exact ⟨_, rfl⟩
    · next hh =>
      have hhit : (C.intersect scene ray).hit = true := by simpa using hh
      have hk := hkr ray hhit
      have hrefl : ∀ st, reflect_bounce C (pathtrace_ray M C k) scene ray depth
          (C.intersect scene ray) st = some st := by
        intro st; simp [reflect_bounce, hk]
      by_cases hc : (lookup_scaled_texture M (C.intersect scene ray).mat.kd
            (C.intersect scene ray).mat.kd_txt (C.intersect scene ray).texcoord ≠ zero3f ∨
          lookup_scaled_texture M (C.intersect scene ray).mat.ks
            (C.intersect scene ray).mat.ks_txt (C.intersect scene ray).texcoord ≠ zero3f) ∧
          depth < scene.path_max_depth
      · have hlt : (scene.path_max_depth - (depth + 1)).toNat < k := by
          have := hc.2
          omega
        unfold indirect_bounce
        simp only
        rw [if_pos hc]
        obtain ⟨r1, hr1⟩ := ih (mkRay C (C.intersect scene ray).pos
          (C.sample_brdf
            (lookup_scaled_texture M (C.intersect scene ray).mat.kd
              (C.intersect scene ray).mat.kd_txt (C.intersect scene ray).texcoord)
            (lookup_scaled_texture M (C.intersect scene ray).mat.ks
              (C.intersect scene ray).mat.ks_txt (C.intersect scene ray).texcoord)
            (C.intersect scene ray).mat.n (-ray.d) (C.intersect scene ray).norm
            (C.next_vec2f (hit_direct M C scene ray rng depth (C.intersect scene ray)).2).1
            (C.next_float (C.next_vec2f
              (hit_direct M C scene ray rng depth (C.intersect scene ray)).2).2).1).1)
          (C.next_float (C.next_vec2f
              (hit_direct M C scene ray rng depth (C.intersect scene ray)).2).2).2
          (depth + 1) hlt
        rw [hr1]
        exact ⟨_, hrefl _⟩
      · unfold indirect_bounce
        simp only
        rw [if_neg hc]
        exact ⟨_, hrefl _⟩

end Stages

/-! ## Non-negativity of the reflectance model -/

section Reflectance
variable {K : Type} [LinearOrderedField K]

theorem nonneg_zero3f : (zero3f : vec3f K).Nonneg := ⟨le_refl _, le_refl _, le_refl _⟩

theorem nonneg_add {a b : vec3f K} (ha : a.Nonneg) (hb : b.Nonneg) : (a + b).Nonneg :=
  ⟨add_nonneg ha.1 hb.1, add_nonneg ha.2.1 hb.2.1, add_nonneg ha.2.2 hb.2.2⟩

theorem nonneg_mul {a b : vec3f K} (ha : a.Nonneg) (hb : b.Nonneg) : (a * b).Nonneg :=
  ⟨mul_nonneg ha.1 hb.1, mul_nonneg ha.2.1 hb.2.1, mul_nonneg ha.2.2 hb.2.2⟩

theorem nonneg_smul {s : K} {a : vec3f K} (hs : 0 ≤ s) (ha : a.Nonneg) : (s * a).Nonneg :=
  ⟨mul_nonneg hs ha.1, mul_nonneg hs ha.2.1, mul_nonneg hs ha.2.2⟩

theorem nonneg_muls {s : K} {a : vec3f K} (ha : a.Nonneg) (hs : 0 ≤ s) : (a * s).Nonneg :=
  ⟨mul_nonneg ha.1 hs, mul_nonneg ha.2.1 hs, mul_nonneg ha.2.2 hs⟩

theorem nonneg_divs {s : K} {a : vec3f K} (ha : a.Nonneg) (hs : 0 ≤ s) : (a / s).Nonneg :=
  ⟨div_nonneg ha.1 hs, div_nonneg ha.2.1 hs, div_nonneg ha.2.2 hs⟩

theorem le_refl3 (a : vec3f K) : a.Le a := ⟨le_refl _, le_refl _, le_refl _⟩

theorem le_add_nonneg {a b c : vec3f K} (h : a.Le b) (hc : c.Nonneg) : a.Le (b + c) :=
  ⟨le_add_of_le_of_nonneg h.1 hc.1, le_add_of_le_of_nonneg h.2.1 hc.2.1,
    le_add_of_le_of_nonneg h.2.2 hc.2.2⟩

theorem le_add_add {a b c d : vec3f K} (h : a.Le b) (hc : c.Le d) : (a + c).Le (b + d) :=
  ⟨add_le_add h.1 hc.1, add_le_add h.2.1 hc.2.1, add_le_add h.2.2 hc.2.2⟩

theorem le_mul_nonneg {a b w : vec3f K} (h : a.Le b) (hw : w.Nonneg) : (a * w).Le (b * w) :=
  ⟨mul_le_mul_of_nonneg_right h.1 hw.1, mul_le_mul_of_nonneg_right h.2.1 hw.2.1,
    mul_le_mul_of_nonneg_right h.2.2 hw.2.2⟩

theorem le_nonneg_mul {a b w : vec3f K} (h : a.Le b) (hw : w.Nonneg) : (w * a).Le (w * b) :=
  ⟨mul_le_mul_of_nonneg_left h.1 hw.1, mul_le_mul_of_nonneg_left h.2.1 hw.2.1,
    mul_le_mul_of_nonneg_left h.2.2 hw.2.2⟩

theorem lengthSqr_nonneg (a : vec3f K) : 0 ≤ lengthSqr a := by
  unfold lengthSqr dot
  nlinarith [mul_self_nonneg a.x, mul_self_nonneg a.y, mul_self_nonneg a.z]

theorem dot_comm (a b : vec3f K) : dot a b = dot b a := by
  unfold dot; ring

/-- Cauchy-Schwarz for unit vectors, lower bound. -/
theorem neg_one_le_dot_unit (v l : vec3f K) (hv : dot v v = 1) (hl : dot l l = 1) :
    -1 ≤ dot v l := by
  have h : 0 ≤ dot (v + l) (v + l) := lengthSqr_nonneg (v + l)
  have e : dot (v + l) (v + l) = dot v v + dot l l + 2 * dot v l := by
    simp only [dot, add_x, add_y, add_z]; ring
  rw [e, hv, hl] at h
  linarith

/-- Cauchy-Schwarz for unit vectors, upper bound. -/
theorem dot_unit_le_one (v l : vec3f K) (hv : dot v v = 1) (hl : dot l l = 1) :
    dot v l ≤ 1 := by
  have h : 0 ≤ dot (v - l) (v - l) := lengthSqr_nonneg (v - l)
  have e : dot (v - l) (v - l) = dot v v + dot l l - 2 * dot v l := by
    simp only [dot, sub_x, sub_y, sub_z]; ring
  rw [e, hv, hl] at h
  linarith

theorem length_nonneg (M : MathFns K) (L : MathLaws M) (a : vec3f K) : 0 ≤ length M a :=
  L.sqrt_nonneg _

theorem length_mul_self (M : MathFns K) (L : MathLaws M) (a : vec3f K) :
    length M a * length M a = lengthSqr a :=
  L.sqrt_mul_self _ (lengthSqr_nonneg a)

theorem dot_normalize_left (M : MathFns K) (a b : vec3f K) :
    dot (normalize M a) b = dot a b / length M a := by
  simp only [normalize, dot, divs_x, divs_y, divs_z]; ring

theorem dot_normalize_right (M : MathFns K) (a b : vec3f K) :
    dot b (normalize M a) = dot b a / length M a := by
  rw [dot_comm, dot_normalize_left, dot_comm]

/-- A normalized vector is a unit vector as soon as its dot product with some vector is
not zero (which rules out the zero vector). -/
theorem normalize_unit_of_dot_ne (M : MathFns K) (L : MathLaws M) (a b : vec3f K)
    (h : dot b (normalize M a) ≠ 0) : dot (normalize M a) (normalize M a) = 1 := by
  rw [dot_normalize_right] at h
  have hs : length M a ≠ 0 := by
    intro h0; rw [h0, div_zero] at h; exact h rfl
  rw [dot_normalize_left, dot_normalize_right]
  have e : dot a a = length M a * length M a := (length_mul_self M L a).symm
  rw [e]
  field_simp

/-- The facts about the half vector `h = normalize(v + l)` of two unit vectors used by
the microfacet model. -/
theorem half_vector_facts (M : MathFns K) (L : MathLaws M) (v l : vec3f K)
    (hv : dot v v = 1) (hl : dot l l = 1) :
    0 ≤ dot v (normalize M (v + l)) ∧ 0 ≤ dot l (normalize M (v + l)) ∧
    0 ≤ dot (normalize M (v + l)) l ∧ dot (normalize M (v + l)) l ≤ 1 := by
  have hs : 0 ≤ length M (v + l) := length_nonneg M L _
  have hq : 0 ≤ 1 + dot v l := by linarith [neg_one_le_dot_unit v l hv hl]
  have hq2 : dot v l ≤ 1 := dot_unit_le_one v l hv hl
  have e1 : dot v (v + l) = 1 + dot v l := by
    rw [← hv]; simp only [dot, add_x, add_y, add_z]; ring
  have e2 : dot l (v + l) = 1 + dot v l := by
    rw [← hl]; simp only [dot, add_x, add_y, add_z]; ring
  have e3 : lengthSqr (v + l) = 2 * (1 + dot v l) := by
    have : lengthSqr (v + l) = dot v v + dot l l + 2 * dot v l := by
      simp only [lengthSqr, dot, add_x, add_y, add_z]; ring
    rw [this, hv, hl]; ring
  have hss := length_mul_self M L (v + l)
  rw [e3] at hss
  refine ⟨?_, ?_, ?_, ?_⟩
  · rw [dot_normalize_right, e1]; exact div_nonneg hq hs
  · rw [dot_normalize_right, e2]; exact div_nonneg hq hs
  · rw [dot_comm, dot_normalize_right, e2]; exact div_nonneg hq hs
  · rw [dot_comm, dot_normalize_right, e2]
    rcases eq_or_lt_of_le hs with h0 | hpos
    · rw [← h0, div_zero]; exact zero_le_one
    · rw [div_le_one hpos]
      nlinarith

/-- The Phong-style branch of `eval_brdf` is non-negative for non-negative coefficients
and exponent. -/
theorem eval_brdf_phong_nonneg (M : MathFns K) (L : MathLaws M) (kd ks : vec3f K) (n : K)
    (v l norm : vec3f K) (hkd : kd.Nonneg) (hks : ks.Nonneg) (hn : 0 ≤ n) :
    (eval_brdf M kd ks n v l norm false).Nonneg := by
  have hpi := L.pi_pos
  have hp : 0 ≤ M.pow (max 0 (dot norm (normalize M (v + l)))) n :=
    L.pow_nonneg _ _ (le_max_left _ _)
  simp only [eval_brdf, Bool.false_eq_true, not_false_eq_true, if_true]
  exact nonneg_add (nonneg_divs hkd hpi.le)
    (nonneg_muls (nonneg_divs (nonneg_muls hks (by linarith)) (by linarith)) hp)

/-- Sign of a quotient whose numerator and denominator have the same sign. -/
theorem div_nonneg_of_same_sign {x y : K} (h : (0 ≤ x ∧ 0 ≤ y) ∨ (x ≤ 0 ∧ y ≤ 0)) :
    0 ≤ x / y := by
  rcases h with ⟨hx, hy⟩ | ⟨hx, hy⟩
  · exact div_nonneg hx hy
  · exact div_nonneg_of_nonpos hx hy

/-- The microfacet branch of `eval_brdf` is non-negative for unit view and light
vectors when the light is above the surface, on either side of the viewer: the
geometry term and the denominator change sign together. -/
theorem eval_brdf_microfacet_nonneg (M : MathFns K) (L : MathLaws M) (kd ks : vec3f K)
    (n : K) (v l norm : vec3f K) (hks : ks.Nonneg) (hn : 0 ≤ n)
    (hv : dot v v = 1) (hl : dot l l = 1) (hb : 0 < dot norm l) :
    (eval_brdf M kd ks n v l norm true).Nonneg := by
  have hpi := L.pi_pos
  obtain ⟨hvh, hlh, hhl0, hhl1⟩ := half_vector_facts M L v l hv hl
  have hb2 : 0 < dot l norm := by rw [dot_comm]; exact hb
  have hd : 0 ≤ (n + 2) / (2 * M.pi) * M.pow (max 0 (dot norm (normalize M (v + l)))) n :=
    mul_nonneg (div_nonneg (by linarith) (by linarith)) (L.pow_nonneg _ _ (le_max_left _ _))
  have ht0 : 0 ≤ M.pow (1 - dot (normalize M (v + l)) l) 5 :=
    L.pow_nonneg _ _ (by linarith)
  have ht1 : M.pow (1 - dot (normalize M (v + l)) l) 5 ≤ 1 :=
    L.pow_le_one _ _ (by linarith) (by linarith) (by norm_num)
  have hf : (ks + (one3f - ks) * M.pow (1 - dot (normalize M (v + l)) l) 5).Nonneg := by
    refine ⟨?_, ?_, ?_⟩ <;> simp only [add_x, add_y, add_z, muls_x, muls_y, muls_z, sub_x,
      sub_y, sub_z, one3f_x, one3f_y, one3f_z]
    · nlinarith [hks.1]
    · nlinarith [hks.2.1]
    · nlinarith [hks.2.2]
  have hhn : dot (normalize M (v + l)) norm
      = (dot v norm + dot l norm) / length M (v + l) := by
    rw [dot_normalize_left]
    congr 1
    simp only [dot, add_x, add_y, add_z]; ring
  have hsign :
      (0 ≤ min (min 1 ((2 * dot (normalize M (v + l)) norm * dot v norm)
              / dot v (normalize M (v + l))))
            ((2 * dot (normalize M (v + l)) norm * dot l norm) / dot l (normalize M (v + l)))
        ∧ 0 ≤ 4 * dot l norm * dot v norm) ∨
      (min (min 1 ((2 * dot (normalize M (v + l)) norm * dot v norm)
              / dot v (normalize M (v + l))))
            ((2 * dot (normalize M (v + l)) norm * dot l norm) / dot l (normalize M (v + l)))
          ≤ 0
        ∧ 4 * dot l norm * dot v norm ≤ 0) := by
    rcases le_or_lt 0 (dot v norm) with ha | ha
    · left
      have hhn0 : 0 ≤ dot (normalize M (v + l)) norm := by
        rw [hhn]; exact div_nonneg (by linarith) (length_nonneg M L _)
      refine ⟨le_min (le_min zero_le_one ?_) ?_, ?_⟩
      · exact div_nonneg (mul_nonneg (mul_nonneg (by norm_num) hhn0) ha) hvh
      · exact div_nonneg (mul_nonneg (mul_nonneg (by norm_num) hhn0) hb2.le) hlh
      · exact mul_nonneg (mul_nonneg (by norm_num) hb2.le) ha
    · right
      refine ⟨?_, ?_⟩
      · rcases le_or_lt 0 (dot (normalize M (v + l)) norm) with hh | hh
        · refine le_trans (min_le_left _ _) (le_trans (min_le_right _ _) ?_)
          exact div_nonpos_of_nonpos_of_nonneg (by nlinarith) hvh
        · refine le_trans (min_le_right _ _) ?_
          exact div_nonpos_of_nonpos_of_nonneg (by nlinarith) hlh
      · nlinarith
  have hq := div_nonneg_of_same_sign hsign
  simp only [eval_brdf, not_true_eq_false, if_false]
  refine ⟨?_, ?_, ?_⟩ <;> simp only [divs_x, divs_y, divs_z, smul_x, smul_y, smul_z]
  · rw [mul_assoc, mul_div_assoc, mul_comm _ (vec3f.x _), mul_div_assoc]
    exact mul_nonneg hd (mul_nonneg hf.1 hq)
  · rw [mul_assoc, mul_div_assoc, mul_comm _ (vec3f.y _), mul_div_assoc]
    exact mul_nonneg hd (mul_nonneg hf.2.1 hq)
  · rw [mul_assoc, mul_div_assoc, mul_comm _ (vec3f.z _), mul_div_assoc]
    exact mul_nonneg hd (mul_nonneg hf.2.2 hq)

/-- The material response `max(dot(norm,l),0) * eval_brdf(...)` is non-negative under
both reflectance models, whatever the side the surface is seen from. -/
theorem brdfcos_nonneg (M : MathFns K) (L : MathLaws M) (kd ks : vec3f K) (n : K)
    (v l norm : vec3f K) (mf : Bool) (hkd : kd.Nonneg) (hks : ks.Nonneg) (hn : 0 ≤ n)
    (hv : dot v v = 1) (hl : 0 < dot norm l → dot l l = 1) :
    (max (dot norm l) 0 * eval_brdf M kd ks n v l norm mf).Nonneg := by
  rcases le_or_lt (dot norm l) 0 with hb | hb
  · rw [max_eq_right hb]
    refine ⟨?_, ?_, ?_⟩ <;> simp
  · cases mf with
    | false =>
      exact nonneg_smul (le_max_right _ _) (eval_brdf_phong_nonneg M L kd ks n v l norm hkd hks hn)
    | true =>
      exact nonneg_smul (le_max_right _ _)
        (eval_brdf_microfacet_nonneg M L kd ks n v l norm hks hn hv (hl hb) hb)

end Reflectance

/-! ## Non-negativity of the shading stages -/

section StageSigns
variable {K : Type} [LinearOrderedField K] [FloorRing K] {R : Type}

theorem lookup_nonneg {M : MathFns K} (value : vec3f K) (t : Option (image3f K))
    (uv : vec2f K)
    (hv : value.Nonneg) (ht : TexNonneg t) : (lookup_scaled_texture M value t uv).Nonneg := by
  cases t with
  | none => exact hv
  | some img => exact nonneg_mul hv (ht img rfl _ _)

theorem eval_env_nonneg (M : MathFns K) (ke : vec3f K) (t : Option (image3f K))
    (d : vec3f K) (hv : ke.Nonneg) (ht : TexNonneg t) : (eval_env M ke t d).Nonneg :=
  lookup_nonneg ke t _ hv ht

/-- The shading term of a point light is non-negative. -/
theorem point_light_shade_nonneg (M : MathFns K) (L : MathLaws M)
    (pos norm v kd ks : vec3f K) (n : K) (mf : Bool) (light : Light K)
    (hI : light.intensity.Nonneg) (hkd : kd.Nonneg) (hks : ks.Nonneg) (hn : 0 ≤ n)
    (hv : dot v v = 1) : (point_light_shade M pos norm v kd ks n mf light).Nonneg := by
  unfold point_light_shade
  exact nonneg_mul (nonneg_divs hI (lengthSqr_nonneg _))
    (brdfcos_nonneg M L kd ks n v _ norm mf hkd hks hn hv
      (fun h => normalize_unit_of_dot_ne M L _ norm h.ne'))

/-- The area attached to a sampled point of an emissive surface is non-negative. -/
theorem area_light_sample_area_nonneg (M : MathFns K) (L : MathLaws M) (C : Collab K R)
    (rng : R) (s : Surface K) : 0 ≤ (area_light_sample M C rng s).1.2.2.2 := by
  have hp := L.pow_two_nonneg s.radius
  have hpi := L.pi_pos
  unfold area_light_sample
  split_ifs
  · exact mul_nonneg (by norm_num) hp
  · exact mul_nonneg (mul_nonneg (by norm_num) hpi.le) hp

/-- The shading term of a sampled area-light point is non-negative. -/
theorem area_light_shade_nonneg (M : MathFns K) (L : MathLaws M)
    (pos norm v kd ks : vec3f K) (n : K) (mf : Bool) (s : Surface K)
    (smp : vec2f K × vec3f K × vec3f K × K)
    (hm : MaterialNonneg s.mat) (harea : 0 ≤ smp.2.2.2)
    (hkd : kd.Nonneg) (hks : ks.Nonneg) (hn : 0 ≤ n) (hv : dot v v = 1) :
    (area_light_shade M pos norm v kd ks n mf s smp).Nonneg := by
  unfold area_light_shade
  refine nonneg_mul (nonneg_divs (nonneg_muls (nonneg_muls
    (lookup_nonneg _ _ _ hm.ke hm.ke_txt) harea) (le_max_right _ _)) ?_)
    (brdfcos_nonneg M L kd ks n v _ norm mf hkd hks hn hv
      (fun h => normalize_unit_of_dot_ne M L _ norm h.ne'))
  exact lengthSqr_nonneg _

/-- The material response and the weighted environment radiance of the environment
sample are non-negative. -/
theorem environment_sample_nonneg (M : MathFns K) (L : MathLaws M) (C : Collab K R)
    (scene : Scene K) (CL : CollabLaws C scene) (SN : SceneNonneg scene)
    (norm v kd ks : vec3f K) (n : K) (mf : Bool) (rng : R)
    (hkd : kd.Nonneg) (hks : ks.Nonneg) (hn : 0 ≤ n) (hv : dot v v = 1)
    (hnorm : dot norm norm = 1) :
    (environment_sample M C scene norm v kd ks n mf rng).1.2.2.Nonneg := by
  unfold environment_sample
  exact nonneg_divs (nonneg_mul
    (brdfcos_nonneg M L kd ks n v _ norm mf hkd hks hn hv
      (fun _ => CL.sample_unit _ _ _ _ _ _ _ hv hnorm))
    (eval_env_nonneg M _ _ _ SN.background SN.background_txt))
    (CL.sample_pdf_pos _ _ _ _ _ _ _).le

theorem shade_point_light_nonneg (M : MathFns K) (L : MathLaws M) (C : Collab K R)
    (scene : Scene K) (pos norm v kd ks : vec3f K) (n : K) (mf : Bool) (c : vec3f K)
    (light : Light K) (hI : light.intensity.Nonneg) (hkd : kd.Nonneg) (hks : ks.Nonneg)
    (hn : 0 ≤ n) (hv : dot v v = 1) (hc : c.Nonneg) :
    (shade_point_light M C scene pos norm v kd ks n mf c light).Nonneg := by
  have h := point_light_shade_nonneg M L pos norm v kd ks n mf light hI hkd hks hn hv
  unfold shade_point_light
  simp only
  split_ifs <;> first | exact hc | exact nonneg_add hc h

theorem foldl_point_nonneg (M : MathFns K) (L : MathLaws M) (C : Collab K R)
    (scene : Scene K) (pos norm v kd ks : vec3f K) (n : K) (mf : Bool)
    (hkd : kd.Nonneg) (hks : ks.Nonneg) (hn : 0 ≤ n) (hv : dot v v = 1)
    (l : List (Light K)) (hl : ∀ x ∈ l, x.intensity.Nonneg) (c : vec3f K) (hc : c.Nonneg) :
    (l.foldl (shade_point_light M C scene pos norm v kd ks n mf) c).Nonneg := by
  induction l generalizing c with
  | nil => exact hc
  | cons x l ih =>
    simp only [List.foldl_cons]
    exact ih (fun y hy => hl y (List.mem_cons_of_mem _ hy)) _
      (shade_point_light_nonneg M L C scene pos norm v kd ks n mf c x
        (hl x (List.mem_cons_self _ _)) hkd hks hn hv hc)

theorem shade_area_light_nonneg (M : MathFns K) (L : MathLaws M) (C : Collab K R)
    (scene : Scene K) (pos norm v kd ks : vec3f K) (n : K) (mf : Bool) (st : vec3f K × R)
    (s : Surface K) (hm : MaterialNonneg s.mat) (hkd : kd.Nonneg) (hks : ks.Nonneg)
    (hn : 0 ≤ n) (hv : dot v v = 1) (hc : st.1.Nonneg) :
    (shade_area_light M C scene pos norm v kd ks n mf st s).1.Nonneg := by
  have h := area_light_shade_nonneg M L pos norm v kd ks n mf s
    (area_light_sample M C st.2 s).1 hm (area_light_sample_area_nonneg M L C st.2 s)
    hkd hks hn hv
  unfold shade_area_light
  simp only
  split_ifs <;> first | exact hc | exact nonneg_add hc h

theorem foldl_area_nonneg (M : MathFns K) (L : MathLaws M) (C : Collab K R)
    (scene : Scene K) (pos norm v kd ks : vec3f K) (n : K) (mf : Bool)
    (hkd : kd.Nonneg) (hks : ks.Nonneg) (hn : 0 ≤ n) (hv : dot v v = 1)
    (l : List (Surface K)) (hl : ∀ x ∈ l, MaterialNonneg x.mat) (st : vec3f K × R)
    (hc : st.1.Nonneg) :
    (l.foldl (shade_area_light M C scene pos norm v kd ks n mf) st).1.Nonneg := by
  induction l generalizing st with
  | nil => exact hc
  | cons x l ih =>
    simp only [List.foldl_cons]
    exact ih (fun y hy => hl y (List.mem_cons_of_mem _ hy)) _
      (shade_area_light_nonneg M L C scene pos norm v kd ks n mf st x
        (hl x (List.mem_cons_self _ _)) hkd hks hn hv hc)

theorem shade_environment_nonneg (M : MathFns K) (L : MathLaws M) (C : Collab K R)
    (scene : Scene K) (CL : CollabLaws C scene) (SN : SceneNonneg scene)
    (pos norm v kd ks : vec3f K) (n : K) (mf : Bool) (st : vec3f K × R)
    (hkd : kd.Nonneg) (hks : ks.Nonneg) (hn : 0 ≤ n) (hv : dot v v = 1)
    (hnorm : dot norm norm = 1) (hc : st.1.Nonneg) :
    (shade_environment M C scene pos norm v kd ks n mf st).1.Nonneg := by
  have h := environment_sample_nonneg M L C scene CL SN norm v kd ks n mf st.2
    hkd hks hn hv hnorm
  unfold shade_environment
  simp only
  split_ifs <;> first | exact hc | exact nonneg_add hc h

/-- The material a hit reports is one of the scene's, hence non-negative in a
non-negative scene. -/
theorem hit_material_nonneg (C : Collab K R) (scene : Scene K) (CL : CollabLaws C scene)
    (SN : SceneNonneg scene) (r : ray3f K) (h : (C.intersect scene r).hit = true) :
    MaterialNonneg (C.intersect scene r).mat := by
  obtain ⟨s, hs, e⟩ := CL.hit_mat_mem r h
  rw [e]
  exact SN.surfaces s hs

theorem dot_neg_neg (a : vec3f K) : dot (-a) (-a) = dot a a := by
  simp only [dot, neg_x, neg_y, neg_z]; ring

/-- The color accumulated by the direct stage of a hit is non-negative. -/
theorem hit_direct_nonneg (M : MathFns K) (L : MathLaws M) (C : Collab K R)
    (scene : Scene K) (CL : CollabLaws C scene) (SN : SceneNonneg scene)
    (ray : ray3f K) (rng : R) (depth : Int) (hd : dot ray.d ray.d = 1)
    (h : (C.intersect scene ray).hit = true) :
    (hit_direct M C scene ray rng depth (C.intersect scene ray)).1.Nonneg := by
  have hm := hit_material_nonneg C scene CL SN ray h
  have hv : dot (-ray.d) (-ray.d) = 1 := by rw [dot_neg_neg]; exact hd
  have hkd := lookup_nonneg (M := M) _ _ (C.intersect scene ray).texcoord hm.kd hm.kd_txt
  have hks := lookup_nonneg (M := M) _ _ (C.intersect scene ray).texcoord hm.ks hm.ks_txt
  have hke := lookup_nonneg (M := M) _ _ (C.intersect scene ray).texcoord hm.ke hm.ke_txt
  unfold hit_direct
  simp only
  refine shade_environment_nonneg M L C scene CL SN _ _ _ _ _ _ _ _ hkd hks hm.n hv
    (CL.hit_norm_unit ray h) ?_
  refine foldl_area_nonneg M L C scene _ _ _ _ _ _ _ hkd hks hm.n hv _ SN.surfaces _ ?_
  refine foldl_point_nonneg M L C scene _ _ _ _ _ _ _ hkd hks hm.n hv _ SN.lights _ ?_
  split_ifs
  · exact nonneg_add (nonneg_mul SN.ambient hkd) hke
  · exact nonneg_mul SN.ambient hkd

/-- The weight `brdfcos / pdf` of the indirect bounce is non-negative. -/
theorem indirect_weight_nonneg (M : MathFns K) (L : MathLaws M) (C : Collab K R)
    (scene : Scene K) (CL : CollabLaws C scene)
    (norm v kd ks : vec3f K) (n : K) (mf : Bool) (ruv : vec2f K) (rl : K)
    (hkd : kd.Nonneg) (hks : ks.Nonneg) (hn : 0 ≤ n) (hv : dot v v = 1)
    (hnorm : dot norm norm = 1) :
    ((max (dot norm (C.sample_brdf kd ks n v norm ruv rl).1) 0
        * eval_brdf M kd ks n v (C.sample_brdf kd ks n v norm ruv rl).1 norm mf)
      / (C.sample_brdf kd ks n v norm ruv rl).2).Nonneg :=
  nonneg_divs (brdfcos_nonneg M L kd ks n v _ norm mf hkd hks hn hv
      (fun _ => CL.sample_unit _ _ _ _ _ _ _ hv hnorm))
    (CL.sample_pdf_pos _ _ _ _ _ _ _).le

/-- The indirect bounce keeps the accumulator non-negative when the recursive calls
return non-negative colors for unit rays. -/
theorem indirect_bounce_nonneg (M : MathFns K) (L : MathLaws M) (C : Collab K R)
    (scene : Scene K) (CL : CollabLaws C scene) (SN : SceneNonneg scene)
    (self : Scene K → ray3f K → R → Int → Option (vec3f K × R))
    (hself : ∀ r g d res, dot r.d r.d = 1 → self scene r g d = some res → res.1.Nonneg)
    (ray : ray3f K) (depth : Int) (hd : dot ray.d ray.d = 1)
    (h : (C.intersect scene ray).hit = true) (st res : vec3f K × R) (hst : st.1.Nonneg)
    (hres : indirect_bounce M C self scene ray depth (C.intersect scene ray) st = some res) :
    res.1.Nonneg := by
  have hm := hit_material_nonneg C scene CL SN ray h
  have hv : dot (-ray.d) (-ray.d) = 1 := by rw [dot_neg_neg]; exact hd
  have hkd := lookup_nonneg (M := M) _ _ (C.intersect scene ray).texcoord hm.kd hm.kd_txt
  have hks := lookup_nonneg (M := M) _ _ (C.intersect scene ray).texcoord hm.ks hm.ks_txt
  have hnorm := CL.hit_norm_unit ray h
  unfold indirect_bounce at hres
  simp only at hres
  split_ifs at hres with hc
  · split at hres
    · simp at hres
    · next r1 h1 =>
      simp only [Option.some.injEq] at hres
      rw [← hres]
      have hr1 := hself _ _ _ _ (CL.sample_unit _ _ _ _ _ _ _ hv hnorm) h1
      exact nonneg_add hst (nonneg_mul hr1
        (indirect_weight_nonneg M L C scene CL _ _ _ _ _ _ _ _ hkd hks hm.n hv hnorm))
  · simp only [Option.some.injEq] at hres
    rw [← hres]; exact hst

/-- The mirror reflection keeps the accumulator non-negative when the recursive calls
return non-negative colors for unit rays. -/
theorem reflect_bounce_nonneg (C : Collab K R)
    (scene : Scene K) (CL : CollabLaws C scene) (SN : SceneNonneg scene)
    (self : Scene K → ray3f K → R → Int → Option (vec3f K × R))
    (hself : ∀ r g d res, dot r.d r.d = 1 → self scene r g d = some res → res.1.Nonneg)
    (ray : ray3f K) (depth : Int) (hd : dot ray.d ray.d = 1)
    (h : (C.intersect scene ray).hit = true) (st res : vec3f K × R) (hst : st.1.Nonneg)
    (hres : reflect_bounce C self scene ray depth (C.intersect scene ray) st = some res) :
    res.1.Nonneg := by
  have hm := hit_material_nonneg C scene CL SN ray h
  unfold reflect_bounce at hres
  simp only at hres
  split_ifs at hres with hc
  · simp only [Option.some.injEq] at hres
    rw [← hres]; exact hst
  · split at hres
    · simp at hres
    · next r1 h1 =>
      simp only [Option.some.injEq] at hres
      rw [← hres]
      have hr1 := hself _ _ _ _ (CL.reflect_unit _ _ hd (CL.hit_norm_unit ray h)) h1
      exact nonneg_add hst (nonneg_mul hm.kr hr1)

/-- Every color returned by `pathtrace_ray` for a unit ray is non-negative. -/
theorem pathtrace_ray_nonneg (M : MathFns K) (L : MathLaws M) (C : Collab K R)
    (scene : Scene K) (CL : CollabLaws C scene) (SN : SceneNonneg scene) (fuel : Nat) :
    ∀ (ray : ray3f K) (rng : R) (depth : Int) (res : vec3f K × R),
      dot ray.d ray.d = 1 → pathtrace_ray M C fuel scene ray rng depth = some res →
      res.1.Nonneg := by
  induction fuel with
  | zero => intro ray rng depth res _ h; simp [pathtrace_ray] at h
  | succ k ih =>
    intro ray rng depth res hd h
    change pathtrace_body M C (pathtrace_ray M C k) scene ray rng depth = some res at h
    unfold pathtrace_body at h
    simp only at h
    split_ifs at h with hhit
    · split at h
      · simp at h
      · next st1 h1 =>
        have hst1 := indirect_bounce_nonneg M L C scene CL SN _
          (fun r g d res hr hres => ih r g d res hr hres) ray depth hd hhit _ _
          (hit_direct_nonneg M L C scene CL SN ray rng depth hd hhit) h1
        exact reflect_bounce_nonneg C scene CL SN _
          (fun r g d res hr hres => ih r g d res hr hres) ray depth hd hhit _ _ hst1 h
    · simp only [Option.some.injEq] at h
      rw [← h]
      exact eval_env_nonneg M _ _ _ SN.background SN.background_txt

/-! ### Shadows on against shadows off -/

/-- A point light adds at most as much with any shadow setting as with shadows off. -/
theorem shade_point_light_le (M : MathFns K) (L : MathLaws M) (C : Collab K R)
    (s1 s2 : Scene K) (h2 : s2.path_shadows = false)
    (pos norm v kd ks : vec3f K) (n : K) (mf : Bool) (c1 c2 : vec3f K)
    (light : Light K) (hI : light.intensity.Nonneg) (hkd : kd.Nonneg) (hks : ks.Nonneg)
    (hn : 0 ≤ n) (hv : dot v v = 1) (hc : c1.Le c2) :
    (shade_point_light M C s1 pos norm v kd ks n mf c1 light).Le
      (shade_point_light M C s2 pos norm v kd ks n mf c2 light) := by
  have h := point_light_shade_nonneg M L pos norm v kd ks n mf light hI hkd hks hn hv
  unfold shade_point_light
  simp only [h2, Bool.false_eq_true, if_false]
  split_ifs <;>
    first | exact hc | exact le_add_nonneg hc h | exact le_add_add hc (le_refl3 _)

theorem foldl_point_le (M : MathFns K) (L : MathLaws M) (C : Collab K R)
    (s1 s2 : Scene K) (h2 : s2.path_shadows = false)
    (pos norm v kd ks : vec3f K) (n : K) (mf : Bool)
    (hkd : kd.Nonneg) (hks : ks.Nonneg) (hn : 0 ≤ n) (hv : dot v v = 1)
    (l : List (Light K)) (hl : ∀ x ∈ l, x.intensity.Nonneg) (c1 c2 : vec3f K)
    (hc : c1.Le c2) :
    (l.foldl (shade_point_light M C s1 pos norm v kd ks n mf) c1).Le
      (l.foldl (shade_point_light M C s2 pos norm v kd ks n mf) c2) := by
  induction l generalizing c1 c2 with
  | nil => exact hc
  | cons x l ih =>
    simp only [List.foldl_cons]
    exact ih (fun y hy => hl y (List.mem_cons_of_mem _ hy)) _ _
      (shade_point_light_le M L C s1 s2 h2 pos norm v kd ks n mf c1 c2 x
        (hl x (List.mem_cons_self _ _)) hkd hks hn hv hc)

/-- An emissive surface draws the same random numbers and adds at most as much with any
shadow setting as with shadows off. -/
theorem shade_area_light_le (M : MathFns K) (L : MathLaws M) (C : Collab K R)
    (s1 s2 : Scene K) (h2 : s2.path_shadows = false)
    (pos norm v kd ks : vec3f K) (n : K) (mf : Bool) (st1 st2 : vec3f K × R)
    (s : Surface K) (hm : MaterialNonneg s.mat) (hkd : kd.Nonneg) (hks : ks.Nonneg)
    (hn : 0 ≤ n) (hv : dot v v = 1) (hg : st1.2 = st2.2) (hc : st1.1.Le st2.1) :
    (shade_area_light M C s1 pos norm v kd ks n mf st1 s).2
        = (shade_area_light M C s2 pos norm v kd ks n mf st2 s).2 ∧
    (shade_area_light M C s1 pos norm v kd ks n mf st1 s).1.Le
      (shade_area_light M C s2 pos norm v kd ks n mf st2 s).1 := by
  have h := area_light_shade_nonneg M L pos norm v kd ks n mf s
    (area_light_sample M C st2.2 s).1 hm (area_light_sample_area_nonneg M L C st2.2 s)
    hkd hks hn hv
  unfold shade_area_light
  simp only [h2, hg, Bool.false_eq_true, if_false]
  split_ifs <;> refine ⟨?_, ?_⟩ <;>
    first | rfl | exact hg | exact hc | exact le_add_nonneg hc h | exact le_add_add hc (le_refl3 _)

theorem foldl_area_le (M : MathFns K) (L : MathLaws M) (C : Collab K R)
    (s1 s2 : Scene K) (h2 : s2.path_shadows = false)
    (pos norm v kd ks : vec3f K) (n : K) (mf : Bool)
    (hkd : kd.Nonneg) (hks : ks.Nonneg) (hn : 0 ≤ n) (hv : dot v v = 1)
    (l : List (Surface K)) (hl : ∀ x ∈ l, MaterialNonneg x.mat) (st1 st2 : vec3f K × R)
    (hg : st1.2 = st2.2) (hc : st1.1.Le st2.1) :
    (l.foldl (shade_area_light M C s1 pos norm v kd ks n mf) st1).2
        = (l.foldl (shade_area_light M C s2 pos norm v kd ks n mf) st2).2 ∧
    (l.foldl (shade_area_light M C s1 pos norm v kd ks n mf) st1).1.Le
      (l.foldl (shade_area_light M C s2 pos norm v kd ks n mf) st2).1 := by
  induction l generalizing st1 st2 with
  | nil => exact ⟨hg, hc⟩
  | cons x l ih =>
    simp only [List.foldl_cons]
    have hx := shade_area_light_le M L C s1 s2 h2 pos norm v kd ks n mf st1 st2 x
      (hl x (List.mem_cons_self _ _)) hkd hks hn hv hg hc
    exact ih (fun y hy => hl y (List.mem_cons_of_mem _ hy)) _ _ hx.1 hx.2

/-- The environment block draws the same random numbers and adds at most as much with
any shadow setting as with shadows off. -/
theorem shade_environment_le (M : MathFns K) (L : MathLaws M) (C : Collab K R)
    (s1 s2 : Scene K) (h2 : s2.path_shadows = false) (hsame : SameContent s1 s2)
    (CL : CollabLaws C s2) (SN : SceneNonneg s2)
    (pos norm v kd ks : vec3f K) (n : K) (mf : Bool) (st1 st2 : vec3f K × R)
    (hkd : kd.Nonneg) (hks : ks.Nonneg) (hn : 0 ≤ n) (hv : dot v v = 1)
    (hnorm : dot norm norm = 1) (hg : st1.2 = st2.2) (hc : st1.1.Le st2.1) :
    (shade_environment M C s1 pos norm v kd ks n mf st1).2
        = (shade_environment M C s2 pos norm v kd ks n mf st2).2 ∧
    (shade_environment M C s1 pos norm v kd ks n mf st1).1.Le
      (shade_environment M C s2 pos norm v kd ks n mf st2).1 := by
  have h := environment_sample_nonneg M L C s2 CL SN norm v kd ks n mf st2.2
    hkd hks hn hv hnorm
  have e : environment_sample M C s1 norm v kd ks n mf st2.2
      = environment_sample M C s2 norm v kd ks n mf st2.2 := by
    unfold environment_sample
    rw [hsame.background, hsame.background_txt]
  unfold shade_environment
  simp only [h2, hg, hsame.background, e, Bool.false_eq_true, if_false]
  split_ifs <;> refine ⟨?_, ?_⟩ <;>
    first | rfl | exact hg | exact hc | exact le_add_nonneg hc h | exact le_add_add hc (le_refl3 _)

/-- The direct stage of a hit draws the same random numbers and accumulates at most as
much with any shadow setting as with shadows off. -/
theorem hit_direct_le (M : MathFns K) (L : MathLaws M) (C : Collab K R)
    (s1 s2 : Scene K) (h2 : s2.path_shadows = false) (hsame : SameContent s1 s2)
    (hI : ∀ r, C.intersect s1 r = C.intersect s2 r)
    (CL : CollabLaws C s2) (SN : SceneNonneg s2)
    (ray : ray3f K) (rng : R) (depth : Int) (hd : dot ray.d ray.d = 1)
    (h : (C.intersect s2 ray).hit = true) :
    (hit_direct M C s1 ray rng depth (C.intersect s1 ray)).2
        = (hit_direct M C s2 ray rng depth (C.intersect s2 ray)).2 ∧
    (hit_direct M C s1 ray rng depth (C.intersect s1 ray)).1.Le
      (hit_direct M C s2 ray rng depth (C.intersect s2 ray)).1 := by
  have hm := hit_material_nonneg C s2 CL SN ray h
  have hv : dot (-ray.d) (-ray.d) = 1 := by rw [dot_neg_neg]; exact hd
  have hkd := lookup_nonneg (M := M) _ _ (C.intersect s2 ray).texcoord hm.kd hm.kd_txt
  have hks := lookup_nonneg (M := M) _ _ (C.intersect s2 ray).texcoord hm.ks hm.ks_txt
  rw [hI ray]
  unfold hit_direct
  simp only [hsame.ambient, hsame.lights, hsame.surfaces]
  have hp := foldl_point_le M L C s1 s2 h2 (C.intersect s2 ray).pos (C.intersect s2 ray).norm
    (-ray.d) _ _ _ (C.intersect s2 ray).mat.microfacet hkd hks hm.n hv _ SN.lights
    (if depth = 0 ∧ dot (-ray.d) (C.intersect s2 ray).norm > 0 then
      s2.ambient * lookup_scaled_texture M (C.intersect s2 ray).mat.kd
          (C.intersect s2 ray).mat.kd_txt (C.intersect s2 ray).texcoord
        + lookup_scaled_texture M (C.intersect s2 ray).mat.ke
          (C.intersect s2 ray).mat.ke_txt (C.intersect s2 ray).texcoord
     else s2.ambient * lookup_scaled_texture M (C.intersect s2 ray).mat.kd
          (C.intersect s2 ray).mat.kd_txt (C.intersect s2 ray).texcoord) _ (le_refl3 _)
  have ha := foldl_area_le M L C s1 s2 h2 (C.intersect s2 ray).pos (C.intersect s2 ray).norm
    (-ray.d) _ _ _ (C.intersect s2 ray).mat.microfacet hkd hks hm.n hv _ SN.surfaces
    (_, rng) (_, rng) (Eq.refl rng) hp
  exact shade_environment_le M L C s1 s2 h2 hsame CL SN _ _ _ _ _ _ _ _ _ hkd hks hm.n hv
    (CL.hit_norm_unit ray h) ha.1 ha.2

/-- The indirect bounce preserves the relation between the shadowed and the unshadowed
run. -/
theorem indirect_bounce_rel (M : MathFns K) (L : MathLaws M) (C : Collab K R)
    (s1 s2 : Scene K) (hdepth : s1.path_max_depth = s2.path_max_depth)
    (CL : CollabLaws C s2) (SN : SceneNonneg s2)
    (self1 self2 : Scene K → ray3f K → R → Int → Option (vec3f K × R))
    (hself : ∀ r g d, dot r.d r.d = 1 → DarkerSameRng (self1 s1 r g d) (self2 s2 r g d))
    (ray : ray3f K) (depth : Int) (hd : dot ray.d ray.d = 1)
    (h : (C.intersect s2 ray).hit = true) (st1 st2 : vec3f K × R)
    (hg : st1.2 = st2.2) (hc : st1.1.Le st2.1) :
    DarkerSameRng (indirect_bounce M C self1 s1 ray depth (C.intersect s2 ray) st1)
      (indirect_bounce M C self2 s2 ray depth (C.intersect s2 ray) st2) := by
  have hm := hit_material_nonneg C s2 CL SN ray h
  have hv : dot (-ray.d) (-ray.d) = 1 := by rw [dot_neg_neg]; exact hd
  have hkd := lookup_nonneg (M := M) _ _ (C.intersect s2 ray).texcoord hm.kd hm.kd_txt
  have hks := lookup_nonneg (M := M) _ _ (C.intersect s2 ray).texcoord hm.ks hm.ks_txt
  have hnorm := CL.hit_norm_unit ray h
  unfold indirect_bounce
  simp only [hdepth, hg]
  split_ifs with hcnd
  · have hr := hself (mkRay C (C.intersect s2 ray).pos
      (C.sample_brdf
        (lookup_scaled_texture M (C.intersect s2 ray).mat.kd
          (C.intersect s2 ray).mat.kd_txt (C.intersect s2 ray).texcoord)
        (lookup_scaled_texture M (C.intersect s2 ray).mat.ks
          (C.intersect s2 ray).mat.ks_txt (C.intersect s2 ray).texcoord)
        (C.intersect s2 ray).mat.n (-ray.d) (C.intersect s2 ray).norm
        (C.next_vec2f st2.2).1 (C.next_float (C.next_vec2f st2.2).2).1).1)
      (C.next_float (C.next_vec2f st2.2).2).2 (depth + 1)
      (CL.sample_unit _ _ _ _ _ _ _ hv hnorm)
    have hw := indirect_weight_nonneg M L C s2 CL (C.intersect s2 ray).norm (-ray.d) _ _ _
      (C.intersect s2 ray).mat.microfacet (C.next_vec2f st2.2).1
      (C.next_float (C.next_vec2f st2.2).2).1 hkd hks hm.n hv hnorm
    revert hr
    cases self1 s1 _ _ (depth + 1) <;> cases self2 s2 _ _ (depth + 1) <;>
      simp only [DarkerSameRng, imp_self, false_imp_iff]
    intro hr
    exact ⟨hr.1, le_add_add hc (le_mul_nonneg hr.2 hw)⟩
  · exact ⟨hg, hc⟩

/-- The mirror reflection preserves the relation between the shadowed and the
unshadowed run. -/
theorem reflect_bounce_rel (C : Collab K R)
    (s1 s2 : Scene K) (CL : CollabLaws C s2) (SN : SceneNonneg s2)
    (self1 self2 : Scene K → ray3f K → R → Int → Option (vec3f K × R))
    (hself : ∀ r g d, dot r.d r.d = 1 → DarkerSameRng (self1 s1 r g d) (self2 s2 r g d))
    (ray : ray3f K) (depth : Int) (hd : dot ray.d ray.d = 1)
    (h : (C.intersect s2 ray).hit = true) (st1 st2 : vec3f K × R)
    (hg : st1.2 = st2.2) (hc : st1.1.Le st2.1) :
    DarkerSameRng (reflect_bounce C self1 s1 ray depth (C.intersect s2 ray) st1)
      (reflect_bounce C self2 s2 ray depth (C.intersect s2 ray) st2) := by
  have hm := hit_material_nonneg C s2 CL SN ray h
  unfold reflect_bounce
  simp only [hg]
  split_ifs with hk
  · exact ⟨hg, hc⟩
  · have hr := hself (mkRay C (C.intersect s2 ray).pos
      (C.reflect ray.d (C.intersect s2 ray).norm)) st2.2 (depth + 1)
      (CL.reflect_unit _ _ hd (CL.hit_norm_unit ray h))
    revert hr
    cases self1 s1 _ _ (depth + 1) <;> cases self2 s2 _ _ (depth + 1) <;>
      simp only [DarkerSameRng, imp_self, false_imp_iff]
    intro hr
    exact ⟨hr.1, le_add_add hc (le_nonneg_mul hr.2 hm.kr)⟩

/-- With the same scene content, depth limit and intersections, a run with any shadow
setting and a run with shadows off return together, with the same generator state, and
the unshadowed color is channel-wise at least the other. -/
theorem pathtrace_ray_shadow_le (M : MathFns K) (L : MathLaws M) (C : Collab K R)
    (s1 s2 : Scene K) (h2 : s2.path_shadows = false) (hsame : SameContent s1 s2)
    (hdepth : s1.path_max_depth = s2.path_max_depth)
    (hI : ∀ r, C.intersect s1 r = C.intersect s2 r)
    (CL : CollabLaws C s2) (SN : SceneNonneg s2) (fuel : Nat) :
    ∀ (ray : ray3f K) (rng : R) (depth : Int), dot ray.d ray.d = 1 →
      DarkerSameRng (pathtrace_ray M C fuel s1 ray rng depth)
        (pathtrace_ray M C fuel s2 ray rng depth) := by
  induction fuel with
  | zero => intro ray rng depth _; exact trivial
  | succ k ih =>
    intro ray rng depth hd
    show DarkerSameRng (pathtrace_body M C (pathtrace_ray M C k) s1 ray rng depth)
      (pathtrace_body M C (pathtrace_ray M C k) s2 ray rng depth)
    unfold pathtrace_body
    simp only [hI ray, hsame.background, hsame.background_txt]
    split_ifs with hhit
    · obtain ⟨hg, hc⟩ := hit_direct_le M L C s1 s2 h2 hsame hI CL SN ray rng depth hd hhit
      rw [hI ray] at hg hc
      have hi := indirect_bounce_rel M L C s1 s2 hdepth CL SN _ _ ih ray depth hd hhit _ _ hg hc
      revert hi
      cases h1 : indirect_bounce M C (pathtrace_ray M C k) s1 ray depth (C.intersect s2 ray)
          (hit_direct M C s1 ray rng depth (C.intersect s2 ray)) <;>
        cases h2 : indirect_bounce M C (pathtrace_ray M C k) s2 ray depth (C.intersect s2 ray)
          (hit_direct M C s2 ray rng depth (C.intersect s2 ray)) <;>
        simp only [DarkerSameRng, imp_self, false_imp_iff]
      intro hi
      exact reflect_bounce_rel C s1 s2 CL SN _ _ ih ray depth hd hhit _ _ hi.1 hi.2
    · exact ⟨rfl, le_refl3 _⟩

/-! ### A larger depth limit against a smaller one -/

/-- The direct stage of a hit does not read `path_max_depth`: two scenes with the same
content, the same shadow flag and the same intersection answers give the same result. -/
theorem hit_direct_congr (M : MathFns K) (C : Collab K R) (s1 s2 : Scene K)
    (hsame : SameContent s1 s2) (hsh : s1.path_shadows = s2.path_shadows)
    (hI : ∀ r, C.intersect s1 r = C.intersect s2 r)
    (hS : ∀ r, C.intersect_shadow s1 r = C.intersect_shadow s2 r)
    (ray : ray3f K) (rng : R) (depth : Int) (isect : intersection3f K) :
    hit_direct M C s1 ray rng depth isect = hit_direct M C s2 ray rng depth isect := by
  have e1 : ∀ pos norm v kd ks n mf,
      shade_point_light M C s1 pos norm v kd ks n mf
        = shade_point_light M C s2 pos norm v kd ks n mf := by
    intro pos norm v kd ks n mf
    funext c light
    simp only [shade_point_light, hsh, hS]
  have e2 : ∀ pos norm v kd ks n mf,
      shade_area_light M C s1 pos norm v kd ks n mf
        = shade_area_light M C s2 pos norm v kd ks n mf := by
    intro pos norm v kd ks n mf
    funext st s
    simp only [shade_area_light, hsh, hS]
  have e3 : ∀ pos norm v kd ks n mf st,
      shade_environment M C s1 pos norm v kd ks n mf st
        = shade_environment M C s2 pos norm v kd ks n mf st := by
    intro pos norm v kd ks n mf st
    simp only [shade_environment, environment_sample, hsh, hI, hsame.background,
      hsame.background_txt]
  simp only [hit_direct, e1, e2, e3, hsame.ambient, hsame.lights, hsame.surfaces]

/-- When no material is both scattering and reflective, a run with a larger depth limit
returns a color that is channel-wise at least the color of the run with the smaller
limit: the extra bounces are the last thing their activations do, so the two runs draw
the same random numbers wherever both of them draw. -/
theorem pathtrace_ray_depth_le (M : MathFns K) (L : MathLaws M) (C : Collab K R)
    (s1 s2 : Scene K) (hsame : SameContent s1 s2) (hsh : s1.path_shadows = s2.path_shadows)
    (hle : s1.path_max_depth ≤ s2.path_max_depth)
    (hI : ∀ r, C.intersect s1 r = C.intersect s2 r)
    (hS : ∀ r, C.intersect_shadow s1 r = C.intersect_shadow s2 r)
    (CL : CollabLaws C s2) (SN : SceneNonneg s2)
    (hkr : ∀ r, (C.intersect s2 r).hit = true →
      (C.intersect s2 r).mat.kr = zero3f ∨
      ((C.intersect s2 r).mat.kd = zero3f ∧ (C.intersect s2 r).mat.ks = zero3f))
    (fuel : Nat) :
    ∀ (ray : ray3f K) (rng : R) (depth : Int) (r1 r2 : vec3f K × R),
      dot ray.d ray.d = 1 →
      pathtrace_ray M C fuel s1 ray rng depth = some r1 →
      pathtrace_ray M C fuel s2 ray rng depth = some r2 → r1.1.Le r2.1 := by
  induction fuel with
  | zero => intro ray rng depth r1 r2 _ h; simp [pathtrace_ray] at h
  | succ k ih =>
    intro ray rng depth r1 r2 hd h1 h2
    change pathtrace_body M C (pathtrace_ray M C k) s1 ray rng depth = some r1 at h1
    change pathtrace_body M C (pathtrace_ray M C k) s2 ray rng depth = some r2 at h2
    unfold pathtrace_body at h1 h2
    simp only [hI ray, hsame.background, hsame.background_txt] at h1
    simp only at h2
    split_ifs at h1 h2 with hhit
    · have hm := hit_material_nonneg C s2 CL SN ray hhit
      have hnorm := CL.hit_norm_unit ray hhit
      rcases hkr ray hhit with hk | ⟨hkd0, hks0⟩
      swap
      · -- a material that does not scatter: no bounce in either run, then the mirror
        rw [hit_direct_congr M C s1 s2 hsame hsh hI hS] at h1
        have hnc : ∀ sc : Scene K, ¬ ((lookup_scaled_texture M (C.intersect s2 ray).mat.kd
              (C.intersect s2 ray).mat.kd_txt (C.intersect s2 ray).texcoord ≠ zero3f ∨
            lookup_scaled_texture M (C.intersect s2 ray).mat.ks
              (C.intersect s2 ray).mat.ks_txt (C.intersect s2 ray).texcoord ≠ zero3f) ∧
            depth < sc.path_max_depth) := by
          intro sc hcc
          rw [hkd0, hks0, lookup_zero3f, lookup_zero3f] at hcc
          rcases hcc.1 with h0 | h0 <;> exact h0 rfl
        unfold indirect_bounce at h1 h2
        simp only at h1 h2
        rw [if_neg (hnc s1)] at h1
        rw [if_neg (hnc s2)] at h2
        simp only at h1 h2
        unfold reflect_bounce at h1 h2
        simp only at h1 h2
        by_cases hk0 : (C.intersect s2 ray).mat.kr = zero3f
        · rw [if_neg (not_not.mpr hk0)] at h1 h2
          simp only [Option.some.injEq] at h1 h2
          rw [← h1, ← h2]
          exact le_refl3 _
        · rw [if_pos hk0] at h1 h2
          have hu : dot (mkRay C (C.intersect s2 ray).pos
              (C.reflect ray.d (C.intersect s2 ray).norm)).d
              (mkRay C (C.intersect s2 ray).pos
                (C.reflect ray.d (C.intersect s2 ray).norm)).d = 1 :=
            CL.reflect_unit ray.d _ hd hnorm
          cases ha : pathtrace_ray M C k s1 (mkRay C (C.intersect s2 ray).pos
              (C.reflect ray.d (C.intersect s2 ray).norm))
              (hit_direct M C s2 ray rng depth (C.intersect s2 ray)).2 (depth + 1) with
          | none => rw [ha] at h1; simp at h1
          | some a =>
            cases hb : pathtrace_ray M C k s2 (mkRay C (C.intersect s2 ray).pos
                (C.reflect ray.d (C.intersect s2 ray).norm))
                (hit_direct M C s2 ray rng depth (C.intersect s2 ray)).2 (depth + 1) with
            | none => rw [hb] at h2; simp at h2
            | some b =>
              rw [ha] at h1
              rw [hb] at h2
              simp only [Option.some.injEq] at h1 h2
              rw [← h1, ← h2]
              exact le_add_add (le_refl3 _) (le_nonneg_mul (ih _ _ _ a b hu ha hb) hm.kr)
      have hv : dot (-ray.d) (-ray.d) = 1 := by rw [dot_neg_neg]; exact hd
      have hkd := lookup_nonneg (M := M) _ _ (C.intersect s2 ray).texcoord hm.kd hm.kd_txt
      have hks := lookup_nonneg (M := M) _ _ (C.intersect s2 ray).texcoord hm.ks hm.ks_txt
      have hrefl : ∀ sc st, reflect_bounce C (pathtrace_ray M C k) sc ray depth
          (C.intersect s2 ray) st = some st := by
        intro sc st; simp [reflect_bounce, hk]
      rw [hit_direct_congr M C s1 s2 hsame hsh hI hS] at h1
      have hw := indirect_weight_nonneg M L C s2 CL (C.intersect s2 ray).norm (-ray.d) _ _ _
        (C.intersect s2 ray).mat.microfacet
        (C.next_vec2f (hit_direct M C s2 ray rng depth (C.intersect s2 ray)).2).1
        (C.next_float (C.next_vec2f
          (hit_direct M C s2 ray rng depth (C.intersect s2 ray)).2).2).1 hkd hks hm.n hv hnorm
      have hu := CL.sample_unit
        (lookup_scaled_texture M (C.intersect s2 ray).mat.kd
          (C.intersect s2 ray).mat.kd_txt (C.intersect s2 ray).texcoord)
        (lookup_scaled_texture M (C.intersect s2 ray).mat.ks
          (C.intersect s2 ray).mat.ks_txt (C.intersect s2 ray).texcoord)
        (C.intersect s2 ray).mat.n (-ray.d) (C.intersect s2 ray).norm
        (C.next_vec2f (hit_direct M C s2 ray rng depth (C.intersect s2 ray)).2).1
        (C.next_float (C.next_vec2f
          (hit_direct M C s2 ray rng depth (C.intersect s2 ray)).2).2).1 hv hnorm
      unfold indirect_bounce at h1 h2
      simp only at h1 h2
      split_ifs at h1 h2 with hc1 hc2 hc2
      · -- both runs take the bounce
        cases ha : pathtrace_ray M C k s1 (mkRay C (C.intersect s2 ray).pos
            (C.sample_brdf
              (lookup_scaled_texture M (C.intersect s2 ray).mat.kd
                (C.intersect s2 ray).mat.kd_txt (C.intersect s2 ray).texcoord)
              (lookup_scaled_texture M (C.intersect s2 ray).mat.ks
                (C.intersect s2 ray).mat.ks_txt (C.intersect s2 ray).texcoord)
              (C.intersect s2 ray).mat.n (-ray.d) (C.intersect s2 ray).norm
              (C.next_vec2f (hit_direct M C s2 ray rng depth (C.intersect s2 ray)).2).1
              (C.next_float (C.next_vec2f
                (hit_direct M C s2 ray rng depth (C.intersect s2 ray)).2).2).1).1)
            (C.next_float (C.next_vec2f
                (hit_direct M C s2 ray rng depth (C.intersect s2 ray)).2).2).2 (depth + 1) with
        | none => rw [ha] at h1; simp at h1
        | some a =>
          cases hb : pathtrace_ray M C k s2 (mkRay C (C.intersect s2 ray).pos
              (C.sample_brdf
                (lookup_scaled_texture M (C.intersect s2 ray).mat.kd
                  (C.intersect s2 ray).mat.kd_txt (C.intersect s2 ray).texcoord)
                (lookup_scaled_texture M (C.intersect s2 ray).mat.ks
                  (C.intersect s2 ray).mat.ks_txt (C.intersect s2 ray).texcoord)
                (C.intersect s2 ray).mat.n (-ray.d) (C.intersect s2 ray).norm
                (C.next_vec2f (hit_direct M C s2 ray rng depth (C.intersect s2 ray)).2).1
                (C.next_float (C.next_vec2f
                  (hit_direct M C s2 ray rng depth (C.intersect s2 ray)).2).2).1).1)
              (C.next_float (C.next_vec2f
                  (hit_direct M C s2 ray rng depth (C.intersect s2 ray)).2).2).2 (depth + 1) with
          | none => rw [hb] at h2; simp at h2
          | some b =>
            rw [ha] at h1
            rw [hb] at h2
            simp only [hrefl, Option.some.injEq] at h1 h2
            rw [← h1, ← h2]
            exact le_add_add (le_refl3 _) (le_mul_nonneg (ih _ _ _ a b hu ha hb) hw)
      · exact absurd ⟨hc1.1, lt_of_lt_of_le hc1.2 hle⟩ hc2
      · -- only the run with the larger limit takes the bounce
        cases hb : pathtrace_ray M C k s2 (mkRay C (C.intersect s2 ray).pos
            (C.sample_brdf
              (lookup_scaled_texture M (C.intersect s2 ray).mat.kd
                (C.intersect s2 ray).mat.kd_txt (C.intersect s2 ray).texcoord)
              (lookup_scaled_texture M (C.intersect s2 ray).mat.ks
                (C.intersect s2 ray).mat.ks_txt (C.intersect s2 ray).texcoord)
              (C.intersect s2 ray).mat.n (-ray.d) (C.intersect s2 ray).norm
              (C.next_vec2f (hit_direct M C s2 ray rng depth (C.intersect s2 ray)).2).1
              (C.next_float (C.next_vec2f
                (hit_direct M C s2 ray rng depth (C.intersect s2 ray)).2).2).1).1)
            (C.next_float (C.next_vec2f
                (hit_direct M C s2 ray rng depth (C.intersect s2 ray)).2).2).2 (depth + 1) with
        | none => rw [hb] at h2; simp at h2
        | some b =>
          rw [hb] at h2
          simp only [hrefl, Option.some.injEq] at h1 h2
          rw [← h1, ← h2]
          exact le_add_nonneg (le_refl3 _) (nonneg_mul
            (pathtrace_ray_nonneg M L C s2 CL SN k _ _ _ b hu hb) hw)
      · simp only [hrefl, Option.some.injEq] at h1 h2
        rw [← h1, ← h2]
        exact le_refl3 _
    · simp only [Option.some.injEq] at h1 h2
      rw [← h1, ← h2]
      exact le_refl3 _

end StageSigns

/-! ## The estimator with partial division against `pathtrace_ray` -/

section CheckedFacts
variable {K : Type} [LinearOrderedField K] [FloorRing K] {R : Type}

theorem checked_div_eq (a s : K) :
    checked_div a s = if s ≠ 0 then some (a / s) else none := by
  unfold checked_div
  split_ifs <;> first | rfl | contradiction

theorem checked_divs_eq (a : vec3f K) (s : K) :
    checked_divs a s = if s ≠ 0 then some (a / s) else none := by
  unfold checked_divs
  split_ifs <;> first | rfl | contradiction

theorem checked_div_some (a s x : K) (h : checked_div a s = some x) : s ≠ 0 ∧ x = a / s := by
  unfold checked_div at h
  split_ifs at h with hs
  exact ⟨hs, (Option.some.inj h).symm⟩

theorem checked_divs_some (a : vec3f K) (s : K) (x : vec3f K)
    (h : checked_divs a s = some x) : s ≠ 0 ∧ x = a / s := by
  unfold checked_divs at h
  split_ifs at h with hs
  exact ⟨hs, (Option.some.inj h).symm⟩

theorem normalize_checked_some (M : MathFns K) (a x : vec3f K)
    (h : normalize_checked M a = some x) : length M a ≠ 0 ∧ x = normalize M a :=
  checked_divs_some a (length M a) x h

theorem normalize_checked_eq (M : MathFns K) (a : vec3f K) :
    normalize_checked M a = if length M a ≠ 0 then some (normalize M a) else none :=
  checked_divs_eq a (length M a)

/-- An undefined sum has an undefined term; a defined sum is the sum of its terms. -/
theorem add_checked_some (a b : Option (vec3f K)) (c : vec3f K)
    (h : add_checked a b = some c) : ∃ x y, a = some x ∧ b = some y ∧ c = x + y := by
  cases a with
  | none => simp [add_checked] at h
  | some x =>
    cases b with
    | none => simp [add_checked] at h
    | some y =>
      simp only [add_checked, Option.some_bind, Option.map_some', Option.some.injEq] at h
      exact ⟨x, y, rfl, rfl, h.symm⟩

theorem add_checked_none_right (a : Option (vec3f K)) : add_checked a none = none := by
  cases a <;> rfl

theorem add_checked_none_left (b : Option (vec3f K)) : add_checked none b = none := rfl

/-- Where the partial `eval_brdf` is defined it is `eval_brdf`. -/
theorem eval_brdf_checked_some (M : MathFns K) (kd ks : vec3f K) (n : K) (v l norm : vec3f K)
    (mf : Bool) (x : vec3f K) (h : eval_brdf_checked M kd ks n v l norm mf = some x) :
    x = eval_brdf M kd ks n v l norm mf := by
  cases mf
  · simp only [eval_brdf_checked, Bool.false_eq_true, not_false_eq_true, if_true] at h
    obtain ⟨hh, h1, h⟩ := Option.bind_eq_some.mp h
    obtain ⟨a, h2, h⟩ := Option.bind_eq_some.mp h
    obtain ⟨b, h3, h⟩ := Option.bind_eq_some.mp h
    rw [(normalize_checked_some M _ _ h1).2, (checked_divs_some _ _ _ h2).2,
      (checked_divs_some _ _ _ h3).2] at h
    simp only [eval_brdf, Bool.false_eq_true, not_false_eq_true, if_true]
    exact (Option.some.inj h).symm
  · simp only [eval_brdf_checked, not_true_eq_false, if_false] at h
    obtain ⟨hh, h1, h⟩ := Option.bind_eq_some.mp h
    obtain ⟨q, h2, h⟩ := Option.bind_eq_some.mp h
    obtain ⟨g1, h3, h⟩ := Option.bind_eq_some.mp h
    obtain ⟨g2, h4, h⟩ := Option.bind_eq_some.mp h
    have hn := (normalize_checked_some M _ _ h1).2
    subst hn
    have h5 := (checked_divs_some _ _ _ h).2
    rw [(checked_div_some _ _ _ h2).2, (checked_div_some _ _ _ h3).2,
      (checked_div_some _ _ _ h4).2] at h5
    simp only [eval_brdf, not_true_eq_false, if_false]
    exact h5

/-- Where the partial `eval_env` is defined it is `eval_env`. -/
theorem eval_env_checked_some (M : MathFns K) (ke : vec3f K) (ke_txt : Option (image3f K))
    (dir x : vec3f K) (h : eval_env_checked M ke ke_txt dir = some x) :
    x = eval_env M ke ke_txt dir := by
  unfold eval_env_checked at h
  obtain ⟨u, h1, h⟩ := Option.bind_eq_some.mp h
  obtain ⟨q, h2, h⟩ := Option.bind_eq_some.mp h
  rw [(checked_div_some _ _ _ h1).2, (checked_div_some _ _ _ h2).2] at h
  exact (Option.some.inj h).symm

theorem eval_env_checked_eq (M : MathFns K) (ke : vec3f K) (ke_txt : Option (image3f K))
    (dir : vec3f K) :
    eval_env_checked M ke ke_txt dir
      = if M.pi ≠ 0 then some (eval_env M ke ke_txt dir) else none := by
  simp only [eval_env_checked, eval_env, checked_div_eq]
  by_cases h2 : M.pi = 0
  · simp [h2]
  · simp [h2]

/-- Where the partial point-light term is defined it is the term of `pathtrace_ray`. -/
theorem point_light_shade_checked_some (M : MathFns K) (pos norm v kd ks : vec3f K) (n : K)
    (mf : Bool) (light : Light K) (x : vec3f K)
    (h : point_light_shade_checked M pos norm v kd ks n mf light = some x) :
    x = point_light_shade M pos norm v kd ks n mf light := by
  unfold point_light_shade_checked at h
  obtain ⟨cl, h1, h⟩ := Option.bind_eq_some.mp h
  obtain ⟨l, h2, h⟩ := Option.bind_eq_some.mp h
  obtain ⟨b, h3, h⟩ := Option.bind_eq_some.mp h
  have hl := (normalize_checked_some M _ _ h2).2
  subst hl
  rw [(checked_divs_some _ _ _ h1).2, eval_brdf_checked_some M _ _ _ _ _ _ _ _ h3] at h
  exact (Option.some.inj h).symm

/-- One point light: the accumulator with partial division agrees with the accumulator
of `pathtrace_ray`. -/
theorem shade_point_light_agrees (M : MathFns K) (C : Collab K R) (scene : Scene K)
    (pos norm v kd ks : vec3f K) (n : K) (mf : Bool) (oc : Option (vec3f K)) (c : vec3f K)
    (light : Light K) (h : ColorAgrees oc c) :
    ColorAgrees (shade_point_light_checked M C scene pos norm v kd ks n mf oc light)
      (shade_point_light M C scene pos norm v kd ks n mf c light) := by
  intro c2 h2
  unfold shade_point_light_checked at h2
  unfold shade_point_light
  simp only at h2 ⊢
  by_cases hz : point_light_shade_checked M pos norm v kd ks n mf light = some zero3f
  · rw [if_pos hz] at h2
    rw [← point_light_shade_checked_some M _ _ _ _ _ _ _ _ _ hz, if_pos rfl]
    exact h c2 h2
  · rw [if_neg hz] at h2
    have hadd : add_checked oc (point_light_shade_checked M pos norm v kd ks n mf light)
        = some c2 →
        c2 = (if point_light_shade M pos norm v kd ks n mf light = zero3f then c
          else c + point_light_shade M pos norm v kd ks n mf light) := by
      intro ha
      obtain ⟨x, y, hx, hy, hc⟩ := add_checked_some _ _ _ ha
      have hy2 := point_light_shade_checked_some M _ _ _ _ _ _ _ _ _ hy
      have hne : point_light_shade M pos norm v kd ks n mf light ≠ zero3f := by
        intro h0
        apply hz
        rw [hy, hy2, h0]
      rw [if_neg hne, hc, h x hx, hy2]
    by_cases hs : scene.path_shadows = true
    · rw [if_pos hs] at h2
      simp only [if_pos hs]
      by_cases ho : C.intersect_shadow scene (C.make_segment pos light.frame.o) = true
      · rw [if_neg (not_not.mpr ho)] at h2
        simp only [if_neg (not_not.mpr ho), ite_self]
        exact h c2 h2
      · rw [if_pos ho] at h2
        simp only [if_pos ho]
        exact hadd h2
    · rw [if_neg hs] at h2
      simp only [if_neg hs]
      exact hadd h2

theorem foldl_point_agrees (M : MathFns K) (C : Collab K R) (scene : Scene K)
    (pos norm v kd ks : vec3f K) (n : K) (mf : Bool) (l : List (Light K)) :
    ∀ (oc : Option (vec3f K)) (c : vec3f K), ColorAgrees oc c →
      ColorAgrees (l.foldl (shade_point_light_checked M C scene pos norm v kd ks n mf) oc)
        (l.foldl (shade_point_light M C scene pos norm v kd ks n mf) c) := by
  induction l with
  | nil => intro oc c h; exact h
  | cons a l ih =>
    intro oc c h
    exact ih _ _ (shade_point_light_agrees M C scene pos norm v kd ks n mf oc c a h)

/-- The sample of an emissive surface with partial division: the generator state, the
texture coordinates, the point and the area are those of `pathtrace_ray`, and so is the
normal where it is defined. -/
theorem area_light_sample_checked_eq (M : MathFns K) (C : Collab K R) (g : R) (s : Surface K) :
    (area_light_sample_checked M C g s).2 = (area_light_sample M C g s).2 ∧
    (area_light_sample_checked M C g s).1.1 = (area_light_sample M C g s).1.1 ∧
    (area_light_sample_checked M C g s).1.2.1 = (area_light_sample M C g s).1.2.1 ∧
    (area_light_sample_checked M C g s).1.2.2.2 = (area_light_sample M C g s).1.2.2.2 ∧
    ∀ an, (area_light_sample_checked M C g s).1.2.2.1 = some an →
      an = (area_light_sample M C g s).1.2.2.1 := by
  unfold area_light_sample_checked area_light_sample
  split_ifs
  · refine ⟨rfl, rfl, rfl, rfl, ?_⟩
    intro an h
    exact (Option.some.inj h).symm
  · refine ⟨rfl, rfl, rfl, rfl, ?_⟩
    intro an h
    exact (normalize_checked_some M _ _ h).2

/-- Where the partial area-light term is defined it is the term of `pathtrace_ray`. -/
theorem area_light_shade_checked_some (M : MathFns K) (C : Collab K R)
    (pos norm v kd ks : vec3f K) (n : K) (mf : Bool) (s : Surface K) (g : R) (x : vec3f K)
    (h : area_light_shade_checked M pos norm v kd ks n mf s
      (area_light_sample_checked M C g s).1 = some x) :
    x = area_light_shade M pos norm v kd ks n mf s (area_light_sample M C g s).1 := by
  obtain ⟨_, e1, e2, e3, e4⟩ := area_light_sample_checked_eq M C g s
  unfold area_light_shade_checked at h
  simp only at h
  obtain ⟨an, h0, h⟩ := Option.bind_eq_some.mp h
  obtain ⟨l, h1, h⟩ := Option.bind_eq_some.mp h
  obtain ⟨cl, h2, h⟩ := Option.bind_eq_some.mp h
  obtain ⟨b, h3, h⟩ := Option.bind_eq_some.mp h
  have hl := (normalize_checked_some M _ _ h1).2
  subst hl
  rw [(checked_divs_some _ _ _ h2).2, eval_brdf_checked_some M _ _ _ _ _ _ _ _ h3,
    e4 an h0, e1, e2, e3] at h
  exact (Option.some.inj h).symm

/-- One emissive surface: the state with partial division agrees with the state of
`pathtrace_ray`. -/
theorem shade_area_light_agrees (M : MathFns K) (C : Collab K R) (scene : Scene K)
    (pos norm v kd ks : vec3f K) (n : K) (mf : Bool) (x : Option (vec3f K) × R)
    (y : vec3f K × R) (s : Surface K) (h : x.2 = y.2 ∧ ColorAgrees x.1 y.1) :
    (shade_area_light_checked M C scene pos norm v kd ks n mf x s).2
        = (shade_area_light M C scene pos norm v kd ks n mf y s).2 ∧
    ColorAgrees (shade_area_light_checked M C scene pos norm v kd ks n mf x s).1
      (shade_area_light M C scene pos norm v kd ks n mf y s).1 := by
  obtain ⟨hg, hc⟩ := h
  obtain ⟨e0, _, e2, _, _⟩ := area_light_sample_checked_eq M C y.2 s
  unfold shade_area_light_checked shade_area_light
  by_cases hke : s.mat.ke = zero3f
  · simp only [hke, ne_eq, not_true_eq_false, if_false]
    exact ⟨hg, hc⟩
  · simp only [ne_eq, hke, not_false_eq_true, if_true]
    rw [hg]
    have hsome := area_light_shade_checked_some M C pos norm v kd ks n mf s y.2
    have hadd : ∀ c2, add_checked x.1 (area_light_shade_checked M pos norm v kd ks n mf s
          (area_light_sample_checked M C y.2 s).1) = some c2 →
        c2 = (if area_light_shade M pos norm v kd ks n mf s (area_light_sample M C y.2 s).1
              = zero3f then y.1
          else y.1 + area_light_shade M pos norm v kd ks n mf s
            (area_light_sample M C y.2 s).1) := by
      intro c2 ha
      obtain ⟨a, b, hx, hy, hcc⟩ := add_checked_some _ _ _ ha
      have hy2 := hsome b hy
      by_cases h0 : area_light_shade M pos norm v kd ks n mf s
          (area_light_sample M C y.2 s).1 = zero3f
      · rw [if_pos h0, hcc, hc a hx, hy2, h0, add_zero3f]
      · rw [if_neg h0, hcc, hc a hx, hy2]
    by_cases hz : area_light_shade_checked M pos norm v kd ks n mf s
        (area_light_sample_checked M C y.2 s).1 = some zero3f
    · rw [if_pos hz, ← hsome _ hz, if_pos rfl]
      exact ⟨e0, hc⟩
    · rw [if_neg hz]
      by_cases hs : scene.path_shadows = true
      · simp only [if_pos hs]
        rw [e2]
        by_cases ho : C.intersect_shadow scene
            (C.make_segment pos (area_light_sample M C y.2 s).1.2.1) = true
        · simp only [if_neg (not_not.mpr ho), ite_self]
          exact ⟨e0, hc⟩
        · simp only [if_pos ho]
          refine ⟨by split_ifs <;> exact e0, ?_⟩
          intro c2 h2
          rw [hadd c2 h2]
          split_ifs <;> rfl
      · simp only [if_neg hs]
        refine ⟨by split_ifs <;> exact e0, ?_⟩
        intro c2 h2
        rw [hadd c2 h2]
        split_ifs <;> rfl

theorem foldl_area_agrees (M : MathFns K) (C : Collab K R) (scene : Scene K)
    (pos norm v kd ks : vec3f K) (n : K) (mf : Bool) (l : List (Surface K)) :
    ∀ (x : Option (vec3f K) × R) (y : vec3f K × R), x.2 = y.2 ∧ ColorAgrees x.1 y.1 →
      (l.foldl (shade_area_light_checked M C scene pos norm v kd ks n mf) x).2
          = (l.foldl (shade_area_light M C scene pos norm v kd ks n mf) y).2 ∧
      ColorAgrees (l.foldl (shade_area_light_checked M C scene pos norm v kd ks n mf) x).1
        (l.foldl (shade_area_light M C scene pos norm v kd ks n mf) y).1 := by
  induction l with
  | nil => intro x y h; exact h
  | cons a l ih =>
    intro x y h
    exact ih _ _ (shade_area_light_agrees M C scene pos norm v kd ks n mf x y a h)

/-- The environment sample with partial division: direction and generator state are
those of `pathtrace_ray`, and so are `brdfcos` and the response where defined. -/
theorem environment_sample_checked_eq (M : MathFns K) (C : Collab K R) (scene : Scene K)
    (norm v kd ks : vec3f K) (n : K) (mf : Bool) (g : R) :
    (environment_sample_checked M C scene norm v kd ks n mf g).2
        = (environment_sample M C scene norm v kd ks n mf g).2 ∧
    (environment_sample_checked M C scene norm v kd ks n mf g).1.1
        = (environment_sample M C scene norm v kd ks n mf g).1.1 ∧
    (∀ b, (environment_sample_checked M C scene norm v kd ks n mf g).1.2.1 = some b →
      b = (environment_sample M C scene norm v kd ks n mf g).1.2.1) ∧
    (∀ r, (environment_sample_checked M C scene norm v kd ks n mf g).1.2.2 = some r →
      r = (environment_sample M C scene norm v kd ks n mf g).1.2.2) := by
  unfold environment_sample_checked environment_sample
  refine ⟨rfl, rfl, ?_, ?_⟩
  · intro b hb
    obtain ⟨b0, h1, h2⟩ := Option.map_eq_some'.mp hb
    rw [← h2, eval_brdf_checked_some M _ _ _ _ _ _ _ _ h1]
  · intro r hr
    obtain ⟨bc, h1, h⟩ := Option.bind_eq_some.mp hr
    obtain ⟨e, h2, h⟩ := Option.bind_eq_some.mp h
    obtain ⟨b0, h3, h4⟩ := Option.map_eq_some'.mp h1
    rw [(checked_divs_some _ _ _ h).2, ← h4, eval_brdf_checked_some M _ _ _ _ _ _ _ _ h3,
      eval_env_checked_some M _ _ _ _ h2]

/-- The environment block: the state with partial division agrees with the state of
`pathtrace_ray`. -/
theorem shade_environment_agrees (M : MathFns K) (C : Collab K R) (scene : Scene K)
    (pos norm v kd ks : vec3f K) (n : K) (mf : Bool) (x : Option (vec3f K) × R)
    (y : vec3f K × R) (h : x.2 = y.2 ∧ ColorAgrees x.1 y.1) :
    (shade_environment_checked M C scene pos norm v kd ks n mf x).2
        = (shade_environment M C scene pos norm v kd ks n mf y).2 ∧
    ColorAgrees (shade_environment_checked M C scene pos norm v kd ks n mf x).1
      (shade_environment M C scene pos norm v kd ks n mf y).1 := by
  obtain ⟨hg, hc⟩ := h
  obtain ⟨e0, e1, e2, e3⟩ := environment_sample_checked_eq M C scene norm v kd ks n mf y.2
  unfold shade_environment_checked shade_environment
  by_cases hbg : scene.background = zero3f
  · simp only [hbg, ne_eq, not_true_eq_false, if_false]
    exact ⟨hg, hc⟩
  · simp only [ne_eq, hbg, not_false_eq_true, if_true]
    rw [hg, e1]
    have hadd : ∀ c2, add_checked x.1
          (environment_sample_checked M C scene norm v kd ks n mf y.2).1.2.2 = some c2 →
        c2 = y.1 + (environment_sample M C scene norm v kd ks n mf y.2).1.2.2 := by
      intro c2 ha
      obtain ⟨a, b, hx, hy, hcc⟩ := add_checked_some _ _ _ ha
      rw [hcc, hc a hx, e3 b hy]
    by_cases hz : (environment_sample_checked M C scene norm v kd ks n mf y.2).1.2.1
        = some zero3f
    · have hz2 := e2 _ hz
      simp only [hz, not_true_eq_false, if_false, ← hz2]
      exact ⟨e0, hc⟩
    · simp only [hz, not_false_eq_true, if_true]
      have hresp : ∀ c2, add_checked x.1
            (environment_sample_checked M C scene norm v kd ks n mf y.2).1.2.2 = some c2 →
          c2 = (if ¬ (environment_sample M C scene norm v kd ks n mf y.2).1.2.1 = zero3f
            then y.1 + (environment_sample M C scene norm v kd ks n mf y.2).1.2.2
            else y.1) := by
        intro c2 ha
        obtain ⟨a, b, hx, hy, hcc⟩ := add_checked_some _ _ _ ha
        by_cases h0 : (environment_sample M C scene norm v kd ks n mf y.2).1.2.1 = zero3f
        · rw [if_neg (not_not.mpr h0)]
          obtain ⟨bc, h1, hrest⟩ := Option.bind_eq_some.mp hy
          have h1b : (environment_sample_checked M C scene norm v kd ks n mf y.2).1.2.1
              = some bc := h1
          exfalso
          apply hz
          rw [h1b, e2 bc h1b, h0]
        · rw [if_pos h0]
          exact hadd c2 ha
      by_cases hs : scene.path_shadows = true
      · simp only [if_pos hs]
        by_cases hh : (C.intersect scene (mkRay C pos
            (environment_sample M C scene norm v kd ks n mf y.2).1.1)).hit = true
        · simp only [if_neg (not_not.mpr hh), ite_self]
          exact ⟨e0, hc⟩
        · simp only [if_pos hh]
          refine ⟨by split_ifs <;> exact e0, ?_⟩
          intro c2 h2
          rw [hresp c2 h2]
          split_ifs <;> rfl
      · simp only [if_neg hs]
        refine ⟨by split_ifs <;> exact e0, ?_⟩
        intro c2 h2
        rw [hresp c2 h2]
        split_ifs <;> rfl

/-- The direct stage of a hit: the state with partial division agrees with the state
of `pathtrace_ray`. -/
theorem hit_direct_agrees (M : MathFns K) (C : Collab K R) (scene : Scene K) (ray : ray3f K)
    (g : R) (depth : Int) (isect : intersection3f K) :
    (hit_direct_checked M C scene ray g depth isect).2
        = (hit_direct M C scene ray g depth isect).2 ∧
    ColorAgrees (hit_direct_checked M C scene ray g depth isect).1
      (hit_direct M C scene ray g depth isect).1 := by
  unfold hit_direct_checked hit_direct
  simp only
  apply shade_environment_agrees
  apply foldl_area_agrees
  refine ⟨rfl, ?_⟩
  apply foldl_point_agrees
  intro c hc
  exact (Option.some.inj hc).symm

/-- The indirect bounce preserves the agreement of the two runs. -/
theorem indirect_bounce_agrees (M : MathFns K) (C : Collab K R)
    (self1 : Scene K → ray3f K → R → Int → Option (Option (vec3f K) × R))
    (self2 : Scene K → ray3f K → R → Int → Option (vec3f K × R))
    (hself : ∀ sc r g d, RunAgrees (self1 sc r g d) (self2 sc r g d))
    (scene : Scene K) (ray : ray3f K) (depth : Int) (isect : intersection3f K)
    (x : Option (vec3f K) × R) (y : vec3f K × R) (h : x.2 = y.2 ∧ ColorAgrees x.1 y.1) :
    RunAgrees (indirect_bounce_checked M C self1 scene ray depth isect x)
      (indirect_bounce M C self2 scene ray depth isect y) := by
  obtain ⟨hg, hc⟩ := h
  unfold indirect_bounce_checked indirect_bounce
  simp only
  split_ifs with hcond
  · rw [hg]
    have hs := hself scene
      (mkRay C isect.pos (C.sample_brdf
        (lookup_scaled_texture M isect.mat.kd isect.mat.kd_txt isect.texcoord)
        (lookup_scaled_texture M isect.mat.ks isect.mat.ks_txt isect.texcoord)
        isect.mat.n (-ray.d) isect.norm (C.next_vec2f y.2).1
        (C.next_float (C.next_vec2f y.2).2).1).1)
      (C.next_float (C.next_vec2f y.2).2).2 (depth + 1)
    revert hs
    cases self1 scene
      (mkRay C isect.pos (C.sample_brdf
        (lookup_scaled_texture M isect.mat.kd isect.mat.kd_txt isect.texcoord)
        (lookup_scaled_texture M isect.mat.ks isect.mat.ks_txt isect.texcoord)
        isect.mat.n (-ray.d) isect.norm (C.next_vec2f y.2).1
        (C.next_float (C.next_vec2f y.2).2).1).1)
      (C.next_float (C.next_vec2f y.2).2).2 (depth + 1) with
    | none =>
      cases self2 scene
        (mkRay C isect.pos (C.sample_brdf
          (lookup_scaled_texture M isect.mat.kd isect.mat.kd_txt isect.texcoord)
          (lookup_scaled_texture M isect.mat.ks isect.mat.ks_txt isect.texcoord)
          isect.mat.n (-ray.d) isect.norm (C.next_vec2f y.2).1
          (C.next_float (C.next_vec2f y.2).2).1).1)
        (C.next_float (C.next_vec2f y.2).2).2 (depth + 1) with
      | none => intro _; trivial
      | some r2 => intro hs; exact hs.elim
    | some r1 =>
      cases self2 scene
        (mkRay C isect.pos (C.sample_brdf
          (lookup_scaled_texture M isect.mat.kd isect.mat.kd_txt isect.texcoord)
          (lookup_scaled_texture M isect.mat.ks isect.mat.ks_txt isect.texcoord)
          isect.mat.n (-ray.d) isect.norm (C.next_vec2f y.2).1
          (C.next_float (C.next_vec2f y.2).2).1).1)
        (C.next_float (C.next_vec2f y.2).2).2 (depth + 1) with
      | none => intro hs; exact hs.elim
      | some r2 =>
        intro hs
        refine ⟨hs.1, ?_⟩
        intro c2 h2
        obtain ⟨a, b, hx, hy, hcc⟩ := add_checked_some _ _ _ h2
        obtain ⟨l, hl, hy⟩ := Option.bind_eq_some.mp hy
        obtain ⟨w, hw, hy⟩ := Option.map_eq_some'.mp hy
        obtain ⟨bc, hbc, hw⟩ := Option.bind_eq_some.mp hw
        obtain ⟨b0, hb0, hbc⟩ := Option.map_eq_some'.mp hbc
        show c2 = y.1 + r2.1 * _
        rw [hcc, hc a hx, ← hy, hs.2 l hl, (checked_divs_some _ _ _ hw).2, ← hbc,
          eval_brdf_checked_some M _ _ _ _ _ _ _ _ hb0]
  · exact ⟨hg, hc⟩

/-- The mirror reflection preserves the agreement of the two runs. -/
theorem reflect_bounce_agrees (C : Collab K R)
    (self1 : Scene K → ray3f K → R → Int → Option (Option (vec3f K) × R))
    (self2 : Scene K → ray3f K → R → Int → Option (vec3f K × R))
    (hself : ∀ sc r g d, RunAgrees (self1 sc r g d) (self2 sc r g d))
    (scene : Scene K) (ray : ray3f K) (depth : Int) (isect : intersection3f K)
    (x : Option (vec3f K) × R) (y : vec3f K × R) (h : x.2 = y.2 ∧ ColorAgrees x.1 y.1) :
    RunAgrees (reflect_bounce_checked C self1 scene ray depth isect x)
      (reflect_bounce C self2 scene ray depth isect y) := by
  obtain ⟨hg, hc⟩ := h
  unfold reflect_bounce_checked reflect_bounce
  simp only
  split_ifs with hcond
  · exact ⟨hg, hc⟩
  · rw [hg]
    have hs := hself scene (mkRay C isect.pos (C.reflect ray.d isect.norm)) y.2 (depth + 1)
    revert hs
    cases self1 scene (mkRay C isect.pos (C.reflect ray.d isect.norm)) y.2 (depth + 1) with
    | none =>
      cases self2 scene (mkRay C isect.pos (C.reflect ray.d isect.norm)) y.2 (depth + 1) with
      | none => intro _; trivial
      | some r2 => intro hs; exact hs.elim
    | some r1 =>
      cases self2 scene (mkRay C isect.pos (C.reflect ray.d isect.norm)) y.2 (depth + 1) with
      | none => intro hs; exact hs.elim
      | some r2 =>
        intro hs
        refine ⟨hs.1, ?_⟩
        intro c2 h2
        obtain ⟨a, b, hx, hy, hcc⟩ := add_checked_some _ _ _ h2
        obtain ⟨l, hl, hy⟩ := Option.map_eq_some'.mp hy
        show c2 = y.1 + isect.mat.kr * r2.1
        rw [hcc, hc a hx, ← hy, hs.2 l hl]

/-- The body of `pathtrace_ray` preserves the agreement of the two runs. -/
theorem pathtrace_body_agrees (M : MathFns K) (C : Collab K R)
    (self1 : Scene K → ray3f K → R → Int → Option (Option (vec3f K) × R))
    (self2 : Scene K → ray3f K → R → Int → Option (vec3f K × R))
    (hself : ∀ sc r g d, RunAgrees (self1 sc r g d) (self2 sc r g d))
    (scene : Scene K) (ray : ray3f K) (g : R) (depth : Int) :
    RunAgrees (pathtrace_body_checked M C self1 scene ray g depth)
      (pathtrace_body M C self2 scene ray g depth) := by
  unfold pathtrace_body_checked pathtrace_body
  simp only
  split_ifs with hhit
  · have hi := indirect_bounce_agrees M C self1 self2 hself scene ray depth
      (C.intersect scene ray) _ _ (hit_direct_agrees M C scene ray g depth (C.intersect scene ray))
    revert hi
    cases indirect_bounce_checked M C self1 scene ray depth (C.intersect scene ray)
      (hit_direct_checked M C scene ray g depth (C.intersect scene ray)) with
    | none =>
      cases indirect_bounce M C self2 scene ray depth (C.intersect scene ray)
        (hit_direct M C scene ray g depth (C.intersect scene ray)) with
      | none => intro _; trivial
      | some r2 => intro hs; exact hs.elim
    | some r1 =>
      cases indirect_bounce M C self2 scene ray depth (C.intersect scene ray)
        (hit_direct M C scene ray g depth (C.intersect scene ray)) with
      | none => intro hs; exact hs.elim
      | some r2 =>
        intro hs
        exact reflect_bounce_agrees C self1 self2 hself scene ray depth _ r1 r2 hs
  · refine ⟨rfl, ?_⟩
    intro c hc
    exact eval_env_checked_some M _ _ _ _ hc

/-- The run with partial division and `pathtrace_ray` agree: they return for the same
fuel, with the same generator state, and a color that is defined is the color of
`pathtrace_ray`. -/
theorem pathtrace_ray_checked_agrees (M : MathFns K) (C : Collab K R) (fuel : Nat) :
    ∀ (scene : Scene K) (ray : ray3f K) (g : R) (depth : Int),
      RunAgrees (pathtrace_ray_checked M C fuel scene ray g depth)
        (pathtrace_ray M C fuel scene ray g depth) := by
  induction fuel with
  | zero => intro scene ray g depth; trivial
  | succ k ih =>
    intro scene ray g depth
    exact pathtrace_body_agrees M C _ _ ih scene ray g depth

/-- A finite color returned by the run with partial division is the color returned by
`pathtrace_ray`, with the same generator state. -/
theorem pathtrace_ray_of_checked (M : MathFns K) (C : Collab K R) (fuel : Nat)
    (scene : Scene K) (ray : ray3f K) (g : R) (depth : Int) (c : vec3f K) (g2 : R)
    (h : pathtrace_ray_checked M C fuel scene ray g depth = some (some c, g2)) :
    pathtrace_ray M C fuel scene ray g depth = some (c, g2) := by
  have ha := pathtrace_ray_checked_agrees M C fuel scene ray g depth
  rw [h] at ha
  revert ha
  cases pathtrace_ray M C fuel scene ray g depth with
  | none => intro ha; exact ha.elim
  | some r =>
    intro ha
    have h1 : g2 = r.2 := ha.1
    have h2 : c = r.1 := ha.2 c rfl
    rw [h1, h2]

/-- When `pathtrace_ray` returns, the run with partial division returns, with the same
generator state and a color that, when defined, is the same. -/
theorem pathtrace_ray_checked_returns (M : MathFns K) (C : Collab K R) (fuel : Nat)
    (scene : Scene K) (ray : ray3f K) (g : R) (depth : Int) (r : vec3f K × R)
    (h : pathtrace_ray M C fuel scene ray g depth = some r) :
    ∃ oc, pathtrace_ray_checked M C fuel scene ray g depth = some (oc, r.2) ∧
      ColorAgrees oc r.1 := by
  have ha := pathtrace_ray_checked_agrees M C fuel scene ray g depth
  rw [h] at ha
  revert ha
  cases pathtrace_ray_checked M C fuel scene ray g depth with
  | none => intro ha; exact ha.elim
  | some x =>
    intro ha
    refine ⟨x.1, ?_, ha.2⟩
    have h1 : x.2 = r.2 := ha.1
    rw [← h1]

/-- When the run with partial division returns, `pathtrace_ray` returns. -/
theorem pathtrace_ray_of_checked_returns (M : MathFns K) (C : Collab K R) (fuel : Nat)
    (scene : Scene K) (ray : ray3f K) (g : R) (depth : Int) (x : Option (vec3f K) × R)
    (h : pathtrace_ray_checked M C fuel scene ray g depth = some x) :
    ∃ r, pathtrace_ray M C fuel scene ray g depth = some r ∧ x.2 = r.2 ∧
      ColorAgrees x.1 r.1 := by
  have ha := pathtrace_ray_checked_agrees M C fuel scene ray g depth
  rw [h] at ha
  revert ha
  cases pathtrace_ray M C fuel scene ray g depth with
  | none => intro ha; exact ha.elim
  | some r => intro ha; exact ⟨r, rfl, ha.1, ha.2⟩

/-! ### Runs whose color is defined -/

theorem color_undefined_false (x : Option (vec3f K) × R)
    (run : Option (Option (vec3f K) × R)) (hrun : run = some x)
    (h : color_undefined run = false) : ∃ c, x.1 = some c := by
  subst hrun
  obtain ⟨oc, g⟩ := x
  cases oc with
  | none => simp [color_undefined] at h
  | some c => exact ⟨c, rfl⟩

theorem color_undefined_of_some (c : vec3f K) (g : R)
    (run : Option (Option (vec3f K) × R)) (hrun : run = some (some c, g)) :
    color_undefined run = false := by
  subst hrun
  rfl

/-- With the laws of `sqrt`, a vector of nonzero squared length has a nonzero length. -/
theorem length_ne_zero_of (M : MathFns K) (L : MathLaws M) (a : vec3f K)
    (h : lengthSqr a ≠ 0) : length M a ≠ 0 := by
  intro h0
  apply h
  have e := length_mul_self M L a
  rw [h0, mul_zero] at e
  exact e.symm

theorem normalize_checked_defined (M : MathFns K) (L : MathLaws M) (a : vec3f K)
    (h : lengthSqr a ≠ 0) : normalize_checked M a = some (normalize M a) := by
  rw [normalize_checked_eq, if_pos (length_ne_zero_of M L a h)]

/-- The sum of a nonzero vector `v` and a vector on its side is not zero. -/
theorem lengthSqr_add_ne (v a : vec3f K) (hv : 0 < dot v v) (h : 0 ≤ dot v a) :
    lengthSqr (v + a) ≠ 0 := by
  have e : lengthSqr (v + a) = dot v v + 2 * dot v a + dot a a := by
    simp only [lengthSqr, dot, add_x, add_y, add_z]; ring
  have ha : 0 ≤ dot a a := lengthSqr_nonneg a
  rw [e]
  exact ne_of_gt (by linarith)

theorem lengthSqr_add_normalize_ne (M : MathFns K) (L : MathLaws M) (v a : vec3f K)
    (hv : 0 < dot v v) (h : 0 ≤ dot v a) : lengthSqr (v + normalize M a) ≠ 0 := by
  apply lengthSqr_add_ne v _ hv
  rw [dot_normalize_right]
  exact div_nonneg h (length_nonneg M L a)

/-- Under the Phong-style model `eval_brdf` is defined as soon as `v + l` is not zero. -/
theorem eval_brdf_checked_phong_defined (M : MathFns K) (L : MathLaws M) (kd ks : vec3f K)
    (n : K) (v l norm : vec3f K) (h : lengthSqr (v + l) ≠ 0) :
    eval_brdf_checked M kd ks n v l norm false
      = some (eval_brdf M kd ks n v l norm false) := by
  have hpi : M.pi ≠ 0 := ne_of_gt L.pi_pos
  have h8 : 8 * M.pi ≠ 0 := mul_ne_zero (by norm_num) hpi
  simp only [eval_brdf_checked, eval_brdf, Bool.false_eq_true, not_false_eq_true, if_true,
    normalize_checked_defined M L _ h, checked_divs_eq, if_pos hpi, if_pos h8,
    Option.some_bind]

/-- The term of a point light on a Phong-style surface is defined when the light is not
at the shaded point and lies on the side of the view direction. -/
theorem point_light_shade_checked_defined (M : MathFns K) (L : MathLaws M)
    (pos norm v kd ks : vec3f K) (n : K) (light : Light K)
    (h1 : lengthSqr (light.frame.o - pos) ≠ 0) (hv : 0 < dot v v)
    (h2 : 0 ≤ dot v (light.frame.o - pos)) :
    point_light_shade_checked M pos norm v kd ks n false light
      = some (point_light_shade M pos norm v kd ks n false light) := by
  simp only [point_light_shade_checked, point_light_shade, checked_divs_eq, if_pos h1,
    normalize_checked_defined M L _ h1, Option.some_bind,
    eval_brdf_checked_phong_defined M L _ _ _ _ _ _
      (lengthSqr_add_normalize_ne M L v _ hv h2)]

/-- A defined accumulator and a defined term give the accumulator of `pathtrace_ray`. -/
theorem shade_point_light_checked_defined (M : MathFns K) (C : Collab K R) (scene : Scene K)
    (pos norm v kd ks : vec3f K) (n : K) (mf : Bool) (c : vec3f K) (light : Light K)
    (h : point_light_shade_checked M pos norm v kd ks n mf light
      = some (point_light_shade M pos norm v kd ks n mf light)) :
    shade_point_light_checked M C scene pos norm v kd ks n mf (some c) light
      = some (shade_point_light M C scene pos norm v kd ks n mf c light) := by
  unfold shade_point_light_checked shade_point_light
  simp only [h, Option.some.injEq, add_checked, Option.some_bind, Option.map_some']
  split_ifs <;> rfl

theorem foldl_point_checked_defined (M : MathFns K) (C : Collab K R) (scene : Scene K)
    (pos norm v kd ks : vec3f K) (n : K) (mf : Bool) (l : List (Light K))
    (h : ∀ light ∈ l, point_light_shade_checked M pos norm v kd ks n mf light
      = some (point_light_shade M pos norm v kd ks n mf light)) :
    ∀ c : vec3f K,
      l.foldl (shade_point_light_checked M C scene pos norm v kd ks n mf) (some c)
        = some (l.foldl (shade_point_light M C scene pos norm v kd ks n mf) c) := by
  induction l with
  | nil => intro c; rfl
  | cons a l ih =>
    intro c
    simp only [List.foldl_cons]
    rw [shade_point_light_checked_defined M C scene pos norm v kd ks n mf c a
      (h a (List.mem_cons_self _ _))]
    exact ih (fun t ht => h t (List.mem_cons_of_mem _ ht)) _

theorem foldl_area_checked_no_emission (M : MathFns K) (C : Collab K R) (scene : Scene K)
    (pos norm v kd ks : vec3f K) (n : K) (mf : Bool) (l : List (Surface K))
    (h : ∀ s ∈ l, s.mat.ke = zero3f) (st : Option (vec3f K) × R) :
    l.foldl (shade_area_light_checked M C scene pos norm v kd ks n mf) st = st := by
  induction l generalizing st with
  | nil => rfl
  | cons s l ih =>
    have hs : s.mat.ke = zero3f := h s (List.mem_cons_self _ _)
    have hl : ∀ t ∈ l, t.mat.ke = zero3f := fun t ht => h t (List.mem_cons_of_mem _ ht)
    simp only [List.foldl_cons]
    have e : shade_area_light_checked M C scene pos norm v kd ks n mf st s = st := by
      simp [shade_area_light_checked, hs]
    rw [e]
    exact ih hl st

theorem shade_environment_checked_zero_bg (M : MathFns K) (C : Collab K R) (scene : Scene K)
    (pos norm v kd ks : vec3f K) (n : K) (mf : Bool) (st : Option (vec3f K) × R)
    (h : scene.background = zero3f) :
    shade_environment_checked M C scene pos norm v kd ks n mf st = st := by
  simp [shade_environment_checked, h]

/-- The direct stage on a surface lit by point lights only (no emissive surface, zero
background) is defined when every term of a point light is. -/
theorem hit_direct_checked_defined (M : MathFns K) (C : Collab K R) (scene : Scene K)
    (ray : ray3f K) (g : R) (depth : Int) (isect : intersection3f K)
    (hnoem : ∀ s ∈ scene.surfaces, s.mat.ke = zero3f) (hbg : scene.background = zero3f)
    (hl : ∀ light ∈ scene.lights,
      point_light_shade_checked M isect.pos isect.norm (-ray.d)
          (lookup_scaled_texture M isect.mat.kd isect.mat.kd_txt isect.texcoord)
          (lookup_scaled_texture M isect.mat.ks isect.mat.ks_txt isect.texcoord)
          isect.mat.n isect.mat.microfacet light
        = some (point_light_shade M isect.pos isect.norm (-ray.d)
          (lookup_scaled_texture M isect.mat.kd isect.mat.kd_txt isect.texcoord)
          (lookup_scaled_texture M isect.mat.ks isect.mat.ks_txt isect.texcoord)
          isect.mat.n isect.mat.microfacet light)) :
    hit_direct_checked M C scene ray g depth isect
      = (some (hit_direct M C scene ray g depth isect).1,
          (hit_direct M C scene ray g depth isect).2) := by
  unfold hit_direct_checked hit_direct
  simp only
  rw [shade_environment_checked_zero_bg _ _ _ _ _ _ _ _ _ _ _ hbg,
    shade_environment_zero_bg _ _ _ _ _ _ _ _ _ _ _ hbg,
    foldl_area_checked_no_emission _ _ _ _ _ _ _ _ _ _ _ hnoem,
    foldl_area_no_emission _ _ _ _ _ _ _ _ _ _ _ hnoem,
    foldl_point_checked_defined M C scene _ _ _ _ _ _ _ _ hl]

/-- A call with partial division whose ray misses returns the environment. -/
theorem pathtrace_body_checked_miss (M : MathFns K) (C : Collab K R)
    (self : Scene K → ray3f K → R → Int → Option (Option (vec3f K) × R))
    (scene : Scene K) (ray : ray3f K) (g : R) (depth : Int)
    (hhit : ¬ (C.intersect scene ray).hit = true) :
    pathtrace_body_checked M C self scene ray g depth
      = some (eval_env_checked M scene.background scene.background_txt ray.d, g) := by
  unfold pathtrace_body_checked
  simp only
  rw [if_pos hhit]

/-- A call with partial division that hits a material without mirror reflection, the
indirect channel closed, returns the direct stage. -/
theorem pathtrace_body_checked_leaf (M : MathFns K) (C : Collab K R)
    (self : Scene K → ray3f K → R → Int → Option (Option (vec3f K) × R))
    (scene : Scene K) (ray : ray3f K) (g : R) (depth : Int)
    (hhit : (C.intersect scene ray).hit = true)
    (hk : (C.intersect scene ray).mat.kr = zero3f)
    (hc : ¬ ((lookup_scaled_texture M (C.intersect scene ray).mat.kd
          (C.intersect scene ray).mat.kd_txt (C.intersect scene ray).texcoord ≠ zero3f ∨
        lookup_scaled_texture M (C.intersect scene ray).mat.ks
          (C.intersect scene ray).mat.ks_txt (C.intersect scene ray).texcoord ≠ zero3f) ∧
      depth < scene.path_max_depth)) :
    pathtrace_body_checked M C self scene ray g depth
      = some (hit_direct_checked M C scene ray g depth (C.intersect scene ray)) := by
  unfold pathtrace_body_checked
  simp only
  rw [if_neg (not_not.mpr hhit)]
  unfold indirect_bounce_checked
  simp only
  rw [if_neg hc]
  simp [reflect_bounce_checked, hk]

/-- The color of a returned run with partial division, when the run of `pathtrace_ray`
returns and the color is known to be defined. -/
theorem pathtrace_ray_checked_of_defined (M : MathFns K) (C : Collab K R) (fuel : Nat)
    (scene : Scene K) (ray : ray3f K) (g : R) (depth : Int) (r : vec3f K × R)
    (h : pathtrace_ray M C fuel scene ray g depth = some r)
    (hdef : ∀ x, pathtrace_ray_checked M C fuel scene ray g depth = some x → x.1 ≠ none) :
    pathtrace_ray_checked M C fuel scene ray g depth = some (some r.1, r.2) := by
  obtain ⟨oc, h1, h2⟩ := pathtrace_ray_checked_returns M C fuel scene ray g depth r h
  have h3 := hdef _ h1
  cases oc with
  | none => exact (h3 rfl).elim
  | some c => rw [h1, h2 c rfl]

end CheckedFacts
section CheckedRuns
variable {K : Type} [LinearOrderedField K] [FloorRing K] {R : Type}

/-- Direct lighting of a Phong-style surface without mirror reflection, the indirect
channel closed, in a scene without emissive surface and with a zero background: when no
light is at the hit point and every light lies on the side of the view direction, the
color is defined, and it is the color of `pathtrace_ray`. -/
theorem pathtrace_ray_checked_direct (M : MathFns K) (L : MathLaws M) (C : Collab K R)
    (scene : Scene K) (ray : ray3f K) (g : R) (depth : Int) (fuel : Nat)
    (hhit : (C.intersect scene ray).hit = true)
    (hmf : (C.intersect scene ray).mat.microfacet = false)
    (hk : (C.intersect scene ray).mat.kr = zero3f)
    (hc : ¬ (((lookup_scaled_texture M (C.intersect scene ray).mat.kd (C.intersect scene
        ray).mat.kd_txt (C.intersect scene ray).texcoord) ≠ zero3f ∨ (lookup_scaled_texture M
        (C.intersect scene ray).mat.ks (C.intersect scene ray).mat.ks_txt (C.intersect scene
        ray).texcoord) ≠ zero3f) ∧ depth < scene.path_max_depth))
    (hnoem : ∀ s ∈ scene.surfaces, s.mat.ke = zero3f) (hbg : scene.background = zero3f)
    (hv : 0 < dot (-ray.d) (-ray.d))
    (hl : ∀ light ∈ scene.lights, lengthSqr (light.frame.o - (C.intersect scene ray).pos) ≠ 0 ∧
      0 ≤ dot (-ray.d) (light.frame.o - (C.intersect scene ray).pos)) :
    pathtrace_ray_checked M C (fuel + 1) scene ray g depth = some (some (hit_direct M C scene ray
        g depth (C.intersect scene ray)).1, (hit_direct M C scene ray g depth (C.intersect scene
        ray)).2) ∧
    pathtrace_ray M C (fuel + 1) scene ray g depth = some (hit_direct M C scene ray g depth
        (C.intersect scene ray)) := by
  have hdir : hit_direct_checked M C scene ray g depth (C.intersect scene ray) = (some (hit_direct
      M C scene ray g depth (C.intersect scene ray)).1, (hit_direct M C scene ray g depth
      (C.intersect scene ray)).2) := by
    apply hit_direct_checked_defined M C scene ray g depth _ hnoem hbg
    intro light hlight
    rw [hmf]
    exact point_light_shade_checked_defined M L _ _ _ _ _ _ light (hl light hlight).1 hv
      (hl light hlight).2
  constructor
  · show pathtrace_body_checked M C (pathtrace_ray_checked M C fuel) scene ray g depth = _
    rw [pathtrace_body_checked_leaf M C _ scene ray g depth hhit hk hc, hdir]
  · show pathtrace_body M C (pathtrace_ray M C fuel) scene ray g depth = _
    unfold pathtrace_body
    simp only
    rw [if_neg (not_not.mpr hhit)]
    unfold indirect_bounce
    simp only
    rw [if_neg hc]
    simp [reflect_bounce, hk]

/-- As before with the indirect channel open and a bounce ray that misses all geometry:
when in addition the sampled direction is not opposite to the view direction and the
sampled pdf is not zero, the color is defined, and it is the color of `pathtrace_ray`. -/
theorem pathtrace_ray_checked_bounce_miss (M : MathFns K) (L : MathLaws M) (C : Collab K R)
    (scene : Scene K) (ray : ray3f K) (g : R) (depth : Int) (fuel : Nat)
    (hhit : (C.intersect scene ray).hit = true)
    (hmf : (C.intersect scene ray).mat.microfacet = false)
    (hk : (C.intersect scene ray).mat.kr = zero3f)
    (hc : ((lookup_scaled_texture M (C.intersect scene ray).mat.kd (C.intersect scene
        ray).mat.kd_txt (C.intersect scene ray).texcoord) ≠ zero3f ∨ (lookup_scaled_texture M
        (C.intersect scene ray).mat.ks (C.intersect scene ray).mat.ks_txt (C.intersect scene
        ray).texcoord) ≠ zero3f) ∧ depth < scene.path_max_depth)
    (hnoem : ∀ s ∈ scene.surfaces, s.mat.ke = zero3f) (hbg : scene.background = zero3f)
    (hv : 0 < dot (-ray.d) (-ray.d))
    (hl : ∀ light ∈ scene.lights, lengthSqr (light.frame.o - (C.intersect scene ray).pos) ≠ 0 ∧
      0 ≤ dot (-ray.d) (light.frame.o - (C.intersect scene ray).pos))
    (hmiss : ¬ (C.intersect scene (mkRay C (C.intersect scene ray).pos (C.sample_brdf
        (lookup_scaled_texture M (C.intersect scene ray).mat.kd (C.intersect scene ray).mat.kd_txt
        (C.intersect scene ray).texcoord) (lookup_scaled_texture M (C.intersect scene ray).mat.ks
        (C.intersect scene ray).mat.ks_txt (C.intersect scene ray).texcoord) (C.intersect scene
        ray).mat.n (-ray.d) (C.intersect scene ray).norm (C.next_vec2f (hit_direct M C scene ray g
        depth (C.intersect scene ray)).2).1 (C.next_float (C.next_vec2f (hit_direct M C scene ray
        g depth (C.intersect scene ray)).2).2).1).1)).hit = true)
    (hdir : lengthSqr (-ray.d + (C.sample_brdf (lookup_scaled_texture M (C.intersect scene
        ray).mat.kd (C.intersect scene ray).mat.kd_txt (C.intersect scene ray).texcoord)
        (lookup_scaled_texture M (C.intersect scene ray).mat.ks (C.intersect scene ray).mat.ks_txt
        (C.intersect scene ray).texcoord) (C.intersect scene ray).mat.n (-ray.d) (C.intersect
        scene ray).norm (C.next_vec2f (hit_direct M C scene ray g depth (C.intersect scene
        ray)).2).1 (C.next_float (C.next_vec2f (hit_direct M C scene ray g depth (C.intersect
        scene ray)).2).2).1).1) ≠ 0)
    (hpdf : (C.sample_brdf (lookup_scaled_texture M (C.intersect scene ray).mat.kd (C.intersect
        scene ray).mat.kd_txt (C.intersect scene ray).texcoord) (lookup_scaled_texture M
        (C.intersect scene ray).mat.ks (C.intersect scene ray).mat.ks_txt (C.intersect scene
        ray).texcoord) (C.intersect scene ray).mat.n (-ray.d) (C.intersect scene ray).norm
        (C.next_vec2f (hit_direct M C scene ray g depth (C.intersect scene ray)).2).1
        (C.next_float (C.next_vec2f (hit_direct M C scene ray g depth (C.intersect scene
        ray)).2).2).1).2 ≠ 0) :
    pathtrace_ray_checked M C (fuel + 2) scene ray g depth
      = some (some ((hit_direct M C scene ray g depth (C.intersect scene ray)).1 + eval_env M
          scene.background scene.background_txt (C.sample_brdf (lookup_scaled_texture M
          (C.intersect scene ray).mat.kd (C.intersect scene ray).mat.kd_txt (C.intersect scene
          ray).texcoord) (lookup_scaled_texture M (C.intersect scene ray).mat.ks (C.intersect
          scene ray).mat.ks_txt (C.intersect scene ray).texcoord) (C.intersect scene ray).mat.n
          (-ray.d) (C.intersect scene ray).norm (C.next_vec2f (hit_direct M C scene ray g depth
          (C.intersect scene ray)).2).1 (C.next_float (C.next_vec2f (hit_direct M C scene ray g
          depth (C.intersect scene ray)).2).2).1).1 * (max (dot (C.intersect scene ray).norm
          (C.sample_brdf (lookup_scaled_texture M (C.intersect scene ray).mat.kd (C.intersect
          scene ray).mat.kd_txt (C.intersect scene ray).texcoord) (lookup_scaled_texture M
          (C.intersect scene ray).mat.ks (C.intersect scene ray).mat.ks_txt (C.intersect scene
          ray).texcoord) (C.intersect scene ray).mat.n (-ray.d) (C.intersect scene ray).norm
          (C.next_vec2f (hit_direct M C scene ray g depth (C.intersect scene ray)).2).1
          (C.next_float (C.next_vec2f (hit_direct M C scene ray g depth (C.intersect scene
          ray)).2).2).1).1) 0 * eval_brdf M (lookup_scaled_texture M (C.intersect scene
          ray).mat.kd (C.intersect scene ray).mat.kd_txt (C.intersect scene ray).texcoord)
          (lookup_scaled_texture M (C.intersect scene ray).mat.ks (C.intersect scene
          ray).mat.ks_txt (C.intersect scene ray).texcoord) (C.intersect scene ray).mat.n (-ray.d)
          (C.sample_brdf (lookup_scaled_texture M (C.intersect scene ray).mat.kd (C.intersect
          scene ray).mat.kd_txt (C.intersect scene ray).texcoord) (lookup_scaled_texture M
          (C.intersect scene ray).mat.ks (C.intersect scene ray).mat.ks_txt (C.intersect scene
          ray).texcoord) (C.intersect scene ray).mat.n (-ray.d) (C.intersect scene ray).norm
          (C.next_vec2f (hit_direct M C scene ray g depth (C.intersect scene ray)).2).1
          (C.next_float (C.next_vec2f (hit_direct M C scene ray g depth (C.intersect scene
          ray)).2).2).1).1 (C.intersect scene ray).norm (C.intersect scene ray).mat.microfacet /
          (C.sample_brdf (lookup_scaled_texture M (C.intersect scene ray).mat.kd (C.intersect
          scene ray).mat.kd_txt (C.intersect scene ray).texcoord) (lookup_scaled_texture M
          (C.intersect scene ray).mat.ks (C.intersect scene ray).mat.ks_txt (C.intersect scene
          ray).texcoord) (C.intersect scene ray).mat.n (-ray.d) (C.intersect scene ray).norm
          (C.next_vec2f (hit_direct M C scene ray g depth (C.intersect scene ray)).2).1
          (C.next_float (C.next_vec2f (hit_direct M C scene ray g depth (C.intersect scene
          ray)).2).2).1).2)),
          (C.next_float (C.next_vec2f (hit_direct M C scene ray g depth (C.intersect scene
              ray)).2).2).2) ∧
    pathtrace_ray M C (fuel + 2) scene ray g depth
      = some ((hit_direct M C scene ray g depth (C.intersect scene ray)).1 + eval_env M
          scene.background scene.background_txt (C.sample_brdf (lookup_scaled_texture M
          (C.intersect scene ray).mat.kd (C.intersect scene ray).mat.kd_txt (C.intersect scene
          ray).texcoord) (lookup_scaled_texture M (C.intersect scene ray).mat.ks (C.intersect
          scene ray).mat.ks_txt (C.intersect scene ray).texcoord) (C.intersect scene ray).mat.n
          (-ray.d) (C.intersect scene ray).norm (C.next_vec2f (hit_direct M C scene ray g depth
          (C.intersect scene ray)).2).1 (C.next_float (C.next_vec2f (hit_direct M C scene ray g
          depth (C.intersect scene ray)).2).2).1).1 * (max (dot (C.intersect scene ray).norm
          (C.sample_brdf (lookup_scaled_texture M (C.intersect scene ray).mat.kd (C.intersect
          scene ray).mat.kd_txt (C.intersect scene ray).texcoord) (lookup_scaled_texture M
          (C.intersect scene ray).mat.ks (C.intersect scene ray).mat.ks_txt (C.intersect scene
          ray).texcoord) (C.intersect scene ray).mat.n (-ray.d) (C.intersect scene ray).norm
          (C.next_vec2f (hit_direct M C scene ray g depth (C.intersect scene ray)).2).1
          (C.next_float (C.next_vec2f (hit_direct M C scene ray g depth (C.intersect scene
          ray)).2).2).1).1) 0 * eval_brdf M (lookup_scaled_texture M (C.intersect scene
          ray).mat.kd (C.intersect scene ray).mat.kd_txt (C.intersect scene ray).texcoord)
          (lookup_scaled_texture M (C.intersect scene ray).mat.ks (C.intersect scene
          ray).mat.ks_txt (C.intersect scene ray).texcoord) (C.intersect scene ray).mat.n (-ray.d)
          (C.sample_brdf (lookup_scaled_texture M (C.intersect scene ray).mat.kd (C.intersect
          scene ray).mat.kd_txt (C.intersect scene ray).texcoord) (lookup_scaled_texture M
          (C.intersect scene ray).mat.ks (C.intersect scene ray).mat.ks_txt (C.intersect scene
          ray).texcoord) (C.intersect scene ray).mat.n (-ray.d) (C.intersect scene ray).norm
          (C.next_vec2f (hit_direct M C scene ray g depth (C.intersect scene ray)).2).1
          (C.next_float (C.next_vec2f (hit_direct M C scene ray g depth (C.intersect scene
          ray)).2).2).1).1 (C.intersect scene ray).norm (C.intersect scene ray).mat.microfacet /
          (C.sample_brdf (lookup_scaled_texture M (C.intersect scene ray).mat.kd (C.intersect
          scene ray).mat.kd_txt (C.intersect scene ray).texcoord) (lookup_scaled_texture M
          (C.intersect scene ray).mat.ks (C.intersect scene ray).mat.ks_txt (C.intersect scene
          ray).texcoord) (C.intersect scene ray).mat.n (-ray.d) (C.intersect scene ray).norm
          (C.next_vec2f (hit_direct M C scene ray g depth (C.intersect scene ray)).2).1
          (C.next_float (C.next_vec2f (hit_direct M C scene ray g depth (C.intersect scene
          ray)).2).2).1).2),
          (C.next_float (C.next_vec2f (hit_direct M C scene ray g depth (C.intersect scene
              ray)).2).2).2) := by
  have hd2 : hit_direct_checked M C scene ray g depth (C.intersect scene ray) = (some (hit_direct
      M C scene ray g depth (C.intersect scene ray)).1, (hit_direct M C scene ray g depth
      (C.intersect scene ray)).2) := by
    apply hit_direct_checked_defined M C scene ray g depth _ hnoem hbg
    intro light hlight
    rw [hmf]
    exact point_light_shade_checked_defined M L _ _ _ _ _ _ light (hl light hlight).1 hv
      (hl light hlight).2
  have hpi : M.pi ≠ 0 := ne_of_gt L.pi_pos
  constructor
  · show pathtrace_body_checked M C (pathtrace_ray_checked M C (fuel + 1)) scene ray g depth = _
    unfold pathtrace_body_checked
    simp only
    rw [if_neg (not_not.mpr hhit), hd2]
    unfold indirect_bounce_checked
    simp only
    rw [if_pos hc]
    have hcall : pathtrace_ray_checked M C (fuel + 1) scene (mkRay C (C.intersect scene ray).pos
        (C.sample_brdf (lookup_scaled_texture M (C.intersect scene ray).mat.kd (C.intersect scene
        ray).mat.kd_txt (C.intersect scene ray).texcoord) (lookup_scaled_texture M (C.intersect
        scene ray).mat.ks (C.intersect scene ray).mat.ks_txt (C.intersect scene ray).texcoord)
        (C.intersect scene ray).mat.n (-ray.d) (C.intersect scene ray).norm (C.next_vec2f
        (hit_direct M C scene ray g depth (C.intersect scene ray)).2).1 (C.next_float
        (C.next_vec2f (hit_direct M C scene ray g depth (C.intersect scene ray)).2).2).1).1)
        (C.next_float (C.next_vec2f (hit_direct M C scene ray g depth (C.intersect scene
        ray)).2).2).2 (depth + 1)
        = some (some (eval_env M scene.background scene.background_txt (C.sample_brdf
            (lookup_scaled_texture M (C.intersect scene ray).mat.kd (C.intersect scene
            ray).mat.kd_txt (C.intersect scene ray).texcoord) (lookup_scaled_texture M
            (C.intersect scene ray).mat.ks (C.intersect scene ray).mat.ks_txt (C.intersect scene
            ray).texcoord) (C.intersect scene ray).mat.n (-ray.d) (C.intersect scene ray).norm
            (C.next_vec2f (hit_direct M C scene ray g depth (C.intersect scene ray)).2).1
            (C.next_float (C.next_vec2f (hit_direct M C scene ray g depth (C.intersect scene
            ray)).2).2).1).1), (C.next_float (C.next_vec2f (hit_direct M C scene ray g depth
            (C.intersect scene ray)).2).2).2) := by
      show pathtrace_body_checked M C (pathtrace_ray_checked M C fuel) scene _ _ _ = _
      rw [pathtrace_body_checked_miss M C _ scene _ _ _ hmiss, eval_env_checked_eq,
        if_pos hpi]
      rfl
    rw [hcall]
    simp only [hmf, eval_brdf_checked_phong_defined M L _ _ _ _ _ _ hdir, Option.map_some',
      Option.some_bind, checked_divs_eq, if_pos hpdf, add_checked, reflect_bounce_checked,
      hk, not_true_eq_false, if_false]
  · show pathtrace_body M C (pathtrace_ray M C (fuel + 1)) scene ray g depth = _
    unfold pathtrace_body
    simp only
    rw [if_neg (not_not.mpr hhit)]
    unfold indirect_bounce
    simp only
    rw [if_pos hc]
    have hcall : pathtrace_ray M C (fuel + 1) scene (mkRay C (C.intersect scene ray).pos
        (C.sample_brdf (lookup_scaled_texture M (C.intersect scene ray).mat.kd (C.intersect scene
        ray).mat.kd_txt (C.intersect scene ray).texcoord) (lookup_scaled_texture M (C.intersect
        scene ray).mat.ks (C.intersect scene ray).mat.ks_txt (C.intersect scene ray).texcoord)
        (C.intersect scene ray).mat.n (-ray.d) (C.intersect scene ray).norm (C.next_vec2f
        (hit_direct M C scene ray g depth (C.intersect scene ray)).2).1 (C.next_float
        (C.next_vec2f (hit_direct M C scene ray g depth (C.intersect scene ray)).2).2).1).1)
        (C.next_float (C.next_vec2f (hit_direct M C scene ray g depth (C.intersect scene
        ray)).2).2).2 (depth + 1)
        = some (eval_env M scene.background scene.background_txt (C.sample_brdf
            (lookup_scaled_texture M (C.intersect scene ray).mat.kd (C.intersect scene
            ray).mat.kd_txt (C.intersect scene ray).texcoord) (lookup_scaled_texture M
            (C.intersect scene ray).mat.ks (C.intersect scene ray).mat.ks_txt (C.intersect scene
            ray).texcoord) (C.intersect scene ray).mat.n (-ray.d) (C.intersect scene ray).norm
            (C.next_vec2f (hit_direct M C scene ray g depth (C.intersect scene ray)).2).1
            (C.next_float (C.next_vec2f (hit_direct M C scene ray g depth (C.intersect scene
            ray)).2).2).1).1, (C.next_float (C.next_vec2f (hit_direct M C scene ray g depth
            (C.intersect scene ray)).2).2).2) := by
      show pathtrace_body M C (pathtrace_ray M C fuel) scene _ _ _ = _
      unfold pathtrace_body
      simp only
      rw [if_pos hmiss]
      rfl
    rw [hcall]
    simp [reflect_bounce, hk]

/-- A run with partial division that returns a defined color: `pathtrace_ray` returns
that color, with the same generator state. -/
theorem pathtrace_ray_checked_finite (M : MathFns K) (C : Collab K R) (fuel : Nat)
    (scene : Scene K) (ray : ray3f K) (g : R) (depth : Int) (x : Option (vec3f K) × R)
    (h : pathtrace_ray_checked M C fuel scene ray g depth = some x)
    (hdef : color_undefined (pathtrace_ray_checked M C fuel scene ray g depth) = false) :
    ∃ c, x = (some c, x.2) ∧ pathtrace_ray M C fuel scene ray g depth = some (c, x.2) := by
  obtain ⟨c, hc⟩ := color_undefined_false x _ h hdef
  have hx : x = (some c, x.2) := by
    rw [← hc]
  refine ⟨c, hx, ?_⟩
  rw [hx] at h
  exact pathtrace_ray_of_checked M C fuel scene ray g depth c x.2 h

/-- When `pathtrace_ray` returns and the color of the run with partial division is not
undefined, that run returns the same color and generator state. -/
theorem pathtrace_ray_checked_of_total (M : MathFns K) (C : Collab K R) (fuel : Nat)
    (scene : Scene K) (ray : ray3f K) (g : R) (depth : Int) (r : vec3f K × R)
    (h : pathtrace_ray M C fuel scene ray g depth = some r)
    (hdef : color_undefined (pathtrace_ray_checked M C fuel scene ray g depth) = false) :
    pathtrace_ray_checked M C fuel scene ray g depth = some (some r.1, r.2) := by
  obtain ⟨oc, hoc, hag⟩ := pathtrace_ray_checked_returns M C fuel scene ray g depth r h
  obtain ⟨c, hc⟩ := color_undefined_false _ _ hoc hdef
  have hc2 : oc = some c := hc
  rw [hoc, hc2, hag c hc2]

/-- Without emissive surface and with a zero background the direct stage draws no
random number. -/
theorem hit_direct_rng (M : MathFns K) (C : Collab K R) (scene : Scene K) (ray : ray3f K)
    (g : R) (depth : Int) (isect : intersection3f K)
    (hnoem : ∀ s ∈ scene.surfaces, s.mat.ke = zero3f) (hbg : scene.background = zero3f) :
    (hit_direct M C scene ray g depth isect).2 = g := by
  unfold hit_direct
  simp only
  rw [shade_environment_zero_bg _ _ _ _ _ _ _ _ _ _ _ hbg,
    foldl_area_no_emission _ _ _ _ _ _ _ _ _ _ _ hnoem]

/-- The run with partial division returns exactly when `pathtrace_ray` does. -/
theorem pathtrace_ray_checked_none_iff (M : MathFns K) (C : Collab K R) (fuel : Nat)
    (scene : Scene K) (ray : ray3f K) (g : R) (depth : Int) :
    pathtrace_ray_checked M C fuel scene ray g depth = none ↔
      pathtrace_ray M C fuel scene ray g depth = none := by
  have h := pathtrace_ray_checked_agrees M C fuel scene ray g depth
  revert h
  cases pathtrace_ray_checked M C fuel scene ray g depth <;>
    cases pathtrace_ray M C fuel scene ray g depth <;>
    simp [RunAgrees]

/-- The microfacet model is defined when the half vector exists and none of its three
denominators `dot(v,h)`, `dot(l,h)`, `dot(l,norm) * dot(v,norm)` is zero. -/
theorem eval_brdf_checked_microfacet_defined (M : MathFns K) (L : MathLaws M)
    (kd ks : vec3f K) (n : K) (v l norm : vec3f K) (h1 : lengthSqr (v + l) ≠ 0)
    (h2 : dot v (normalize M (v + l)) ≠ 0) (h3 : dot l (normalize M (v + l)) ≠ 0)
    (h4 : dot l norm * dot v norm ≠ 0) :
    eval_brdf_checked M kd ks n v l norm true
      = some (eval_brdf M kd ks n v l norm true) := by
  have hpi : (2 : K) * M.pi ≠ 0 := mul_ne_zero two_ne_zero (ne_of_gt L.pi_pos)
  have h5 : 4 * dot l norm * dot v norm ≠ 0 := by
    rw [mul_assoc]
    exact mul_ne_zero (by norm_num) h4
  have hsome : ∃ x, eval_brdf_checked M kd ks n v l norm true = some x := by
    unfold eval_brdf_checked
    simp only [not_true_eq_false, if_false]
    rw [normalize_checked_defined M L _ h1]
    simp only [Option.some_bind, checked_div, checked_divs, if_neg hpi, if_neg h2, if_neg h3,
      if_neg h5]
    exact ⟨_, rfl⟩
  obtain ⟨x, hx⟩ := hsome
  rw [hx, eval_brdf_checked_some M kd ks n v l norm true x hx]

/-- The term of a point light on a microfacet surface is defined when the light is not
at the shaded point and the model is defined for its direction. -/
theorem point_light_shade_checked_microfacet_defined (M : MathFns K) (L : MathLaws M)
    (pos norm v kd ks : vec3f K) (n : K) (light : Light K)
    (h0 : lengthSqr (light.frame.o - pos) ≠ 0)
    (h1 : lengthSqr (v + normalize M (light.frame.o - pos)) ≠ 0)
    (h2 : dot v (normalize M (v + normalize M (light.frame.o - pos))) ≠ 0)
    (h3 : dot (normalize M (light.frame.o - pos))
      (normalize M (v + normalize M (light.frame.o - pos))) ≠ 0)
    (h4 : dot (normalize M (light.frame.o - pos)) norm * dot v norm ≠ 0) :
    point_light_shade_checked M pos norm v kd ks n true light
      = some (point_light_shade M pos norm v kd ks n true light) := by
  have hsome : ∃ x, point_light_shade_checked M pos norm v kd ks n true light = some x := by
    unfold point_light_shade_checked
    rw [normalize_checked_defined M L _ h0]
    simp only [checked_divs, if_neg h0, Option.some_bind]
    rw [eval_brdf_checked_microfacet_defined M L kd ks n v _ norm h1 h2 h3 h4]
    exact ⟨_, rfl⟩
  obtain ⟨x, hx⟩ := hsome
  rw [hx, point_light_shade_checked_some M pos norm v kd ks n true light x hx]

/-- The normalized vector of a positive multiple of the z axis lies along the z axis,
with a positive coordinate. -/
theorem normalize_z (M : MathFns K) (L : MathLaws M) (t : K) (ht : 0 < t) :
    ∃ z, 0 < z ∧ normalize M (⟨0, 0, t⟩ : vec3f K) = ⟨0, 0, z⟩ := by
  have hl : lengthSqr (⟨0, 0, t⟩ : vec3f K) ≠ 0 := by
    simp [lengthSqr, dot, ne_of_gt ht]
  have hs : 0 < length M (⟨0, 0, t⟩ : vec3f K) :=
    lt_of_le_of_ne (L.sqrt_nonneg _) (Ne.symm (length_ne_zero_of M L _ hl))
  refine ⟨t / length M (⟨0, 0, t⟩ : vec3f K), div_pos ht hs, ?_⟩
  unfold normalize
  ext <;> simp

/-- A hit on a pure mirror of the Phong-style model (`kd = ks = 0`, `kr` nonzero) whose
mirror ray misses all geometry, in a scene without emissive surface and with a zero
background: when no light is at the hit point and every light lies on the side of the
view direction, no quotient by zero occurs. -/
theorem pathtrace_ray_checked_mirror_miss (M : MathFns K) (L : MathLaws M) (C : Collab K R)
    (scene : Scene K) (ray : ray3f K) (g : R) (depth : Int) (fuel : Nat)
    (hhit : (C.intersect scene ray).hit = true)
    (hmf : (C.intersect scene ray).mat.microfacet = false)
    (hkd : (C.intersect scene ray).mat.kd = zero3f)
    (hks : (C.intersect scene ray).mat.ks = zero3f)
    (hkr : (C.intersect scene ray).mat.kr ≠ zero3f)
    (hnoem : ∀ s ∈ scene.surfaces, s.mat.ke = zero3f) (hbg : scene.background = zero3f)
    (hv : 0 < dot (-ray.d) (-ray.d))
    (hl : ∀ light ∈ scene.lights, lengthSqr (light.frame.o - (C.intersect scene ray).pos) ≠ 0 ∧
      0 ≤ dot (-ray.d) (light.frame.o - (C.intersect scene ray).pos))
    (hmiss : (C.intersect scene (mkRay C (C.intersect scene ray).pos
      (C.reflect ray.d (C.intersect scene ray).norm))).hit = false) :
    color_undefined (pathtrace_ray_checked M C (fuel + 2) scene ray g depth) = false := by
  have hdir : hit_direct_checked M C scene ray g depth (C.intersect scene ray) = (some (hit_direct
      M C scene ray g depth (C.intersect scene ray)).1, (hit_direct M C scene ray g depth
      (C.intersect scene ray)).2) := by
    apply hit_direct_checked_defined M C scene ray g depth _ hnoem hbg
    intro light hlight
    rw [hmf]
    exact point_light_shade_checked_defined M L _ _ _ _ _ _ light (hl light hlight).1 hv
      (hl light hlight).2
  have hself : pathtrace_ray_checked M C (fuel + 1) scene (mkRay C (C.intersect scene ray).pos
      (C.reflect ray.d (C.intersect scene ray).norm))
      (hit_direct M C scene ray g depth (C.intersect scene ray)).2 (depth + 1)
      = some (some (eval_env M scene.background scene.background_txt
          (mkRay C (C.intersect scene ray).pos
            (C.reflect ray.d (C.intersect scene ray).norm)).d),
        (hit_direct M C scene ray g depth (C.intersect scene ray)).2) := by
    show pathtrace_body_checked M C (pathtrace_ray_checked M C fuel) scene _ _ _ = _
    rw [pathtrace_body_checked_miss M C _ scene _ _ _ (by rw [hmiss]; simp),
      eval_env_checked_eq, if_pos (ne_of_gt L.pi_pos)]
  have h : ∃ c g2, pathtrace_ray_checked M C (fuel + 2) scene ray g depth
      = some (some c, g2) := by
    show ∃ c g2, pathtrace_body_checked M C (pathtrace_ray_checked M C (fuel + 1)) scene ray g
      depth = some (some c, g2)
    unfold pathtrace_body_checked
    simp only
    rw [if_neg (not_not.mpr hhit), hdir]
    unfold indirect_bounce_checked
    simp only
    rw [hkd, hks, lookup_zero3f, lookup_zero3f, if_neg (by simp)]
    simp only
    unfold reflect_bounce_checked
    simp only
    rw [if_pos hkr, hself]
    exact ⟨_, _, rfl⟩
  obtain ⟨c, g2, hc⟩ := h
  exact color_undefined_of_some _ _ _ hc

end CheckedRuns

/-! ## The claims about `pathtrace_ray` -/

section Claims
variable {K : Type} [LinearOrderedField K] [FloorRing K] {R : Type}

/-- C1: when `intersect(scene, ray)` reports no hit, `pathtrace_ray` returns exactly
`eval_env(scene.background, scene.background_txt, ray.d)`, for every scene, ray,
generator state and depth (and leaves the generator untouched): nothing else is added. -/
theorem C1_miss_returns_environment (M : MathFns K) (C : Collab K R) (fuel : Nat)
    (scene : Scene K) (ray : ray3f K) (rng : R) (depth : Int)
    (h : (C.intersect scene ray).hit = false) :
    pathtrace_ray M C (fuel + 1) scene ray rng depth
      = some (eval_env M scene.background scene.background_txt ray.d, rng) :=
  pathtrace_ray_miss M C fuel scene ray rng depth h

/-- C1 at the empty sky scene: the downward ray misses and returns the environment. -/
theorem C1_miss_returns_environment_witness :
    pathtrace_ray demoMath (demoCollab (fun _ _ => missRecord) (fun _ _ => false)) 1
        skyScene downRay 0 0
      = some (eval_env demoMath (skyScene : Scene ℚ).background
          (skyScene : Scene ℚ).background_txt (downRay : ray3f ℚ).d, 0) :=
  C1_miss_returns_environment demoMath _ 0 skyScene downRay 0 0 rfl

/-- In a scene without emission, ambient term, point lights and background, the direct
stage of a hit leaves the color zero and the generator untouched. -/
theorem hit_direct_dark (M : MathFns K) (C : Collab K R) (scene : Scene K)
    (hsurf : ∀ s ∈ scene.surfaces, s.mat.ke = zero3f)
    (hamb : scene.ambient = zero3f) (hl : scene.lights = [])
    (hbg : scene.background = zero3f)
    (ray : ray3f K) (rng : R) (depth : Int) (isect : intersection3f K)
    (hke : isect.mat.ke = zero3f) :
    hit_direct M C scene ray rng depth isect = (zero3f, rng) := by
  unfold hit_direct
  simp only
  rw [shade_environment_zero_bg _ _ _ _ _ _ _ _ _ _ _ hbg,
    foldl_area_no_emission _ _ _ _ _ _ _ _ _ _ _ hsurf, hl, hamb, hke, lookup_zero3f]
  simp [zero3f_mul, add_zero3f]

/-- All results of `pathtrace_ray` in a scene without emission, ambient term, point
lights and background are zero. -/
theorem pathtrace_ray_dark (M : MathFns K) (C : Collab K R) (scene : Scene K)
    (hmat : ∀ r, (C.intersect scene r).hit = true → (C.intersect scene r).mat.ke = zero3f)
    (hsurf : ∀ s ∈ scene.surfaces, s.mat.ke = zero3f)
    (hamb : scene.ambient = zero3f) (hl : scene.lights = [])
    (hbg : scene.background = zero3f) (fuel : Nat) :
    ∀ (ray : ray3f K) (rng : R) (depth : Int) (res : vec3f K × R),
      pathtrace_ray M C fuel scene ray rng depth = some res → res.1 = zero3f := by
  induction fuel with
  | zero => intro ray rng depth res h; simp [pathtrace_ray] at h
  | succ k ih =>
    intro ray rng depth res h
    change pathtrace_body M C (pathtrace_ray M C k) scene ray rng depth = some res at h
    unfold pathtrace_body at h
    simp only at h
    split at h
    · simp only [Option.some.injEq] at h
      rw [← h, hbg, eval_env_zero3f]
    · next hh =>
      have hhit : (C.intersect scene ray).hit = true := by simpa using hh
      rw [hit_direct_dark M C scene hsurf hamb hl hbg ray rng depth _ (hmat ray hhit)] at h
      split at h
      · simp at h
      · next st1 h1 =>
        have hst1 : st1.1 = zero3f := by
          unfold indirect_bounce at h1
          simp only at h1
          split at h1
          · split at h1
            · simp at h1
            · next r1 hr1 =>
              simp only [Option.some.injEq] at h1
              rw [← h1]
              simp only
              rw [ih _ _ _ _ hr1, zero3f_mul, add_zero3f]
          · simp only [Option.some.injEq] at h1
            rw [← h1]
        unfold reflect_bounce at h
        simp only at h
        split at h
        · split at h
          · simp at h
          · next r2 hr2 =>
            simp only [Option.some.injEq] at h
            rw [← h]
            simp only
            rw [ih _ _ _ _ hr2, mul_zero3f, add_zero3f, hst1]
        · simp only [Option.some.injEq] at h
          rw [← h, hst1]

/-- Every material reported by `planeIsect greyMaterial` has zero emission and no mirror. -/
theorem planeIsect_grey (sc : Scene ℚ) (r : ray3f ℚ) :
    (planeIsect greyMaterial sc r).mat.ke = zero3f ∧
    (planeIsect greyMaterial sc r).mat.kr = zero3f := by
  unfold planeIsect
  split <;> exact ⟨rfl, rfl⟩

/-- In the total model: a hit at `P` with normal `N` on a non-microfacet material with
`ks = ke = kr = 0` and diffuse coefficient `kd`, in a scene with exactly one unoccluded
point light (position `L`, intensity `I`), no emissive surface and a zero background,
where the indirect bounce adds nothing (`depth >= path_max_depth`, or the bounce ray
misses), returns `ambient*kd + (I / |L-P|^2) * (kd/pi) * max(0, dot(N, normalize(L-P)))`. -/
theorem single_point_light_total (M : MathFns K) (C : Collab K R) (fuel : Nat)
    (scene : Scene K) (ray : ray3f K) (rng : R) (depth : Int) (light : Light K)
    (hhit : (C.intersect scene ray).hit = true)
    (hmf : (C.intersect scene ray).mat.microfacet = false)
    (hks : (C.intersect scene ray).mat.ks = zero3f)
    (hke : (C.intersect scene ray).mat.ke = zero3f)
    (hkr : (C.intersect scene ray).mat.kr = zero3f)
    (hlights : scene.lights = [light])
    (hunocc : scene.path_shadows = true →
      C.intersect_shadow scene (C.make_segment (C.intersect scene ray).pos light.frame.o) = false)
    (hnoem : ∀ s ∈ scene.surfaces, s.mat.ke = zero3f)
    (hbg : scene.background = zero3f)
    (hind : scene.path_max_depth ≤ depth ∨
      (C.intersect scene (mkRay C (C.intersect scene ray).pos
        (C.sample_brdf
          (lookup_scaled_texture M (C.intersect scene ray).mat.kd
            (C.intersect scene ray).mat.kd_txt (C.intersect scene ray).texcoord)
          zero3f (C.intersect scene ray).mat.n (-ray.d) (C.intersect scene ray).norm
          (C.next_vec2f rng).1 (C.next_float (C.next_vec2f rng).2).1).1)).hit = false) :
    (pathtrace_ray M C (fuel + 2) scene ray rng depth).map Prod.fst
      = some (scene.ambient * lookup_scaled_texture M (C.intersect scene ray).mat.kd
            (C.intersect scene ray).mat.kd_txt (C.intersect scene ray).texcoord
          + (light.intensity / lengthSqr (light.frame.o - (C.intersect scene ray).pos))
            * (lookup_scaled_texture M (C.intersect scene ray).mat.kd
                (C.intersect scene ray).mat.kd_txt (C.intersect scene ray).texcoord / M.pi)
            * max 0 (dot (C.intersect scene ray).norm
                (normalize M (light.frame.o - (C.intersect scene ray).pos)))) := by
  have hdirect : hit_direct M C scene ray rng depth (C.intersect scene ray)
      = (scene.ambient * lookup_scaled_texture M (C.intersect scene ray).mat.kd
            (C.intersect scene ray).mat.kd_txt (C.intersect scene ray).texcoord
          + (light.intensity / lengthSqr (light.frame.o - (C.intersect scene ray).pos))
            * (lookup_scaled_texture M (C.intersect scene ray).mat.kd
                (C.intersect scene ray).mat.kd_txt (C.intersect scene ray).texcoord / M.pi)
            * max 0 (dot (C.intersect scene ray).norm
                (normalize M (light.frame.o - (C.intersect scene ray).pos))), rng) := by
    unfold hit_direct
    simp only
    rw [shade_environment_zero_bg _ _ _ _ _ _ _ _ _ _ _ hbg,
      foldl_area_no_emission _ _ _ _ _ _ _ _ _ _ _ hnoem, hlights, hke, hks, hmf,
      lookup_zero3f, lookup_zero3f]
    simp only [List.foldl_cons, List.foldl_nil, add_zero3f, ite_self]
    have hsh : ∀ c : vec3f K, shade_point_light M C scene (C.intersect scene ray).pos
        (C.intersect scene ray).norm (-ray.d)
        (lookup_scaled_texture M (C.intersect scene ray).mat.kd
          (C.intersect scene ray).mat.kd_txt (C.intersect scene ray).texcoord)
        zero3f (C.intersect scene ray).mat.n false c light
        = c + (light.intensity / lengthSqr (light.frame.o - (C.intersect scene ray).pos))
          * (max (dot (C.intersect scene ray).norm
                (normalize M (light.frame.o - (C.intersect scene ray).pos))) 0
              * eval_brdf M (lookup_scaled_texture M (C.intersect scene ray).mat.kd
                  (C.intersect scene ray).mat.kd_txt (C.intersect scene ray).texcoord)
                zero3f (C.intersect scene ray).mat.n (-ray.d)
                (normalize M (light.frame.o - (C.intersect scene ray).pos))
                (C.intersect scene ray).norm false) := by
      intro c
      unfold shade_point_light
      simp only
      by_cases hps : scene.path_shadows = true
      · rw [if_pos hps, hunocc hps]
        simp only [Bool.false_eq_true, not_false_eq_true, if_true]
        exact skip_zero_eq_add _ _
      · rw [if_neg hps]
        exact skip_zero_eq_add _ _
    rw [hsh]
    congr 1
    ext <;> simp [eval_brdf, max_comm] <;> ring
  have hrefl : ∀ st, reflect_bounce C (pathtrace_ray M C (fuel + 1)) scene ray depth
      (C.intersect scene ray) st = some st := by
    intro st; simp [reflect_bounce, hkr]
  show (pathtrace_body M C (pathtrace_ray M C (fuel + 1)) scene ray rng depth).map Prod.fst = _
  unfold pathtrace_body
  simp only
  rw [if_neg (by simp [hhit]), hdirect]
  unfold indirect_bounce
  simp only
  rw [hks, lookup_zero3f]
  split_ifs with hc
  · rcases hind with hd | hmiss
    · exact absurd hc.2 (not_lt.mpr hd)
    · rw [pathtrace_ray_miss M C fuel scene _ _ _ hmiss, hbg, eval_env_zero3f]
      simp only [zero3f_mul, add_zero3f]
      rw [hrefl]
      rfl
  · simp only [hrefl, Option.map_some']

/-- The downward ray meets the plane `z = -1` at `(0,0,-1)`. -/
theorem planeIsect_downRay {F : Type} [LinearOrderedField F] (m : Material F)
    (sc : Scene F) :
    planeIsect m sc downRay = ⟨true, ⟨0, 0, -1⟩, ⟨0, 0, 1⟩, ⟨0, 0⟩, m⟩ := by
  unfold planeIsect downRay
  rw [if_pos (by norm_num)]
  congr 1
  ext <;> simp

/-- A material whose (texture-scaled) `kd` and `ks` vanish under the Phong-style model
gets nothing from a point light. -/
theorem shade_point_light_black (M : MathFns K) (C : Collab K R) (scene : Scene K)
    (pos norm v : vec3f K) (n : K) (c : vec3f K) (light : Light K) :
    shade_point_light M C scene pos norm v zero3f zero3f n false c light = c := by
  have h : point_light_shade M pos norm v zero3f zero3f n false light = zero3f := by
    simp [point_light_shade, eval_brdf_phong_zero, smul_zero3f, mul_zero3f]
  simp [shade_point_light, h]

/-- A material whose `kd` and `ks` vanish under the Phong-style model gets nothing from
an area light. -/
theorem shade_area_light_black (M : MathFns K) (C : Collab K R) (scene : Scene K)
    (pos norm v : vec3f K) (n : K) (st : vec3f K × R) (s : Surface K) :
    (shade_area_light M C scene pos norm v zero3f zero3f n false st s).1 = st.1 := by
  have h : ∀ smp, area_light_shade M pos norm v zero3f zero3f n false s smp = zero3f := by
    intro smp
    simp [area_light_shade, eval_brdf_phong_zero, smul_zero3f, mul_zero3f]
  unfold shade_area_light
  simp only [h]
  split_ifs <;> rfl

/-- The surface loop adds nothing for a material whose `kd` and `ks` vanish. -/
theorem foldl_area_black (M : MathFns K) (C : Collab K R) (scene : Scene K)
    (pos norm v : vec3f K) (n : K) (l : List (Surface K)) (st : vec3f K × R) :
    (l.foldl (shade_area_light M C scene pos norm v zero3f zero3f n false) st).1 = st.1 := by
  induction l generalizing st with
  | nil => rfl
  | cons s l ih =>
    simp only [List.foldl_cons]
    rw [ih, shade_area_light_black]

/-- The point-light loop adds nothing for a material whose `kd` and `ks` vanish. -/
theorem foldl_point_black (M : MathFns K) (C : Collab K R) (scene : Scene K)
    (pos norm v : vec3f K) (n : K) (l : List (Light K)) (c : vec3f K) :
    l.foldl (shade_point_light M C scene pos norm v zero3f zero3f n false) c = c := by
  induction l generalizing c with
  | nil => rfl
  | cons s l ih =>
    simp only [List.foldl_cons]
    rw [shade_point_light_black, ih]

/-- The environment block adds nothing for a material whose `kd` and `ks` vanish. -/
theorem shade_environment_black (M : MathFns K) (C : Collab K R) (scene : Scene K)
    (pos norm v : vec3f K) (n : K) (st : vec3f K × R) :
    (shade_environment M C scene pos norm v zero3f zero3f n false st).1 = st.1 := by
  have h : ∀ g, (environment_sample M C scene norm v zero3f zero3f n false g).1.2.1
      = zero3f := by
    intro g
    simp [environment_sample, eval_brdf_phong_zero, smul_zero3f]
  unfold shade_environment
  simp only [h]
  split_ifs <;> first | rfl | simp_all

/-- In the total model: a hit on a non-microfacet material with `kd = ks = ke = 0` and
`kr` nonzero, in a scene with an untextured background `B`, whose mirror ray misses all
geometry, returns `kr * B`. -/
theorem mirror_shows_background_total (M : MathFns K) (C : Collab K R) (fuel : Nat)
    (scene : Scene K) (ray : ray3f K) (rng : R) (depth : Int)
    (hhit : (C.intersect scene ray).hit = true)
    (hkd : (C.intersect scene ray).mat.kd = zero3f)
    (hks : (C.intersect scene ray).mat.ks = zero3f)
    (hke : (C.intersect scene ray).mat.ke = zero3f)
    (hmf : (C.intersect scene ray).mat.microfacet = false)
    (hkr : (C.intersect scene ray).mat.kr ≠ zero3f)
    (hbgt : scene.background_txt = none)
    (hmiss : (C.intersect scene (mkRay C (C.intersect scene ray).pos
      (C.reflect ray.d (C.intersect scene ray).norm))).hit = false) :
    (pathtrace_ray M C (fuel + 2) scene ray rng depth).map Prod.fst
      = some ((C.intersect scene ray).mat.kr * scene.background) := by
  have hdirect : (hit_direct M C scene ray rng depth (C.intersect scene ray)).1 = zero3f := by
    unfold hit_direct
    simp only
    rw [hkd, hks, hke, hmf, lookup_zero3f, lookup_zero3f, lookup_zero3f,
      shade_environment_black, foldl_area_black, foldl_point_black]
    simp [mul_zero3f, add_zero3f]
  show (pathtrace_body M C (pathtrace_ray M C (fuel + 1)) scene ray rng depth).map Prod.fst = _
  unfold pathtrace_body
  simp only
  rw [if_neg (by simp [hhit])]
  have hind : indirect_bounce M C (pathtrace_ray M C (fuel + 1)) scene ray depth
      (C.intersect scene ray) (hit_direct M C scene ray rng depth (C.intersect scene ray))
      = some (hit_direct M C scene ray rng depth (C.intersect scene ray)) := by
    unfold indirect_bounce
    simp only
    rw [hkd, hks, lookup_zero3f, lookup_zero3f]
    simp
  rw [hind]
  simp only
  unfold reflect_bounce
  simp only
  rw [if_pos hkr, pathtrace_ray_miss M C fuel scene _ _ _ hmiss, hdirect, hbgt]
  simp [eval_env, lookup_scaled_texture, zero3f_add]

/-- The real square root, power, arc functions and `pi` satisfy the laws assumed of
the math library. -/
theorem real_math_laws :
    MathLaws (⟨Real.sqrt, fun x y => x ^ y, fun y x => Complex.arg ⟨x, y⟩, Real.arccos,
      Real.pi, id⟩ : MathFns ℝ) where
  pi_pos := Real.pi_pos
  sqrt_nonneg := Real.sqrt_nonneg
  sqrt_mul_self := fun _ hx => Real.mul_self_sqrt hx
  pow_nonneg := fun _ y hx => Real.rpow_nonneg hx y
  pow_le_one := fun _ _ hx hx1 hy => Real.rpow_le_one hx hx1 hy
  pow_two_nonneg := fun x => by
    show 0 ≤ x ^ (2 : ℝ)
    rw [Real.rpow_two]
    exact sq_nonneg x

/-- The mirror direction of a unit vector at a unit normal is a unit vector. -/
theorem mirrorDir_unit {F : Type} [LinearOrderedField F] (d n : vec3f F)
    (hd : dot d d = 1) (hn : dot n n = 1) : dot (mirrorDir d n) (mirrorDir d n) = 1 := by
  have e : dot (mirrorDir d n) (mirrorDir d n)
      = dot d d - 4 * dot d n * dot d n + 4 * dot d n * dot d n * dot n n := by
    simp only [mirrorDir, dot, sub_x, sub_y, sub_z, smul_x, smul_y, smul_z]; ring
  rw [e, hd, hn]; ring

/-- The concrete collaborators around `planeIsect m` satisfy the collaborator contracts
on every scene that owns the material `m`. -/
theorem demoCollab_laws {F : Type} [LinearOrderedField F] (m : Material F)
    (shadow : Scene F → ray3f F → Bool) (scene : Scene F)
    (hs : ∃ s ∈ scene.surfaces, m = s.mat) :
    CollabLaws (demoCollab (planeIsect m) shadow) scene where
  hit_norm_unit := by
    intro r h
    simp only [demoCollab, planeIsect] at h ⊢
    split_ifs at h ⊢ with hc
    · simp [dot]
    · simp [missRecord] at h
  hit_mat_mem := by
    intro r h
    simp only [demoCollab, planeIsect] at h ⊢
    split_ifs at h ⊢ with hc
    · exact hs
    · simp [missRecord] at h
  sample_unit := by
    intro kd ks n v norm ruv rl hv hn
    simp only [demoCollab]
    split_ifs
    · exact hn
    · have e : dot ((2 * dot v norm) * norm - v) ((2 * dot v norm) * norm - v)
          = dot v v - 4 * dot v norm * dot v norm + 4 * dot v norm * dot v norm * dot norm norm := by
        simp only [dot, sub_x, sub_y, sub_z, smul_x, smul_y, smul_z]; ring
      rw [e, hv, hn]; ring
  sample_pdf_pos := by
    intro kd ks n v norm ruv rl
    simp only [demoCollab]
    split_ifs <;> exact zero_lt_one
  reflect_unit := fun d n hd hn => mirrorDir_unit d n hd hn

/-- The glossy floor scene has non-negative coefficients. -/
theorem glossyScene_nonneg {F : Type} [LinearOrderedField F] :
    SceneNonneg (glossyScene : Scene F) where
  ambient := by refine ⟨?_, ?_, ?_⟩ <;> simp [glossyScene]
  background := by refine ⟨?_, ?_, ?_⟩ <;> simp [glossyScene] <;> positivity
  background_txt := by intro img h; simp [glossyScene] at h
  lights := by
    intro l hl
    simp only [glossyScene, List.mem_singleton] at hl
    rw [hl]
    refine ⟨?_, ?_, ?_⟩ <;> simp
  surfaces := by
    intro s hs
    simp only [glossyScene, List.mem_singleton] at hs
    rw [hs]
    refine ⟨?_, ?_, ?_, ?_, ?_, ?_, ?_, ?_⟩
    · exact nonneg_zero3f
    · refine ⟨?_, ?_, ?_⟩ <;> simp [glossyMaterial]
    · refine ⟨?_, ?_, ?_⟩ <;> simp [glossyMaterial]
    · exact nonneg_zero3f
    · simp [glossyMaterial]
    · intro img h; simp [glossyMaterial] at h
    · intro img h; simp [glossyMaterial] at h
    · intro img h; simp [glossyMaterial] at h

/-- The downward ray has a unit direction. -/
theorem downRay_unit {F : Type} [LinearOrderedField F] :
    dot (downRay : ray3f F).d (downRay : ray3f F).d = 1 := by
  simp [downRay, dot]

/-- The lit grey floor has non-negative coefficients, whatever its lights' positions,
its depth limit and its shadow flag. -/
theorem greyFloor_nonneg {F : Type} [LinearOrderedField F] (sc : Scene F)
    (ha : sc.ambient = (litScene : Scene F).ambient)
    (hb : sc.background = zero3f) (ht : sc.background_txt = none)
    (hl : ∀ l ∈ sc.lights, l.intensity = ⟨10, 10, 10⟩)
    (hs : sc.surfaces = (litScene : Scene F).surfaces) : SceneNonneg sc where
  ambient := by rw [ha]; refine ⟨?_, ?_, ?_⟩ <;> simp [litScene]
  background := by rw [hb]; exact nonneg_zero3f
  background_txt := by intro img h; rw [ht] at h; simp at h
  lights := by
    intro l h
    rw [hl l h]
    refine ⟨?_, ?_, ?_⟩ <;> simp
  surfaces := by
    intro s h
    rw [hs] at h
    simp only [litScene, List.mem_singleton] at h
    rw [h]
    refine ⟨nonneg_zero3f, ?_, nonneg_zero3f, nonneg_zero3f, ?_, ?_, ?_, ?_⟩
    · refine ⟨?_, ?_, ?_⟩ <;> simp [greyMaterial, plainMaterial]
    · simp [greyMaterial, plainMaterial]
    · intro img h; simp [greyMaterial, plainMaterial] at h
    · intro img h; simp [greyMaterial, plainMaterial] at h
    · intro img h; simp [greyMaterial, plainMaterial] at h

/-- On the grey floor under the point light at `(0,0,1)`, seen along the downward ray
with the indirect channel closed, no quotient by zero occurs. -/
theorem greyFloor_direct_defined {F : Type} [LinearOrderedField F] [FloorRing F]
    (M : MathFns F) (L : MathLaws M) (shadow : Scene F → ray3f F → Bool) (sc : Scene F)
    (hl : sc.lights = [⟨axisFrame ⟨0, 0, 1⟩, ⟨10, 10, 10⟩⟩])
    (hs : ∀ s ∈ sc.surfaces, s.mat.ke = zero3f) (hbg : sc.background = zero3f)
    (hd : sc.path_max_depth ≤ 0) (fuel : Nat) :
    color_undefined (pathtrace_ray_checked M (demoCollab (planeIsect greyMaterial) shadow)
      (fuel + 1) sc downRay 0 0) = false := by
  have h := (pathtrace_ray_checked_direct M L (demoCollab (planeIsect greyMaterial) shadow)
    sc downRay 0 0 fuel
    (by simp [demoCollab, planeIsect_downRay])
    (by simp [demoCollab, planeIsect_downRay, greyMaterial, plainMaterial])
    (by simp [demoCollab, planeIsect_downRay, greyMaterial, plainMaterial])
    (by intro h; exact absurd h.2 (not_lt.mpr hd))
    hs hbg
    (by simp [downRay, dot])
    (by
      intro light hlight
      rw [hl, List.mem_singleton] at hlight
      subst hlight
      simp only [demoCollab, planeIsect_downRay]
      simp only [axisFrame, lengthSqr, dot, downRay]
      norm_num)).1
  exact color_undefined_of_some _ _ _ h

/-- On the grey floor under the point light at `(0,0,1)`, seen along the downward ray
with one indirect bounce, which leaves the scene, no quotient by zero occurs. -/
theorem greyFloor_bounce_defined {F : Type} [LinearOrderedField F] [FloorRing F]
    (M : MathFns F) (L : MathLaws M) (shadow : Scene F → ray3f F → Bool) (sc : Scene F)
    (hl : sc.lights = [⟨axisFrame ⟨0, 0, 1⟩, ⟨10, 10, 10⟩⟩])
    (hs : ∀ s ∈ sc.surfaces, s.mat.ke = zero3f) (hbg : sc.background = zero3f)
    (hd : 0 < sc.path_max_depth) (fuel : Nat) :
    color_undefined (pathtrace_ray_checked M (demoCollab (planeIsect greyMaterial) shadow)
      (fuel + 2) sc downRay 0 0) = false := by
  have hg := hit_direct_rng M (demoCollab (planeIsect greyMaterial) shadow) sc downRay 0 0
    ((demoCollab (planeIsect greyMaterial) shadow).intersect sc downRay) hs hbg
  have h := (pathtrace_ray_checked_bounce_miss M L
    (demoCollab (planeIsect greyMaterial) shadow) sc downRay 0 0 fuel
    (by simp [demoCollab, planeIsect_downRay])
    (by simp [demoCollab, planeIsect_downRay, greyMaterial, plainMaterial])
    (by simp [demoCollab, planeIsect_downRay, greyMaterial, plainMaterial])
    (by
      refine ⟨Or.inl ?_, hd⟩
      simp only [demoCollab, planeIsect_downRay, greyMaterial, plainMaterial,
        lookup_scaled_texture]
      intro h
      have := congrArg vec3f.x h
      simp at this)
    hs hbg
    (by simp [downRay, dot])
    (by
      intro light hlight
      rw [hl, List.mem_singleton] at hlight
      subst hlight
      simp only [demoCollab, planeIsect_downRay]
      simp only [axisFrame, lengthSqr, dot, downRay]
      norm_num)
    (by
      rw [hg]
      simp only [demoCollab, planeIsect_downRay]
      simp only [mkRay]
      norm_num [planeIsect, missRecord])
    (by
      rw [hg]
      simp only [demoCollab, planeIsect_downRay]
      simp only [downRay, lengthSqr, dot]
      norm_num)
    (by
      rw [hg]
      simp only [demoCollab]
      norm_num)).1
  exact color_undefined_of_some _ _ _ h

/-- On the glossy microfacet floor under the point light at `(0,0,1)`, seen along the
downward ray with the indirect channel closed, no quotient by zero occurs. -/
theorem glossyFloor_direct_defined {F : Type} [LinearOrderedField F] [FloorRing F]
    (M : MathFns F) (L : MathLaws M) (shadow : Scene F → ray3f F → Bool) :
    color_undefined (pathtrace_ray_checked M (demoCollab (planeIsect glossyMaterial) shadow)
      1 (glossyLitScene : Scene F) downRay 0 0) = false := by
  have hI : (demoCollab (planeIsect glossyMaterial) shadow).intersect
      (glossyLitScene : Scene F) downRay
      = ⟨true, ⟨0, 0, -1⟩, ⟨0, 0, 1⟩, ⟨0, 0⟩, glossyMaterial⟩ := by
    simp only [demoCollab, planeIsect_downRay]
  have hv : (-(downRay : ray3f F).d) = ⟨0, 0, 1⟩ := by
    ext <;> simp [downRay]
  have hdir : hit_direct_checked M (demoCollab (planeIsect glossyMaterial) shadow)
      glossyLitScene downRay 0 0
      ((demoCollab (planeIsect glossyMaterial) shadow).intersect glossyLitScene downRay)
      = (some (hit_direct M (demoCollab (planeIsect glossyMaterial) shadow)
          glossyLitScene downRay 0 0
          ((demoCollab (planeIsect glossyMaterial) shadow).intersect glossyLitScene
            downRay)).1,
        (hit_direct M (demoCollab (planeIsect glossyMaterial) shadow)
          glossyLitScene downRay 0 0
          ((demoCollab (planeIsect glossyMaterial) shadow).intersect glossyLitScene
            downRay)).2) := by
    apply hit_direct_checked_defined M _ glossyLitScene downRay 0 0 _
      (by intro s hs; simp only [glossyLitScene, glossyScene, List.mem_singleton] at hs
          rw [hs]; rfl) rfl
    intro light hlight
    simp only [glossyLitScene, glossyScene, List.mem_singleton] at hlight
    subst hlight
    rw [hI, hv]
    have hd : (axisFrame (⟨0, 0, 1⟩ : vec3f F)).o - (⟨0, 0, -1⟩ : vec3f F) = ⟨0, 0, 2⟩ := by
      ext
      · simp [axisFrame]
      · simp [axisFrame]
      · simp only [axisFrame, sub_z]
        norm_num
    obtain ⟨z, hz, hn⟩ := normalize_z M L (2 : F) (by norm_num)
    have hsum : (⟨0, 0, 1⟩ : vec3f F) + ⟨0, 0, z⟩ = ⟨0, 0, 1 + z⟩ := by
      ext <;> simp
    obtain ⟨w, hw, hn2⟩ := normalize_z M L (1 + z) (by linarith)
    apply point_light_shade_checked_microfacet_defined M L
    · simp only [hd]
      simp [lengthSqr, dot]
    · simp only [hd, hn, hsum]
      simp only [lengthSqr, dot]
      have : 0 < (1 + z) * (1 + z) := by positivity
      simp only [mul_zero, zero_add]
      exact ne_of_gt this
    · simp only [hd, hn, hsum, hn2]
      simp [dot, ne_of_gt hw]
    · simp only [hd, hn, hsum, hn2]
      simp [dot, ne_of_gt hw, ne_of_gt hz]
    · simp only [hd, hn]
      simp [dot, ne_of_gt hz]
  have h : pathtrace_ray_checked M (demoCollab (planeIsect glossyMaterial) shadow)
      1 (glossyLitScene : Scene F) downRay 0 0 = some (some (hit_direct M
        (demoCollab (planeIsect glossyMaterial) shadow) glossyLitScene downRay 0 0
        ((demoCollab (planeIsect glossyMaterial) shadow).intersect glossyLitScene
          downRay)).1,
        (hit_direct M (demoCollab (planeIsect glossyMaterial) shadow)
          glossyLitScene downRay 0 0
          ((demoCollab (planeIsect glossyMaterial) shadow).intersect glossyLitScene
            downRay)).2) := by
    show pathtrace_body_checked M _ (pathtrace_ray_checked M _ 0) glossyLitScene downRay 0 0
      = _
    rw [pathtrace_body_checked_leaf M _ _ glossyLitScene downRay 0 0
      (by rw [hI]) (by rw [hI]; rfl)
      (by intro hc; exact absurd hc.2 (lt_irrefl _)), hdir]
  exact color_undefined_of_some _ _ _ h

/-- The glossy floor lit from above has non-negative coefficients. -/
theorem glossyLitScene_nonneg {F : Type} [LinearOrderedField F] :
    SceneNonneg (glossyLitScene : Scene F) :=
  ⟨glossyScene_nonneg.ambient, nonneg_zero3f, glossyScene_nonneg.background_txt,
    glossyScene_nonneg.lights, glossyScene_nonneg.surfaces⟩

/-- The room scene has non-negative coefficients. -/
theorem roomScene_nonneg {F : Type} [LinearOrderedField F] (m : Int) :
    SceneNonneg (roomScene m : Scene F) where
  ambient := nonneg_zero3f
  background := ⟨zero_le_one, zero_le_one, zero_le_one⟩
  background_txt := by intro img h; simp [roomScene] at h
  lights := by intro l hl; simp [roomScene] at hl
  surfaces := by
    intro s hs
    simp only [roomScene, List.mem_cons, List.mem_singleton, List.not_mem_nil, or_false] at hs
    rcases hs with rfl | rfl
    · refine ⟨nonneg_zero3f, ?_, nonneg_zero3f, ⟨zero_le_one, zero_le_one, zero_le_one⟩, ?_,
        ?_, ?_, ?_⟩
      · refine ⟨?_, ?_, ?_⟩ <;> simp [roomFloorMaterial, plainMaterial]
      · simp [roomFloorMaterial, plainMaterial]
      · intro img h; simp [roomFloorMaterial, plainMaterial] at h
      · intro img h; simp [roomFloorMaterial, plainMaterial] at h
      · intro img h; simp [roomFloorMaterial, plainMaterial] at h
    · refine ⟨nonneg_zero3f, ⟨zero_le_one, zero_le_one, zero_le_one⟩, nonneg_zero3f,
        nonneg_zero3f, ?_, ?_, ?_, ?_⟩
      · simp [roomCeilingMaterial, plainMaterial]
      · intro img h; simp [roomCeilingMaterial, plainMaterial] at h
      · intro img h; simp [roomCeilingMaterial, plainMaterial] at h
      · intro img h; simp [roomCeilingMaterial, plainMaterial] at h

/-- On the mirror floor under a black background and the point light at `(0,0,1)`, seen
along the downward ray, no quotient by zero occurs, whatever the depth limit. -/
theorem mirrorFloor_defined {F : Type} [LinearOrderedField F] [FloorRing F]
    (M : MathFns F) (L : MathLaws M) (shadow : Scene F → ray3f F → Bool) (sc : Scene F)
    (hl : sc.lights = [⟨axisFrame ⟨0, 0, 1⟩, ⟨10, 10, 10⟩⟩])
    (hs : ∀ s ∈ sc.surfaces, s.mat.ke = zero3f) (hbg : sc.background = zero3f)
    (fuel : Nat) :
    color_undefined (pathtrace_ray_checked M (demoCollab (planeIsect mirrorMaterial) shadow)
      (fuel + 2) sc downRay 0 0) = false := by
  apply pathtrace_ray_checked_mirror_miss M L (demoCollab (planeIsect mirrorMaterial) shadow)
    sc downRay 0 0 fuel
    (by simp [demoCollab, planeIsect_downRay])
    (by simp [demoCollab, planeIsect_downRay, mirrorMaterial, plainMaterial])
    (by simp [demoCollab, planeIsect_downRay, mirrorMaterial, plainMaterial])
    (by simp [demoCollab, planeIsect_downRay, mirrorMaterial, plainMaterial])
    (by
      simp only [demoCollab, planeIsect_downRay, mirrorMaterial, plainMaterial]
      intro h
      have := congrArg vec3f.x h
      simp [one3f, zero3f] at this)
    hs hbg
    (by simp [downRay, dot])
    (by
      intro light hlight
      rw [hl, List.mem_singleton] at hlight
      subst hlight
      simp only [demoCollab, planeIsect_downRay]
      simp only [axisFrame, lengthSqr, dot, downRay]
      norm_num)
    (by
      simp only [demoCollab, planeIsect_downRay, mkRay, mirrorDir, downRay]
      unfold planeIsect
      rw [if_neg (by simp [dot])]
      rfl)

/-- The mirror floor has non-negative coefficients, whatever its depth limit. -/
theorem mirrorFloor_nonneg {F : Type} [LinearOrderedField F] (sc : Scene F)
    (ha : sc.ambient = (mirrorScene : Scene F).ambient)
    (hb : sc.background = zero3f) (ht : sc.background_txt = none)
    (hl : sc.lights = (mirrorScene : Scene F).lights)
    (hs : sc.surfaces = (mirrorScene : Scene F).surfaces) : SceneNonneg sc where
  ambient := by rw [ha]; refine ⟨?_, ?_, ?_⟩ <;> simp [mirrorScene]
  background := by rw [hb]; exact nonneg_zero3f
  background_txt := by intro img h; rw [ht] at h; simp at h
  lights := by
    intro l h
    rw [hl] at h
    simp only [mirrorScene, List.mem_singleton] at h
    rw [h]
    refine ⟨?_, ?_, ?_⟩ <;> simp
  surfaces := by
    intro s h
    rw [hs] at h
    simp only [mirrorScene, List.mem_singleton] at h
    rw [h]
    refine ⟨nonneg_zero3f, nonneg_zero3f, nonneg_zero3f,
      ⟨zero_le_one, zero_le_one, zero_le_one⟩, ?_, ?_, ?_, ?_⟩
    · simp [mirrorMaterial, plainMaterial]
    · intro img h; simp [mirrorMaterial, plainMaterial] at h
    · intro img h; simp [mirrorMaterial, plainMaterial] at h
    · intro img h; simp [mirrorMaterial, plainMaterial] at h

end Claims

/-! ## The row loops -/

section Rows

/-- Once a step has failed, the remaining steps keep the failure. -/
theorem foldl_none {α σ : Type} (f : Option σ → α → Option σ) (hf : ∀ a, f none a = none)
    (l : List α) : l.foldl f none = none := by
  induction l with
  | nil => rfl
  | cons a l ih => simp only [List.foldl_cons, hf, ih]

/-- With a positive stride and enough iterations, the row loop runs its body over
`rows_from`, in order. -/
theorem row_loop_eq_foldl {σ : Type} (body : Nat → σ → Option σ) (height skip : Nat) :
    ∀ (n j : Nat) (st : σ), height ≤ j + n * skip →
      row_loop body height skip n j st
        = (rows_from height skip n j).foldl (fun s r => s.bind (body r)) (some st) := by
  intro n
  induction n with
  | zero =>
    intro j st h
    have hj : ¬ j < height := by omega
    simp [row_loop, rows_from, hj]
  | succ n ih =>
    intro j st h
    by_cases hj : j < height
    · have h2 : height ≤ (j + skip) + n * skip := by
        have : (n + 1) * skip = n * skip + skip := Nat.succ_mul n skip
        omega
      simp only [row_loop, rows_from, if_pos hj, List.foldl_cons, Option.some_bind]
      cases hb : body j st with
      | none =>
        simp only
        rw [foldl_none _ (fun _ => rfl)]
      | some st2 =>
        simp only
        exact ih (j + skip) st2 h2
    · simp [row_loop, rows_from, hj]

/-- Membership in `rows_from`: the rows `j + k * skip` below `height`. -/
theorem mem_rows_from (height skip : Nat) :
    ∀ (n j x : Nat), height ≤ j + n * skip →
      (x ∈ rows_from height skip n j ↔ x < height ∧ ∃ k, x = j + k * skip) := by
  intro n
  induction n with
  | zero =>
    intro j x h
    simp only [rows_from, List.not_mem_nil, false_iff, not_and, not_exists]
    intro hx k hk
    have : j ≤ x := by rw [hk]; exact Nat.le_add_right _ _
    omega
  | succ n ih =>
    intro j x h
    by_cases hj : j < height
    · have h2 : height ≤ (j + skip) + n * skip := by
        have : (n + 1) * skip = n * skip + skip := Nat.succ_mul n skip
        omega
      simp only [rows_from, if_pos hj, List.mem_cons, ih (j + skip) x h2]
      constructor
      · rintro (rfl | ⟨hx, k, hk⟩)
        · exact ⟨hj, 0, by simp⟩
        · exact ⟨hx, k + 1, by rw [hk, Nat.succ_mul]; omega⟩
      · rintro ⟨hx, k, hk⟩
        cases k with
        | zero => left; simpa using hk
        | succ k => right; exact ⟨hx, k, by rw [hk, Nat.succ_mul]; omega⟩
    · simp only [rows_from, if_neg hj, List.not_mem_nil, false_iff, not_and, not_exists]
      intro hx k hk
      have : j ≤ x := by rw [hk]; exact Nat.le_add_right _ _
      omega

/-- Every row of `rows_from` is at or after the start row. -/
theorem le_of_mem_rows_from (height skip : Nat) :
    ∀ (n j x : Nat), x ∈ rows_from height skip n j → j ≤ x := by
  intro n
  induction n with
  | zero => intro j x h; simp [rows_from] at h
  | succ n ih =>
    intro j x h
    by_cases hj : j < height
    · simp only [rows_from, if_pos hj, List.mem_cons] at h
      rcases h with rfl | h
      · exact le_refl _
      · exact le_trans (Nat.le_add_right _ _) (ih _ _ h)
    · simp [rows_from, hj] at h

/-- With a positive stride no row is visited twice. -/
theorem nodup_rows_from (height skip : Nat) (hs : 1 ≤ skip) :
    ∀ (n j : Nat), (rows_from height skip n j).Nodup := by
  intro n
  induction n with
  | zero => intro j; simp [rows_from]
  | succ n ih =>
    intro j
    by_cases hj : j < height
    · simp only [rows_from, if_pos hj, List.nodup_cons]
      refine ⟨fun hmem => ?_, ih _⟩
      have := le_of_mem_rows_from height skip n (j + skip) j hmem
      omega
    · simp [rows_from, hj]

/-- The recording loop returns the rows of `rows_from`. -/
theorem rows_visited_eq (height offset skip : Nat) (hs : 1 ≤ skip) :
    rows_visited height offset skip = some (rows_from height skip height offset) := by
  have hfuel : height ≤ offset + height * skip := by
    have : height * 1 ≤ height * skip := Nat.mul_le_mul_left _ hs
    omega
  unfold rows_visited
  rw [row_loop_eq_foldl _ _ _ _ _ _ hfuel]
  have key : ∀ (l acc : List Nat),
      l.foldl (fun s r => s.bind (fun rows => some (rows ++ [r]))) (some acc)
        = some (acc ++ l) := by
    intro l
    induction l with
    | nil => intro acc; simp
    | cons a l ih => intro acc; simp only [List.foldl_cons, Option.some_bind]; rw [ih]; simp
  rw [key]; simp

/-- The rows of worker `tid` among `N`: the rows below the height that are congruent to
`tid` modulo `N`. -/
theorem mem_rows_from_worker (height N tid j : Nat) (hN : 1 ≤ N) (ht : tid < N) :
    j ∈ rows_from height N height tid ↔ j < height ∧ tid = j % N := by
  have hfuel : height ≤ tid + height * N := by
    have : height * 1 ≤ height * N := Nat.mul_le_mul_left _ hN
    omega
  rw [mem_rows_from height N height tid j hfuel]
  constructor
  · rintro ⟨hj, k, hk⟩
    refine ⟨hj, ?_⟩
    rw [hk, Nat.add_mul_mod_self_right, Nat.mod_eq_of_lt ht]
  · rintro ⟨hj, hk⟩
    refine ⟨hj, j / N, ?_⟩
    rw [hk, Nat.mul_comm]
    exact (Nat.mod_add_div j N).symm

end Rows

/-! ## The image renderer -/

section Image
variable {K : Type} [LinearOrderedField K] [FloorRing K] {R : Type}

/-- Writes to two different pixels of the image commute. -/
theorem image_set_comm (img : image3f K) (p q : Nat × Nat) (hpq : p ≠ q) (c d : vec3f K) :
    (img.set p.1 p.2 c).set q.1 q.2 d = (img.set q.1 q.2 d).set p.1 p.2 c := by
  simp only [image3f.set, image3f.mk.injEq, true_and]
  funext a b
  by_cases h1 : a = (p.1 : Int) ∧ b = (p.2 : Int)
  · by_cases h2 : a = (q.1 : Int) ∧ b = (q.2 : Int)
    · exfalso
      apply hpq
      have e1 : (p.1 : Int) = (q.1 : Int) := h1.1.symm.trans h2.1
      have e2 : (p.2 : Int) = (q.2 : Int) := h1.2.symm.trans h2.2
      exact Prod.ext (Int.ofNat_inj.mp e1) (Int.ofNat_inj.mp e2)
    · simp only [if_pos h1, if_neg h2]
  · by_cases h2 : a = (q.1 : Int) ∧ b = (q.2 : Int)
    · simp only [if_neg h1, if_pos h2]
    · simp only [if_neg h1, if_neg h2]

/-- Updates of the generators of two different pixels commute. -/
theorem rng_set_comm (rngs : RngImage R) (p q : Nat × Nat) (hpq : p ≠ q) (c d : R) :
    (rngs.set p.1 p.2 c).set q.1 q.2 d = (rngs.set q.1 q.2 d).set p.1 p.2 c := by
  simp only [RngImage.set, RngImage.mk.injEq, true_and]
  funext a b
  by_cases h1 : a = (p.1 : Int) ∧ b = (p.2 : Int)
  · by_cases h2 : a = (q.1 : Int) ∧ b = (q.2 : Int)
    · exfalso
      apply hpq
      have e1 : (p.1 : Int) = (q.1 : Int) := h1.1.symm.trans h2.1
      have e2 : (p.2 : Int) = (q.2 : Int) := h1.2.symm.trans h2.2
      exact Prod.ext (Int.ofNat_inj.mp e1) (Int.ofNat_inj.mp e2)
    · simp only [if_pos h1, if_neg h2]
  · by_cases h2 : a = (q.1 : Int) ∧ b = (q.2 : Int)
    · simp only [if_neg h1, if_pos h2]
    · simp only [if_neg h1, if_neg h2]

/-- Updating the generator of one pixel leaves the generator of another pixel as it is. -/
theorem rng_set_other (rngs : RngImage R) (p q : Nat × Nat) (hpq : p ≠ q) (g : R) :
    (rngs.set p.1 p.2 g).at_ q.1 q.2 = rngs.at_ q.1 q.2 := by
  simp only [RngImage.set]
  rw [if_neg]
  rintro ⟨e1, e2⟩
  exact hpq (Prod.ext (Int.ofNat_inj.mp e1.symm) (Int.ofNat_inj.mp e2.symm))

/-- Rendering two different pixels in either order gives the same image and the same
generators: each pixel reads and writes its own generator and its own image cell. -/
theorem render_pixel_comm (M : MathFns K) (C : Collab K R) (fuel : Nat) (scene : Scene K)
    (p q : Nat × Nat) (hpq : p ≠ q) (z : Option (image3f K × RngImage R)) :
    render_pixel M C fuel scene (render_pixel M C fuel scene z p) q
      = render_pixel M C fuel scene (render_pixel M C fuel scene z q) p := by
  cases z with
  | none => rfl
  | some st =>
    simp only [render_pixel]
    cases hp : pathtrace_pixel M C fuel scene p.1 p.2 (st.2.at_ p.1 p.2) with
    | none =>
      cases hq : pathtrace_pixel M C fuel scene q.1 q.2 (st.2.at_ q.1 q.2) with
      | none => rfl
      | some rq =>
        simp only
        rw [rng_set_other st.2 q p (Ne.symm hpq), hp]
    | some rp =>
      simp only
      rw [rng_set_other st.2 p q hpq]
      cases hq : pathtrace_pixel M C fuel scene q.1 q.2 (st.2.at_ q.1 q.2) with
      | none => rfl
      | some rq =>
        simp only
        rw [rng_set_other st.2 q p (Ne.symm hpq), hp]
        simp only
        rw [image_set_comm st.1 p q hpq, rng_set_comm st.2 p q hpq]

/-- Rendering a list of pixels without repetition gives the same result in any order. -/
theorem render_pixels_perm (M : MathFns K) (C : Collab K R) (fuel : Nat) (scene : Scene K)
    (l1 l2 : List (Nat × Nat)) (hperm : l1.Perm l2)
    (z : Option (image3f K × RngImage R)) :
    l1.foldl (render_pixel M C fuel scene) z = l2.foldl (render_pixel M C fuel scene) z := by
  refine List.Perm.foldl_eq' hperm ?_ z
  intro x _ y _ w
  by_cases hxy : x = y
  · rw [hxy]
  · exact render_pixel_comm M C fuel scene x y hxy w

/-- A row is rendered by rendering its pixels from left to right. -/
theorem render_row_eq (M : MathFns K) (C : Collab K R) (fuel : Nat) (scene : Scene K)
    (j : Nat) (s : Option (image3f K × RngImage R)) :
    s.bind (render_row M C fuel scene j)
      = ((List.range scene.image_width).map (fun i => (i, j))).foldl
          (render_pixel M C fuel scene) s := by
  cases s with
  | none =>
    rw [foldl_none _ (fun _ => rfl)]
    rfl
  | some st =>
    simp only [Option.some_bind, render_row, List.foldl_map]

/-- Rendering rows one after the other renders their pixels in row order. -/
theorem render_rows_eq (M : MathFns K) (C : Collab K R) (fuel : Nat) (scene : Scene K)
    (rows : List Nat) :
    ∀ s : Option (image3f K × RngImage R),
      rows.foldl (fun s r => s.bind (render_row M C fuel scene r)) s
        = (row_pixels scene.image_width rows).foldl (render_pixel M C fuel scene) s := by
  induction rows with
  | nil => intro s; rfl
  | cons j rows ih =>
    intro s
    simp only [List.foldl_cons, row_pixels, List.flatMap_cons, List.foldl_append]
    rw [ih, render_row_eq]
    rfl

/-- A row loop with a positive stride renders the pixels of its rows. -/
theorem pathtrace_rows_eq (M : MathFns K) (C : Collab K R) (fuel : Nat) (scene : Scene K)
    (image : image3f K) (rngs : RngImage R) (offset skip : Nat) (hs : 1 ≤ skip) :
    pathtrace_rows M C fuel scene image rngs offset skip
      = (row_pixels scene.image_width
          (rows_from scene.image_height skip scene.image_height offset)).foldl
          (render_pixel M C fuel scene) (some (image, rngs)) := by
  have hfuel : scene.image_height ≤ offset + scene.image_height * skip := by
    have : scene.image_height * 1 ≤ scene.image_height * skip := Nat.mul_le_mul_left _ hs
    omega
  unfold pathtrace_rows
  rw [row_loop_eq_foldl _ _ _ _ _ _ hfuel, render_rows_eq]

/-- The workers' row loops, run one after the other, render the pixels of their rows. -/
theorem workers_eq (M : MathFns K) (C : Collab K R) (fuel : Nat) (scene : Scene K)
    (N : Nat) (hN : 1 ≤ N) (order : List Nat) :
    ∀ s : Option (image3f K × RngImage R),
      order.foldl (fun st tid =>
          match st with
          | none => none
          | some st => pathtrace_rows M C fuel scene st.1 st.2 tid N) s
        = (order.flatMap (fun tid => row_pixels scene.image_width
            (rows_from scene.image_height N scene.image_height tid))).foldl
            (render_pixel M C fuel scene) s := by
  induction order with
  | nil => intro s; rfl
  | cons tid order ih =>
    intro s
    simp only [List.foldl_cons, List.flatMap_cons, List.foldl_append]
    rw [ih]
    congr 1
    cases s with
    | none => rw [foldl_none _ (fun _ => rfl)]
    | some st => exact pathtrace_rows_eq M C fuel scene st.1 st.2 tid N hN

/-- The pixels of a list of rows: the cells `(i,j)` with `i` below the width and `j` in
the list. -/
theorem mem_row_pixels (width : Nat) (rows : List Nat) (p : Nat × Nat) :
    p ∈ row_pixels width rows ↔ p.1 < width ∧ p.2 ∈ rows := by
  simp only [row_pixels, List.mem_flatMap, List.mem_map, List.mem_range]
  constructor
  · rintro ⟨j, hj, i, hi, rfl⟩
    exact ⟨hi, hj⟩
  · rintro ⟨hi, hj⟩
    exact ⟨p.2, hj, p.1, hi, rfl⟩

/-- Rows without repetition have pixels without repetition. -/
theorem nodup_row_pixels (width : Nat) (rows : List Nat) (h : rows.Nodup) :
    (row_pixels width rows).Nodup := by
  unfold row_pixels
  rw [List.nodup_flatMap]
  refine ⟨fun j _ => ?_, ?_⟩
  · refine List.Nodup.map ?_ (List.nodup_range _)
    intro a b hab
    exact congrArg Prod.fst hab
  · refine List.Nodup.pairwise_of_forall_ne h ?_
    intro a _ b _ hab
    simp only [Function.onFun]
    intro p hp hq
    simp only [List.mem_map, List.mem_range] at hp hq
    obtain ⟨_, _, rfl⟩ := hp
    obtain ⟨_, _, e⟩ := hq
    exact hab (congrArg Prod.snd e).symm

/-- The pixels rendered by the single-threaded row loop, and by the workers in any
order, are the same up to order: every pixel of the image, once. -/
theorem worker_pixels_perm (width height N : Nat) (hN : 1 ≤ N) (order : List Nat)
    (hperm : order.Perm (List.range N)) :
    (order.flatMap (fun tid => row_pixels width (rows_from height N height tid))).Perm
      (row_pixels width (rows_from height 1 height 0)) := by
  have hmem : ∀ tid, tid ∈ order ↔ tid < N := by
    intro tid; rw [hperm.mem_iff, List.mem_range]
  have hnd : order.Nodup := hperm.nodup_iff.mpr (List.nodup_range N)
  rw [List.perm_ext_iff_of_nodup]
  · intro p
    simp only [List.mem_flatMap, mem_row_pixels]
    rw [mem_rows_from_worker height 1 0 p.2 (le_refl 1) Nat.zero_lt_one]
    constructor
    · rintro ⟨tid, ht, hi, hj⟩
      exact ⟨hi, ((mem_rows_from_worker height N tid p.2 hN ((hmem tid).mp ht)).mp hj).1,
        (Nat.mod_one _).symm⟩
    · rintro ⟨hi, hj, _⟩
      exact ⟨p.2 % N, (hmem _).mpr (Nat.mod_lt _ hN), hi,
        (mem_rows_from_worker height N (p.2 % N) p.2 hN (Nat.mod_lt _ hN)).mpr ⟨hj, rfl⟩⟩
  · rw [List.nodup_flatMap]
    refine ⟨fun tid _ => nodup_row_pixels _ _ (nodup_rows_from height N hN height tid), ?_⟩
    refine List.Nodup.pairwise_of_forall_ne hnd ?_
    intro a ha b hb hab
    simp only [Function.onFun]
    intro p hp hq
    rw [mem_row_pixels] at hp hq
    have e1 := ((mem_rows_from_worker height N a p.2 hN ((hmem a).mp ha)).mp hp.2).2
    have e2 := ((mem_rows_from_worker height N b p.2 hN ((hmem b).mp hb)).mp hq.2).2
    exact hab (e1.trans e2.symm)
  · exact nodup_row_pixels _ _ (nodup_rows_from height 1 (le_refl 1) height 0)

/-- With at least one worker, the multithreaded render equals the single-threaded one,
whatever the order in which the workers' row loops take effect. -/
theorem pathtrace_parallel_eq_single (M : MathFns K) (C : Collab K R) (fuel : Nat)
    (scene : Scene K) (image0 : image3f K) (rngs0 : RngImage R) (N : Nat) (hN : 1 ≤ N)
    (order : List Nat) (hperm : order.Perm (List.range N)) :
    pathtrace M C fuel scene image0 rngs0 N order true
      = pathtrace M C fuel scene image0 rngs0 N order false := by
  simp only [pathtrace, if_true, Bool.false_eq_true, if_false]
  refine (congrArg (Option.map Prod.fst)
    (workers_eq M C fuel scene N hN order (some (image0, rngs0)))).trans ?_
  rw [pathtrace_rows_eq M C fuel scene _ _ 0 1 (le_refl 1),
    render_pixels_perm M C fuel scene _ _
      (worker_pixels_perm scene.image_width scene.image_height N hN order hperm)]

/-- Reading back the cell that was just written. -/
theorem image_set_same (img : image3f K) (i j : Int) (c : vec3f K) :
    (img.set i j c).at_ i j = c := by
  simp [image3f.set]

theorem rng_set_same (rngs : RngImage R) (i j : Int) (g : R) :
    (rngs.set i j g).at_ i j = g := by
  simp [RngImage.set]

/-- After rendering a list of distinct pixels, each of them holds the color computed
from its own initial generator state, and every other cell of the image and of the
generator image is as before. -/
theorem render_pixels_sound (M : MathFns K) (C : Collab K R) (fuel : Nat) (scene : Scene K)
    (ps : List (Nat × Nat)) (hnd : ps.Nodup) :
    ∀ (st st2 : image3f K × RngImage R),
      ps.foldl (render_pixel M C fuel scene) (some st) = some st2 →
      (∀ p ∈ ps, pathtrace_pixel M C fuel scene p.1 p.2 (st.2.at_ p.1 p.2)
          = some (st2.1.at_ p.1 p.2, st2.2.at_ p.1 p.2)) ∧
      (∀ a b : Int, (∀ p ∈ ps, ¬ ((p.1 : Int) = a ∧ (p.2 : Int) = b)) →
          st2.1.at_ a b = st.1.at_ a b ∧ st2.2.at_ a b = st.2.at_ a b) := by
  induction ps with
  | nil =>
    intro st st2 h
    simp only [List.foldl_nil, Option.some.injEq] at h
    rw [h]
    exact ⟨fun p hp => absurd hp (List.not_mem_nil _), fun _ _ _ => ⟨rfl, rfl⟩⟩
  | cons p ps ih =>
    intro st st2 h
    rw [List.nodup_cons] at hnd
    simp only [List.foldl_cons, render_pixel] at h
    cases hp : pathtrace_pixel M C fuel scene p.1 p.2 (st.2.at_ p.1 p.2) with
    | none =>
      rw [hp] at h
      simp only at h
      rw [foldl_none _ (fun _ => rfl)] at h
      exact absurd h (by simp)
    | some res =>
      rw [hp] at h
      simp only at h
      obtain ⟨hin, hout⟩ := ih hnd.2 _ _ h
      have hpne : ∀ q ∈ ps, ¬ ((q.1 : Int) = (p.1 : Int) ∧ (q.2 : Int) = (p.2 : Int)) := by
        intro q hq hcon
        have : q = p := Prod.ext (Int.ofNat_inj.mp hcon.1) (Int.ofNat_inj.mp hcon.2)
        exact hnd.1 (this ▸ hq)
      refine ⟨?_, ?_⟩
      · intro q hq
        rcases List.mem_cons.mp hq with rfl | hq
        · obtain ⟨e1, e2⟩ := hout q.1 q.2 hpne
          rw [e1, e2, image_set_same, rng_set_same]
          exact hp
        · have hqp : p ≠ q := fun e => hnd.1 (e ▸ hq)
          have := hin q hq
          simp only at this
          rw [rng_set_other st.2 p q hqp] at this
          exact this
      · intro a b hab
        obtain ⟨e1, e2⟩ := hout a b (fun q hq => hab q (List.mem_cons_of_mem _ hq))
        have hne : ¬ (a = (p.1 : Int) ∧ b = (p.2 : Int)) := by
          intro hcon
          exact hab p (List.mem_cons_self _ _) ⟨hcon.1.symm, hcon.2.symm⟩
        rw [e1, e2]
        simp only [image3f.set, RngImage.set, if_neg hne, and_self]

/-- Rendering a list of pixels returns when every trace of a camera ray returns. -/
theorem render_pixels_returns (M : MathFns K) (C : Collab K R) (fuel : Nat) (scene : Scene K)
    (hret : ∀ ray rng, ∃ res, pathtrace_ray M C fuel scene ray rng 0 = some res)
    (ps : List (Nat × Nat)) :
    ∀ st : image3f K × RngImage R,
      ∃ st2, ps.foldl (render_pixel M C fuel scene) (some st) = some st2 := by
  have hsample : ∀ i j jj ii (s : vec3f K × R),
      ∃ s2, pixel_sample M C fuel scene i j jj (some s) ii = some s2 := by
    intro i j jj ii s
    obtain ⟨res, hres⟩ := hret (camera_ray M C scene i j ii jj (C.next_float s.2).1
      (C.next_float (C.next_float s.2).2).1) (C.next_float (C.next_float s.2).2).2
    exact ⟨(fl3 M (s.1 + res.1), res.2), by simp only [pixel_sample, hres]⟩
  have hinner : ∀ i j jj (l : List Nat) (s : vec3f K × R),
      ∃ s2, l.foldl (pixel_sample M C fuel scene i j jj) (some s) = some s2 := by
    intro i j jj l
    induction l with
    | nil => intro s; exact ⟨s, rfl⟩
    | cons ii l ih =>
      intro s
      obtain ⟨s1, h1⟩ := hsample i j jj ii s
      simp only [List.foldl_cons, h1]
      exact ih s1
  have houter : ∀ i j (l : List Nat) (s : vec3f K × R),
      ∃ s2, l.foldl (fun st jj => (List.range scene.image_samples).foldl
        (pixel_sample M C fuel scene i j jj) st) (some s) = some s2 := by
    intro i j l
    induction l with
    | nil => intro s; exact ⟨s, rfl⟩
    | cons jj l ih =>
      intro s
      obtain ⟨s1, h1⟩ := hinner i j jj (List.range scene.image_samples) s
      simp only [List.foldl_cons, h1]
      exact ih s1
  have hpixel : ∀ i j rng, ∃ res, pathtrace_pixel M C fuel scene i j rng = some res := by
    intro i j rng
    obtain ⟨s2, h2⟩ := houter i j (List.range scene.image_samples) (zero3f, rng)
    exact ⟨(fl3 M (s2.1 / M.fl ((wrap32 ((scene.image_samples : Int)
      * (scene.image_samples : Int)) : Int) : K)), s2.2), by simp only [pathtrace_pixel, h2]⟩
  induction ps with
  | nil => intro st; exact ⟨st, rfl⟩
  | cons p ps ih =>
    intro st
    obtain ⟨res, hres⟩ := hpixel p.1 p.2 (st.2.at_ p.1 p.2)
    simp only [List.foldl_cons, render_pixel, hres]
    exact ih _

/-- The single-threaded render, unfolded: the pixels of all rows, rendered in order. -/
theorem pathtrace_single_eq (M : MathFns K) (C : Collab K R) (fuel : Nat) (scene : Scene K)
    (image0 : image3f K) (rngs0 : RngImage R) (N : Nat) (order : List Nat) :
    pathtrace M C fuel scene image0 rngs0 N order false
      = ((row_pixels scene.image_width
          (rows_from scene.image_height 1 scene.image_height 0)).foldl
          (render_pixel M C fuel scene) (some (image0, rngs0))).map Prod.fst := by
  simp only [pathtrace, Bool.false_eq_true, if_false]
  rw [pathtrace_rows_eq M C fuel scene _ _ 0 1 (le_refl 1)]

/-- In the image returned by a render, the color of a pixel is the one computed from
that pixel's own initial generator state. -/
theorem pathtrace_pixel_of_render (M : MathFns K) (C : Collab K R) (fuel : Nat)
    (scene : Scene K) (N : Nat) (hN : 1 ≤ N) (order : List Nat)
    (hperm : order.Perm (List.range N)) (multithread : Bool)
    (image0 : image3f K) (rngs0 : RngImage R) (res : image3f K) (i j : Nat)
    (hi : i < scene.image_width) (hj : j < scene.image_height)
    (h : pathtrace M C fuel scene image0 rngs0 N order multithread = some res) :
    ∃ g, pathtrace_pixel M C fuel scene i j (rngs0.at_ i j) = some (res.at_ i j, g) := by
  have hs : pathtrace M C fuel scene image0 rngs0 N order false = some res := by
    cases multithread with
    | false => exact h
    | true => rw [← pathtrace_parallel_eq_single M C fuel scene image0 rngs0 N hN order hperm]
              exact h
  rw [pathtrace_single_eq] at hs
  cases hf : (row_pixels scene.image_width
      (rows_from scene.image_height 1 scene.image_height 0)).foldl
      (render_pixel M C fuel scene) (some (image0, rngs0)) with
  | none => rw [hf] at hs; simp at hs
  | some st2 =>
    rw [hf] at hs
    simp only [Option.map_some', Option.some.injEq] at hs
    have hsound := (render_pixels_sound M C fuel scene _
      (nodup_row_pixels _ _ (nodup_rows_from scene.image_height 1 (le_refl 1)
        scene.image_height 0)) _ _ hf).1 (i, j)
      ((mem_row_pixels _ _ _).mpr ⟨hi,
        (mem_rows_from_worker scene.image_height 1 0 j (le_refl 1) Nat.zero_lt_one).mpr
          ⟨hj, (Nat.mod_one j).symm⟩⟩)
    rw [← hs]
    exact ⟨_, hsound⟩

/-- C8: for every scene and worker count `N >= 1`.  The row loop started with
`(offset_row = tid, skip_row = N)` visits, without repetition, exactly the rows
`j < image_height` with `j mod N = tid`, and it renders the pixels of those rows, in
order.  Every row is visited by the worker `tid = j mod N` and by no other.  When the row
loop of worker `tid` returns, every pixel `(i,j)` of its rows holds the color computed
from the pixel's own generator, which is left in its final state, and every other pixel
and generator is as it was before.  The multithreaded `pathtrace` runs the row loops
started with `(tid, N)`, and a row loop returns when every trace of a camera ray does. -/
theorem C8_rows_partition (M : MathFns K) (C : Collab K R) (fuel : Nat) (scene : Scene K)
    (N : Nat) (hN : 1 ≤ N) :
    (∀ tid, tid < N → ∃ rows, rows_visited scene.image_height tid N = some rows ∧
      rows.Nodup ∧ (∀ j, j ∈ rows ↔ (j < scene.image_height ∧ tid = j % N)) ∧
      ∀ (image : image3f K) (rngs : RngImage R),
        pathtrace_rows M C fuel scene image rngs tid N
          = (row_pixels scene.image_width rows).foldl (render_pixel M C fuel scene)
              (some (image, rngs))) ∧
    (∀ j, j < scene.image_height →
      (∃ rows, rows_visited scene.image_height (j % N) N = some rows ∧ j ∈ rows) ∧
      ∀ tid rows, tid < N → tid ≠ j % N →
        rows_visited scene.image_height tid N = some rows → j ∉ rows) ∧
    (∀ tid (image : image3f K) (rngs : RngImage R) st2, tid < N →
      pathtrace_rows M C fuel scene image rngs tid N = some st2 →
      ∀ i j : Nat,
        (i < scene.image_width ∧ j < scene.image_height ∧ j % N = tid →
          pathtrace_pixel M C fuel scene i j (rngs.at_ i j)
            = some (st2.1.at_ i j, st2.2.at_ i j)) ∧
        (¬ (i < scene.image_width ∧ j < scene.image_height ∧ j % N = tid) →
          st2.1.at_ i j = image.at_ i j ∧ st2.2.at_ i j = rngs.at_ i j)) ∧
    (∀ (image0 : image3f K) (rngs0 : RngImage R) (order : List Nat),
      pathtrace M C fuel scene image0 rngs0 N order true
        = (order.foldl (fun st tid =>
            st.bind fun s => pathtrace_rows M C fuel scene s.1 s.2 tid N)
            (some (image0, rngs0))).map Prod.fst) ∧
    ((∀ ray rng, ∃ res, pathtrace_ray M C fuel scene ray rng 0 = some res) →
      ∀ tid (image : image3f K) (rngs : RngImage R),
        ∃ st2, pathtrace_rows M C fuel scene image rngs tid N = some st2) := by
  refine ⟨?_, ?_, ?_, ?_, ?_⟩
  · intro tid ht
    exact ⟨_, rows_visited_eq scene.image_height tid N hN,
      nodup_rows_from scene.image_height N hN scene.image_height tid,
      fun j => mem_rows_from_worker scene.image_height N tid j hN ht,
      fun image rngs => pathtrace_rows_eq M C fuel scene image rngs tid N hN⟩
  · intro j hj
    refine ⟨⟨_, rows_visited_eq scene.image_height (j % N) N hN,
      (mem_rows_from_worker scene.image_height N (j % N) j hN (Nat.mod_lt _ hN)).mpr
        ⟨hj, rfl⟩⟩, ?_⟩
    intro tid rows ht hne e hmem
    rw [rows_visited_eq scene.image_height tid N hN] at e
    simp only [Option.some.injEq] at e
    rw [← e] at hmem
    exact hne ((mem_rows_from_worker scene.image_height N tid j hN ht).mp hmem).2
  · intro tid image rngs st2 ht h i j
    rw [pathtrace_rows_eq M C fuel scene image rngs tid N hN] at h
    have hsound := render_pixels_sound M C fuel scene _
      (nodup_row_pixels scene.image_width _
        (nodup_rows_from scene.image_height N hN scene.image_height tid)) _ _ h
    have hmem : ∀ p : Nat × Nat,
        p ∈ row_pixels scene.image_width
          (rows_from scene.image_height N scene.image_height tid) ↔
        (p.1 < scene.image_width ∧ p.2 < scene.image_height ∧ p.2 % N = tid) := by
      intro p
      rw [mem_row_pixels, mem_rows_from_worker scene.image_height N tid p.2 hN ht]
      constructor
      · rintro ⟨h1, h2, h3⟩
        exact ⟨h1, h2, h3.symm⟩
      · rintro ⟨h1, h2, h3⟩
        exact ⟨h1, h2, h3.symm⟩
    constructor
    · intro hp
      exact hsound.1 (i, j) ((hmem (i, j)).mpr hp)
    · intro hp
      apply hsound.2 (i : Int) (j : Int)
      intro p hpm hcon
      have e : p = (i, j) := Prod.ext (Int.ofNat_inj.mp hcon.1) (Int.ofNat_inj.mp hcon.2)
      rw [e] at hpm
      exact hp ((hmem (i, j)).mp hpm)
  · intro image0 rngs0 order
    simp only [pathtrace, if_true]
    congr 2
    funext st tid
    cases st <;> rfl
  · intro hret tid image rngs
    rw [pathtrace_rows_eq M C fuel scene image rngs tid N hN]
    exact render_pixels_returns M C fuel scene hret _ (image, rngs)

/-- C8 for the sky scene rendered with 5 rows of 3 pixels by 2 workers. -/
theorem C8_rows_partition_witness :
    (∀ tid, tid < 2 → ∃ rows, rows_visited (stripScene : Scene ℚ).image_height tid 2
        = some rows ∧
      rows.Nodup ∧ (∀ j, j ∈ rows ↔ (j < (stripScene : Scene ℚ).image_height ∧ tid = j % 2)) ∧
      ∀ (image : image3f ℚ) (rngs : RngImage Nat),
        pathtrace_rows demoMath (demoCollab (fun _ _ => missRecord) (fun _ _ => false)) 1
            stripScene image rngs tid 2
          = (row_pixels (stripScene : Scene ℚ).image_width rows).foldl
              (render_pixel demoMath (demoCollab (fun _ _ => missRecord) (fun _ _ => false))
                1 stripScene)
              (some (image, rngs))) ∧
    (∀ j, j < (stripScene : Scene ℚ).image_height →
      (∃ rows, rows_visited (stripScene : Scene ℚ).image_height (j % 2) 2 = some rows ∧
        j ∈ rows) ∧
      ∀ tid rows, tid < 2 → tid ≠ j % 2 →
        rows_visited (stripScene : Scene ℚ).image_height tid 2 = some rows → j ∉ rows) ∧
    (∀ tid (image : image3f ℚ) (rngs : RngImage Nat) st2, tid < 2 →
      pathtrace_rows demoMath (demoCollab (fun _ _ => missRecord) (fun _ _ => false)) 1
        stripScene image rngs tid 2 = some st2 →
      ∀ i j : Nat,
        (i < (stripScene : Scene ℚ).image_width ∧ j < (stripScene : Scene ℚ).image_height ∧
            j % 2 = tid →
          pathtrace_pixel demoMath (demoCollab (fun _ _ => missRecord) (fun _ _ => false)) 1
              stripScene i j (rngs.at_ i j)
            = some (st2.1.at_ i j, st2.2.at_ i j)) ∧
        (¬ (i < (stripScene : Scene ℚ).image_width ∧
            j < (stripScene : Scene ℚ).image_height ∧ j % 2 = tid) →
          st2.1.at_ i j = image.at_ i j ∧ st2.2.at_ i j = rngs.at_ i j)) ∧
    (∀ (image0 : image3f ℚ) (rngs0 : RngImage Nat) (order : List Nat),
      pathtrace demoMath (demoCollab (fun _ _ => missRecord) (fun _ _ => false)) 1
          stripScene image0 rngs0 2 order true
        = (order.foldl (fun st tid =>
            st.bind fun s => pathtrace_rows demoMath
              (demoCollab (fun _ _ => missRecord) (fun _ _ => false)) 1 stripScene
              s.1 s.2 tid 2)
            (some (image0, rngs0))).map Prod.fst) ∧
    ((∀ ray rng, ∃ res, pathtrace_ray demoMath
        (demoCollab (fun _ _ => missRecord) (fun _ _ => false)) 1 stripScene ray rng 0
        = some res) →
      ∀ tid (image : image3f ℚ) (rngs : RngImage Nat),
        ∃ st2, pathtrace_rows demoMath (demoCollab (fun _ _ => missRecord) (fun _ _ => false))
          1 stripScene image rngs tid 2 = some st2) :=
  C8_rows_partition demoMath (demoCollab (fun _ _ => missRecord) (fun _ _ => false)) 1
    stripScene 2 (by decide)

/-- C9 fails on the code when `thread::hardware_concurrency()` reports 0 workers: the
multithreaded render of the one-pixel sky scene starts no row loop and returns the
freshly allocated (black) image, while the single-threaded render returns the white
background at pixel `(0,0)`. -/
theorem C9_zero_workers_render_nothing :
    (pathtrace demoMath (demoCollab (fun _ _ => missRecord) (fun _ _ => false)) 1
        skyScene blackImage seedRngs 0 [] true).map (fun img => img.at_ 0 0)
      = some zero3f ∧
    (pathtrace demoMath (demoCollab (fun _ _ => missRecord) (fun _ _ => false)) 1
        skyScene blackImage seedRngs 0 [] false).map (fun img => img.at_ 0 0)
      = some one3f := by
  refine ⟨by decide!, by decide!⟩

/-- C10: in the image returned by a render (with at least one worker, in any order, or
single-threaded), the color of pixel `(i,j)` is the color computed from the scene and
the initial state of that pixel's own generator; two renders whose generator images
agree at `(i,j)` give the same color at `(i,j)`; rendering a pixel leaves the generator
of every other pixel unchanged; and the render returns when every trace of a camera ray
returns. -/
theorem C10_pixel_depends_on_own_generator (M : MathFns K) (C : Collab K R) (fuel : Nat)
    (scene : Scene K) (N : Nat) (hN : 1 ≤ N) (order : List Nat)
    (hperm : order.Perm (List.range N)) (multithread : Bool) :
    (∀ image0 rngs0 res (i j : Nat), i < scene.image_width → j < scene.image_height →
      pathtrace M C fuel scene image0 rngs0 N order multithread = some res →
      ∃ g, pathtrace_pixel M C fuel scene i j (rngs0.at_ i j) = some (res.at_ i j, g)) ∧
    (∀ imageA rngsA imageB rngsB resA resB (i j : Nat),
      i < scene.image_width → j < scene.image_height →
      rngsA.at_ i j = rngsB.at_ i j →
      pathtrace M C fuel scene imageA rngsA N order multithread = some resA →
      pathtrace M C fuel scene imageB rngsB N order multithread = some resB →
      resA.at_ i j = resB.at_ i j) ∧
    (∀ (st st2 : image3f K × RngImage R) (p : Nat × Nat) (a b : Int),
      render_pixel M C fuel scene (some st) p = some st2 →
      ¬ ((p.1 : Int) = a ∧ (p.2 : Int) = b) → st2.2.at_ a b = st.2.at_ a b) ∧
    ((∀ ray rng, ∃ res, pathtrace_ray M C fuel scene ray rng 0 = some res) →
      ∀ image0 rngs0, ∃ res,
        pathtrace M C fuel scene image0 rngs0 N order multithread = some res) := by
  refine ⟨?_, ?_, ?_, ?_⟩
  · intro image0 rngs0 res i j hi hj h
    exact pathtrace_pixel_of_render M C fuel scene N hN order hperm multithread image0 rngs0
      res i j hi hj h
  · intro imageA rngsA imageB rngsB resA resB i j hi hj hg hA hB
    obtain ⟨gA, eA⟩ := pathtrace_pixel_of_render M C fuel scene N hN order hperm multithread
      imageA rngsA resA i j hi hj hA
    obtain ⟨gB, eB⟩ := pathtrace_pixel_of_render M C fuel scene N hN order hperm multithread
      imageB rngsB resB i j hi hj hB
    rw [hg, eB] at eA
    simp only [Option.some.injEq, Prod.mk.injEq] at eA
    exact eA.1.symm
  · intro st st2 p a b h hne
    have := (render_pixels_sound M C fuel scene [p] (List.nodup_singleton p) st st2
      (by simpa using h)).2 a b (by
        intro q hq
        rw [List.mem_singleton] at hq
        rw [hq]; exact hne)
    exact this.2
  · intro hret image0 rngs0
    have hs : ∃ res, pathtrace M C fuel scene image0 rngs0 N order false = some res := by
      obtain ⟨st2, h2⟩ := render_pixels_returns M C fuel scene hret
        (row_pixels scene.image_width (rows_from scene.image_height 1 scene.image_height 0))
        (image0, rngs0)
      exact ⟨st2.1, by rw [pathtrace_single_eq, h2]; rfl⟩
    cases multithread with
    | false => exact hs
    | true =>
      rw [pathtrace_parallel_eq_single M C fuel scene image0 rngs0 N hN order hperm]
      exact hs

/-- C10 at the one-pixel sky scene, rendered by two workers taking effect in the order
`1, 0`. -/
theorem C10_pixel_depends_on_own_generator_witness :
    (∀ image0 rngs0 res (i j : Nat),
      i < (skyScene : Scene ℚ).image_width → j < (skyScene : Scene ℚ).image_height →
      pathtrace demoMath (demoCollab (fun _ _ => missRecord) (fun _ _ => false)) 1
        skyScene image0 rngs0 2 [1, 0] true = some res →
      ∃ g, pathtrace_pixel demoMath (demoCollab (fun _ _ => missRecord) (fun _ _ => false)) 1
        skyScene i j (rngs0.at_ i j) = some (res.at_ i j, g)) ∧
    (∀ imageA rngsA imageB rngsB resA resB (i j : Nat),
      i < (skyScene : Scene ℚ).image_width → j < (skyScene : Scene ℚ).image_height →
      rngsA.at_ i j = rngsB.at_ i j →
      pathtrace demoMath (demoCollab (fun _ _ => missRecord) (fun _ _ => false)) 1
        skyScene imageA rngsA 2 [1, 0] true = some resA →
      pathtrace demoMath (demoCollab (fun _ _ => missRecord) (fun _ _ => false)) 1
        skyScene imageB rngsB 2 [1, 0] true = some resB →
      resA.at_ i j = resB.at_ i j) ∧
    (∀ (st st2 : image3f ℚ × RngImage Nat) (p : Nat × Nat) (a b : Int),
      render_pixel demoMath (demoCollab (fun _ _ => missRecord) (fun _ _ => false)) 1
        skyScene (some st) p = some st2 →
      ¬ ((p.1 : Int) = a ∧ (p.2 : Int) = b) → st2.2.at_ a b = st.2.at_ a b) ∧
    ((∀ ray rng, ∃ res,
        pathtrace_ray demoMath (demoCollab (fun _ _ => missRecord) (fun _ _ => false)) 1
          skyScene ray rng 0 = some res) →
      ∀ image0 rngs0, ∃ res,
        pathtrace demoMath (demoCollab (fun _ _ => missRecord) (fun _ _ => false)) 1
          skyScene image0 rngs0 2 [1, 0] true = some res) :=
  C10_pixel_depends_on_own_generator demoMath
    (demoCollab (fun _ _ => missRecord) (fun _ _ => false)) 1 skyScene 2 (by decide)
    [1, 0] (by decide) true

end Image

/-! ## The rounding to single precision -/

section Rounding

/-- The halving loop computes the floor of the binary logarithm. -/
theorem log2fuel_eq : ∀ f n : Nat, n ≤ f → log2fuel f n = Nat.log 2 n := by
  intro f
  induction f with
  | zero =>
    intro n h
    have : n = 0 := by omega
    subst this
    simp [log2fuel]
  | succ f ih =>
    intro n h
    unfold log2fuel
    split_ifs with h2
    · rw [ih (n / 2) (by omega), Nat.log_of_one_lt_of_le (by norm_num) h2]
    · rw [Nat.log_of_lt (by omega)]

/-- The halving loop computes the ceiling of the binary logarithm. -/
theorem clog2fuel_eq : ∀ f n : Nat, n ≤ f → clog2fuel f n = Nat.clog 2 n := by
  intro f
  induction f with
  | zero =>
    intro n h
    have : n = 0 := by omega
    subst this
    simp [clog2fuel]
  | succ f ih =>
    intro n h
    unfold clog2fuel
    split_ifs with h2
    · rw [ih ((n + 1) / 2) (by omega), Nat.clog_of_two_le (by norm_num) h2]
      rfl
    · rw [Nat.clog_of_right_le_one (by omega)]

/-- The exponent `ilog2` is the integer logarithm to base 2. -/
theorem ilog2_eq (x : ℚ) : ilog2 x = Int.log 2 x := by
  unfold ilog2 Int.log
  rw [log2fuel_eq _ _ (le_refl _), clog2fuel_eq _ _ (le_refl _), Int.floor_toNat,
    Int.ceil_toNat]

/-- Rounding to the nearest integer returns the floor or the integer after it. -/
theorem roundEven_mem (x : ℚ) : roundEven x = Int.floor x ∨ roundEven x = Int.floor x + 1 := by
  unfold roundEven
  simp only
  split_ifs <;> simp

/-- A fraction below one half is rounded down. -/
theorem roundEven_of_lt (x : ℚ) (h : x - Int.floor x < 1 / 2) : roundEven x = Int.floor x := by
  unfold roundEven
  simp only
  rw [if_pos h]

/-- A fraction above one half is rounded up. -/
theorem roundEven_of_gt (x : ℚ) (h : 1 / 2 < x - Int.floor x) :
    roundEven x = Int.floor x + 1 := by
  unfold roundEven
  simp only
  rw [if_neg (not_lt.mpr (le_of_lt h)), if_pos h]

/-- Rounding to the nearest integer is monotone. -/
theorem roundEven_mono (x y : ℚ) (h : x ≤ y) : roundEven x ≤ roundEven y := by
  have hf : Int.floor x ≤ Int.floor y := Int.floor_mono h
  rcases lt_or_eq_of_le hf with hlt | heq
  · rcases roundEven_mem x with e1 | e1 <;> rcases roundEven_mem y with e2 | e2 <;> omega
  · by_cases hx : x - Int.floor x < 1 / 2
    · rw [roundEven_of_lt x hx]
      rcases roundEven_mem y with e2 | e2 <;> omega
    · by_cases hy : 1 / 2 < y - Int.floor y
      · rw [roundEven_of_gt y hy]
        rcases roundEven_mem x with e1 | e1 <;> omega
      · -- both fractions are one half
        have hx2 : x - Int.floor x = 1 / 2 := by
          have : x - Int.floor x ≤ y - Int.floor y := by rw [heq]; linarith
          linarith [not_lt.mp hx, not_lt.mp hy]
        have hy2 : y - Int.floor y = 1 / 2 := by
          have : x - Int.floor x ≤ y - Int.floor y := by rw [heq]; linarith
          linarith [not_lt.mp hx, not_lt.mp hy]
        have : x = y := by
          have := hx2.trans hy2.symm
          rw [heq] at this
          linarith
        rw [this]

/-- An integer is rounded to itself. -/
theorem roundEven_intCast (n : Int) : roundEven (n : ℚ) = n := by
  rw [roundEven_of_lt] <;> simp

/-- Zero is a single-precision number. -/
theorem round32_zero : round32 0 = 0 := by simp [round32]

/-- The rounding of a positive number: the nearest multiple of `2^e`, for the exponent
`e` of its binade. -/
theorem round32_pos_eq (x : ℚ) (hx : 0 < x) :
    round32 x = (roundEven (x / 2 ^ max (-149) (Int.log 2 x - 23)) : ℚ)
      * 2 ^ max (-149) (Int.log 2 x - 23) := by
  unfold round32
  rw [if_neg (ne_of_gt hx), abs_of_pos hx, ilog2_eq]

/-- The rounding of a non-negative number is non-negative. -/
theorem round32_nonneg (x : ℚ) (hx : 0 ≤ x) : 0 ≤ round32 x := by
  rcases eq_or_lt_of_le hx with h | h
  · rw [← h, round32_zero]
  · rw [round32_pos_eq x h]
    apply mul_nonneg
    · have : (0 : Int) ≤ roundEven (x / 2 ^ max (-149) (Int.log 2 x - 23)) := by
        have h0 := roundEven_mono 0 (x / 2 ^ max (-149) (Int.log 2 x - 23))
          (by positivity)
        have : roundEven 0 = 0 := by
          have := roundEven_intCast 0
          simpa using this
        omega
      exact_mod_cast this
    · positivity

/-- The rounding to single precision is monotone on the non-negative numbers. -/
theorem round32_mono (x y : ℚ) (hx : 0 ≤ x) (h : x ≤ y) : round32 x ≤ round32 y := by
  rcases eq_or_lt_of_le hx with h0 | h0
  · rw [← h0, round32_zero]
    exact round32_nonneg y (hx.trans h)
  · have hy : 0 < y := lt_of_lt_of_le h0 h
    rw [round32_pos_eq x h0, round32_pos_eq y hy]
    have hL : Int.log 2 x ≤ Int.log 2 y := Int.log_mono_right h0 h
    have he : max (-149) (Int.log 2 x - 23) ≤ max (-149) (Int.log 2 y - 23) :=
      max_le_max (le_refl _) (by omega)
    rcases eq_or_lt_of_le he with heq | hlt
    · rw [heq]
      apply mul_le_mul_of_nonneg_right _ (by positivity)
      have := roundEven_mono (x / 2 ^ max (-149) (Int.log 2 y - 23))
        (y / 2 ^ max (-149) (Int.log 2 y - 23))
        (div_le_div_of_nonneg_right h (by positivity))
      exact_mod_cast this
    · set ex := max (-149) (Int.log 2 x - 23) with hex
      set ey := max (-149) (Int.log 2 y - 23) with hey
      have hey2 : ey = Int.log 2 y - 23 := by
        rcases max_cases (-149 : Int) (Int.log 2 y - 23) with ⟨h1, _⟩ | ⟨h1, _⟩
        · have : (-149 : Int) ≤ ex := le_max_left _ _
          omega
        · exact h1
      have hex2 : Int.log 2 x - 23 ≤ ex := le_max_right _ _
      -- upper bound for x
      have hxu : x / 2 ^ ex ≤ ((2 ^ 24 : Int) : ℚ) := by
        rw [div_le_iff₀ (by positivity)]
        have h1 : x < 2 ^ (Int.log 2 x + 1) := Int.lt_zpow_succ_log_self (by norm_num) x
        have h2 : (2 : ℚ) ^ (Int.log 2 x + 1) ≤ 2 ^ (24 + ex) :=
          zpow_le_zpow_right₀ (by norm_num) (by omega)
        have h3 : ((2 ^ 24 : Int) : ℚ) * 2 ^ ex = 2 ^ (24 + ex) := by
          rw [zpow_add₀ (by norm_num)]
          norm_num
        rw [h3]
        linarith
      have hyl : ((2 ^ 23 : Int) : ℚ) ≤ y / 2 ^ ey := by
        rw [le_div_iff₀ (by positivity)]
        have h1 : (2 : ℚ) ^ Int.log 2 y ≤ y := Int.zpow_log_le_self (by norm_num) hy
        have h3 : ((2 ^ 23 : Int) : ℚ) * 2 ^ ey = 2 ^ (23 + ey) := by
          rw [zpow_add₀ (by norm_num)]
          norm_num
        rw [h3, hey2]
        have : (23 : Int) + (Int.log 2 y - 23) = Int.log 2 y := by omega
        rw [this]
        exact h1
      have r1 : roundEven (x / 2 ^ ex) ≤ 2 ^ 24 := by
        have := roundEven_mono _ _ hxu
        rw [roundEven_intCast] at this
        exact this
      have r2 : (2 ^ 23 : Int) ≤ roundEven (y / 2 ^ ey) := by
        have := roundEven_mono _ _ hyl
        rw [roundEven_intCast] at this
        exact this
      have r1q : (roundEven (x / 2 ^ ex) : ℚ) ≤ 2 ^ 24 := by exact_mod_cast r1
      have r2q : (2 ^ 23 : ℚ) ≤ (roundEven (y / 2 ^ ey) : ℚ) := by exact_mod_cast r2
      have hpx : (0 : ℚ) < 2 ^ ex := by positivity
      have hpy : (0 : ℚ) < 2 ^ ey := by positivity
      calc (roundEven (x / 2 ^ ex) : ℚ) * 2 ^ ex ≤ 2 ^ 24 * 2 ^ ex :=
            mul_le_mul_of_nonneg_right r1q hpx.le
        _ = 2 ^ (24 + ex) := by rw [zpow_add₀ (by norm_num)]; norm_num
        _ ≤ 2 ^ (23 + ey) := zpow_le_zpow_right₀ (by norm_num) (by omega)
        _ = 2 ^ 23 * 2 ^ ey := by rw [zpow_add₀ (by norm_num)]; norm_num
        _ ≤ (roundEven (y / 2 ^ ey) : ℚ) * 2 ^ ey := mul_le_mul_of_nonneg_right r2q hpy.le

/-- The integers `0 .. 2^24` are single-precision numbers. -/
theorem round32_nat (n : Nat) (h : n ≤ 16777216) : round32 (n : ℚ) = n := by
  rcases Nat.eq_zero_or_pos n with h0 | h0
  · subst h0
    simp [round32]
  rcases eq_or_lt_of_le h with h1 | h1
  · subst h1
    decide!
  have hq : (0 : ℚ) < n := by exact_mod_cast h0
  rw [round32_pos_eq _ hq]
  have hL : Int.log 2 (n : ℚ) < 24 := by
    rw [← Int.lt_zpow_iff_log_lt (by norm_num) hq]
    have : (n : ℚ) < 16777216 := by exact_mod_cast h1
    norm_num
    exact h1
  set e := max (-149) (Int.log 2 (n : ℚ) - 23) with he
  have he0 : e ≤ 0 := max_le (by norm_num) (by omega)
  obtain ⟨k, hk⟩ : ∃ k : Nat, e = -(k : Int) := ⟨(-e).toNat, by omega⟩
  have hdiv : (n : ℚ) / 2 ^ e = ((n * 2 ^ k : Nat) : Int) := by
    rw [hk, zpow_neg, zpow_natCast]
    push_cast
    field_simp
  rw [hdiv, roundEven_intCast, hk, zpow_neg, zpow_natCast]
  push_cast
  field_simp

/-- The rounding to single precision satisfies the laws of a rounding. -/
theorem floatMath_round_laws : RoundLaws floatMath where
  fl_mono := round32_mono
  fl_nat := round32_nat

/-- Exact arithmetic satisfies the laws of a rounding. -/
theorem demoMath_round_laws : RoundLaws demoMath where
  fl_mono := fun _ _ _ h => h
  fl_nat := fun _ _ => rfl

end Rounding

/-! ## The texture sampler -/

section Texture
variable {K : Type} [LinearOrderedField K] [FloorRing K]

/-- The lookup in a bound texture is the value times the texel at `texel_index`. -/
theorem lookup_eq_texel (M : MathFns K) (value : vec3f K) (t : image3f K) (uv : vec2f K) :
    lookup_scaled_texture M value (some t) uv
      = value * t.at_ (texel_index M t uv).1 (texel_index M t uv).2 := rfl

/-- Shifting a coordinate by an integer does not change the texel coordinate: the
difference `x - floor(x)` that is rounded is the same number. -/
theorem texel_coord_add_int (M : MathFns K) (dim : Int) (x : K) (k : Int) :
    texel_coord M dim (x + (k : K)) = texel_coord M dim x := by
  unfold texel_coord
  rw [Int.floor_add_int]
  have e : x + (k : K) - ((Int.floor x + k : Int) : K) = x - (Int.floor x : K) := by
    push_cast
    ring
  rw [e]

/-- Under the laws of a rounding, the rounded fractional part lies in `[0, 1]`. -/
theorem fract_round_bounds (M : MathFns K) (RL : RoundLaws M) (x : K) :
    0 ≤ M.fl (x - (Int.floor x : K)) ∧ M.fl (x - (Int.floor x : K)) ≤ 1 := by
  have h0 : 0 ≤ x - (Int.floor x : K) := sub_nonneg.mpr (Int.floor_le x)
  have h1 : x - (Int.floor x : K) ≤ 1 := by
    have := Int.lt_floor_add_one x
    linarith
  have f0 : M.fl (0 : K) = 0 := by
    have := RL.fl_nat 0 (by norm_num)
    simpa using this
  have f1 : M.fl (1 : K) = 1 := by
    have := RL.fl_nat 1 (by norm_num)
    simpa using this
  constructor
  · have := RL.fl_mono 0 _ (le_refl 0) h0
    rwa [f0] at this
  · have := RL.fl_mono _ 1 h0 h1
    rwa [f1] at this

/-- Under the laws of a rounding, the texel coordinate of a texture of size
`1 <= dim <= 2^24 + 1` lies in `[0, dim - 1]`, and so does the texel index. -/
theorem texel_coord_bounds (M : MathFns K) (RL : RoundLaws M) (dim : Int) (x : K)
    (hd : 1 ≤ dim) (hd2 : dim ≤ 16777217) :
    (0 ≤ texel_coord M dim x ∧ texel_coord M dim x ≤ ((dim - 1 : Int) : K)) ∧
    (0 ≤ truncInt (texel_coord M dim x) ∧ truncInt (texel_coord M dim x) ≤ dim - 1) := by
  obtain ⟨c0, c1⟩ := fract_round_bounds M RL x
  have f0 : M.fl (0 : K) = 0 := by
    have := RL.fl_nat 0 (by norm_num)
    simpa using this
  have hcast : ((dim - 1 : Int) : K) = (((dim - 1).toNat : Nat) : K) := by
    have : ((dim - 1).toNat : Int) = dim - 1 := Int.toNat_of_nonneg (by omega)
    rw [← this]
    push_cast
    rw [this]
  have hD : M.fl ((dim - 1 : Int) : K) = ((dim - 1 : Int) : K) := by
    rw [hcast]
    exact RL.fl_nat _ (by omega)
  have hd0 : (0 : K) ≤ ((dim - 1 : Int) : K) := by
    have : (0 : Int) ≤ dim - 1 := by omega
    exact_mod_cast this
  have hclamp : clamp (M.fl (x - (Int.floor x : K))) 0 1 = M.fl (x - (Int.floor x : K)) := by
    unfold clamp
    rw [max_eq_left c0, min_eq_left c1]
  have p0 : 0 ≤ M.fl (x - (Int.floor x : K)) * ((dim - 1 : Int) : K) := mul_nonneg c0 hd0
  have p1 : M.fl (x - (Int.floor x : K)) * ((dim - 1 : Int) : K) ≤ ((dim - 1 : Int) : K) := by
    calc M.fl (x - (Int.floor x : K)) * ((dim - 1 : Int) : K)
        ≤ 1 * ((dim - 1 : Int) : K) := mul_le_mul_of_nonneg_right c1 hd0
      _ = ((dim - 1 : Int) : K) := one_mul _
  have a0 : 0 ≤ texel_coord M dim x := by
    unfold texel_coord
    rw [hclamp, hD]
    have := RL.fl_mono 0 _ (le_refl 0) p0
    rwa [f0] at this
  have a1 : texel_coord M dim x ≤ ((dim - 1 : Int) : K) := by
    unfold texel_coord
    rw [hclamp, hD]
    have := RL.fl_mono _ _ p0 p1
    rwa [hD] at this
  refine ⟨⟨a0, a1⟩, ?_, ?_⟩
  · unfold truncInt
    rw [if_pos a0]
    exact Int.floor_nonneg.mpr a0
  · unfold truncInt
    rw [if_pos a0]
    exact Int.floor_le_iff.mpr (lt_of_le_of_lt a1 (by push_cast; linarith))

/-- At single precision the texel is the one the program reads: for `uv.x = -2^-60` the
difference `uv.x - floor(uv.x)` rounds to 1, which selects the last texel of the row;
for `uv.x = 0.7f` on a texture of width 11 the product rounds to 7. -/
theorem texel_index_single_precision :
    (texel_index floatMath ⟨2, 2, fun _ _ => zero3f⟩ ⟨-1 / 2 ^ 60, 0⟩).1 = 1 ∧
    (texel_index demoMath ⟨2, 2, fun _ _ => zero3f⟩ ⟨-1 / 2 ^ 60, 0⟩).1 = 0 ∧
    round32 (7 / 10) = 11744051 / 16777216 ∧
    (texel_index floatMath ⟨11, 1, fun _ _ => zero3f⟩ ⟨11744051 / 16777216, 0⟩).1 = 7 ∧
    (texel_index demoMath ⟨11, 1, fun _ _ => zero3f⟩ ⟨11744051 / 16777216, 0⟩).1 = 6 := by
  refine ⟨by decide!, by decide!, by decide!, by decide!, by decide!⟩

/-- C13: `lookup_scaled_texture` tiles.  For every bound texture, value, `uv = (x, y)`
and integers `k`, `m`, the lookup at `(x + k, y + m)` equals the lookup at `(x, y)`: the
texel is selected by the fractional parts `x - floor(x)`, `y - floor(y)` alone, and the
result is the value multiplied by that single texel, the one whose indices are the
products of the clamped fractional parts and `width - 1`, `height - 1`, converted to
`int`.  This holds for every rounding of the subtraction and of the product, the
rounding to single precision included. -/
theorem C13_lookup_tiles (M : MathFns K) (value : vec3f K) (t : image3f K) (x y : K)
    (k m : Int) :
    lookup_scaled_texture M value (some t) ⟨x + (k : K), y + (m : K)⟩
      = lookup_scaled_texture M value (some t) ⟨x, y⟩ ∧
    lookup_scaled_texture M value (some t) ⟨x, y⟩
      = value * t.at_
          (truncInt (M.fl (clamp (M.fl (x - (Int.floor x : K))) 0 1
            * M.fl ((t.width - 1 : Int) : K))))
          (truncInt (M.fl (clamp (M.fl (y - (Int.floor y : K))) 0 1
            * M.fl ((t.height - 1 : Int) : K)))) := by
  refine ⟨?_, rfl⟩
  rw [lookup_eq_texel, lookup_eq_texel]
  simp only [texel_index, texel_coord_add_int]

end Texture

/-! ## The reflectance model: reciprocity and zero coefficients -/

section ReflectanceClaims
variable {K : Type} [LinearOrderedField K]

theorem add_comm3 (a b : vec3f K) : a + b = b + a := by
  ext <;> simp [add_comm]

/-- The half vector of two unit vectors makes the same angle with both. -/
theorem dot_half_eq (M : MathFns K) (v l : vec3f K) (hv : dot v v = 1) (hl : dot l l = 1) :
    dot (normalize M (v + l)) l = dot (normalize M (v + l)) v := by
  rw [dot_normalize_left, dot_normalize_left]
  congr 1
  have e1 : dot (v + l) l = dot v l + dot l l := by
    simp only [dot, add_x, add_y, add_z]; ring
  have e2 : dot (v + l) v = dot v v + dot v l := by
    simp only [dot, add_x, add_y, add_z]; ring
  rw [e1, e2, hv, hl]; ring

/-- C18: `eval_brdf` is reciprocal.  For all unit vectors `v` and `l`, every normal,
`kd`, `ks`, exponent and either value of the microfacet flag, swapping `v` and `l` does
not change the value; in the microfacet branch `dot(h, l) = dot(h, v)` for the half
vector `h`, so the Fresnel term is unchanged by the swap. -/
theorem C18_brdf_reciprocal (M : MathFns K) (kd ks : vec3f K) (n : K) (v l norm : vec3f K)
    (mf : Bool) (hv : dot v v = 1) (hl : dot l l = 1) :
    eval_brdf M kd ks n v l norm mf = eval_brdf M kd ks n l v norm mf ∧
    dot (normalize M (v + l)) l = dot (normalize M (v + l)) v := by
  refine ⟨?_, dot_half_eq M v l hv hl⟩
  have hh := dot_half_eq M v l hv hl
  cases mf with
  | false =>
    simp only [eval_brdf, Bool.false_eq_true, not_false_eq_true, if_true, add_comm3 l v]
  | true =>
    simp only [eval_brdf, not_true_eq_false, if_false, add_comm3 l v]
    rw [hh, min_right_comm, mul_right_comm 4 (dot v norm) (dot l norm)]

/-- C18 for the two tilted unit vectors and the microfacet model. -/
theorem C18_brdf_reciprocal_witness :
    eval_brdf demoMath ⟨1 / 2, 1 / 2, 1 / 2⟩ ⟨1 / 4, 1 / 4, 1 / 4⟩ 2 tiltRight tiltLeft
        ⟨0, 0, 1⟩ true
      = eval_brdf demoMath ⟨1 / 2, 1 / 2, 1 / 2⟩ ⟨1 / 4, 1 / 4, 1 / 4⟩ 2 tiltLeft tiltRight
        ⟨0, 0, 1⟩ true ∧
    dot (normalize demoMath (tiltRight + tiltLeft)) tiltLeft
      = dot (normalize demoMath (tiltRight + tiltLeft)) tiltRight :=
  C18_brdf_reciprocal demoMath _ _ 2 tiltRight tiltLeft ⟨0, 0, 1⟩ true (by decide!)
    (by decide!)

end ReflectanceClaims

/-! ## Directly viewed emission -/

section Emission
variable {K : Type} [LinearOrderedField K] [FloorRing K] {R : Type}

/-- For a Phong-style material whose `kd` and `ks` vanish, the direct stage of a hit
leaves only the emission term of the primary, front-side hit. -/
theorem hit_direct_emission (M : MathFns K) (C : Collab K R) (scene : Scene K)
    (ray : ray3f K) (rng : R) (depth : Int) (isect : intersection3f K)
    (hkd : isect.mat.kd = zero3f) (hks : isect.mat.ks = zero3f)
    (hmf : isect.mat.microfacet = false) :
    (hit_direct M C scene ray rng depth isect).1
      = if depth = 0 ∧ dot (-ray.d) isect.norm > 0 then
          lookup_scaled_texture M isect.mat.ke isect.mat.ke_txt isect.texcoord
        else zero3f := by
  unfold hit_direct
  simp only
  rw [hkd, hks, hmf, lookup_zero3f, lookup_zero3f, shade_environment_black,
    foldl_area_black, foldl_point_black, mul_zero3f]
  split_ifs
  · exact zero3f_add _
  · rfl

/-- In `pathtrace_ray`: for a hit on a non-microfacet material with `kd = ks = kr = 0`
and texture-scaled emission `ke`, the call returns `ke` when `depth = 0` and
`dot(-ray.d, norm) > 0`, and `(0,0,0)` when `depth >= 1` or `dot(-ray.d, norm) <= 0`. -/
theorem emission_primary_front_total (M : MathFns K) (C : Collab K R) (fuel : Nat)
    (scene : Scene K) (ray : ray3f K) (rng : R) (depth : Int)
    (hhit : (C.intersect scene ray).hit = true)
    (hmf : (C.intersect scene ray).mat.microfacet = false)
    (hkd : (C.intersect scene ray).mat.kd = zero3f)
    (hks : (C.intersect scene ray).mat.ks = zero3f)
    (hkr : (C.intersect scene ray).mat.kr = zero3f) :
    (depth = 0 ∧ 0 < dot (-ray.d) (C.intersect scene ray).norm →
      (pathtrace_ray M C (fuel + 1) scene ray rng depth).map Prod.fst
        = some (lookup_scaled_texture M (C.intersect scene ray).mat.ke
            (C.intersect scene ray).mat.ke_txt (C.intersect scene ray).texcoord)) ∧
    (1 ≤ depth ∨ dot (-ray.d) (C.intersect scene ray).norm ≤ 0 →
      (pathtrace_ray M C (fuel + 1) scene ray rng depth).map Prod.fst = some zero3f) := by
  have hval : (pathtrace_ray M C (fuel + 1) scene ray rng depth).map Prod.fst
      = some (hit_direct M C scene ray rng depth (C.intersect scene ray)).1 := by
    show (pathtrace_body M C (pathtrace_ray M C fuel) scene ray rng depth).map Prod.fst = _
    unfold pathtrace_body
    simp only
    rw [if_neg (by simp [hhit])]
    have hind : indirect_bounce M C (pathtrace_ray M C fuel) scene ray depth
        (C.intersect scene ray) (hit_direct M C scene ray rng depth (C.intersect scene ray))
        = some (hit_direct M C scene ray rng depth (C.intersect scene ray)) := by
      unfold indirect_bounce
      simp only
      rw [hkd, hks, lookup_zero3f, lookup_zero3f]
      simp
    rw [hind]
    simp [reflect_bounce, hkr]
  rw [hval, hit_direct_emission M C scene ray rng depth _ hkd hks hmf]
  refine ⟨fun h => ?_, fun h => ?_⟩
  · rw [if_pos ⟨h.1, h.2⟩]
  · rw [if_neg]
    rintro ⟨h0, hpos⟩
    rcases h with h1 | h2
    · omega
    · exact absurd hpos (not_lt.mpr h2)

end Emission

/-! ## The samples of a pixel -/

section PixelSamples
variable {K : Type} [LinearOrderedField K] [FloorRing K] {R : Type}

/-- A 32-bit `int` holds the integers `0 .. 2^31 - 1` as they are. -/
theorem wrap32_of_lt (n : Int) (h0 : 0 ≤ n) (h1 : n < 2147483648) : wrap32 n = n := by
  unfold wrap32
  omega

/-- The product `image_samples * image_samples` does not overflow up to 46340 samples. -/
theorem wrap32_samples (S : Nat) (hS : S ≤ 46340) :
    wrap32 ((S : Int) * (S : Int)) = ((S * S : Nat) : Int) := by
  have h : S * S ≤ 46340 * 46340 := Nat.mul_le_mul hS hS
  have h2 : ((S * S : Nat) : Int) = (S : Int) * (S : Int) := by push_cast; rfl
  rw [← h2, wrap32_of_lt _ (by omega) (by omega)]

/-- A rounding maps zero to zero. -/
theorem fl_zero (M : MathFns K) (RL : RoundLaws M) : M.fl (0 : K) = 0 := by
  have := RL.fl_nat 0 (by norm_num)
  simpa using this

/-- A rounding maps one to one. -/
theorem fl_one (M : MathFns K) (RL : RoundLaws M) : M.fl (1 : K) = 1 := by
  have := RL.fl_nat 1 (by norm_num)
  simpa using this

/-- A rounding maps non-negative numbers to non-negative numbers. -/
theorem fl_nonneg (M : MathFns K) (RL : RoundLaws M) (x : K) (h : 0 ≤ x) : 0 ≤ M.fl x := by
  have := RL.fl_mono 0 x (le_refl 0) h
  rwa [fl_zero M RL] at this

/-- The rounded camera-plane coordinate is monotone in the rounded sample offset. -/
theorem coord_round_mono (M : MathFns K) (RL : RoundLaws M) (W S i : Nat) (hW : 1 ≤ W)
    (hS : 1 ≤ S) (a b : K) (ha : 0 ≤ a) (hab : a ≤ b) :
    M.fl (M.fl ((i : K) + M.fl (a / (S : K))) / (W : K))
      ≤ M.fl (M.fl ((i : K) + M.fl (b / (S : K))) / (W : K)) := by
  have hWp : (0 : K) < (W : K) := by exact_mod_cast hW
  have hSp : (0 : K) < (S : K) := by exact_mod_cast hS
  have hi : (0 : K) ≤ (i : K) := Nat.cast_nonneg i
  have h1 : 0 ≤ a / (S : K) := div_nonneg ha hSp.le
  have h2 : a / (S : K) ≤ b / (S : K) := div_le_div_of_nonneg_right hab hSp.le
  have h3 := RL.fl_mono _ _ h1 h2
  have h4 := fl_nonneg M RL _ h1
  have h5 : (i : K) + M.fl (a / (S : K)) ≤ (i : K) + M.fl (b / (S : K)) := by linarith
  have h6 := RL.fl_mono _ _ (add_nonneg hi h4) h5
  have h7 := fl_nonneg M RL _ (add_nonneg hi h4)
  exact RL.fl_mono _ _ (div_nonneg h7 hWp.le) (div_le_div_of_nonneg_right h6 hWp.le)

/-- The camera-plane coordinate of lines 328-331 under a rounding that is monotone and
exact on the integers up to `2^24`, for an image of `W` cells with `S` sub-samples per
cell: the conversions of the integers are exact; the coordinate lies between the
rounded boundaries of its sub-sample's cell, and between the rounded boundaries of its
pixel; the coordinates of later sub-samples are not smaller. -/
theorem camera_coord_round (M : MathFns K) (RL : RoundLaws M) (W S i ii : Nat) (r : K)
    (hW : 1 ≤ W) (hS : 1 ≤ S) (hW2 : W ≤ 16777216) (hS2 : S ≤ 16777216)
    (hi : i < W) (hii : ii < S) (h0 : 0 ≤ r) (h1 : r < 1) :
    M.fl (M.fl (M.fl (i : K) + M.fl (M.fl (M.fl (ii : K) + r) / M.fl (S : K))) / M.fl (W : K))
      = M.fl (M.fl ((i : K) + M.fl (M.fl ((ii : K) + r) / (S : K))) / (W : K)) ∧
    (M.fl (M.fl ((i : K) + M.fl ((ii : K) / (S : K))) / (W : K))
        ≤ M.fl (M.fl (M.fl (i : K) + M.fl (M.fl (M.fl (ii : K) + r) / M.fl (S : K)))
          / M.fl (W : K)) ∧
      M.fl (M.fl (M.fl (i : K) + M.fl (M.fl (M.fl (ii : K) + r) / M.fl (S : K))) / M.fl (W : K))
        ≤ M.fl (M.fl ((i : K) + M.fl (((ii : K) + 1) / (S : K))) / (W : K))) ∧
    (M.fl ((i : K) / (W : K))
        ≤ M.fl (M.fl (M.fl (i : K) + M.fl (M.fl (M.fl (ii : K) + r) / M.fl (S : K)))
          / M.fl (W : K)) ∧
      M.fl (M.fl (M.fl (i : K) + M.fl (M.fl (M.fl (ii : K) + r) / M.fl (S : K))) / M.fl (W : K))
        ≤ M.fl (((i : K) + 1) / (W : K))) ∧
    (∀ (ii2 : Nat) (s : K), ii < ii2 → ii2 < S → 0 ≤ s → s < 1 →
      M.fl (M.fl (M.fl (i : K) + M.fl (M.fl (M.fl (ii : K) + r) / M.fl (S : K))) / M.fl (W : K))
        ≤ M.fl (M.fl (M.fl (i : K) + M.fl (M.fl (M.fl (ii2 : K) + s) / M.fl (S : K)))
          / M.fl (W : K))) := by
  have hWp : (0 : K) < (W : K) := by exact_mod_cast hW
  have hSp : (0 : K) < (S : K) := by exact_mod_cast hS
  have hi0 : (0 : K) ≤ (i : K) := Nat.cast_nonneg i
  have hii0 : (0 : K) ≤ (ii : K) := Nat.cast_nonneg ii
  have ei : M.fl (i : K) = (i : K) := RL.fl_nat i (by omega)
  have eS : M.fl (S : K) = (S : K) := RL.fl_nat S hS2
  have eW : M.fl (W : K) = (W : K) := RL.fl_nat W hW2
  have en : ∀ n : Nat, n ≤ S → M.fl (n : K) = (n : K) := fun n hn => RL.fl_nat n (by omega)
  have ei1 : M.fl ((i : K) + 1) = (i : K) + 1 := by
    have := RL.fl_nat (i + 1) (by omega)
    push_cast at this
    exact this
  -- the rounded offset of a sub-sample `n < S` lies in `[n, n + 1]`
  have hoff : ∀ (n : Nat) (s : K), n < S → 0 ≤ s → s < 1 →
      (n : K) ≤ M.fl ((n : K) + s) ∧ M.fl ((n : K) + s) ≤ (n : K) + 1 := by
    intro n s hn hs0 hs1
    have hn0 : (0 : K) ≤ (n : K) := Nat.cast_nonneg n
    constructor
    · have := RL.fl_mono (n : K) ((n : K) + s) hn0 (by linarith)
      rwa [en n (by omega)] at this
    · have := RL.fl_mono ((n : K) + s) ((n : K) + 1) (by linarith) (by linarith)
      have e1 := en (n + 1) (by omega)
      push_cast at e1
      rwa [e1] at this
  have key : ∀ (n : Nat) (s : K), n < S →
      M.fl (M.fl (M.fl (i : K) + M.fl (M.fl (M.fl (n : K) + s) / M.fl (S : K))) / M.fl (W : K))
        = M.fl (M.fl ((i : K) + M.fl (M.fl ((n : K) + s) / (S : K))) / (W : K)) := by
    intro n s hn
    rw [ei, eS, eW, en n (by omega)]
  obtain ⟨ha, hb⟩ := hoff ii r hii h0 h1
  have lo := coord_round_mono M RL W S i hW hS (ii : K) (M.fl ((ii : K) + r)) hii0 ha
  have hi2 := coord_round_mono M RL W S i hW hS (M.fl ((ii : K) + r)) ((ii : K) + 1)
    (le_trans hii0 ha) hb
  refine ⟨key ii r hii, ?_, ?_, ?_⟩
  · rw [key ii r hii]
    exact ⟨lo, hi2⟩
  · rw [key ii r hii]
    constructor
    · refine le_trans ?_ lo
      have q0 : (0 : K) ≤ (ii : K) / (S : K) := div_nonneg hii0 hSp.le
      have q1 := fl_nonneg M RL _ q0
      have q2 := RL.fl_mono (i : K) ((i : K) + M.fl ((ii : K) / (S : K))) hi0 (by linarith)
      rw [ei] at q2
      exact RL.fl_mono _ _ (div_nonneg hi0 hWp.le) (div_le_div_of_nonneg_right q2 hWp.le)
    · refine le_trans hi2 ?_
      have q0 : (0 : K) ≤ ((ii : K) + 1) / (S : K) := div_nonneg (by linarith) hSp.le
      have q1 : ((ii : K) + 1) / (S : K) ≤ 1 := by
        rw [div_le_one hSp]
        have : ii + 1 ≤ S := hii
        exact_mod_cast this
      have q2 := RL.fl_mono _ _ q0 q1
      rw [fl_one M RL] at q2
      have q3 := fl_nonneg M RL _ q0
      have q4 := RL.fl_mono ((i : K) + M.fl (((ii : K) + 1) / (S : K))) ((i : K) + 1)
        (by linarith) (by linarith)
      rw [ei1] at q4
      have q5 := fl_nonneg M RL ((i : K) + M.fl (((ii : K) + 1) / (S : K))) (by linarith)
      exact RL.fl_mono _ _ (div_nonneg q5 hWp.le) (div_le_div_of_nonneg_right q4 hWp.le)
  · intro ii2 s hlt hlt2 hs0 hs1
    rw [key ii r hii, key ii2 s hlt2]
    obtain ⟨ha2, _⟩ := hoff ii2 s hlt2 hs0 hs1
    refine le_trans hi2 ?_
    apply coord_round_mono M RL W S i hW hS _ _ (by linarith)
    have : ((ii : K) + 1) ≤ (ii2 : K) := by
      have : ii + 1 ≤ ii2 := hlt
      exact_mod_cast this
    linarith

/-- The stratum of a jittered coordinate: `(i + (ii + r)/S)/W` lies in
`[(i + ii/S)/W, (i + (ii+1)/S)/W)` for a jitter `r` in `[0, 1)`. -/
theorem stratum_bounds (W S i ii : Nat) (r : K) (hW : 1 ≤ W) (hS : 1 ≤ S)
    (h0 : 0 ≤ r) (h1 : r < 1) :
    ((i : K) + (ii : K) / (S : K)) / (W : K) ≤ ((i : K) + ((ii : K) + r) / (S : K)) / (W : K) ∧
    ((i : K) + ((ii : K) + r) / (S : K)) / (W : K)
      < ((i : K) + ((ii : K) + 1) / (S : K)) / (W : K) := by
  have hWp : (0 : K) < (W : K) := by exact_mod_cast hW
  have hSp : (0 : K) < (S : K) := by exact_mod_cast hS
  refine ⟨?_, ?_⟩
  · rw [div_le_div_iff_of_pos_right hWp]
    have : (ii : K) / (S : K) ≤ ((ii : K) + r) / (S : K) := by
      rw [div_le_div_iff_of_pos_right hSp]; linarith
    linarith
  · rw [div_lt_div_iff_of_pos_right hWp]
    have : ((ii : K) + r) / (S : K) < ((ii : K) + 1) / (S : K) := by
      rw [div_lt_div_iff_of_pos_right hSp]; linarith
    linarith

/-- The strata of a pixel lie inside the pixel. -/
theorem stratum_in_pixel (W S i ii : Nat) (hW : 1 ≤ W) (hS : 1 ≤ S) (hii : ii < S) :
    (i : K) / (W : K) ≤ ((i : K) + (ii : K) / (S : K)) / (W : K) ∧
    ((i : K) + ((ii : K) + 1) / (S : K)) / (W : K) ≤ ((i : K) + 1) / (W : K) := by
  have hWp : (0 : K) < (W : K) := by exact_mod_cast hW
  have hSp : (0 : K) < (S : K) := by exact_mod_cast hS
  refine ⟨?_, ?_⟩
  · rw [div_le_div_iff_of_pos_right hWp]
    have : (0 : K) ≤ (ii : K) / (S : K) := div_nonneg (Nat.cast_nonneg _) hSp.le
    linarith
  · rw [div_le_div_iff_of_pos_right hWp]
    have : ((ii : K) + 1) / (S : K) ≤ 1 := by
      rw [div_le_one hSp]
      have : ii + 1 ≤ S := hii
      exact_mod_cast this
    linarith

/-- Later strata lie after earlier ones. -/
theorem stratum_mono (W S i ii ii2 : Nat) (hW : 1 ≤ W) (hS : 1 ≤ S) (h : ii < ii2) :
    ((i : K) + ((ii : K) + 1) / (S : K)) / (W : K)
      ≤ ((i : K) + (ii2 : K) / (S : K)) / (W : K) := by
  have hWp : (0 : K) < (W : K) := by exact_mod_cast hW
  have hSp : (0 : K) < (S : K) := by exact_mod_cast hS
  rw [div_le_div_iff_of_pos_right hWp]
  have : ((ii : K) + 1) / (S : K) ≤ (ii2 : K) / (S : K) := by
    rw [div_le_div_iff_of_pos_right hSp]
    have : ii + 1 ≤ ii2 := h
    exact_mod_cast this
  linarith

/-- The camera-plane coordinate of lines 328-331 in exact arithmetic: it lies in the
cell of its sub-sample, the upper boundary excluded, inside its pixel, and strictly
before the coordinates of later sub-samples. -/
theorem camera_coord_exact (M : MathFns K) (hid : ∀ x, M.fl x = x) (W S i ii : Nat) (r : K)
    (hW : 1 ≤ W) (hS : 1 ≤ S) (hii : ii < S) (h0 : 0 ≤ r) (h1 : r < 1) :
    (((i : K) + (ii : K) / (S : K)) / (W : K)
        ≤ M.fl (M.fl (M.fl (i : K) + M.fl (M.fl (M.fl (ii : K) + r) / M.fl (S : K)))
          / M.fl (W : K)) ∧
      M.fl (M.fl (M.fl (i : K) + M.fl (M.fl (M.fl (ii : K) + r) / M.fl (S : K))) / M.fl (W : K))
        < ((i : K) + ((ii : K) + 1) / (S : K)) / (W : K)) ∧
    ((i : K) / (W : K)
        ≤ M.fl (M.fl (M.fl (i : K) + M.fl (M.fl (M.fl (ii : K) + r) / M.fl (S : K)))
          / M.fl (W : K)) ∧
      M.fl (M.fl (M.fl (i : K) + M.fl (M.fl (M.fl (ii : K) + r) / M.fl (S : K))) / M.fl (W : K))
        < ((i : K) + 1) / (W : K)) ∧
    (∀ (ii2 : Nat) (s : K), ii < ii2 → 0 ≤ s →
      M.fl (M.fl (M.fl (i : K) + M.fl (M.fl (M.fl (ii : K) + r) / M.fl (S : K))) / M.fl (W : K))
        < M.fl (M.fl (M.fl (i : K) + M.fl (M.fl (M.fl (ii2 : K) + s) / M.fl (S : K)))
          / M.fl (W : K))) := by
  simp only [hid]
  have hu := stratum_bounds W S i ii r hW hS h0 h1
  have pu := stratum_in_pixel (K := K) W S i ii hW hS hii
  refine ⟨hu, ⟨le_trans pu.1 hu.1, lt_of_lt_of_le hu.2 pu.2⟩, ?_⟩
  intro ii2 s hlt hs
  have hmono := stratum_mono (K := K) W S i ii ii2 hW hS hlt
  have hWp : (0 : K) < (W : K) := by exact_mod_cast hW
  have hSp : (0 : K) < (S : K) := by exact_mod_cast hS
  have hlow : ((i : K) + (ii2 : K) / (S : K)) / (W : K)
      ≤ ((i : K) + ((ii2 : K) + s) / (S : K)) / (W : K) := by
    rw [div_le_div_iff_of_pos_right hWp]
    have : (ii2 : K) / (S : K) ≤ ((ii2 : K) + s) / (S : K) := by
      rw [div_le_div_iff_of_pos_right hSp]; linarith
    linarith
  exact lt_of_lt_of_le hu.2 (le_trans hmono hlow)

/-- A fold over the two nested sample loops is a fold over `sample_order`. -/
theorem nested_samples_eq {σ : Type} (f : Nat → σ → Nat → σ) (S : Nat) (l : List Nat) :
    ∀ init : σ,
      l.foldl (fun st jj => (List.range S).foldl (f jj) st) init
        = (l.flatMap (fun jj => (List.range S).map (fun ii => (ii, jj)))).foldl
            (fun st p => f p.2 st p.1) init := by
  induction l with
  | nil => intro init; rfl
  | cons jj l ih =>
    intro init
    simp only [List.foldl_cons, List.flatMap_cons, List.foldl_append, List.foldl_map]
    exact ih _

/-- The sample loops accumulate the radiance estimates of the sub-samples in order,
each partial sum rounded. -/
theorem samples_fold_eq (M : MathFns K) (C : Collab K R) (fuel : Nat) (scene : Scene K)
    (i j : Nat) (ps : List (Nat × Nat)) :
    ∀ (c : vec3f K) (rng : R),
      ps.foldl (fun st p => pixel_sample M C fuel scene i j p.2 st p.1) (some (c, rng))
        = (radiance_estimates M C fuel scene i j ps rng).map
            (fun r => (r.1.foldl (fun a x => fl3 M (a + x)) c, r.2)) := by
  induction ps with
  | nil => intro c rng; rfl
  | cons p ps ih =>
    intro c rng
    have hstep : pixel_sample M C fuel scene i j p.2 (some (c, rng)) p.1
        = match pathtrace_ray M C fuel scene
            (camera_ray M C scene i j p.1 p.2 (C.next_float rng).1
              (C.next_float (C.next_float rng).2).1)
            (C.next_float (C.next_float rng).2).2 0 with
          | none => none
          | some res => some (fl3 M (c + res.1), res.2) := rfl
    simp only [List.foldl_cons, radiance_estimates]
    rw [hstep]
    cases h1 : pathtrace_ray M C fuel scene
        (camera_ray M C scene i j p.1 p.2 (C.next_float rng).1
          (C.next_float (C.next_float rng).2).1)
        (C.next_float (C.next_float rng).2).2 0 with
    | none =>
      simp only [Option.map_none']
      exact foldl_none _ (fun _ => rfl) ps
    | some res =>
      simp only
      rw [ih]
      cases radiance_estimates M C fuel scene i j ps res.2 with
      | none => rfl
      | some r => rfl

/-- The pixel routine returns the rounded sum of the radiance estimates of
`sample_order`, divided by the 32-bit product `image_samples * image_samples`
converted to `float`. -/
theorem pathtrace_pixel_eq_estimates (M : MathFns K) (C : Collab K R) (fuel : Nat)
    (scene : Scene K) (i j : Nat) (rng : R) :
    pathtrace_pixel M C fuel scene i j rng
      = (radiance_estimates M C fuel scene i j (sample_order scene.image_samples) rng).map
          (fun r => (fl3 M (sum3f M r.1
            / M.fl ((wrap32 ((scene.image_samples : Int) * (scene.image_samples : Int)) : Int)
              : K)), r.2)) := by
  unfold pathtrace_pixel
  rw [nested_samples_eq (fun jj st ii => pixel_sample M C fuel scene i j jj st ii),
    samples_fold_eq]
  unfold sample_order sum3f
  cases radiance_estimates M C fuel scene i j
      ((List.range scene.image_samples).flatMap
        (fun jj => (List.range scene.image_samples).map (fun ii => (ii, jj)))) rng with
  | none => rfl
  | some r => rfl

/-- There are `S * S` sub-samples. -/
theorem length_sample_order (S : Nat) : (sample_order S).length = S * S := by
  have key : ∀ l : List Nat,
      (l.flatMap (fun jj => (List.range S).map (fun ii => (ii, jj)))).length
        = l.length * S := by
    intro l
    induction l with
    | nil => simp
    | cons a l ih =>
      simp only [List.flatMap_cons, List.length_append, List.length_map, List.length_range,
        ih, List.length_cons]
      rw [Nat.succ_mul]; omega
  unfold sample_order
  rw [key, List.length_range]

/-- One radiance estimate is produced per sub-sample. -/
theorem length_radiance_estimates (M : MathFns K) (C : Collab K R) (fuel : Nat)
    (scene : Scene K) (i j : Nat) (ps : List (Nat × Nat)) :
    ∀ (rng : R) (r : List (vec3f K) × R),
      radiance_estimates M C fuel scene i j ps rng = some r → r.1.length = ps.length := by
  induction ps with
  | nil =>
    intro rng r h
    simp only [radiance_estimates, Option.some.injEq] at h
    rw [← h]; rfl
  | cons p ps ih =>
    intro rng r h
    simp only [radiance_estimates] at h
    split at h
    · simp at h
    · next res _ =>
      split at h
      · simp at h
      · next r2 h2 =>
        simp only [Option.some.injEq] at h
        rw [← h]
        simp only [List.length_cons, ih _ _ h2]

/-- When every trace returns the color `k`, all radiance estimates are `k`. -/
theorem radiance_estimates_const (M : MathFns K) (C : Collab K R) (fuel : Nat)
    (scene : Scene K) (i j : Nat) (k : vec3f K)
    (hk : ∀ ray g, ∃ g2, pathtrace_ray M C fuel scene ray g 0 = some (k, g2))
    (ps : List (Nat × Nat)) :
    ∀ rng : R, ∃ r, radiance_estimates M C fuel scene i j ps rng = some r ∧
      ∀ x ∈ r.1, x = k := by
  induction ps with
  | nil => intro rng; exact ⟨([], rng), rfl, fun x hx => absurd hx (List.not_mem_nil _)⟩
  | cons p ps ih =>
    intro rng
    obtain ⟨g2, h2⟩ := hk (camera_ray M C scene i j p.1 p.2 (C.next_float rng).1
      (C.next_float (C.next_float rng).2).1) (C.next_float (C.next_float rng).2).2
    obtain ⟨r, hr, hall⟩ := ih g2
    refine ⟨(k :: r.1, r.2), ?_, ?_⟩
    · simp only [radiance_estimates, h2, hr]
    · intro x hx
      rcases List.mem_cons.mp hx with rfl | hx
      · rfl
      · exact hall x hx

/-- Accumulating `n` copies of a color adds `n` times the color. -/
theorem foldl_add_const (k : vec3f K) (cs : List (vec3f K)) :
    ∀ c : vec3f K, (∀ x ∈ cs, x = k) →
      cs.foldl (fun a x => a + x) c = c + (cs.length : K) * k := by
  induction cs with
  | nil => intro c _; ext <;> simp
  | cons x cs ih =>
    intro c h
    have hx : x = k := h x (List.mem_cons_self _ _)
    simp only [List.foldl_cons]
    rw [ih _ (fun y hy => h y (List.mem_cons_of_mem _ hy)), hx]
    ext <;> simp <;> ring

/-- In exact arithmetic the rounded sum is the sum. -/
theorem sum3f_exact (M : MathFns K) (hid : ∀ x, M.fl x = x) (cs : List (vec3f K)) :
    sum3f M cs = cs.foldl (fun a x => a + x) zero3f := by
  unfold sum3f
  congr 1
  funext a c
  simp only [fl3, hid]

/-- In exact arithmetic, when every camera ray returns the color `k`, the pixel is
`S*S` times `k`, divided by the 32-bit product `S*S`. -/
theorem pathtrace_pixel_const_exact (M : MathFns K) (hid : ∀ x, M.fl x = x) (C : Collab K R)
    (fuel : Nat) (scene : Scene K) (i j : Nat) (k : vec3f K)
    (hk : ∀ ray g, ∃ g2, pathtrace_ray M C fuel scene ray g 0 = some (k, g2)) (rng : R) :
    ∃ g2, pathtrace_pixel M C fuel scene i j rng
      = some ((((scene.image_samples * scene.image_samples : Nat) : K) * k)
          / ((wrap32 ((scene.image_samples : Int) * (scene.image_samples : Int)) : Int) : K),
          g2) := by
  obtain ⟨r, hr, hall⟩ := radiance_estimates_const M C fuel scene i j k hk
    (sample_order scene.image_samples) rng
  have hlen : r.1.length = scene.image_samples * scene.image_samples := by
    rw [length_radiance_estimates M C fuel scene i j _ rng r hr, length_sample_order]
  refine ⟨r.2, ?_⟩
  rw [pathtrace_pixel_eq_estimates, hr]
  simp only [Option.map_some', Option.some.injEq, Prod.mk.injEq, and_true]
  rw [sum3f_exact M hid, foldl_add_const k r.1 zero3f hall, hlen, hid]
  ext <;> simp only [fl3, hid, divs_x, divs_y, divs_z, add_x, add_y, add_z, smul_x, smul_y,
    smul_z, zero3f_x, zero3f_y, zero3f_z, zero_add]

/-- Every ray traced in a scene without geometry and without background texture returns
the background color, and leaves the generator as it is. -/
theorem sky_returns_background (M : MathFns ℚ) (sc : Scene ℚ) (hb : sc.background_txt = none)
    (ray : ray3f ℚ) (g : Nat) :
    pathtrace_ray M (demoCollab (fun _ _ => missRecord) (fun _ _ => false)) 1 sc ray g 0
      = some (sc.background, g) := by
  rw [pathtrace_ray_miss M _ 0 sc ray g 0 rfl]
  simp [eval_env, lookup_scaled_texture, hb]

/-- C11 (as stated) fails, in two ways.  At single precision, with 3 x 3 samples per
pixel and every camera ray returning the color `0.1f`, the nine rounded additions and
the rounded division give a pixel that is one unit in the last place above `0.1f`.
With 46341 x 46341 samples per pixel the product `image_samples * image_samples` of
line 341 exceeds the range of a 32-bit `int`: even in exact arithmetic the sum of the
estimates `(1,1,1)` is divided by the wrapped product `-2147479015`, and the pixel is
negative. -/
theorem C11_counterexample_rounded_mean :
    (∀ ray g, pathtrace_ray floatMath
        (demoCollab (fun _ _ => missRecord) (fun _ _ => false)) 1 tenthScene ray g 0
      = some (⟨13421773 / 134217728, 13421773 / 134217728, 13421773 / 134217728⟩, g)) ∧
    round32 (1 / 10) = 13421773 / 134217728 ∧
    pathtrace_pixel floatMath (demoCollab (fun _ _ => missRecord) (fun _ _ => false)) 1
        tenthScene 0 0 0
      = some (⟨13421774 / 134217728, 13421774 / 134217728, 13421774 / 134217728⟩, 18) ∧
    (∀ ray g, pathtrace_ray demoMath
        (demoCollab (fun _ _ => missRecord) (fun _ _ => false)) 1 overflowScene ray g 0
      = some (one3f, g)) ∧
    ∃ g2, pathtrace_pixel demoMath (demoCollab (fun _ _ => missRecord) (fun _ _ => false)) 1
        overflowScene 0 0 0
      = some (⟨2147488281 / (-2147479015), 2147488281 / (-2147479015),
          2147488281 / (-2147479015)⟩, g2) := by
  refine ⟨fun ray g => sky_returns_background floatMath tenthScene rfl ray g, by decide!,
    by decide!, fun ray g => sky_returns_background demoMath overflowScene rfl ray g, ?_⟩
  obtain ⟨g2, h2⟩ := pathtrace_pixel_const_exact demoMath (fun _ => rfl)
    (demoCollab (fun _ _ => missRecord) (fun _ _ => false)) 1 overflowScene 0 0 one3f
    (fun ray g => ⟨g, sky_returns_background demoMath overflowScene rfl ray g⟩) 0
  refine ⟨g2, ?_⟩
  rw [h2]
  have e1 : wrap32 (((overflowScene : Scene ℚ).image_samples : Int)
      * ((overflowScene : Scene ℚ).image_samples : Int)) = -2147479015 := by decide
  have e2 : (overflowScene : Scene ℚ).image_samples * (overflowScene : Scene ℚ).image_samples
      = 2147488281 := by decide
  rw [e1, e2]
  simp only [Option.some.injEq, Prod.mk.injEq, and_true]
  ext <;> simp [one3f]

/-- C11 (amended): for every pixel `(i, j)` and `1 <= S = image_samples <= 46340`, the
value the row loop stores at `image(i, j)` is computed from exactly `S*S` radiance
estimates, each obtained by `pathtrace_ray` at depth 0 with the pixel's own generator
threaded through the sub-samples in order (`jj` outer, `ii` inner, the `u` jitter drawn
before the `v` jitter): it is their sum, accumulated in that order with every partial
sum rounded, divided by the rounded `S*S`, the quotient rounded.  In exact arithmetic,
when every camera ray returns the same color `k` the pixel equals `k`. -/
theorem C11_pixel_is_mean (M : MathFns K) (C : Collab K R) (fuel : Nat) (scene : Scene K)
    (i j : Nat) (hS : 1 ≤ scene.image_samples) (hS2 : scene.image_samples ≤ 46340) :
    (∀ rng, pathtrace_pixel M C fuel scene i j rng
      = (radiance_estimates M C fuel scene i j (sample_order scene.image_samples) rng).map
          (fun r => (fl3 M (sum3f M r.1
            / M.fl ((scene.image_samples * scene.image_samples : Nat) : K)), r.2))) ∧
    (∀ rng r, radiance_estimates M C fuel scene i j (sample_order scene.image_samples) rng
        = some r → r.1.length = scene.image_samples * scene.image_samples) ∧
    (∀ (st st2 : image3f K × RngImage R),
      render_pixel M C fuel scene (some st) (i, j) = some st2 →
      ∃ r, radiance_estimates M C fuel scene i j (sample_order scene.image_samples)
          (st.2.at_ i j) = some r ∧
        r.1.length = scene.image_samples * scene.image_samples ∧
        st2.1.at_ i j = fl3 M (sum3f M r.1
          / M.fl ((scene.image_samples * scene.image_samples : Nat) : K))) ∧
    ((∀ x, M.fl x = x) →
      ∀ k, (∀ ray g, ∃ g2, pathtrace_ray M C fuel scene ray g 0 = some (k, g2)) →
        ∀ rng, ∃ g2, pathtrace_pixel M C fuel scene i j rng = some (k, g2)) := by
  have hlen : ∀ rng r,
      radiance_estimates M C fuel scene i j (sample_order scene.image_samples) rng = some r →
      r.1.length = scene.image_samples * scene.image_samples := by
    intro rng r h
    rw [length_radiance_estimates M C fuel scene i j _ rng r h, length_sample_order]
  have hw : ((wrap32 ((scene.image_samples : Int) * (scene.image_samples : Int)) : Int) : K)
      = ((scene.image_samples * scene.image_samples : Nat) : K) := by
    rw [wrap32_samples _ hS2, Int.cast_natCast]
  have hpix : ∀ rng, pathtrace_pixel M C fuel scene i j rng
      = (radiance_estimates M C fuel scene i j (sample_order scene.image_samples) rng).map
          (fun r => (fl3 M (sum3f M r.1
            / M.fl ((scene.image_samples * scene.image_samples : Nat) : K)), r.2)) := by
    intro rng
    rw [pathtrace_pixel_eq_estimates, hw]
  refine ⟨hpix, hlen, ?_, ?_⟩
  · intro st st2 h
    simp only [render_pixel] at h
    rw [hpix] at h
    cases hr : radiance_estimates M C fuel scene i j (sample_order scene.image_samples)
        (st.2.at_ i j) with
    | none => rw [hr] at h; simp at h
    | some r =>
      rw [hr] at h
      simp only [Option.map_some', Option.some.injEq] at h
      refine ⟨r, rfl, hlen _ r hr, ?_⟩
      rw [← h]
      exact image_set_same _ _ _ _
  · intro hid k hk rng
    obtain ⟨g2, h2⟩ := pathtrace_pixel_const_exact M hid C fuel scene i j k hk rng
    refine ⟨g2, ?_⟩
    rw [h2, hw]
    have hne : ((scene.image_samples * scene.image_samples : Nat) : K) ≠ 0 := by
      have : 0 < scene.image_samples * scene.image_samples := Nat.mul_pos hS hS
      exact_mod_cast this.ne'
    simp only [Option.some.injEq, Prod.mk.injEq, and_true]
    ext <;> simp only [divs_x, divs_y, divs_z, smul_x, smul_y, smul_z] <;> field_simp

/-- C11 (amended) at single precision, for pixel `(1, 3)` of the image of 3 by 5 pixels
with 2 x 2 samples per pixel; and the mean of a constant color in exact arithmetic. -/
theorem C11_pixel_is_mean_witness :
    ((∀ rng, pathtrace_pixel floatMath (demoCollab (fun _ _ => missRecord) (fun _ _ => false)) 1
        (stripScene : Scene ℚ) (1 : Nat) (3 : Nat) rng
      = (radiance_estimates floatMath (demoCollab (fun _ _ => missRecord) (fun _ _ => false)) 1
          (stripScene : Scene ℚ) (1 : Nat) (3 : Nat) (sample_order (stripScene : Scene
          ℚ).image_samples) rng).map
          (fun r => (fl3 floatMath (sum3f floatMath r.1
            / floatMath.fl (((stripScene : Scene ℚ).image_samples * (stripScene : Scene
                ℚ).image_samples : Nat) : ℚ)), r.2))) ∧
    (∀ rng r, radiance_estimates floatMath (demoCollab (fun _ _ => missRecord) (fun _ _ => false))
        1 (stripScene : Scene ℚ) (1 : Nat) (3 : Nat) (sample_order (stripScene : Scene
        ℚ).image_samples) rng
        = some r → r.1.length = (stripScene : Scene ℚ).image_samples * (stripScene : Scene
            ℚ).image_samples) ∧
    (∀ (st st2 : image3f ℚ × RngImage Nat),
      render_pixel floatMath (demoCollab (fun _ _ => missRecord) (fun _ _ => false)) 1 (stripScene
          : Scene ℚ) (some st) ((1 : Nat), (3 : Nat)) = some st2 →
      ∃ r, radiance_estimates floatMath (demoCollab (fun _ _ => missRecord) (fun _ _ => false)) 1
          (stripScene : Scene ℚ) (1 : Nat) (3 : Nat) (sample_order (stripScene : Scene
          ℚ).image_samples)
          (st.2.at_ (1 : Nat) (3 : Nat)) = some r ∧
        r.1.length = (stripScene : Scene ℚ).image_samples * (stripScene : Scene ℚ).image_samples ∧
        st2.1.at_ (1 : Nat) (3 : Nat) = fl3 floatMath (sum3f floatMath r.1
          / floatMath.fl (((stripScene : Scene ℚ).image_samples * (stripScene : Scene
              ℚ).image_samples : Nat) : ℚ))) ∧
    ((∀ x, floatMath.fl x = x) →
      ∀ k, (∀ ray g, ∃ g2, pathtrace_ray floatMath (demoCollab (fun _ _ => missRecord) (fun _ _ =>
          false)) 1 (stripScene : Scene ℚ) ray g 0 = some (k, g2)) →
        ∀ rng, ∃ g2, pathtrace_pixel floatMath (demoCollab (fun _ _ => missRecord) (fun _ _ =>
            false)) 1 (stripScene : Scene ℚ) (1 : Nat) (3 : Nat) rng = some (k, g2))) ∧
    (∀ k, (∀ ray g, ∃ g2, pathtrace_ray demoMath (demoCollab (fun _ _ => missRecord) (fun _ _ =>
        false)) 1 (stripScene : Scene ℚ) ray g 0 = some (k, g2)) →
      ∀ rng, ∃ g2, pathtrace_pixel demoMath (demoCollab (fun _ _ => missRecord) (fun _ _ =>
          false)) 1 (stripScene : Scene ℚ) (1 : Nat) (3 : Nat) rng = some (k, g2)) :=
  ⟨C11_pixel_is_mean floatMath (demoCollab (fun _ _ => missRecord) (fun _ _ => false)) 1
      stripScene 1 3 (by decide) (by decide),
   (C11_pixel_is_mean demoMath (demoCollab (fun _ _ => missRecord) (fun _ _ => false)) 1
      stripScene 1 3 (by decide) (by decide)).2.2.2 (fun _ => rfl)⟩

/-- C12 (as stated) fails at single precision: in an image of 1024 columns with one
sample per pixel, for the pixel column 1000 and the jitter `0.99999f`, which lies in
`[0, 1)`, the sum `1000 + 0.99999f` rounds to 1001, so that `u = 1001/1024`: the
parameter is not below `(i + (ii+1)/S)/W`, it lies on the boundary of the next pixel. -/
theorem C12_counterexample_rounded_up :
    (0 : ℚ) ≤ round32 (99999 / 100000) ∧ round32 (99999 / 100000) < 1 ∧
    camera_u floatMath wideScene 1000 0 (round32 (99999 / 100000)) = 1001 / 1024 ∧
    ¬ (camera_u floatMath wideScene 1000 0 (round32 (99999 / 100000))
        < (((1000 : Nat) : ℚ) + (((0 : Nat) : ℚ) + 1) / (wideScene.image_samples : ℚ))
          / (wideScene.image_width : ℚ)) := by
  refine ⟨by decide!, by decide!, by decide!, by decide!⟩

/-- C12 (amended): for image sizes and a sample count `1 <= W, H, S <= 2^24`, a pixel
`(i, j)` of the image, a sub-sample `(ii, jj)` with `ii, jj < S` and jitter values in
`[0, 1)`, under a rounding that is monotone and exact on the integers up to `2^24` (as
the rounding to single precision is): the camera ray is built from the camera-plane
parameters `u` and `v` of lines 328-331; `u` lies between the rounded boundaries of the
cell of its sub-sample, `fl(fl(i + fl(ii/S))/W) <= u <= fl(fl(i + fl((ii+1)/S))/W)`, and
between the rounded boundaries of its pixel, `fl(i/W) <= u <= fl((i+1)/W)`, and the
parameters of later sub-samples are not smaller; likewise for `v`.  In exact arithmetic
the upper boundaries are excluded, `(i + ii/S)/W <= u < (i + (ii+1)/S)/W`, and distinct
sub-samples fall in disjoint cells.  With `S = 1` the pixel traces exactly one ray. -/
theorem C12_samples_in_cells (M : MathFns K) (RL : RoundLaws M) (C : Collab K R)
    (scene : Scene K) (i j ii jj : Nat) (r1 r2 : K)
    (hW : 1 ≤ scene.image_width) (hH : 1 ≤ scene.image_height)
    (hS : 1 ≤ scene.image_samples)
    (hW2 : scene.image_width ≤ 16777216) (hH2 : scene.image_height ≤ 16777216)
    (hS2 : scene.image_samples ≤ 16777216)
    (hi : i < scene.image_width) (hj : j < scene.image_height)
    (hii : ii < scene.image_samples) (hjj : jj < scene.image_samples)
    (h10 : 0 ≤ r1) (h11 : r1 < 1) (h20 : 0 ≤ r2) (h21 : r2 < 1) :
    camera_ray M C scene i j ii jj r1 r2
      = C.transform_ray scene.camera.frame
          (mkRay C zero3f (normalize M ⟨(camera_u M scene i ii r1 - 0.5) * scene.camera.width,
            (camera_v M scene j jj r2 - 0.5) * scene.camera.height, -1⟩)) ∧
    (camera_u M scene i ii r1
        = M.fl (M.fl (((i : Nat) : K) + M.fl (M.fl (((ii : Nat) : K) + r1) / (scene.image_samples
            : K))) / (scene.image_width : K)) ∧
      (M.fl (M.fl (((i : Nat) : K) + M.fl (((ii : Nat) : K) / (scene.image_samples : K))) /
          (scene.image_width : K)) ≤ camera_u M scene i ii r1 ∧
        camera_u M scene i ii r1 ≤ M.fl (M.fl (((i : Nat) : K) + M.fl ((((ii : Nat) : K) + 1) /
            (scene.image_samples : K))) / (scene.image_width : K))) ∧
      (M.fl (((i : Nat) : K) / (scene.image_width : K)) ≤ camera_u M scene i ii r1 ∧
        camera_u M scene i ii r1 ≤ M.fl ((((i : Nat) : K) + 1) / (scene.image_width : K))) ∧
      (∀ (ii2 : Nat) (s : K), ii < ii2 → ii2 < scene.image_samples → 0 ≤ s → s < 1 →
        camera_u M scene i ii r1 ≤ camera_u M scene i ii2 s)) ∧
    (camera_v M scene j jj r2
        = M.fl (M.fl (((j : Nat) : K) + M.fl (M.fl (((jj : Nat) : K) + r2) / (scene.image_samples
            : K))) / (scene.image_height : K)) ∧
      (M.fl (M.fl (((j : Nat) : K) + M.fl (((jj : Nat) : K) / (scene.image_samples : K))) /
          (scene.image_height : K)) ≤ camera_v M scene j jj r2 ∧
        camera_v M scene j jj r2 ≤ M.fl (M.fl (((j : Nat) : K) + M.fl ((((jj : Nat) : K) + 1) /
            (scene.image_samples : K))) / (scene.image_height : K))) ∧
      (M.fl (((j : Nat) : K) / (scene.image_height : K)) ≤ camera_v M scene j jj r2 ∧
        camera_v M scene j jj r2 ≤ M.fl ((((j : Nat) : K) + 1) / (scene.image_height : K))) ∧
      (∀ (jj2 : Nat) (s : K), jj < jj2 → jj2 < scene.image_samples → 0 ≤ s → s < 1 →
        camera_v M scene j jj r2 ≤ camera_v M scene j jj2 s)) ∧
    ((∀ x, M.fl x = x) →
      (((((i : Nat) : K) + ((ii : Nat) : K) / (scene.image_samples : K)) / (scene.image_width : K)
          ≤ camera_u M scene i ii r1 ∧
          camera_u M scene i ii r1 < (((i : Nat) : K) + (((ii : Nat) : K) + 1) /
              (scene.image_samples : K)) / (scene.image_width : K)) ∧
        (((i : Nat) : K) / (scene.image_width : K) ≤ camera_u M scene i ii r1 ∧
          camera_u M scene i ii r1 < (((i : Nat) : K) + 1) / (scene.image_width : K)) ∧
        (∀ (ii2 : Nat) (s : K), ii < ii2 → 0 ≤ s →
          camera_u M scene i ii r1 < camera_u M scene i ii2 s)) ∧
      (((((j : Nat) : K) + ((jj : Nat) : K) / (scene.image_samples : K)) / (scene.image_height :
          K) ≤ camera_v M scene j jj r2 ∧
          camera_v M scene j jj r2 < (((j : Nat) : K) + (((jj : Nat) : K) + 1) /
              (scene.image_samples : K)) / (scene.image_height : K)) ∧
        (((j : Nat) : K) / (scene.image_height : K) ≤ camera_v M scene j jj r2 ∧
          camera_v M scene j jj r2 < (((j : Nat) : K) + 1) / (scene.image_height : K)) ∧
        (∀ (jj2 : Nat) (s : K), jj < jj2 → 0 ≤ s →
          camera_v M scene j jj r2 < camera_v M scene j jj2 s))) ∧
    (scene.image_samples = 1 → sample_order scene.image_samples = [(0, 0)]) ∧
    (scene.image_samples = 1 →
      ∀ (fuel : Nat) (rng : R),
        pathtrace_pixel M C fuel scene i j rng
          = (pathtrace_ray M C fuel scene
              (camera_ray M C scene i j 0 0 (C.next_float rng).1
                (C.next_float (C.next_float rng).2).1)
              (C.next_float (C.next_float rng).2).2 0).map
              (fun res => (fl3 M (fl3 M res.1), res.2))) := by
  have hu := camera_coord_round M RL scene.image_width scene.image_samples i ii r1 hW hS hW2
    hS2 hi hii h10 h11
  have hv := camera_coord_round M RL scene.image_height scene.image_samples j jj r2 hH hS hH2
    hS2 hj hjj h20 h21
  refine ⟨rfl, hu, hv, ?_, ?_, ?_⟩
  · intro hid
    exact ⟨camera_coord_exact M hid scene.image_width scene.image_samples i ii r1 hW hS hii
        h10 h11,
      camera_coord_exact M hid scene.image_height scene.image_samples j jj r2 hH hS hjj
        h20 h21⟩
  · intro h1
    rw [h1]
    rfl
  · intro h1 fuel rng
    have e : List.range 1 = [0] := rfl
    have e1 : ((wrap32 (((1 : Nat) : Int) * ((1 : Nat) : Int)) : Int) : K) = 1 := by
      have : wrap32 (((1 : Nat) : Int) * ((1 : Nat) : Int)) = 1 := by decide
      rw [this]
      simp
    unfold pathtrace_pixel
    rw [h1]
    simp only [e, List.foldl_cons, List.foldl_nil, pixel_sample]
    cases pathtrace_ray M C fuel scene
        (camera_ray M C scene i j 0 0 (C.next_float rng).1
          (C.next_float (C.next_float rng).2).1)
        (C.next_float (C.next_float rng).2).2 0 with
    | none => rfl
    | some res =>
      simp only [Option.map_some', Option.some.injEq, Prod.mk.injEq, and_true]
      rw [e1, fl_one M RL]
      congr 1
      ext <;> simp [fl3]

/-- C12 (amended) at single precision, for pixel `(1, 3)` of the image of 3 by 5 pixels
with 2 x 2 samples per pixel, the sub-sample `(1, 0)` and the jitter values `3/16` and
`10/16`; and the strict bounds of exact arithmetic at the same input. -/
theorem C12_samples_in_cells_witness :
    (camera_ray floatMath (demoCollab (fun _ _ => missRecord) (fun _ _ => false) : Collab ℚ Nat)
        (stripScene : Scene ℚ) 1 3 1 0 (3 / 16) (10 / 16)
      = (demoCollab (fun _ _ => missRecord) (fun _ _ => false) : Collab ℚ Nat).transform_ray
          (stripScene : Scene ℚ).camera.frame
          (mkRay (demoCollab (fun _ _ => missRecord) (fun _ _ => false) : Collab ℚ Nat) zero3f
              (normalize floatMath ⟨(camera_u floatMath (stripScene : Scene ℚ) 1 1 (3 / 16) - 0.5)
              * (stripScene : Scene ℚ).camera.width,
            (camera_v floatMath (stripScene : Scene ℚ) 3 0 (10 / 16) - 0.5) * (stripScene : Scene
                ℚ).camera.height, -1⟩)) ∧
    (camera_u floatMath (stripScene : Scene ℚ) 1 1 (3 / 16)
        = floatMath.fl (floatMath.fl (((1 : Nat) : ℚ) + floatMath.fl (floatMath.fl (((1 : Nat) :
            ℚ) + (3 / 16)) / ((stripScene : Scene ℚ).image_samples : ℚ))) / ((stripScene : Scene
            ℚ).image_width : ℚ)) ∧
      (floatMath.fl (floatMath.fl (((1 : Nat) : ℚ) + floatMath.fl (((1 : Nat) : ℚ) / ((stripScene
          : Scene ℚ).image_samples : ℚ))) / ((stripScene : Scene ℚ).image_width : ℚ)) ≤ camera_u
          floatMath (stripScene : Scene ℚ) 1 1 (3 / 16) ∧
        camera_u floatMath (stripScene : Scene ℚ) 1 1 (3 / 16) ≤ floatMath.fl (floatMath.fl (((1 :
            Nat) : ℚ) + floatMath.fl ((((1 : Nat) : ℚ) + 1) / ((stripScene : Scene
            ℚ).image_samples : ℚ))) / ((stripScene : Scene ℚ).image_width : ℚ))) ∧
      (floatMath.fl (((1 : Nat) : ℚ) / ((stripScene : Scene ℚ).image_width : ℚ)) ≤ camera_u
          floatMath (stripScene : Scene ℚ) 1 1 (3 / 16) ∧
        camera_u floatMath (stripScene : Scene ℚ) 1 1 (3 / 16) ≤ floatMath.fl ((((1 : Nat) : ℚ) +
            1) / ((stripScene : Scene ℚ).image_width : ℚ))) ∧
      (∀ (ii2 : Nat) (s : ℚ), 1 < ii2 → ii2 < (stripScene : Scene ℚ).image_samples → 0 ≤ s → s < 1
          →
        camera_u floatMath (stripScene : Scene ℚ) 1 1 (3 / 16) ≤ camera_u floatMath (stripScene :
            Scene ℚ) 1 ii2 s)) ∧
    (camera_v floatMath (stripScene : Scene ℚ) 3 0 (10 / 16)
        = floatMath.fl (floatMath.fl (((3 : Nat) : ℚ) + floatMath.fl (floatMath.fl (((0 : Nat) :
            ℚ) + (10 / 16)) / ((stripScene : Scene ℚ).image_samples : ℚ))) / ((stripScene : Scene
            ℚ).image_height : ℚ)) ∧
      (floatMath.fl (floatMath.fl (((3 : Nat) : ℚ) + floatMath.fl (((0 : Nat) : ℚ) / ((stripScene
          : Scene ℚ).image_samples : ℚ))) / ((stripScene : Scene ℚ).image_height : ℚ)) ≤ camera_v
          floatMath (stripScene : Scene ℚ) 3 0 (10 / 16) ∧
        camera_v floatMath (stripScene : Scene ℚ) 3 0 (10 / 16) ≤ floatMath.fl (floatMath.fl (((3
            : Nat) : ℚ) + floatMath.fl ((((0 : Nat) : ℚ) + 1) / ((stripScene : Scene
            ℚ).image_samples : ℚ))) / ((stripScene : Scene ℚ).image_height : ℚ))) ∧
      (floatMath.fl (((3 : Nat) : ℚ) / ((stripScene : Scene ℚ).image_height : ℚ)) ≤ camera_v
          floatMath (stripScene : Scene ℚ) 3 0 (10 / 16) ∧
        camera_v floatMath (stripScene : Scene ℚ) 3 0 (10 / 16) ≤ floatMath.fl ((((3 : Nat) : ℚ) +
            1) / ((stripScene : Scene ℚ).image_height : ℚ))) ∧
      (∀ (jj2 : Nat) (s : ℚ), 0 < jj2 → jj2 < (stripScene : Scene ℚ).image_samples → 0 ≤ s → s < 1
          →
        camera_v floatMath (stripScene : Scene ℚ) 3 0 (10 / 16) ≤ camera_v floatMath (stripScene :
            Scene ℚ) 3 jj2 s)) ∧
    ((∀ x, floatMath.fl x = x) →
      (((((1 : Nat) : ℚ) + ((1 : Nat) : ℚ) / ((stripScene : Scene ℚ).image_samples : ℚ)) /
          ((stripScene : Scene ℚ).image_width : ℚ) ≤ camera_u floatMath (stripScene : Scene ℚ) 1 1
          (3 / 16) ∧
          camera_u floatMath (stripScene : Scene ℚ) 1 1 (3 / 16) < (((1 : Nat) : ℚ) + (((1 : Nat)
              : ℚ) + 1) / ((stripScene : Scene ℚ).image_samples : ℚ)) / ((stripScene : Scene
              ℚ).image_width : ℚ)) ∧
        (((1 : Nat) : ℚ) / ((stripScene : Scene ℚ).image_width : ℚ) ≤ camera_u floatMath
            (stripScene : Scene ℚ) 1 1 (3 / 16) ∧
          camera_u floatMath (stripScene : Scene ℚ) 1 1 (3 / 16) < (((1 : Nat) : ℚ) + 1) /
              ((stripScene : Scene ℚ).image_width : ℚ)) ∧
        (∀ (ii2 : Nat) (s : ℚ), 1 < ii2 → 0 ≤ s →
          camera_u floatMath (stripScene : Scene ℚ) 1 1 (3 / 16) < camera_u floatMath (stripScene
              : Scene ℚ) 1 ii2 s)) ∧
      (((((3 : Nat) : ℚ) + ((0 : Nat) : ℚ) / ((stripScene : Scene ℚ).image_samples : ℚ)) /
          ((stripScene : Scene ℚ).image_height : ℚ) ≤ camera_v floatMath (stripScene : Scene ℚ) 3
          0 (10 / 16) ∧
          camera_v floatMath (stripScene : Scene ℚ) 3 0 (10 / 16) < (((3 : Nat) : ℚ) + (((0 : Nat)
              : ℚ) + 1) / ((stripScene : Scene ℚ).image_samples : ℚ)) / ((stripScene : Scene
              ℚ).image_height : ℚ)) ∧
        (((3 : Nat) : ℚ) / ((stripScene : Scene ℚ).image_height : ℚ) ≤ camera_v floatMath
            (stripScene : Scene ℚ) 3 0 (10 / 16) ∧
          camera_v floatMath (stripScene : Scene ℚ) 3 0 (10 / 16) < (((3 : Nat) : ℚ) + 1) /
              ((stripScene : Scene ℚ).image_height : ℚ)) ∧
        (∀ (jj2 : Nat) (s : ℚ), 0 < jj2 → 0 ≤ s →
          camera_v floatMath (stripScene : Scene ℚ) 3 0 (10 / 16) < camera_v floatMath (stripScene
              : Scene ℚ) 3 jj2 s))) ∧
    ((stripScene : Scene ℚ).image_samples = 1 → sample_order (stripScene : Scene ℚ).image_samples
        = [(0, 0)]) ∧
    ((stripScene : Scene ℚ).image_samples = 1 →
      ∀ (fuel : Nat) (rng : Nat),
        pathtrace_pixel floatMath (demoCollab (fun _ _ => missRecord) (fun _ _ => false) : Collab
            ℚ Nat) fuel (stripScene : Scene ℚ) 1 3 rng
          = (pathtrace_ray floatMath (demoCollab (fun _ _ => missRecord) (fun _ _ => false) :
              Collab ℚ Nat) fuel (stripScene : Scene ℚ)
              (camera_ray floatMath (demoCollab (fun _ _ => missRecord) (fun _ _ => false) :
                  Collab ℚ Nat) (stripScene : Scene ℚ) 1 3 0 0 ((demoCollab (fun _ _ =>
                  missRecord) (fun _ _ => false) : Collab ℚ Nat).next_float rng).1
                ((demoCollab (fun _ _ => missRecord) (fun _ _ => false) : Collab ℚ Nat).next_float
                    ((demoCollab (fun _ _ => missRecord) (fun _ _ => false) : Collab ℚ
                    Nat).next_float rng).2).1)
              ((demoCollab (fun _ _ => missRecord) (fun _ _ => false) : Collab ℚ Nat).next_float
                  ((demoCollab (fun _ _ => missRecord) (fun _ _ => false) : Collab ℚ
                  Nat).next_float rng).2).2 0).map
              (fun res => (fl3 floatMath (fl3 floatMath res.1), res.2)))) ∧
    ((((((1 : Nat) : ℚ) + ((1 : Nat) : ℚ) / ((stripScene : Scene ℚ).image_samples : ℚ)) /
        ((stripScene : Scene ℚ).image_width : ℚ) ≤ camera_u demoMath (stripScene : Scene ℚ) 1 1 (3
        / 16) ∧
          camera_u demoMath (stripScene : Scene ℚ) 1 1 (3 / 16) < (((1 : Nat) : ℚ) + (((1 : Nat) :
              ℚ) + 1) / ((stripScene : Scene ℚ).image_samples : ℚ)) / ((stripScene : Scene
              ℚ).image_width : ℚ)) ∧
        (((1 : Nat) : ℚ) / ((stripScene : Scene ℚ).image_width : ℚ) ≤ camera_u demoMath
            (stripScene : Scene ℚ) 1 1 (3 / 16) ∧
          camera_u demoMath (stripScene : Scene ℚ) 1 1 (3 / 16) < (((1 : Nat) : ℚ) + 1) /
              ((stripScene : Scene ℚ).image_width : ℚ)) ∧
        (∀ (ii2 : Nat) (s : ℚ), 1 < ii2 → 0 ≤ s →
          camera_u demoMath (stripScene : Scene ℚ) 1 1 (3 / 16) < camera_u demoMath (stripScene :
              Scene ℚ) 1 ii2 s)) ∧
      (((((3 : Nat) : ℚ) + ((0 : Nat) : ℚ) / ((stripScene : Scene ℚ).image_samples : ℚ)) /
          ((stripScene : Scene ℚ).image_height : ℚ) ≤ camera_v demoMath (stripScene : Scene ℚ) 3 0
          (10 / 16) ∧
          camera_v demoMath (stripScene : Scene ℚ) 3 0 (10 / 16) < (((3 : Nat) : ℚ) + (((0 : Nat)
              : ℚ) + 1) / ((stripScene : Scene ℚ).image_samples : ℚ)) / ((stripScene : Scene
              ℚ).image_height : ℚ)) ∧
        (((3 : Nat) : ℚ) / ((stripScene : Scene ℚ).image_height : ℚ) ≤ camera_v demoMath
            (stripScene : Scene ℚ) 3 0 (10 / 16) ∧
          camera_v demoMath (stripScene : Scene ℚ) 3 0 (10 / 16) < (((3 : Nat) : ℚ) + 1) /
              ((stripScene : Scene ℚ).image_height : ℚ)) ∧
        (∀ (jj2 : Nat) (s : ℚ), 0 < jj2 → 0 ≤ s →
          camera_v demoMath (stripScene : Scene ℚ) 3 0 (10 / 16) < camera_v demoMath (stripScene :
              Scene ℚ) 3 jj2 s))) :=
  ⟨C12_samples_in_cells floatMath floatMath_round_laws
      (demoCollab (fun _ _ => missRecord) (fun _ _ => false)) stripScene 1 3 1 0 (3 / 16)
      (10 / 16) (by decide) (by decide) (by decide) (by decide) (by decide) (by decide)
      (by decide) (by decide) (by decide) (by decide)
      (by norm_num) (by norm_num) (by norm_num) (by norm_num),
   (C12_samples_in_cells demoMath demoMath_round_laws
      (demoCollab (fun _ _ => missRecord) (fun _ _ => false)) stripScene 1 3 1 0 (3 / 16)
      (10 / 16) (by decide) (by decide) (by decide) (by decide) (by decide) (by decide)
      (by decide) (by decide) (by decide) (by decide)
      (by norm_num) (by norm_num) (by norm_num) (by norm_num)).2.2.2.1 (fun _ => rfl)⟩

end PixelSamples

/-! ## Depth of the recursion -/

section Recursion
variable {K : Type} [LinearOrderedField K] [FloorRing K] {R : Type}

/-- C17: the mirror channel has no depth cutoff.  For a hit whose material has `kr`
nonzero, at a depth at or beyond `path_max_depth`, the body of `pathtrace_ray` still
makes its recursive call along the mirror ray at `depth + 1`; and in a scene where every
ray hits a surface with `kr` nonzero no amount of nesting lets a call return: `k` nested
activations, each one level deeper than the one before, are not enough for any `k`,
whatever `path_max_depth` is. -/
theorem C17_mirror_channel_unbounded (M : MathFns K) (C : Collab K R) (scene : Scene K) :
    (∀ (self : Scene K → ray3f K → R → Int → Option (vec3f K × R)) (ray : ray3f K)
        (rng : R) (depth : Int),
      (C.intersect scene ray).hit = true → (C.intersect scene ray).mat.kr ≠ zero3f →
      scene.path_max_depth ≤ depth →
      pathtrace_body M C self scene ray rng depth
        = match self scene (mkRay C (C.intersect scene ray).pos
              (C.reflect ray.d (C.intersect scene ray).norm))
            (hit_direct M C scene ray rng depth (C.intersect scene ray)).2 (depth + 1) with
          | none => none
          | some res =>
            some ((hit_direct M C scene ray rng depth (C.intersect scene ray)).1
              + (C.intersect scene ray).mat.kr * res.1, res.2)) ∧
    ((∀ r, (C.intersect scene r).hit = true ∧ (C.intersect scene r).mat.kr ≠ zero3f) →
      ∀ (k : Nat) (ray : ray3f K) (rng : R) (depth : Int),
        pathtrace_ray M C k scene ray rng depth = none) := by
  refine ⟨?_, ?_⟩
  · intro self ray rng depth hhit hkr hdepth
    unfold pathtrace_body
    simp only
    rw [if_neg (by simp [hhit])]
    have hind : indirect_bounce M C self scene ray depth (C.intersect scene ray)
        (hit_direct M C scene ray rng depth (C.intersect scene ray))
        = some (hit_direct M C scene ray rng depth (C.intersect scene ray)) := by
      unfold indirect_bounce
      simp only
      rw [if_neg]
      rintro ⟨_, hlt⟩
      omega
    rw [hind]
    simp only [reflect_bounce]
    exact if_pos hkr
  · intro hbox k
    induction k with
    | zero => intro ray rng depth; rfl
    | succ k ih =>
      intro ray rng depth
      show pathtrace_body M C (pathtrace_ray M C k) scene ray rng depth = none
      unfold pathtrace_body
      simp only
      rw [if_neg (by simp [(hbox ray).1])]
      cases hind : indirect_bounce M C (pathtrace_ray M C k) scene ray depth
          (C.intersect scene ray)
          (hit_direct M C scene ray rng depth (C.intersect scene ray)) with
      | none => rfl
      | some st =>
        simp only [reflect_bounce]
        rw [if_pos (hbox ray).2, ih]

/-- C17 at the closed mirror box: whatever the depth limit and the fuel, no call
returns. -/
theorem C17_mirror_channel_unbounded_witness :
    ∀ (max_depth : Int) (k : Nat) (ray : ray3f ℚ) (rng : Nat) (depth : Int),
      pathtrace_ray demoMath (demoCollab boxIsect (fun _ _ => false)) k
        (boxScene max_depth) ray rng depth = none :=
  fun max_depth =>
    (C17_mirror_channel_unbounded demoMath (demoCollab boxIsect (fun _ _ => false))
      (boxScene max_depth)).2
      (fun r => ⟨rfl, by
        intro h
        have := congrArg vec3f.x h
        simp [demoCollab, boxIsect, mirrorMaterial, plainMaterial] at this⟩)

/-! ### The log of the instrumented recursion -/

/-- Sampling an emissive surface with the logging collaborators: same sample, same
generator, log untouched. -/
theorem area_light_sample_log (M : MathFns K) (C : Collab K R) (g : R) (L : List Int)
    (s : Surface K) :
    area_light_sample M (withLog C) (g, L) s
      = ((area_light_sample M C g s).1, ((area_light_sample M C g s).2, L)) := by
  unfold area_light_sample
  split_ifs <;> rfl

theorem shade_area_light_log (M : MathFns K) (C : Collab K R) (scene : Scene K)
    (pos norm v kd ks : vec3f K) (n : K) (mf : Bool) (c : vec3f K) (g : R) (L : List Int)
    (s : Surface K) :
    shade_area_light M (withLog C) scene pos norm v kd ks n mf (c, (g, L)) s
      = ((shade_area_light M C scene pos norm v kd ks n mf (c, g) s).1,
          ((shade_area_light M C scene pos norm v kd ks n mf (c, g) s).2, L)) := by
  have e1 : (withLog C).intersect_shadow = C.intersect_shadow := rfl
  have e2 : (withLog C).make_segment = C.make_segment := rfl
  unfold shade_area_light
  simp only [area_light_sample_log, e1, e2]
  split_ifs <;> rfl

theorem foldl_area_log (M : MathFns K) (C : Collab K R) (scene : Scene K)
    (pos norm v kd ks : vec3f K) (n : K) (mf : Bool) (L : List Int) (l : List (Surface K)) :
    ∀ (c : vec3f K) (g : R),
      l.foldl (shade_area_light M (withLog C) scene pos norm v kd ks n mf) (c, (g, L))
        = ((l.foldl (shade_area_light M C scene pos norm v kd ks n mf) (c, g)).1,
            ((l.foldl (shade_area_light M C scene pos norm v kd ks n mf) (c, g)).2, L)) := by
  induction l with
  | nil => intro c g; rfl
  | cons s l ih =>
    intro c g
    simp only [List.foldl_cons]
    rw [shade_area_light_log, ih]

theorem shade_point_light_log (M : MathFns K) (C : Collab K R) (scene : Scene K)
    (pos norm v kd ks : vec3f K) (n : K) (mf : Bool) :
    shade_point_light M (withLog C) scene pos norm v kd ks n mf
      = shade_point_light M C scene pos norm v kd ks n mf := rfl

theorem shade_environment_log (M : MathFns K) (C : Collab K R) (scene : Scene K)
    (pos norm v kd ks : vec3f K) (n : K) (mf : Bool) (c : vec3f K) (g : R) (L : List Int) :
    shade_environment M (withLog C) scene pos norm v kd ks n mf (c, (g, L))
      = ((shade_environment M C scene pos norm v kd ks n mf (c, g)).1,
          ((shade_environment M C scene pos norm v kd ks n mf (c, g)).2, L)) := by
  have e : environment_sample M (withLog C) scene norm v kd ks n mf (g, L)
      = ((environment_sample M C scene norm v kd ks n mf g).1,
          ((environment_sample M C scene norm v kd ks n mf g).2, L)) := rfl
  have e1 : (withLog C).intersect_shadow = C.intersect_shadow := rfl
  have e2 : mkRay (withLog C) = mkRay C := rfl
  have e3 : (withLog C).intersect = C.intersect := rfl
  unfold shade_environment
  simp only [e, e1, e2, e3]
  split_ifs <;> rfl

/-- The direct stage of a hit with the logging collaborators: same color, same
generator, log untouched. -/
theorem hit_direct_log (M : MathFns K) (C : Collab K R) (scene : Scene K) (ray : ray3f K)
    (g : R) (L : List Int) (depth : Int) (isect : intersection3f K) :
    hit_direct M (withLog C) scene ray (g, L) depth isect
      = ((hit_direct M C scene ray g depth isect).1,
          ((hit_direct M C scene ray g depth isect).2, L)) := by
  unfold hit_direct
  simp only [shade_point_light_log, foldl_area_log, shade_environment_log]

/-- A call whose ray misses returns the environment without a recursive call. -/
theorem pathtrace_body_miss (M : MathFns K) (C : Collab K R)
    (self : Scene K → ray3f K → R → Int → Option (vec3f K × R))
    (scene : Scene K) (ray : ray3f K) (g : R) (depth : Int)
    (hhit : ¬ (C.intersect scene ray).hit = true) :
    pathtrace_body M C self scene ray g depth
      = some (eval_env M scene.background scene.background_txt ray.d, g) := by
  unfold pathtrace_body
  simp only
  rw [if_pos hhit]

/-- A call that hits a material without mirror reflection, with the indirect channel
closed (both coefficients zero, or the depth limit reached), returns the direct stage
without a recursive call. -/
theorem pathtrace_body_leaf (M : MathFns K) (C : Collab K R)
    (self : Scene K → ray3f K → R → Int → Option (vec3f K × R))
    (scene : Scene K) (ray : ray3f K) (g : R) (depth : Int)
    (hhit : (C.intersect scene ray).hit = true)
    (hk : (C.intersect scene ray).mat.kr = zero3f)
    (hc : ¬ (((lookup_scaled_texture M (C.intersect scene ray).mat.kd (C.intersect scene
        ray).mat.kd_txt (C.intersect scene ray).texcoord) ≠ zero3f ∨ (lookup_scaled_texture M
        (C.intersect scene ray).mat.ks (C.intersect scene ray).mat.ks_txt (C.intersect scene
        ray).texcoord) ≠ zero3f) ∧ depth < scene.path_max_depth)) :
    pathtrace_body M C self scene ray g depth = some (hit_direct M C scene ray g depth
        (C.intersect scene ray)) := by
  unfold pathtrace_body
  simp only
  rw [if_neg (not_not.mpr hhit)]
  unfold indirect_bounce
  simp only
  rw [if_neg hc]
  simp [reflect_bounce, hk]

/-- A call that hits a material without mirror reflection, with the indirect channel
open, makes exactly one recursive call, at depth + 1, and returns the direct stage plus
the weighted result of that call. -/
theorem pathtrace_body_bounce (M : MathFns K) (C : Collab K R)
    (self : Scene K → ray3f K → R → Int → Option (vec3f K × R))
    (scene : Scene K) (ray : ray3f K) (g : R) (depth : Int)
    (hhit : (C.intersect scene ray).hit = true)
    (hk : (C.intersect scene ray).mat.kr = zero3f)
    (hc : ((lookup_scaled_texture M (C.intersect scene ray).mat.kd (C.intersect scene
        ray).mat.kd_txt (C.intersect scene ray).texcoord) ≠ zero3f ∨ (lookup_scaled_texture M
        (C.intersect scene ray).mat.ks (C.intersect scene ray).mat.ks_txt (C.intersect scene
        ray).texcoord) ≠ zero3f) ∧ depth < scene.path_max_depth) :
    pathtrace_body M C self scene ray g depth
      = (self scene (mkRay C (C.intersect scene ray).pos (C.sample_brdf (lookup_scaled_texture M
          (C.intersect scene ray).mat.kd (C.intersect scene ray).mat.kd_txt (C.intersect scene
          ray).texcoord) (lookup_scaled_texture M (C.intersect scene ray).mat.ks (C.intersect scene
          ray).mat.ks_txt (C.intersect scene ray).texcoord) (C.intersect scene ray).mat.n (-ray.d)
          (C.intersect scene ray).norm (C.next_vec2f (hit_direct M C scene ray g depth
          (C.intersect scene ray)).2).1 (C.next_float (C.next_vec2f (hit_direct M C scene ray g
          depth (C.intersect scene ray)).2).2).1).1) (C.next_float (C.next_vec2f (hit_direct M C
          scene ray g depth (C.intersect scene ray)).2).2).2 (depth + 1)).map
          (fun res => ((hit_direct M C scene ray g depth (C.intersect scene ray)).1 + res.1 * (max
              (dot (C.intersect scene ray).norm (C.sample_brdf (lookup_scaled_texture M (C.intersect
              scene ray).mat.kd (C.intersect scene ray).mat.kd_txt (C.intersect scene
              ray).texcoord) (lookup_scaled_texture M (C.intersect scene ray).mat.ks (C.intersect
              scene ray).mat.ks_txt (C.intersect scene ray).texcoord) (C.intersect scene
              ray).mat.n (-ray.d) (C.intersect scene ray).norm (C.next_vec2f (hit_direct M C scene
              ray g depth (C.intersect scene ray)).2).1 (C.next_float (C.next_vec2f (hit_direct M
              C scene ray g depth (C.intersect scene ray)).2).2).1).1) 0 * eval_brdf M
              (lookup_scaled_texture M (C.intersect scene ray).mat.kd (C.intersect scene
              ray).mat.kd_txt (C.intersect scene ray).texcoord) (lookup_scaled_texture M
              (C.intersect scene ray).mat.ks (C.intersect scene ray).mat.ks_txt (C.intersect scene
              ray).texcoord) (C.intersect scene ray).mat.n (-ray.d) (C.sample_brdf
              (lookup_scaled_texture M (C.intersect scene ray).mat.kd (C.intersect scene
              ray).mat.kd_txt (C.intersect scene ray).texcoord) (lookup_scaled_texture M
              (C.intersect scene ray).mat.ks (C.intersect scene ray).mat.ks_txt (C.intersect scene
              ray).texcoord) (C.intersect scene ray).mat.n (-ray.d) (C.intersect scene ray).norm
              (C.next_vec2f (hit_direct M C scene ray g depth (C.intersect scene ray)).2).1
              (C.next_float (C.next_vec2f (hit_direct M C scene ray g depth (C.intersect scene
              ray)).2).2).1).1 (C.intersect scene ray).norm (C.intersect scene ray).mat.microfacet
              / (C.sample_brdf (lookup_scaled_texture M (C.intersect scene ray).mat.kd (C.intersect
              scene ray).mat.kd_txt (C.intersect scene ray).texcoord) (lookup_scaled_texture M
              (C.intersect scene ray).mat.ks (C.intersect scene ray).mat.ks_txt (C.intersect scene
              ray).texcoord) (C.intersect scene ray).mat.n (-ray.d) (C.intersect scene ray).norm
              (C.next_vec2f (hit_direct M C scene ray g depth (C.intersect scene ray)).2).1
              (C.next_float (C.next_vec2f (hit_direct M C scene ray g depth (C.intersect scene
              ray)).2).2).1).2), res.2)) := by
  unfold pathtrace_body
  simp only
  rw [if_neg (not_not.mpr hhit)]
  unfold indirect_bounce
  simp only
  rw [if_pos hc]
  rcases h : self scene (mkRay C (C.intersect scene ray).pos (C.sample_brdf (lookup_scaled_texture M
      (C.intersect scene ray).mat.kd (C.intersect scene ray).mat.kd_txt (C.intersect scene
      ray).texcoord) (lookup_scaled_texture M (C.intersect scene ray).mat.ks (C.intersect scene
      ray).mat.ks_txt (C.intersect scene ray).texcoord) (C.intersect scene ray).mat.n (-ray.d)
      (C.intersect scene ray).norm (C.next_vec2f (hit_direct M C scene ray g depth (C.intersect
      scene ray)).2).1 (C.next_float (C.next_vec2f (hit_direct M C scene ray g depth (C.intersect
      scene ray)).2).2).1).1) (C.next_float (C.next_vec2f (hit_direct M C scene ray g depth
      (C.intersect scene ray)).2).2).2 (depth + 1) with _ | res
  · rfl
  · simp [reflect_bounce, hk]

/-- The three cases of a call again, for the instrumented collaborators. -/
theorem pathtrace_body_leaf_log (M : MathFns K) (C : Collab K R)
    (self : Scene K → ray3f K → (R × List Int) → Int → Option (vec3f K × (R × List Int)))
    (scene : Scene K) (ray : ray3f K) (g : R) (L : List Int) (depth : Int)
    (hhit : (C.intersect scene ray).hit = true)
    (hk : (C.intersect scene ray).mat.kr = zero3f)
    (hc : ¬ (((lookup_scaled_texture M (C.intersect scene ray).mat.kd (C.intersect scene
        ray).mat.kd_txt (C.intersect scene ray).texcoord) ≠ zero3f ∨ (lookup_scaled_texture M
        (C.intersect scene ray).mat.ks (C.intersect scene ray).mat.ks_txt (C.intersect scene
        ray).texcoord) ≠ zero3f) ∧ depth < scene.path_max_depth)) :
    pathtrace_body M (withLog C) self scene ray (g, L) depth
      = some ((hit_direct M C scene ray g depth (C.intersect scene ray)).1, ((hit_direct M C scene
          ray g depth (C.intersect scene ray)).2, L)) := by
  have h := pathtrace_body_leaf M (withLog C) self scene ray (g, L) depth hhit hk hc
  rw [hit_direct_log] at h
  exact h

theorem pathtrace_body_bounce_log (M : MathFns K) (C : Collab K R)
    (self : Scene K → ray3f K → (R × List Int) → Int → Option (vec3f K × (R × List Int)))
    (scene : Scene K) (ray : ray3f K) (g : R) (L : List Int) (depth : Int)
    (hhit : (C.intersect scene ray).hit = true)
    (hk : (C.intersect scene ray).mat.kr = zero3f)
    (hc : ((lookup_scaled_texture M (C.intersect scene ray).mat.kd (C.intersect scene
        ray).mat.kd_txt (C.intersect scene ray).texcoord) ≠ zero3f ∨ (lookup_scaled_texture M
        (C.intersect scene ray).mat.ks (C.intersect scene ray).mat.ks_txt (C.intersect scene
        ray).texcoord) ≠ zero3f) ∧ depth < scene.path_max_depth) :
    pathtrace_body M (withLog C) self scene ray (g, L) depth
      = (self scene (mkRay C (C.intersect scene ray).pos (C.sample_brdf (lookup_scaled_texture M
          (C.intersect scene ray).mat.kd (C.intersect scene ray).mat.kd_txt (C.intersect scene
          ray).texcoord) (lookup_scaled_texture M (C.intersect scene ray).mat.ks (C.intersect scene
          ray).mat.ks_txt (C.intersect scene ray).texcoord) (C.intersect scene ray).mat.n (-ray.d)
          (C.intersect scene ray).norm (C.next_vec2f (hit_direct M C scene ray g depth
          (C.intersect scene ray)).2).1 (C.next_float (C.next_vec2f (hit_direct M C scene ray g
          depth (C.intersect scene ray)).2).2).1).1) ((C.next_float (C.next_vec2f (hit_direct M C
          scene ray g depth (C.intersect scene ray)).2).2).2, L) (depth + 1)).map
          (fun res => ((hit_direct M C scene ray g depth (C.intersect scene ray)).1 + res.1 * (max
              (dot (C.intersect scene ray).norm (C.sample_brdf (lookup_scaled_texture M (C.intersect
              scene ray).mat.kd (C.intersect scene ray).mat.kd_txt (C.intersect scene
              ray).texcoord) (lookup_scaled_texture M (C.intersect scene ray).mat.ks (C.intersect
              scene ray).mat.ks_txt (C.intersect scene ray).texcoord) (C.intersect scene
              ray).mat.n (-ray.d) (C.intersect scene ray).norm (C.next_vec2f (hit_direct M C scene
              ray g depth (C.intersect scene ray)).2).1 (C.next_float (C.next_vec2f (hit_direct M
              C scene ray g depth (C.intersect scene ray)).2).2).1).1) 0 * eval_brdf M
              (lookup_scaled_texture M (C.intersect scene ray).mat.kd (C.intersect scene
              ray).mat.kd_txt (C.intersect scene ray).texcoord) (lookup_scaled_texture M
              (C.intersect scene ray).mat.ks (C.intersect scene ray).mat.ks_txt (C.intersect scene
              ray).texcoord) (C.intersect scene ray).mat.n (-ray.d) (C.sample_brdf
              (lookup_scaled_texture M (C.intersect scene ray).mat.kd (C.intersect scene
              ray).mat.kd_txt (C.intersect scene ray).texcoord) (lookup_scaled_texture M
              (C.intersect scene ray).mat.ks (C.intersect scene ray).mat.ks_txt (C.intersect scene
              ray).texcoord) (C.intersect scene ray).mat.n (-ray.d) (C.intersect scene ray).norm
              (C.next_vec2f (hit_direct M C scene ray g depth (C.intersect scene ray)).2).1
              (C.next_float (C.next_vec2f (hit_direct M C scene ray g depth (C.intersect scene
              ray)).2).2).1).1 (C.intersect scene ray).norm (C.intersect scene ray).mat.microfacet
              / (C.sample_brdf (lookup_scaled_texture M (C.intersect scene ray).mat.kd (C.intersect
              scene ray).mat.kd_txt (C.intersect scene ray).texcoord) (lookup_scaled_texture M
              (C.intersect scene ray).mat.ks (C.intersect scene ray).mat.ks_txt (C.intersect scene
              ray).texcoord) (C.intersect scene ray).mat.n (-ray.d) (C.intersect scene ray).norm
              (C.next_vec2f (hit_direct M C scene ray g depth (C.intersect scene ray)).2).1
              (C.next_float (C.next_vec2f (hit_direct M C scene ray g depth (C.intersect scene
              ray)).2).2).1).2), res.2)) := by
  have h := pathtrace_body_bounce M (withLog C) self scene ray (g, L) depth hhit hk hc
  rw [hit_direct_log] at h
  exact h

/-- The depths `d, d+1, ..., d+m+1`. -/
theorem depths_cons (d : Int) (m : Nat) :
    d :: (List.range (m + 1)).map (fun k : Nat => d + 1 + (k : Int))
      = (List.range (m + 2)).map (fun k : Nat => d + (k : Int)) := by
  rw [List.range_succ_eq_map (m + 1)]
  simp only [List.map_cons, List.map_map, Nat.cast_zero, add_zero, List.cons.injEq, true_and]
  apply List.map_congr_left
  intro k _
  simp only [Function.comp, Nat.cast_succ]
  ring

/-- Without reflective materials, the instrumented run returns what `pathtrace_ray`
returns, and its log is extended by the depths `depth, depth+1, ..., depth+m` of the
activations, one per level, with `m` at most `path_max_depth - depth`. -/
theorem pathtrace_ray_traced_log (M : MathFns K) (C : Collab K R) (scene : Scene K)
    (hkr : ∀ r, (C.intersect scene r).hit = true → (C.intersect scene r).mat.kr = zero3f)
    (fuel : Nat) :
    ∀ (ray : ray3f K) (g : R) (depth : Int),
      (scene.path_max_depth - depth).toNat < fuel →
      ∃ (res : vec3f K) (g2 : R) (m : Nat),
        (∀ L : List Int, pathtrace_ray_traced M C fuel scene ray (g, L) depth
          = some (res, (g2, L ++ (List.range (m + 1)).map (fun k : Nat => depth + (k : Int))))) ∧
        pathtrace_ray M C fuel scene ray g depth = some (res, g2) ∧
        m ≤ (scene.path_max_depth - depth).toNat := by
  induction fuel with
  | zero => intro ray g depth h; omega
  | succ n ih =>
    intro ray g depth h
    show ∃ (res : vec3f K) (g2 : R) (m : Nat),
      (∀ L : List Int, pathtrace_body M (withLog C) (pathtrace_ray_traced M C n) scene ray
          (g, L ++ [depth]) depth
        = some (res, (g2, L ++ (List.range (m + 1)).map (fun k : Nat => depth + (k : Int))))) ∧
      pathtrace_body M C (pathtrace_ray M C n) scene ray g depth = some (res, g2) ∧
      m ≤ (scene.path_max_depth - depth).toNat
    have hone : (List.range (0 + 1)).map (fun k : Nat => depth + (k : Int)) = [depth] := by
      simp [List.range_succ]
    by_cases hhit : (C.intersect scene ray).hit = true
    · have hk := hkr ray hhit
      by_cases hc : ((lookup_scaled_texture M (C.intersect scene ray).mat.kd (C.intersect scene
          ray).mat.kd_txt (C.intersect scene ray).texcoord) ≠ zero3f ∨ (lookup_scaled_texture M
          (C.intersect scene ray).mat.ks (C.intersect scene ray).mat.ks_txt (C.intersect scene
          ray).texcoord) ≠ zero3f) ∧ depth < scene.path_max_depth
      · have hlt : (scene.path_max_depth - (depth + 1)).toNat < n := by
          have := hc.2
          omega
        obtain ⟨res, g2, m, ht, hu, hm⟩ := ih (mkRay C (C.intersect scene ray).pos (C.sample_brdf
            (lookup_scaled_texture M (C.intersect scene ray).mat.kd (C.intersect scene
            ray).mat.kd_txt (C.intersect scene ray).texcoord) (lookup_scaled_texture M (C.intersect
            scene ray).mat.ks (C.intersect scene ray).mat.ks_txt (C.intersect scene ray).texcoord)
            (C.intersect scene ray).mat.n (-ray.d) (C.intersect scene ray).norm (C.next_vec2f
            (hit_direct M C scene ray g depth (C.intersect scene ray)).2).1 (C.next_float
            (C.next_vec2f (hit_direct M C scene ray g depth (C.intersect scene ray)).2).2).1).1)
            (C.next_float (C.next_vec2f (hit_direct M C scene ray g depth (C.intersect scene
            ray)).2).2).2 (depth + 1) hlt
        refine ⟨(hit_direct M C scene ray g depth (C.intersect scene ray)).1 + res * (max (dot
            (C.intersect scene ray).norm (C.sample_brdf (lookup_scaled_texture M (C.intersect scene
            ray).mat.kd (C.intersect scene ray).mat.kd_txt (C.intersect scene ray).texcoord)
            (lookup_scaled_texture M (C.intersect scene ray).mat.ks (C.intersect scene
            ray).mat.ks_txt (C.intersect scene ray).texcoord) (C.intersect scene ray).mat.n
            (-ray.d) (C.intersect scene ray).norm (C.next_vec2f (hit_direct M C scene ray g depth
            (C.intersect scene ray)).2).1 (C.next_float (C.next_vec2f (hit_direct M C scene ray g
            depth (C.intersect scene ray)).2).2).1).1) 0 * eval_brdf M (lookup_scaled_texture M
            (C.intersect scene ray).mat.kd (C.intersect scene ray).mat.kd_txt (C.intersect scene
            ray).texcoord) (lookup_scaled_texture M (C.intersect scene ray).mat.ks (C.intersect
            scene ray).mat.ks_txt (C.intersect scene ray).texcoord) (C.intersect scene ray).mat.n
            (-ray.d) (C.sample_brdf (lookup_scaled_texture M (C.intersect scene ray).mat.kd
            (C.intersect scene ray).mat.kd_txt (C.intersect scene ray).texcoord)
            (lookup_scaled_texture M (C.intersect scene ray).mat.ks (C.intersect scene
            ray).mat.ks_txt (C.intersect scene ray).texcoord) (C.intersect scene ray).mat.n
            (-ray.d) (C.intersect scene ray).norm (C.next_vec2f (hit_direct M C scene ray g depth
            (C.intersect scene ray)).2).1 (C.next_float (C.next_vec2f (hit_direct M C scene ray g
            depth (C.intersect scene ray)).2).2).1).1 (C.intersect scene ray).norm (C.intersect
            scene ray).mat.microfacet / (C.sample_brdf (lookup_scaled_texture M (C.intersect scene
            ray).mat.kd (C.intersect scene ray).mat.kd_txt (C.intersect scene ray).texcoord)
            (lookup_scaled_texture M (C.intersect scene ray).mat.ks (C.intersect scene
            ray).mat.ks_txt (C.intersect scene ray).texcoord) (C.intersect scene ray).mat.n
            (-ray.d) (C.intersect scene ray).norm (C.next_vec2f (hit_direct M C scene ray g depth
            (C.intersect scene ray)).2).1 (C.next_float (C.next_vec2f (hit_direct M C scene ray g
            depth (C.intersect scene ray)).2).2).1).2), g2, m + 1, ?_, ?_, ?_⟩
        · intro L
          rw [pathtrace_body_bounce_log M C _ scene ray g _ depth hhit hk hc, ht,
            List.append_assoc, List.singleton_append, depths_cons]
          rfl
        · rw [pathtrace_body_bounce M C _ scene ray g depth hhit hk hc, hu]
          rfl
        · have := hc.2
          omega
      · refine ⟨(hit_direct M C scene ray g depth (C.intersect scene ray)).1, (hit_direct M C
          scene ray g depth (C.intersect scene ray)).2, 0, ?_, ?_, Nat.zero_le _⟩
        · intro L
          rw [pathtrace_body_leaf_log M C _ scene ray g _ depth hhit hk hc, hone]
        · rw [pathtrace_body_leaf M C _ scene ray g depth hhit hk hc]
    · refine ⟨eval_env M scene.background scene.background_txt ray.d, g, 0, ?_, ?_,
        Nat.zero_le _⟩
      · intro L
        rw [pathtrace_body_miss M (withLog C) _ scene ray _ depth hhit, hone]
      · rw [pathtrace_body_miss M C _ scene ray g depth hhit]

/-- More fuel never changes a result of the instrumented run already obtained. -/
theorem pathtrace_ray_traced_fuel_succ (M : MathFns K) (C : Collab K R) (fuel : Nat) :
    ∀ (scene : Scene K) (ray : ray3f K) (s : R × List Int) (depth : Int)
      (res : vec3f K × (R × List Int)),
      pathtrace_ray_traced M C fuel scene ray s depth = some res →
      pathtrace_ray_traced M C (fuel + 1) scene ray s depth = some res := by
  induction fuel with
  | zero => intro scene ray s depth res h; simp [pathtrace_ray_traced] at h
  | succ k ih =>
    intro scene ray s depth res h
    exact pathtrace_body_mono M (withLog C) _ _ ih scene ray _ depth res h

theorem pathtrace_ray_traced_fuel_mono (M : MathFns K) (C : Collab K R) (fuel k : Nat)
    (scene : Scene K) (ray : ray3f K) (s : R × List Int) (depth : Int)
    (res : vec3f K × (R × List Int))
    (h : pathtrace_ray_traced M C fuel scene ray s depth = some res) :
    pathtrace_ray_traced M C (fuel + k) scene ray s depth = some res := by
  induction k with
  | zero => exact h
  | succ k ih => exact pathtrace_ray_traced_fuel_succ M C (fuel + k) scene ray s depth res ih

/-- C16: the indirect channel is depth-gated.  In a scene in which every material met
has `kr = 0`, a call of `pathtrace_ray` at depth `d` returns (any fuel above
`path_max_depth - d` suffices, and the result does not depend on it); the instrumented
run returns the same result and logs the depths of all activations, which are exactly
`d, d+1, ..., d+m`, one activation per level, with `m ≤ max(0, path_max_depth - d)`
nested recursive calls; hence no activation has a depth above `max(d, path_max_depth)`. -/
theorem C16_indirect_depth_gated (M : MathFns K) (C : Collab K R) (scene : Scene K)
    (hkr : ∀ r, (C.intersect scene r).hit = true → (C.intersect scene r).mat.kr = zero3f)
    (ray : ray3f K) (g : R) (d : Int) :
    ∃ (res : vec3f K) (g2 : R) (m : Nat),
      (m : Int) ≤ max 0 (scene.path_max_depth - d) ∧
      (∀ fuel, (scene.path_max_depth - d).toNat < fuel →
        pathtrace_ray M C fuel scene ray g d = some (res, g2)) ∧
      (∀ fuel (L : List Int), (scene.path_max_depth - d).toNat < fuel →
        pathtrace_ray_traced M C fuel scene ray (g, L) d
          = some (res, (g2, L ++ (List.range (m + 1)).map (fun k : Nat => d + (k : Int))))) ∧
      (∀ e ∈ (List.range (m + 1)).map (fun k : Nat => d + (k : Int)),
        d ≤ e ∧ e ≤ max d scene.path_max_depth) := by
  obtain ⟨res, g2, m, ht, hu, hm⟩ := pathtrace_ray_traced_log M C scene hkr
    ((scene.path_max_depth - d).toNat + 1) ray g d (Nat.lt_succ_self _)
  refine ⟨res, g2, m, ?_, ?_, ?_, ?_⟩
  · omega
  · intro fuel hf
    obtain ⟨k, rfl⟩ := Nat.exists_eq_add_of_le (Nat.succ_le_of_lt hf)
    exact pathtrace_ray_fuel_mono M C _ k scene ray g d _ hu
  · intro fuel L hf
    obtain ⟨k, rfl⟩ := Nat.exists_eq_add_of_le (Nat.succ_le_of_lt hf)
    exact pathtrace_ray_traced_fuel_mono M C _ k scene ray _ d _ (ht L)
  · intro e he
    obtain ⟨k, hk, rfl⟩ := List.mem_map.mp he
    have := List.mem_range.mp hk
    omega

/-- C16 in a closed box of grey diffuse walls without light, depth limit 2, for the
downward ray at depth 0. -/
theorem C16_indirect_depth_gated_witness :
    (∀ r, ((demoCollab greyBoxIsect (fun _ _ => false)).intersect
          (darkScene : Scene ℚ) r).hit = true →
        ((demoCollab greyBoxIsect (fun _ _ => false)).intersect
          (darkScene : Scene ℚ) r).mat.kr = zero3f) ∧
    ∃ (res : vec3f ℚ) (g2 : Nat) (m : Nat),
      (m : Int) ≤ max 0 ((darkScene : Scene ℚ).path_max_depth - 0) ∧
      (∀ fuel, ((darkScene : Scene ℚ).path_max_depth - 0).toNat < fuel →
        pathtrace_ray demoMath (demoCollab greyBoxIsect (fun _ _ => false)) fuel
          darkScene downRay 0 0 = some (res, g2)) ∧
      (∀ fuel (L : List Int), ((darkScene : Scene ℚ).path_max_depth - 0).toNat < fuel →
        pathtrace_ray_traced demoMath (demoCollab greyBoxIsect (fun _ _ => false)) fuel
            darkScene downRay (0, L) 0
          = some (res, (g2, L ++ (List.range (m + 1)).map (fun k : Nat => 0 + (k : Int))))) ∧
      (∀ e ∈ (List.range (m + 1)).map (fun k : Nat => (0 : Int) + (k : Int)),
        0 ≤ e ∧ e ≤ max 0 (darkScene : Scene ℚ).path_max_depth) :=
  ⟨fun _ _ => rfl,
   C16_indirect_depth_gated demoMath (demoCollab greyBoxIsect (fun _ _ => false)) darkScene
    (fun _ _ => rfl) downRay 0 0⟩

/-- In the grey box with depth limit 2 the log of a primary call is `[0, 1, 2]`: the
bound `path_max_depth - d` on the nesting is attained. -/
theorem traced_log_grey_box :
    (pathtrace_ray_traced demoMath (demoCollab greyBoxIsect (fun _ _ => false)) 3
        (darkScene : Scene ℚ) downRay (0, []) 0).map (fun r => r.2.2)
      = some [0, 1, 2] := by
  decide!

end Recursion

/-! ## Claim C14: degenerate denominators are not skipped -/

section Unguarded
variable {K : Type} [LinearOrderedField K] [FloorRing K] {R : Type}

/-- One iteration of the point-light loop keeps an undefined color. -/
theorem shade_point_light_checked_none (M : MathFns K) (C : Collab K R) (scene : Scene K)
    (pos norm v kd ks : vec3f K) (n : K) (mf : Bool) (light : Light K) :
    shade_point_light_checked M C scene pos norm v kd ks n mf none light = none := by
  unfold shade_point_light_checked
  simp only
  split_ifs <;> rfl

/-- The point-light loop keeps an undefined color. -/
theorem foldl_point_checked_none (M : MathFns K) (C : Collab K R) (scene : Scene K)
    (pos norm v kd ks : vec3f K) (n : K) (mf : Bool) (lights : List (Light K)) :
    lights.foldl (shade_point_light_checked M C scene pos norm v kd ks n mf) none = none := by
  induction lights with
  | nil => rfl
  | cons l ls ih => rw [List.foldl_cons, shade_point_light_checked_none, ih]

/-- One iteration of the surface loop keeps an undefined color. -/
theorem shade_area_light_checked_none (M : MathFns K) (C : Collab K R) (scene : Scene K)
    (pos norm v kd ks : vec3f K) (n : K) (mf : Bool) (g : R) (s : Surface K) :
    (shade_area_light_checked M C scene pos norm v kd ks n mf (none, g) s).1 = none := by
  unfold shade_area_light_checked
  simp only
  split_ifs <;> rfl

/-- The surface loop keeps an undefined color. -/
theorem foldl_area_checked_none (M : MathFns K) (C : Collab K R) (scene : Scene K)
    (pos norm v kd ks : vec3f K) (n : K) (mf : Bool) (l : List (Surface K)) :
    ∀ st : Option (vec3f K) × R, st.1 = none →
      (l.foldl (shade_area_light_checked M C scene pos norm v kd ks n mf) st).1 = none := by
  induction l with
  | nil => intro st h; exact h
  | cons s l ih =>
    intro st h
    rw [List.foldl_cons]
    apply ih
    obtain ⟨c, g⟩ := st
    simp only at h
    rw [h]
    exact shade_area_light_checked_none M C scene pos norm v kd ks n mf g s

/-- The environment block keeps an undefined color. -/
theorem shade_environment_checked_none (M : MathFns K) (C : Collab K R) (scene : Scene K)
    (pos norm v kd ks : vec3f K) (n : K) (mf : Bool) (st : Option (vec3f K) × R)
    (h : st.1 = none) :
    (shade_environment_checked M C scene pos norm v kd ks n mf st).1 = none := by
  obtain ⟨c, g⟩ := st
  simp only at h
  rw [h]
  unfold shade_environment_checked
  simp only
  split_ifs <;> rfl

/-- The indirect bounce keeps an undefined color. -/
theorem indirect_bounce_checked_none (M : MathFns K) (C : Collab K R)
    (self : Scene K → ray3f K → R → Int → Option (Option (vec3f K) × R))
    (scene : Scene K) (ray : ray3f K) (depth : Int) (isect : intersection3f K)
    (st st2 : Option (vec3f K) × R) (h : st.1 = none)
    (hr : indirect_bounce_checked M C self scene ray depth isect st = some st2) :
    st2.1 = none := by
  unfold indirect_bounce_checked at hr
  simp only at hr
  split_ifs at hr
  · split at hr
    · simp at hr
    · simp only [Option.some.injEq] at hr
      rw [← hr, h]
      rfl
  · simp only [Option.some.injEq] at hr
    rw [← hr]
    exact h

/-- The mirror reflection keeps an undefined color. -/
theorem reflect_bounce_checked_none (C : Collab K R)
    (self : Scene K → ray3f K → R → Int → Option (Option (vec3f K) × R))
    (scene : Scene K) (ray : ray3f K) (depth : Int) (isect : intersection3f K)
    (st st2 : Option (vec3f K) × R) (h : st.1 = none)
    (hr : reflect_bounce_checked C self scene ray depth isect st = some st2) :
    st2.1 = none := by
  unfold reflect_bounce_checked at hr
  simp only at hr
  split_ifs at hr
  · simp only [Option.some.injEq] at hr
    rw [← hr]
    exact h
  · split at hr
    · simp at hr
    · simp only [Option.some.injEq] at hr
      rw [← hr, h]
      rfl

/-- When the color of the direct stage of a hit is undefined, so is every color the
body returns. -/
theorem pathtrace_body_checked_none (M : MathFns K) (C : Collab K R)
    (self : Scene K → ray3f K → R → Int → Option (Option (vec3f K) × R))
    (scene : Scene K) (ray : ray3f K) (g : R) (depth : Int)
    (hhit : (C.intersect scene ray).hit = true)
    (hd : (hit_direct_checked M C scene ray g depth (C.intersect scene ray)).1 = none)
    (x : Option (vec3f K) × R)
    (hx : pathtrace_body_checked M C self scene ray g depth = some x) : x.1 = none := by
  unfold pathtrace_body_checked at hx
  simp only at hx
  rw [if_neg (not_not.mpr hhit)] at hx
  cases hi : indirect_bounce_checked M C self scene ray depth (C.intersect scene ray)
      (hit_direct_checked M C scene ray g depth (C.intersect scene ray)) with
  | none => rw [hi] at hx; simp at hx
  | some st =>
    rw [hi] at hx
    simp only at hx
    exact reflect_bounce_checked_none C self scene ray depth _ st x
      (indirect_bounce_checked_none M C self scene ray depth _ _ st hd hi) hx

/-- The microfacet model divides by `4 * dot(l,norm) * dot(v,norm)`: the value is
undefined when `dot(l,norm) * dot(v,norm) = 0`. -/
theorem eval_brdf_checked_degenerate (M : MathFns K) (kd ks : vec3f K) (n : K)
    (v l norm : vec3f K) (h : dot l norm * dot v norm = 0) :
    eval_brdf_checked M kd ks n v l norm true = none := by
  have h4 : 4 * dot l norm * dot v norm = 0 := by
    rw [mul_assoc, h, mul_zero]
  unfold eval_brdf_checked
  simp only [not_true_eq_false, if_false]
  cases normalize_checked M (v + l) with
  | none => rfl
  | some hh =>
    simp only [Option.some_bind]
    cases checked_div (n + 2) (2 * M.pi) with
    | none => rfl
    | some q =>
      simp only [Option.some_bind]
      cases checked_div (2 * dot hh norm * dot v norm) (dot v hh) with
      | none => rfl
      | some g1 =>
        simp only [Option.some_bind]
        cases checked_div (2 * dot hh norm * dot l norm) (dot l hh) with
        | none => rfl
        | some g2 =>
          simp only [Option.some_bind]
          rw [h4]
          simp [checked_divs]

/-- The term of a point light is undefined when the light is at the shaded point, and
when the microfacet denominator `dot(l,norm) * dot(v,norm)` is zero. -/
theorem point_light_shade_checked_degenerate (M : MathFns K) (pos norm v kd ks : vec3f K)
    (n : K) (mf : Bool) (light : Light K)
    (h : lengthSqr (light.frame.o - pos) = 0 ∨
      (mf = true ∧ dot (normalize M (light.frame.o - pos)) norm * dot v norm = 0)) :
    point_light_shade_checked M pos norm v kd ks n mf light = none := by
  unfold point_light_shade_checked
  rcases h with h | ⟨hmf, h⟩
  · simp [checked_divs, h]
  · cases checked_divs light.intensity (lengthSqr (light.frame.o - pos)) with
    | none => rfl
    | some cl =>
      simp only [Option.some_bind]
      cases hl : normalize_checked M (light.frame.o - pos) with
      | none => rfl
      | some l =>
        simp only [Option.some_bind]
        have e := (normalize_checked_some M _ l hl).2
        rw [hmf, e, eval_brdf_checked_degenerate M kd ks n v _ norm h]
        rfl

/-- An undefined term of an unoccluded point light makes the accumulated color
undefined: the only tests of the loop are `shade == zero3f` and the shadow test. -/
theorem shade_point_light_checked_undefined (M : MathFns K) (C : Collab K R)
    (scene : Scene K) (pos norm v kd ks : vec3f K) (n : K) (mf : Bool)
    (c : Option (vec3f K)) (light : Light K)
    (hs : point_light_shade_checked M pos norm v kd ks n mf light = none)
    (hvis : scene.path_shadows = true →
      C.intersect_shadow scene (C.make_segment pos light.frame.o) = false) :
    shade_point_light_checked M C scene pos norm v kd ks n mf c light = none := by
  unfold shade_point_light_checked
  simp only
  rw [hs, if_neg (by simp)]
  split_ifs with h1 h2
  · rw [hvis h1] at h2
    simp at h2
  · exact add_checked_none_right c
  · exact add_checked_none_right c

/-- The point-light loop returns an undefined color when the term of one of the lights
is undefined and that light is not occluded. -/
theorem foldl_point_checked_undefined (M : MathFns K) (C : Collab K R) (scene : Scene K)
    (pos norm v kd ks : vec3f K) (n : K) (mf : Bool) (light : Light K)
    (hs : point_light_shade_checked M pos norm v kd ks n mf light = none)
    (hvis : scene.path_shadows = true →
      C.intersect_shadow scene (C.make_segment pos light.frame.o) = false)
    (lights : List (Light K)) (hmem : light ∈ lights) :
    ∀ c, lights.foldl (shade_point_light_checked M C scene pos norm v kd ks n mf) c
      = none := by
  induction lights with
  | nil => exact absurd hmem (List.not_mem_nil _)
  | cons l ls ih =>
    intro c
    rw [List.foldl_cons]
    rcases List.mem_cons.mp hmem with e | hm
    · rw [← e, shade_point_light_checked_undefined M C scene pos norm v kd ks n mf c light hs
        hvis]
      exact foldl_point_checked_none M C scene pos norm v kd ks n mf ls
    · exact ih hm _

/-- The direct stage of a hit is undefined when the term of an unoccluded point light
is. -/
theorem hit_direct_checked_undefined (M : MathFns K) (C : Collab K R) (scene : Scene K)
    (ray : ray3f K) (g : R) (depth : Int) (isect : intersection3f K) (light : Light K)
    (hmem : light ∈ scene.lights)
    (hs : point_light_shade_checked M isect.pos isect.norm (-ray.d)
      (lookup_scaled_texture M isect.mat.kd isect.mat.kd_txt isect.texcoord)
      (lookup_scaled_texture M isect.mat.ks isect.mat.ks_txt isect.texcoord)
      isect.mat.n isect.mat.microfacet light = none)
    (hvis : scene.path_shadows = true →
      C.intersect_shadow scene (C.make_segment isect.pos light.frame.o) = false) :
    (hit_direct_checked M C scene ray g depth isect).1 = none := by
  unfold hit_direct_checked
  simp only
  apply shade_environment_checked_none
  apply foldl_area_checked_none
  exact foldl_point_checked_undefined M C scene _ _ _ _ _ _ _ light hs hvis scene.lights
    hmem _

/-- An indirect sample of pdf 0 makes the color undefined: the weight `brdfcos / pdf` is
computed, and its product with the traced color is accumulated. -/
theorem indirect_bounce_checked_zero_pdf (M : MathFns K) (C : Collab K R)
    (self : Scene K → ray3f K → R → Int → Option (Option (vec3f K) × R))
    (scene : Scene K) (ray : ray3f K) (depth : Int) (isect : intersection3f K)
    (st st2 : Option (vec3f K) × R)
    (hc : (lookup_scaled_texture M isect.mat.kd isect.mat.kd_txt isect.texcoord ≠ zero3f ∨
        lookup_scaled_texture M isect.mat.ks isect.mat.ks_txt isect.texcoord ≠ zero3f) ∧
      depth < scene.path_max_depth)
    (hpdf : (C.sample_brdf
        (lookup_scaled_texture M isect.mat.kd isect.mat.kd_txt isect.texcoord)
        (lookup_scaled_texture M isect.mat.ks isect.mat.ks_txt isect.texcoord)
        isect.mat.n (-ray.d) isect.norm (C.next_vec2f st.2).1
        (C.next_float (C.next_vec2f st.2).2).1).2 = 0)
    (hr : indirect_bounce_checked M C self scene ray depth isect st = some st2) :
    st2.1 = none := by
  unfold indirect_bounce_checked at hr
  simp only at hr
  rw [if_pos hc, hpdf] at hr
  have hw : ∀ b : Option (vec3f K), (b.bind fun bc => checked_divs bc (0 : K)) = none := by
    intro b
    cases b <;> simp [checked_divs]
  rw [hw] at hr
  split at hr
  · simp at hr
  · next res _ =>
    simp only [Option.some.injEq] at hr
    rw [← hr]
    have : (res.1.bind fun l => (none : Option (vec3f K)).map fun w => l * w) = none := by
      cases res.1 <;> rfl
    simp only [this]
    exact add_checked_none_right _

/-- An emitter sampled at the shaded point, unoccluded, makes the accumulated color
undefined. -/
theorem shade_area_light_checked_undefined (M : MathFns K) (C : Collab K R)
    (scene : Scene K) (pos norm v kd ks : vec3f K) (n : K) (mf : Bool)
    (st : Option (vec3f K) × R) (s : Surface K) (hke : s.mat.ke ≠ zero3f)
    (hz : distSqr pos (area_light_sample_checked M C st.2 s).1.2.1 = 0)
    (hvis : scene.path_shadows = true → C.intersect_shadow scene
      (C.make_segment pos (area_light_sample_checked M C st.2 s).1.2.1) = false) :
    (shade_area_light_checked M C scene pos norm v kd ks n mf st s).1 = none := by
  have hs : area_light_shade_checked M pos norm v kd ks n mf s
      (area_light_sample_checked M C st.2 s).1 = none := by
    unfold area_light_shade_checked
    simp only
    cases (area_light_sample_checked M C st.2 s).1.2.2.1 with
    | none => rfl
    | some an =>
      simp only [Option.some_bind]
      cases normalize_checked M ((area_light_sample_checked M C st.2 s).1.2.1 - pos) with
      | none => rfl
      | some l =>
        simp only [Option.some_bind]
        rw [hz]
        simp [checked_divs]
  unfold shade_area_light_checked
  simp only
  rw [if_pos hke, hs, if_neg (by simp)]
  split_ifs with h1 h2
  · rw [hvis h1] at h2
    simp at h2
  · exact add_checked_none_right st.1
  · exact add_checked_none_right st.1

/-- An environment sample of pdf 0 whose `brdfcos` is not `zero3f`, unoccluded, makes the
accumulated color undefined. -/
theorem shade_environment_checked_undefined (M : MathFns K) (C : Collab K R)
    (scene : Scene K) (pos norm v kd ks : vec3f K) (n : K) (mf : Bool)
    (st : Option (vec3f K) × R) (hbg : scene.background ≠ zero3f)
    (hpdf : (C.sample_brdf kd ks n v norm (C.next_vec2f st.2).1
      (C.next_float (C.next_vec2f st.2).2).1).2 = 0)
    (hb : (environment_sample_checked M C scene norm v kd ks n mf st.2).1.2.1
      ≠ some zero3f)
    (hvis : scene.path_shadows = true → (C.intersect scene (mkRay C pos
      (environment_sample_checked M C scene norm v kd ks n mf st.2).1.1)).hit = false) :
    (shade_environment_checked M C scene pos norm v kd ks n mf st).1 = none := by
  have hresp : (environment_sample_checked M C scene norm v kd ks n mf st.2).1.2.2
      = none := by
    unfold environment_sample_checked
    simp only
    rw [hpdf]
    cases (eval_brdf_checked M kd ks n v (C.sample_brdf kd ks n v norm (C.next_vec2f st.2).1
      (C.next_float (C.next_vec2f st.2).2).1).1 norm mf) with
    | none => rfl
    | some b =>
      simp only [Option.map_some', Option.some_bind]
      cases eval_env_checked M scene.background scene.background_txt
        (C.sample_brdf kd ks n v norm (C.next_vec2f st.2).1
          (C.next_float (C.next_vec2f st.2).2).1).1 with
      | none => rfl
      | some e => simp [checked_divs]
  unfold shade_environment_checked
  simp only
  rw [if_pos hbg, if_pos hb, hresp]
  split_ifs with h1 h2
  · rw [hvis h1] at h2
    simp at h2
  · exact add_checked_none_right st.1
  · exact add_checked_none_right st.1

/-- C14 (as stated) fails: no degenerate denominator is skipped.  On the grey floor
with the point light at the hit point of the downward ray (squared distance 0), on the
lit grey floor with an indirect sample of pdf 0, and on the glossy microfacet floor lit
at grazing incidence (`dot(light, normal) * dot(view, normal) = 0`), the call returns,
and the color it returns is undefined: the quotient by zero has been computed and
accumulated. -/
theorem C14_counterexample_unguarded :
    (lengthSqr (((touchScene : Scene ℚ).lights.map (fun l => l.frame.o)).headD zero3f
        - ((demoCollab (planeIsect greyMaterial) (fun _ _ => false)).intersect
          (touchScene : Scene ℚ) downRay).pos) = 0 ∧
      color_undefined (pathtrace_ray_checked demoMath
        (demoCollab (planeIsect greyMaterial) (fun _ _ => false)) 1
        (touchScene : Scene ℚ) downRay 0 0) = true) ∧
    ((∀ kd ks n v norm ruv rl,
        ((zeroPdfCollab (planeIsect (greyMaterial : Material ℚ)) (fun _ _ => false)).sample_brdf
          kd ks n v norm ruv rl).2 = 0) ∧
      color_undefined (pathtrace_ray_checked demoMath
        (zeroPdfCollab (planeIsect greyMaterial) (fun _ _ => false)) 2
        { (litScene : Scene ℚ) with path_max_depth := 1 } downRay 0 0) = true) ∧
    (((demoCollab (planeIsect glossyMaterial) (fun _ _ => false)).intersect
          (grazeScene : Scene ℚ) downRay).mat.microfacet = true ∧
      dot (normalize demoMath
            (((grazeScene : Scene ℚ).lights.map (fun l => l.frame.o)).headD zero3f
              - ((demoCollab (planeIsect glossyMaterial) (fun _ _ => false)).intersect
                (grazeScene : Scene ℚ) downRay).pos))
          ((demoCollab (planeIsect glossyMaterial) (fun _ _ => false)).intersect
            (grazeScene : Scene ℚ) downRay).norm
        * dot (-(downRay : ray3f ℚ).d)
          ((demoCollab (planeIsect glossyMaterial) (fun _ _ => false)).intersect
            (grazeScene : Scene ℚ) downRay).norm = 0 ∧
      color_undefined (pathtrace_ray_checked demoMath
        (demoCollab (planeIsect glossyMaterial) (fun _ _ => false)) 1
        (grazeScene : Scene ℚ) downRay 0 0) = true) := by
  refine ⟨⟨by decide!, by decide!⟩, ⟨fun _ _ _ _ _ _ _ => rfl, by decide!⟩,
    ⟨by decide!, by decide!, by decide!⟩⟩

/-- C14 (amended): in `pathtrace_ray` a light/BRDF product with a degenerate denominator
is not skipped; the quotient is computed before any test, and the only tests, the
comparison of the term with `zero3f` and the shadow test, do not look at the
denominator.  For every hit: an unoccluded point light whose squared distance to the hit
point is 0, and one for which the microfacet denominator
`dot(light, normal) * dot(view, normal)` is 0, make the returned color undefined; so does
an indirect sample whose pdf is 0; an emitter sampled at the shaded point and an
environment sample of pdf 0 make the color accumulated by their stage undefined; the
microfacet `eval_brdf` is undefined when `dot(l, norm) * dot(v, norm) = 0`; an undefined
color of the direct stage is never removed; and without reflective materials the call
returns as soon as the fuel exceeds `path_max_depth - depth`. -/
theorem C14_degenerate_not_skipped (M : MathFns K) (C : Collab K R) (scene : Scene K) :
    (∀ (ray : ray3f K) (rng : R) (depth : Int) (fuel : Nat) (light : Light K),
      (C.intersect scene ray).hit = true → light ∈ scene.lights →
      (lengthSqr (light.frame.o - (C.intersect scene ray).pos) = 0 ∨
        ((C.intersect scene ray).mat.microfacet = true ∧
          dot (normalize M (light.frame.o - (C.intersect scene ray).pos))
              (C.intersect scene ray).norm
            * dot (-ray.d) (C.intersect scene ray).norm = 0)) →
      (scene.path_shadows = true → C.intersect_shadow scene
        (C.make_segment (C.intersect scene ray).pos light.frame.o) = false) →
      ∀ x, pathtrace_ray_checked M C fuel scene ray rng depth = some x → x.1 = none) ∧
    (∀ (pos norm v kd ks : vec3f K) (n : K) (mf : Bool) (st : Option (vec3f K) × R)
        (s : Surface K),
      s.mat.ke ≠ zero3f →
      distSqr pos (area_light_sample_checked M C st.2 s).1.2.1 = 0 →
      (scene.path_shadows = true → C.intersect_shadow scene
        (C.make_segment pos (area_light_sample_checked M C st.2 s).1.2.1) = false) →
      (shade_area_light_checked M C scene pos norm v kd ks n mf st s).1 = none) ∧
    (∀ (pos norm v kd ks : vec3f K) (n : K) (mf : Bool) (st : Option (vec3f K) × R),
      scene.background ≠ zero3f →
      (C.sample_brdf kd ks n v norm (C.next_vec2f st.2).1
        (C.next_float (C.next_vec2f st.2).2).1).2 = 0 →
      (environment_sample_checked M C scene norm v kd ks n mf st.2).1.2.1
        ≠ some zero3f →
      (scene.path_shadows = true → (C.intersect scene (mkRay C pos
        (environment_sample_checked M C scene norm v kd ks n mf st.2).1.1)).hit = false) →
      (shade_environment_checked M C scene pos norm v kd ks n mf st).1 = none) ∧
    (∀ (ray : ray3f K) (rng : R) (depth : Int) (fuel : Nat),
      (C.intersect scene ray).hit = true →
      ((lookup_scaled_texture M (C.intersect scene ray).mat.kd
            (C.intersect scene ray).mat.kd_txt (C.intersect scene ray).texcoord ≠ zero3f ∨
          lookup_scaled_texture M (C.intersect scene ray).mat.ks
            (C.intersect scene ray).mat.ks_txt (C.intersect scene ray).texcoord ≠ zero3f) ∧
        depth < scene.path_max_depth) →
      (C.sample_brdf
        (lookup_scaled_texture M (C.intersect scene ray).mat.kd
          (C.intersect scene ray).mat.kd_txt (C.intersect scene ray).texcoord)
        (lookup_scaled_texture M (C.intersect scene ray).mat.ks
          (C.intersect scene ray).mat.ks_txt (C.intersect scene ray).texcoord)
        (C.intersect scene ray).mat.n (-ray.d) (C.intersect scene ray).norm
        (C.next_vec2f (hit_direct_checked M C scene ray rng depth
          (C.intersect scene ray)).2).1
        (C.next_float (C.next_vec2f (hit_direct_checked M C scene ray rng depth
          (C.intersect scene ray)).2).2).1).2 = 0 →
      ∀ x, pathtrace_ray_checked M C fuel scene ray rng depth = some x → x.1 = none) ∧
    (∀ (kd ks : vec3f K) (n : K) (v l norm : vec3f K),
      dot l norm * dot v norm = 0 → eval_brdf_checked M kd ks n v l norm true = none) ∧
    (∀ (ray : ray3f K) (rng : R) (depth : Int) (fuel : Nat),
      (C.intersect scene ray).hit = true →
      (hit_direct_checked M C scene ray rng depth (C.intersect scene ray)).1 = none →
      ∀ x, pathtrace_ray_checked M C fuel scene ray rng depth = some x → x.1 = none) ∧
    ((∀ r, (C.intersect scene r).hit = true → (C.intersect scene r).mat.kr = zero3f) →
      ∀ (ray : ray3f K) (rng : R) (depth : Int) (fuel : Nat),
        (scene.path_max_depth - depth).toNat < fuel →
        ∃ x, pathtrace_ray_checked M C fuel scene ray rng depth = some x) := by
  have hprop : ∀ (ray : ray3f K) (rng : R) (depth : Int) (fuel : Nat),
      (C.intersect scene ray).hit = true →
      (hit_direct_checked M C scene ray rng depth (C.intersect scene ray)).1 = none →
      ∀ x, pathtrace_ray_checked M C fuel scene ray rng depth = some x → x.1 = none := by
    intro ray rng depth fuel hhit hd x hx
    cases fuel with
    | zero => simp [pathtrace_ray_checked] at hx
    | succ k =>
      exact pathtrace_body_checked_none M C (pathtrace_ray_checked M C k) scene ray rng depth
        hhit hd x hx
  refine ⟨?_, ?_, ?_, ?_, ?_, hprop, ?_⟩
  · intro ray rng depth fuel light hhit hmem hdeg hvis
    exact hprop ray rng depth fuel hhit
      (hit_direct_checked_undefined M C scene ray rng depth _ light hmem
        (point_light_shade_checked_degenerate M _ _ _ _ _ _ _ light hdeg) hvis)
  · intro pos norm v kd ks n mf st s hke hz hvis
    exact shade_area_light_checked_undefined M C scene pos norm v kd ks n mf st s hke hz hvis
  · intro pos norm v kd ks n mf st hbg hpdf hb hvis
    exact shade_environment_checked_undefined M C scene pos norm v kd ks n mf st hbg hpdf hb
      hvis
  · intro ray rng depth fuel hhit hc hpdf x hx
    cases fuel with
    | zero => simp [pathtrace_ray_checked] at hx
    | succ k =>
      change pathtrace_body_checked M C (pathtrace_ray_checked M C k) scene ray rng depth
        = some x at hx
      unfold pathtrace_body_checked at hx
      simp only at hx
      rw [if_neg (not_not.mpr hhit)] at hx
      cases hi : indirect_bounce_checked M C (pathtrace_ray_checked M C k) scene ray depth
          (C.intersect scene ray)
          (hit_direct_checked M C scene ray rng depth (C.intersect scene ray)) with
      | none => rw [hi] at hx; simp at hx
      | some st =>
        rw [hi] at hx
        simp only at hx
        exact reflect_bounce_checked_none C _ scene ray depth _ st x
          (indirect_bounce_checked_zero_pdf M C _ scene ray depth _ _ st hc hpdf hi) hx
  · intro kd ks n v l norm h
    exact eval_brdf_checked_degenerate M kd ks n v l norm h
  · intro hkr ray rng depth fuel hfuel
    obtain ⟨res, hres⟩ := pathtrace_ray_returns M C scene hkr fuel ray rng depth hfuel
    obtain ⟨oc, hoc, _⟩ := pathtrace_ray_checked_returns M C fuel scene ray rng depth res hres
    exact ⟨_, hoc⟩

/-- C14 (amended) on the grey floor with the point light at the hit point of the
downward ray: the call returns, and its color is undefined. -/
theorem C14_degenerate_not_skipped_witness :
    (∀ x, pathtrace_ray_checked demoMath
        (demoCollab (planeIsect greyMaterial) (fun _ _ => false)) 1
        (touchScene : Scene ℚ) downRay 0 0 = some x → x.1 = none) ∧
    ∃ x, pathtrace_ray_checked demoMath
      (demoCollab (planeIsect greyMaterial) (fun _ _ => false)) 1
      (touchScene : Scene ℚ) downRay 0 0 = some x :=
  ⟨(C14_degenerate_not_skipped demoMath
      (demoCollab (planeIsect greyMaterial) (fun _ _ => false)) (touchScene : Scene ℚ)).1
      downRay 0 0 1 ⟨axisFrame ⟨0, 0, -1⟩, ⟨10, 10, 10⟩⟩
      (by simp [demoCollab, planeIsect_downRay])
      (List.mem_singleton.mpr rfl)
      (Or.inl (by
        simp only [demoCollab, planeIsect_downRay]
        simp [axisFrame, lengthSqr, dot]))
      (fun _ => rfl),
   (C14_degenerate_not_skipped demoMath
      (demoCollab (planeIsect greyMaterial) (fun _ _ => false))
      (touchScene : Scene ℚ)).2.2.2.2.2.2
      (fun r _ => (planeIsect_grey touchScene r).2) downRay 0 0 1 (by decide)⟩

end Unguarded

end Pathtrace
